import Mathlib

/-!
# QgsWmsProvider: request planning and tile fetching

A shallow embedding of `src/providers/wms/qgswmsprovider.cpp`.

Conventions of the embedding:

* C++ `double` values are rationals (`ℚ`) and C++ `int` values are integers (`Int`).
  Where draw compares two computed differences (the selection of the tile matrix, line
  794), casts the floor of a computed quotient to `int` (the covering range, lines
  867-870) and multiplies two `int` (the tile number, line 873), the rounding of the double
  operations, the range of `int` and the wrap-around of `int` arithmetic are part of the
  model (`roundDouble`, `floorQuotientToInt`, `wrapInt`); elsewhere double operations are
  exact and `int` values are not bounded.
* `QString` is `String`; `QStringList`, `QList`, `QHash` and `QMap` are lists (a `QMap` is
  kept in ascending key order, as its iterators deliver it).
* Objects the provider only talks to (the network access manager, the message log, the
  painter, the CRS database, the settings store, the build configuration) are gathered in
  the record `Env`; what the provider hands to them is appended to explicit logs in the
  provider state (`sent`, `messageLog`, ...).
-/

namespace QgsWms

/-! ## Strings -/

abbrev QString := String

/-- Case-sensitive `QString::contains( sub )`. -/
def qContains (s sub : QString) : Bool :=
  s.data.tails.any (fun t => sub.data.isPrefixOf t)

/-- Case-insensitive `QString::contains( sub, Qt::CaseInsensitive )`. -/
def qContainsCI (s sub : QString) : Bool :=
  qContains s.toLower sub.toLower

/-- Case-insensitive `QString::startsWith( p, Qt::CaseInsensitive )`. -/
def qStartsWithCI (s p : QString) : Bool :=
  p.toLower.data.isPrefixOf s.toLower.data

/-- The last character as a string: `QString::right( 1 )`. -/
def qRight1 (s : QString) : QString :=
  match s.data.getLast? with
  | some c => String.singleton c
  | none => ""

/-- The decimal text of an `int`: `QString::number( n )`. -/
def qNumber (n : Int) : QString :=
  if n < 0 then "-" ++ toString n.natAbs else toString n.natAbs

/-- The text `sep`-joined: `QStringList::join( sep )`. -/
def qJoin (sep : QString) (l : List QString) : QString :=
  sep.intercalate l

/-- Drops the zeros at the end of a digit list. -/
def dropTrailingZeros (l : List Char) : List Char :=
  (l.reverse.dropWhile (fun c => c == '0')).reverse

/-- Modelled from the spec: qgsDoubleToString (declared in qgis.h, which is not part of the
sources at hand). The spec asks for "a stringification that avoids scientific notation
(fixed-point with sufficient precision to round-trip double)": the value is written in
fixed-point with 17 decimals and the zeros at the end (and a bare decimal point) are
dropped. -/
def qgsDoubleToString (a : ℚ) : QString :=
  let n : Int := Int.floor (a * 10 ^ 17 + 1 / 2)
  let m : Nat := n.natAbs
  let sign : QString := if n < 0 then "-" else ""
  let ip : Nat := m / 10 ^ 17
  let fp : Nat := m % 10 ^ 17
  let digits : List Char := (toString fp).data
  let frac : List Char := dropTrailingZeros (List.replicate (17 - digits.length) '0' ++ digits)
  if fp = 0 then sign ++ toString ip else sign ++ toString ip ++ "." ++ String.mk frac

/-! ## Geometry -/

/-- The class QgsRectangle: a map-space rectangle given by its corners. -/
structure QgsRectangle where
  xmin : ℚ
  ymin : ℚ
  xmax : ℚ
  ymax : ℚ
deriving DecidableEq

def QgsRectangle.width (r : QgsRectangle) : ℚ := r.xmax - r.xmin

def QgsRectangle.height (r : QgsRectangle) : ℚ := r.ymax - r.ymin

/-- The class QRectF: `( x, y, width, height )`. -/
structure QRectF where
  x : ℚ
  y : ℚ
  w : ℚ
  h : ℚ
deriving DecidableEq

def QRectF.left (r : QRectF) : ℚ := r.x

def QRectF.top (r : QRectF) : ℚ := r.y

def QRectF.right (r : QRectF) : ℚ := r.x + r.w

def QRectF.bottom (r : QRectF) : ℚ := r.y + r.h

def QRectF.width (r : QRectF) : ℚ := r.w

def QRectF.height (r : QRectF) : ℚ := r.h

/-- The template `qBound( min, val, max )` of QtGlobal: `qMax( min, qMin( max, val ) )`. -/
def qBound (lo val hi : Int) : Int := max lo (min hi val)

/-! ## Double and `int` arithmetic -/

/-- The binary logarithm of a natural number, rounded down, in at most `fuel` halvings. -/
def log2Fuel : Nat → Nat → Nat
  | 0, _ => 0
  | fuel + 1, n => if 2 ≤ n then log2Fuel fuel (n / 2) + 1 else 0

/-- The binary logarithm of a natural number, rounded down (0 for 0). -/
def natLog2 (n : Nat) : Nat := log2Fuel n n

/-- The binary exponent of a positive rational: the integer `e` with
`2 ^ e ≤ q < 2 ^ ( e + 1 )`. -/
def floorLog2 (q : ℚ) : Int :=
  let k : Int := (natLog2 q.num.natAbs : Int) - (natLog2 q.den : Int)
  if (2 : ℚ) ^ k ≤ q then k else k - 1

/-- Rounding to the nearest integer, a tie to the even one. -/
def roundHalfEven (x : ℚ) : Int :=
  let f := Int.floor x
  if x - f < 1 / 2 then f
  else if 1 / 2 < x - f then f + 1
  else if f % 2 = 0 then f else f + 1

/-- The double that a double operation delivers when its result on the operands is `q` in
exact arithmetic (IEEE 754 binary64, round to nearest, ties to even): 53 significant bits,
the least exponent -1022 (below it the spacing stays `2 ^ -1074`), and `2 ^ 1024` standing
for infinity, which a result of magnitude `2 ^ 1024 - 2 ^ 970` or more is rounded to. -/
def roundDouble (q : ℚ) : ℚ :=
  let a : ℚ := |q|
  let u : ℚ := 2 ^ (max (floorLog2 a) (-1022) - 52)
  let r : ℚ := min (roundHalfEven (a / u) * u) ((2 : ℚ) ^ (1024 : Int))
  if q < 0 then -r else r

/-- The least value of a 32-bit `int`: `INT_MIN`. -/
def intMin : Int := -2 ^ 31

/-- The value of a 32-bit `int` that the exact result `n` of an `int` operation wraps to
(two's complement). -/
def wrapInt (n : Int) : Int := (n + 2 ^ 31) % 2 ^ 32 - 2 ^ 31

/-- The double `d / den` for a double `d` and a divisor that is not zero; `2 ^ 1024` and
its negative stand for the two infinities, which a division keeps. -/
def doubleDiv (d den : ℚ) : ℚ :=
  if |d| = (2 : ℚ) ^ (1024 : Int) then (if 0 < den then d else -d)
  else roundDouble (d / den)

/-- The double `floor( ( a - b ) / den )` of lines 867-870 as an integer, for a divisor that
is not zero: the difference and the quotient are rounded, the floor of a double is exact.
An infinite quotient gives `2 ^ 1024` or its negative. -/
def floorQuotient (a b den : ℚ) : Int :=
  Int.floor (doubleDiv (roundDouble (a - b)) den)

/-- The cast `( int ) floor( ( a - b ) / den )` of lines 867-870: the floor where that is a
value of `int`, and `INT_MIN` otherwise, that is for a floor beyond the range of `int` and
for the infinite or undefined quotient of a division by zero. (The C++ standard leaves the
result of such a cast open; `INT_MIN` is what the conversion instruction of x86
delivers.) -/
def floorQuotientToInt (a b den : ℚ) : Int :=
  if den = 0 then intMin
  else
    let f := floorQuotient a b den
    if intMin ≤ f ∧ f < 2 ^ 31 then f else intMin

/-! ## Tile matrices -/

/-- The enum QgsTileMode; `other` stands for a value outside the enumerators, which the
`default` branch of the `switch` in draw catches. -/
inductive QgsTileMode where
  | WMTS
  | WMSC
  | other
deriving DecidableEq

/-- The struct QgsWmtsTileMatrix (the fields draw and the capabilities parser use; title,
abstract and keywords are left out). -/
structure QgsWmtsTileMatrix where
  identifier : QString
  scaleDenom : ℚ
  topLeftX : ℚ
  topLeftY : ℚ
  tileWidth : Int
  tileHeight : Int
  matrixWidth : Int
  matrixHeight : Int
deriving DecidableEq

/-- The struct QgsWmtsTileMatrixLimits. -/
structure QgsWmtsTileMatrixLimits where
  minTileRow : Int
  maxTileRow : Int
  minTileCol : Int
  maxTileCol : Int
deriving DecidableEq

/-- The struct QgsWmtsTileMatrixSet: `tileMatrices` is the `QMap<double, QgsWmtsTileMatrix>`
keyed by resolution, listed in ascending key order. -/
structure QgsWmtsTileMatrixSet where
  identifier : QString
  crs : QString
  tileMatrices : List (ℚ × QgsWmtsTileMatrix)
deriving DecidableEq

/-- The struct QgsWmtsTileMatrixSetLink: `limits` is the `QHash` from matrix identifier to
limits. -/
structure QgsWmtsTileMatrixSetLink where
  tileMatrixSet : QString
  limits : List (QString × QgsWmtsTileMatrixLimits)
deriving DecidableEq

/-- The struct QgsWmsBoundingBoxProperty: a rectangle and the CRS it is given in. -/
structure QgsWmsBoundingBoxProperty where
  crs : QString
  box : QgsRectangle
deriving DecidableEq

/-- The struct QgsWmtsTileLayer (the fields draw and the bounding box detection use; title,
abstract, keywords, styles, formats and dimensions are left out): `setLinks` is the `QHash`
keyed by matrix set identifier, `getTileURLs` the one keyed by format. -/
structure QgsWmtsTileLayer where
  tileMode : QgsTileMode
  identifier : QString
  boundingBox : QgsWmsBoundingBoxProperty
  setLinks : List (QString × QgsWmtsTileMatrixSetLink)
  getTileURLs : List (QString × QString)
deriving DecidableEq

/-- The `while` loop of "find nearest resolution" in draw: `it` advances while
`it.key() < vres` and `prev` follows one step behind. The result is `prev` (none while it
was never assigned) and the entries from `it` on (empty when `it == m.constEnd()`). -/
def scanResolutions (vres : ℚ) :
    List (ℚ × QgsWmtsTileMatrix) → Option (ℚ × QgsWmtsTileMatrix) →
      Option (ℚ × QgsWmtsTileMatrix) × List (ℚ × QgsWmtsTileMatrix)
  | [], prev => (prev, [])
  | e :: rest, prev =>
    if e.1 < vres then scanResolutions vres rest (some e) else (prev, e :: rest)

/-- The matrix selection of draw (lines 784-801): after the scan, `it = prev` when
`it == m.constEnd()`, or when `it != m.constBegin()` and
`vres - prev.key() < it.key() - vres`, a comparison of the two differences as the double
subtraction delivers them. The result is `( tres, tm )`; none stands for the read of the
unassigned `prev` on an empty map (excluded by the Q_ASSERT). -/
def selectTileMatrix (m : List (ℚ × QgsWmtsTileMatrix)) (vres : ℚ) :
    Option (ℚ × QgsWmtsTileMatrix) :=
  match scanResolutions vres m none with
  | (prev, []) => prev
  | (some p, e :: _) =>
    if roundDouble (vres - p.1) < roundDouble (e.1 - vres) then some p else some e
  | (none, e :: _) => some e

/-- The covering range `( col0, row0, col1, row1 )` of draw (lines 867-870). -/
structure TileRange where
  col0 : Int
  row0 : Int
  col1 : Int
  row1 : Int
deriving DecidableEq

/-- The limits `( minTileCol, maxTileCol, minTileRow, maxTileRow )` draw starts from: the
whole matrix (lines 845-848). -/
def matrixLimits (tm : QgsWmtsTileMatrix) : QgsWmtsTileMatrixLimits :=
  { minTileRow := 0, maxTileRow := tm.matrixHeight - 1,
    minTileCol := 0, maxTileCol := tm.matrixWidth - 1 }

/-- The limits draw uses (lines 845-865): the TileMatrixLimits the tile layer publishes for
this matrix in its link to the matrix set, the whole matrix otherwise. Without a tile layer
(the maxWidth/maxHeight fallback) the test stops at `mTileLayer`. -/
def tileLimits (tileLayer : Option QgsWmtsTileLayer) (tileMatrixSet : Option QgsWmtsTileMatrixSet)
    (tm : QgsWmtsTileMatrix) : QgsWmtsTileMatrixLimits :=
  match tileLayer, tileMatrixSet with
  | some tl, some tms =>
    match tl.setLinks.lookup tms.identifier with
    | none => matrixLimits tm
    | some link =>
      match link.limits.lookup tm.identifier with
      | none => matrixLimits tm
      | some tml => tml
  | _, _ => matrixLimits tm

/-- The four `qBound` lines of draw (lines 867-870): each bounds the `int` that
`floor( ... / twMap )` or `floor( ... / thMap )` is cast to. -/
def coveringRange (viewExtent : QgsRectangle) (tm : QgsWmtsTileMatrix) (twMap thMap : ℚ)
    (lim : QgsWmtsTileMatrixLimits) : TileRange :=
  { col0 := qBound lim.minTileCol (floorQuotientToInt viewExtent.xmin tm.topLeftX twMap)
      lim.maxTileCol,
    row0 := qBound lim.minTileRow (floorQuotientToInt tm.topLeftY viewExtent.ymax thMap)
      lim.maxTileRow,
    col1 := qBound lim.minTileCol (floorQuotientToInt viewExtent.xmax tm.topLeftX twMap)
      lim.maxTileCol,
    row1 := qBound lim.minTileRow (floorQuotientToInt tm.topLeftY viewExtent.ymin thMap)
      lim.maxTileRow }

/-- The integers `lo, lo + 1, ..., hi` in ascending order: the values a loop
`for ( int i = lo; i <= hi; i++ )` runs through. -/
def intRange (lo hi : Int) : List Int :=
  (List.range (hi + 1 - lo).toNat).map (fun (k : Nat) => lo + (k : Int))

/-- The `( row, col )` pairs of the two nested loops of draw, in the order the loops visit
them (row-major). -/
def tileList (r : TileRange) : List (Int × Int) :=
  (intRange r.row0 r.row1).flatMap (fun row => (intRange r.col0 r.col1).map (fun col => (row, col)))

/-- The number `n` of draw (line 873): `( col1 - col0 + 1 ) * ( row1 - row0 + 1 )` in
`int` arithmetic, each operation wrapping to 32 bits. -/
def tileCount (r : TileRange) : Int :=
  wrapInt (wrapInt (wrapInt (r.col1 - r.col0) + 1) * wrapInt (wrapInt (r.row1 - r.row0) + 1))

/-- The map rectangle a tile request carries as its TileRect attribute (line 941). -/
def tileRect (tm : QgsWmtsTileMatrix) (twMap thMap : ℚ) (row col : Int) : QRectF :=
  { x := tm.topLeftX + col * twMap, y := tm.topLeftY - (row + 1) * thMap, w := twMap, h := thMap }

/-! ## URLs -/

/-- The method prepareUri (lines 225-242). -/
def prepareUri (uri : QString) : QString :=
  if qContains uri "SERVICE=WMTS" || qContains uri "/WMTSCapabilities.xml" then uri
  else if !qContains uri "?" then uri ++ "?"
  else if qRight1 uri != "?" && qRight1 uri != "&" then uri ++ "&"
  else uri

/-- The class QUrl, as far as the provider uses it: the text before the query and the query
as its list of `( key, value )` items. Percent-encoding and fragments are not modelled. -/
structure QUrl where
  base : QString
  query : List (QString × QString)
deriving DecidableEq

/-- Splits a character list at each `sep`. -/
def splitChars (sep : Char) : List Char → List (List Char)
  | [] => [[]]
  | c :: rest =>
    match splitChars sep rest with
    | [] => if c = sep then [[], []] else [[c]]
    | seg :: segs => if c = sep then [] :: seg :: segs else (c :: seg) :: segs

/-- One query item `key=value` (the value is empty without a `=`). -/
def parseQueryItem (item : List Char) : QString × QString :=
  (String.mk (item.takeWhile (fun c => c != '=')),
   String.mk ((item.dropWhile (fun c => c != '=')).drop 1))

/-- The constructor `QUrl( QString )`: the query starts after the first `?`, its items are
separated by `&`; empty items are dropped. -/
def QUrl.ofString (s : QString) : QUrl :=
  { base := String.mk (s.data.takeWhile (fun c => c != '?')),
    query := ((splitChars '&' ((s.data.dropWhile (fun c => c != '?')).drop 1)).filter
      (fun item => !item.isEmpty)).map parseQueryItem }

/-- The method `QUrl::toString()`. -/
def QUrl.toString (u : QUrl) : QString :=
  if u.query.isEmpty then u.base
  else u.base ++ "?" ++ qJoin "&" (u.query.map (fun kv => kv.1 ++ "=" ++ kv.2))

/-- The method `QUrl::removeQueryItem( key )`. The Qt documentation: "Removes the first query
string pair whose key is equal to key from the url." -/
def QUrl.removeQueryItem (u : QUrl) (key : QString) : QUrl :=
  { u with query := u.query.eraseP (fun kv => kv.1 == key) }

/-- The method `QUrl::addQueryItem( key, value )`: "Inserts the pair key = value into the
query string of the url", at its end. -/
def QUrl.addQueryItem (u : QUrl) (key value : QString) : QUrl :=
  { u with query := u.query ++ [(key, value)] }

/-- The method setQueryItem (lines 602-606). -/
def setQueryItem (url : QUrl) (item value : QString) : QUrl :=
  (url.removeQueryItem item).addQueryItem item value

/-- The replacement loop of `QString::replace( before, after, Qt::CaseInsensitive )` on
character lists: occurrences are replaced from left to right, the text put in is not
searched again; `skip` counts the characters of a replaced occurrence still to pass. -/
def replaceCIChars (before after : List Char) : Nat → List Char → List Char
  | _, [] => []
  | skip + 1, _ :: rest => replaceCIChars before after skip rest
  | 0, c :: rest =>
    if (before.map Char.toLower).isPrefixOf ((c :: rest).map Char.toLower) then
      after ++ replaceCIChars before after (before.length - 1) rest
    else c :: replaceCIChars before after 0 rest

/-- The method `QString::replace( before, after, Qt::CaseInsensitive )` for a non-empty
`before`. -/
def qReplaceCI (s before after : QString) : QString :=
  String.mk (replaceCIChars before.data after.data 0 s.data)
/-! ## Network requests and replies -/

/-- The class QImage in Format_ARGB32: its size and its pixels, row by row. -/
structure QImage where
  width : Int
  height : Int
  pixels : List Nat
deriving DecidableEq

/-- What `new QImage( w, h, QImage::Format_ARGB32 )` followed by `fill( 0 )` gives. -/
def QImage.blank (w h : Int) : QImage :=
  { width := w, height := h, pixels := List.replicate (w * h).toNat 0 }

/-- The class QNetworkRequest: the URL, the raw headers, the two cache attributes and the
four attributes of the provider (TileReqNo, TileIndex, TileRect, TileRetry). An attribute
that was never set reads as 0 (the null rectangle for TileRect). -/
structure QNetworkRequest where
  url : QString
  rawHeaders : List (QString × QString)
  preferCache : Bool
  cacheSave : Bool
  tileReqNo : Int
  tileIndex : Int
  tileRect : QRectF
  tileRetry : Int
deriving DecidableEq

/-- The constructor `QNetworkRequest( url )`. -/
def QNetworkRequest.ofUrl (url : QString) : QNetworkRequest :=
  { url := url, rawHeaders := [], preferCache := false, cacheSave := false,
    tileReqNo := 0, tileIndex := 0, tileRect := { x := 0, y := 0, w := 0, h := 0 },
    tileRetry := 0 }

/-- The method `QNetworkRequest::setRawHeader`: the header replaces one of the same name. -/
def QNetworkRequest.setRawHeader (r : QNetworkRequest) (name value : QString) :
    QNetworkRequest :=
  { r with rawHeaders := r.rawHeaders.filter (fun h => h.1 != name) ++ [(name, value)] }

/-- A finished QNetworkReply, as tileReplyFinished reads it. `error` stands for
`error() != QNetworkReply::NoError`, `redirect` for the RedirectionTargetAttribute and
`status` for the HttpStatusCodeAttribute (none when the QVariant is null). -/
structure QNetworkReply where
  request : QNetworkRequest
  error : Bool
  errorString : QString
  redirect : Option QString
  status : Option Int
  reasonPhrase : QString
  contentType : QString
  body : QString
  fromCache : Bool
deriving DecidableEq

/-! ## Capabilities (the part the planner reads) -/

/-- The struct QgsWmsDcpTypeProperty, reduced to `http.get.onlineResource.xlinkHref` and
`http.post.onlineResource.xlinkHref`. -/
structure QgsWmsDcpTypeProperty where
  httpGet : QString
  httpPost : QString
deriving DecidableEq

/-- The struct QgsWmsOperationType. -/
structure QgsWmsOperationType where
  format : List QString
  dcpType : List QgsWmsDcpTypeProperty
  allowedEncodings : List QString
deriving DecidableEq

/-- The struct QgsWmsRequestProperty. -/
structure QgsWmsRequestProperty where
  getMap : QgsWmsOperationType
  getFeatureInfo : QgsWmsOperationType
  getTile : QgsWmsOperationType
  getLegendGraphic : QgsWmsOperationType
deriving DecidableEq

/-- The struct QgsWmsCapabilitiesProperty, reduced to the version and the requests of the
capability. -/
structure QgsWmsCapabilitiesProperty where
  version : QString
  request : QgsWmsRequestProperty
deriving DecidableEq

/-- The flags of QgsWmsDpiMode that `mDpiMode` holds: `mDpiMode & dpiQGIS`,
`mDpiMode & dpiUMN` and `mDpiMode & dpiGeoServer`. -/
structure QgsWmsDpiMode where
  dpiQGIS : Bool
  dpiUMN : Bool
  dpiGeoServer : Bool
deriving DecidableEq

/-! ## The provider -/

/-- The members of QgsWmsProvider that draw and the reply handlers read or write, followed
by the logs of what the provider hands to its collaborators: `sent` lists the requests
given to `QgsNetworkAccessManager::get` (oldest first), `messageLog` the texts given to
QgsMessageLog, `messageBoxes` those given to showMessageBox, `statusLog` the statusChanged
signals and `dataChangedCount` the number of dataChanged signals. A null QString member
(mUserName, mPassword, mReferer) and a null pointer are none. -/
structure Provider where
  mBaseUrl : QString
  mIgnoreGetMapUrl : Bool
  mIgnoreGetFeatureInfoUrl : Bool
  mIgnoreAxisOrientation : Bool
  mInvertAxisOrientation : Bool
  mSmoothPixmapTransform : Bool
  mDpiMode : QgsWmsDpiMode
  mDpi : Int
  mUserName : Option QString
  mPassword : Option QString
  mReferer : Option QString
  mActiveSubLayers : List QString
  mActiveSubStyles : List QString
  mActiveSubLayerVisibility : List (QString × Bool)
  mImageMimeType : QString
  mImageCrs : QString
  mMaxWidth : Int
  mMaxHeight : Int
  mTiled : Bool
  mTileLayer : Option QgsWmtsTileLayer
  mTileMatrixSet : Option QgsWmtsTileMatrixSet
  mTileDimensionValues : List (QString × QString)
  mLayerExtent : QgsRectangle
  mHttpCapabilitiesResponse : Option QString
  mCapabilities : QgsWmsCapabilitiesProperty
  mErrorCaption : QString
  mErrorFormat : QString
  mError : QString
  mGetFeatureInfoUrlBase : QString
  mCachedImage : Option QImage
  mCachedViewExtent : QgsRectangle
  mCachedViewWidth : Int
  mCachedViewHeight : Int
  mCacheReply : Option QNetworkRequest
  mTileReplies : List QNetworkRequest
  mTileReqNo : Int
  mCacheHits : Int
  mCacheMisses : Int
  mErrors : Int
  mWaiting : Bool
  sent : List QNetworkRequest
  messageLog : List QString
  messageBoxes : List (QString × QString)
  statusLog : List QString
  dataChangedCount : Nat

/-- The collaborators of the provider and the build configuration.

* `qgisDebug`: the sources were compiled with QGISDEBUG defined;
* `defaultTileMaxRetry`: the entry "/qgis/defaultTileMaxRetry" of QSettings, already
  converted by `toInt()`; none when the entry is absent (the default "3" applies);
* `crsAxisInverted crs`: `theSrs.createFromOgcWmsCrs( crs ) && theSrs.axisInverted()`;
* `imageFromData`: `QImage::fromData`, none for a null image;
* `drawImage smooth dest dst src`: the image `dest` after
  `QPainter::drawImage( dst, src )`, with the SmoothPixmapTransform hint when `smooth`;
* `parseServiceExceptionReportDom`: the return value of the method of this name and, when
  it assigns them, the new `( mErrorCaption, mError )`;
* `toBase64`: `QByteArray::toBase64`;
* `fetchCapabilities`: the download and parse branch of retrieveServerCapabilities (lines
  1456-1552): the provider after it, and false when the branch leaves with
  `return false`. -/
structure Env where
  qgisDebug : Bool
  defaultTileMaxRetry : Option Int
  crsAxisInverted : QString → Bool
  imageFromData : QString → Option QImage
  drawImage : Bool → QImage → QRectF → QImage → QImage
  parseServiceExceptionReportDom : QString → Bool × Option (QString × QString)
  toBase64 : QString → QString
  fetchCapabilities : Provider → Bool × Provider

/-- Appends a text to the message log: `QgsMessageLog::logMessage`. -/
def Provider.logMessage (st : Provider) (msg : QString) : Provider :=
  { st with messageLog := st.messageLog ++ [msg] }

/-- Hands a request to `QgsNetworkAccessManager::instance()->get` and appends the reply to
`mTileReplies`. -/
def Provider.getTile (st : Provider) (request : QNetworkRequest) : Provider :=
  { st with sent := st.sent ++ [request], mTileReplies := st.mTileReplies ++ [request] }

/-- The statement `mTileReplies.removeOne( reply )`. -/
def Provider.removeTileReply (st : Provider) (reply : QNetworkReply) : Provider :=
  { st with mTileReplies := st.mTileReplies.erase reply.request }

/-- The method setAuthorization (lines 4694-4705). The text `QString( "%1:%2" )
.arg( mUserName ).arg( mPassword )` is the user name, a colon and the password (for a user
name without place markers); the conversion `toAscii()` is the identity. -/
def setAuthorization (env : Env) (st : Provider) (request : QNetworkRequest) :
    QNetworkRequest :=
  let r1 :=
    if st.mUserName.isSome || st.mPassword.isSome then
      request.setRawHeader "Authorization"
        ("Basic " ++ env.toBase64 (st.mUserName.getD "" ++ ":" ++ st.mPassword.getD ""))
    else request
  match st.mReferer with
  | some referer => r1.setRawHeader "Referer" referer
  | none => r1

/-- The setting `s.value( "/qgis/defaultTileMaxRetry", "3" ).toInt()`. -/
def Env.maxRetry (env : Env) : Int := env.defaultTileMaxRetry.getD 3

/-- The request repeatTileRequest dispatches (lines 1121-1148): a copy of the old request
with the authorization set again and the retry count advanced by one. -/
def repeatedRequest (env : Env) (st : Provider) (oldRequest : QNetworkRequest) :
    QNetworkRequest :=
  { setAuthorization env st oldRequest with tileRetry := oldRequest.tileRetry + 1 }

/-- The method repeatTileRequest (lines 1114-1153). -/
def repeatTileRequest (env : Env) (st : Provider) (oldRequest : QNetworkRequest) : Provider :=
  let st1 :=
    if st.mErrors = 100 then st.logMessage "Not logging more than 100 request errors." else st
  let retry := oldRequest.tileRetry + 1
  let maxRetry := env.maxRetry
  if retry > maxRetry then
    if st1.mErrors < 100 then
      st1.logMessage ("Tile request max retry error. Failed " ++ qNumber maxRetry ++
        " requests for tile " ++ qNumber oldRequest.tileIndex ++ " of tileRequest " ++
        qNumber oldRequest.tileReqNo ++ " (url: " ++ oldRequest.url ++ ")")
    else st1
  else
    let st2 :=
      if st1.mErrors < 100 then
        st1.logMessage ("repeat tileRequest " ++ qNumber oldRequest.tileReqNo ++ " tile " ++
          qNumber oldRequest.tileIndex ++ "(retry " ++ qNumber retry ++ ")")
      else st1
    st2.getTile (repeatedRequest env st1 oldRequest)

/-- The status line tileReplyFinished and draw emit in a QGISDEBUG build. -/
def Provider.emitTileStatus (env : Env) (st : Provider) : Provider :=
  if env.qgisDebug then
    { st with statusLog := st.statusLog ++
        [qNumber st.mTileReplies.length ++ " tile requests in background, " ++
         qNumber st.mCacheHits ++ " cache hits, " ++ qNumber st.mCacheMisses ++
         " cache misses., " ++ qNumber st.mErrors ++ " errors."] }
  else st

/-- The destination rectangle of tileReplyFinished (lines 1291-1296). -/
def tileDestination (st : Provider) (r : QRectF) : QRectF :=
  let cr := st.mCachedViewExtent.width / st.mCachedViewWidth
  { x := (r.left - st.mCachedViewExtent.xmin) / cr,
    y := (st.mCachedViewExtent.ymax - r.bottom) / cr,
    w := r.width / cr,
    h := r.height / cr }

/-- The counters of lines 1159-1165, kept in a QGISDEBUG build only. -/
def countCacheSource (env : Env) (st : Provider) (reply : QNetworkReply) : Provider :=
  if env.qgisDebug then
    if reply.fromCache then { st with mCacheHits := st.mCacheHits + 1 }
    else { st with mCacheMisses := st.mCacheMisses + 1 }
  else st

/-- The redirect branch of tileReplyFinished (lines 1217-1238): the request is issued again
for the redirect target with the generation, tile index and tile rectangle of the reply
and the retry count 0. -/
def tileRedirected (env : Env) (st : Provider) (reply : QNetworkReply) (target : QString) :
    Provider :=
  let request := setAuthorization env st (QNetworkRequest.ofUrl target)
  (st.removeTileReply reply).getTile
    { request with
      preferCache := true, cacheSave := true, tileReqNo := reply.request.tileReqNo,
      tileIndex := reply.request.tileIndex, tileRect := reply.request.tileRect,
      tileRetry := 0 }

/-- The branch of tileReplyFinished for a status of 400 or more (lines 1241-1251). -/
def tileStatusError (st : Provider) (reply : QNetworkReply) : Provider :=
  let box : QString × QString :=
    ("Tile request error", "Status: " ++ qNumber (reply.status.getD 0) ++
      "\nReason phrase: " ++ reply.reasonPhrase)
  let st1 := { st with messageBoxes := st.messageBoxes ++ [box] }
  st1.removeTileReply reply

/-- The error members after parseServiceExceptionReportDom: `ce` holds the new
`( mErrorCaption, mError )` when the method assigned them. -/
def Provider.setServiceError (st : Provider) (ce : Option (QString × QString)) : Provider :=
  match ce with
  | some e => { st with mErrorCaption := e.1, mErrorFormat := "text/plain", mError := e.2 }
  | none => st

/-- The branch of tileReplyFinished for a content type that is no image (lines
1257-1286). -/
def tileContentError (env : Env) (st : Provider) (reply : QNetworkReply) : Provider :=
  let text := reply.body
  let parsed :=
    if reply.contentType.toLower == "text/xml" then env.parseServiceExceptionReportDom text
    else (false, none)
  let st1 := st.setServiceError parsed.2
  let st2 :=
    if parsed.1 then
      st1.logMessage ("Tile request error (Title:" ++ st1.mErrorCaption ++ "; Error:" ++
        st1.mError ++ "; URL: " ++ reply.request.url ++ ")")
    else
      st1.logMessage ("Tile request error (Status:" ++
        (reply.status.map qNumber).getD "" ++ "; Content-Type:" ++ reply.contentType ++
        "; Length:" ++ qNumber text.length ++ "; URL: " ++ reply.request.url ++ ")")
  st2.removeTileReply reply

/-- The statement `p.drawImage( dst, myLocalImage )` on the cached image (lines
1304-1307); a null `mCachedImage` takes no paint. -/
def paintTile (env : Env) (st : Provider) (dst : QRectF) (myLocalImage : QImage) : Provider :=
  { st with mCachedImage :=
      st.mCachedImage.map (env.drawImage st.mSmoothPixmapTransform · dst myLocalImage) }

/-- Lines 1288-1329 of tileReplyFinished: "only take results from current request
number". -/
def compositeTile (env : Env) (st : Provider) (reply : QNetworkReply) : Provider :=
  if st.mTileReqNo = reply.request.tileReqNo then
    match env.imageFromData reply.body with
    | some myLocalImage => paintTile env st (tileDestination st reply.request.tileRect) myLocalImage
    | none =>
      repeatTileRequest env
        (st.logMessage ("Returned image is flawed [Content-Type:" ++ reply.contentType ++
          "; URL: " ++ reply.request.url ++ "]"))
        reply.request
  else st

/-- The signal dataChanged of lines 1334-1338. -/
def emitDataChanged (st : Provider) : Provider :=
  if !st.mWaiting then { st with dataChangedCount := st.dataChangedCount + 1 } else st

/-- The branch of tileReplyFinished for an image reply (lines 1288-1339). -/
def tileImage (env : Env) (st : Provider) (reply : QNetworkReply) : Provider :=
  (emitDataChanged ((compositeTile env st reply).removeTileReply reply)).emitTileStatus env

/-- The branch of tileReplyFinished for a network error (lines 1340-1348). -/
def tileNetworkError (env : Env) (st : Provider) (reply : QNetworkReply) : Provider :=
  let st1 := { st with mErrors := st.mErrors + 1 }
  let st2 := repeatTileRequest env st1 reply.request
  (st2.removeTileReply reply).emitTileStatus env

/-- The slot tileReplyFinished (lines 1155-1357) for the finished reply `reply`
(`sender()`). The update of the cache meta data (lines 1176-1196) concerns the cache of
the network access manager only and is left out. -/
def tileReplyFinished (env : Env) (st0 : Provider) (reply : QNetworkReply) : Provider :=
  let st := countCacheSource env st0 reply
  if !reply.error then
    match reply.redirect with
    | some target => tileRedirected env st reply target
    | none =>
      if reply.status.isSome && decide (reply.status.getD 0 ≥ 400) then
        tileStatusError st reply
      else if !qStartsWithCI reply.contentType "image/" &&
          reply.contentType.toLower != "application/octet-stream" then
        tileContentError env st reply
      else tileImage env st reply
  else tileNetworkError env st reply

/-! ## Request planning: draw -/

/-- The test `mCapabilities.version == "1.3.0" || mCapabilities.version == "1.3"` of draw
(lines 643 and 658). -/
def isVersion13 (st : Provider) : Bool :=
  st.mCapabilities.version == "1.3.0" || st.mCapabilities.version == "1.3"

/-- The flag `changeXY` of draw (lines 641-654). -/
def changeXY (env : Env) (st : Provider) : Bool :=
  let changeXY0 : Bool :=
    if !st.mIgnoreAxisOrientation && isVersion13 st then
      if env.crsAxisInverted st.mImageCrs then true else false
    else false
  if st.mInvertAxisOrientation then !changeXY0 else changeXY0

/-- The key `crsKey` of draw (lines 657-661). -/
def crsKey (st : Provider) : QString :=
  if isVersion13 st then "CRS" else "SRS"

/-- The text `QString( changeXY ? "%2,%1,%4,%3" : "%1,%2,%3,%4" ).arg( a1 ).arg( a2 )
.arg( a3 ).arg( a4 )` for number texts. -/
def bboxText (changeXY : Bool) (a1 a2 a3 a4 : QString) : QString :=
  if changeXY then a2 ++ "," ++ a1 ++ "," ++ a4 ++ "," ++ a3
  else a1 ++ "," ++ a2 ++ "," ++ a3 ++ "," ++ a4

/-- The text `bbox` of draw (lines 664-668). -/
def viewBBox (env : Env) (st : Provider) (viewExtent : QgsRectangle) : QString :=
  bboxText (changeXY env st) (qgsDoubleToString viewExtent.xmin)
    (qgsDoubleToString viewExtent.ymin) (qgsDoubleToString viewExtent.xmax)
    (qgsDoubleToString viewExtent.ymax)

/-- The method getMapUrl (lines 340-345). -/
def getMapUrl (st : Provider) : QString :=
  match st.mCapabilities.request.getMap.dcpType with
  | [] => st.mBaseUrl
  | d :: _ => prepareUri d.httpGet

/-- The method getFeatureInfoUrl (lines 348-353). -/
def getFeatureInfoUrl (st : Provider) : QString :=
  match st.mCapabilities.request.getFeatureInfo.dcpType with
  | [] => st.mBaseUrl
  | d :: _ => prepareUri d.httpGet

/-- The method getTileUrl (lines 355-367); none is `QString::null`. -/
def getTileUrl (st : Provider) : Option QString :=
  match st.mCapabilities.request.getTile.dcpType with
  | [] => none
  | d :: _ =>
    if st.mCapabilities.request.getTile.allowedEncodings.length > 0 &&
        !st.mCapabilities.request.getTile.allowedEncodings.contains "KVP" then none
    else some (prepareUri d.httpGet)

/-- The active layers that are visible, each with its style (lines 686-702). -/
def visibleLayersAndStyles (st : Provider) : List (QString × QString) :=
  (st.mActiveSubLayers.zip st.mActiveSubStyles).filter
    (fun ls => (st.mActiveSubLayerVisibility.lookup ls.1).getD false)

/-- The three DPI items (lines 721-729 and 903-911). -/
def setDpiItems (st : Provider) (url : QUrl) : QUrl :=
  if st.mDpi != -1 then
    let u1 := if st.mDpiMode.dpiQGIS then setQueryItem url "DPI" (qNumber st.mDpi) else url
    let u2 := if st.mDpiMode.dpiUMN then setQueryItem u1 "MAP_RESOLUTION" (qNumber st.mDpi) else u1
    if st.mDpiMode.dpiGeoServer then setQueryItem u2 "FORMAT_OPTIONS" ("dpi:" ++ qNumber st.mDpi)
    else u2
  else url

/-- The test that guards TRANSPARENT=TRUE (lines 732-734 and 913-915). -/
def wantsTransparent (mimeType : QString) : Bool :=
  mimeType == "image/x-jpegorpng" ||
    (!qContainsCI mimeType "jpeg" && !qContainsCI mimeType "jpg")

/-- The item TRANSPARENT=TRUE where the format allows it. -/
def setTransparentItem (st : Provider) (url : QUrl) : QUrl :=
  if wantsTransparent st.mImageMimeType then setQueryItem url "TRANSPARENT" "TRUE" else url

/-- The URL of the GetMap request of a draw that is not tiled (lines 704-737). -/
def getMapRequestUrl (env : Env) (st : Provider) (viewExtent : QgsRectangle)
    (pixelWidth pixelHeight : Int) : QUrl :=
  let visible := visibleLayersAndStyles st
  let layers := qJoin "," (visible.map Prod.fst)
  let styles := qJoin "," (visible.map Prod.snd)
  let url := QUrl.ofString (if st.mIgnoreGetMapUrl then st.mBaseUrl else getMapUrl st)
  let url := setQueryItem url "SERVICE" "WMS"
  let url := setQueryItem url "VERSION" st.mCapabilities.version
  let url := setQueryItem url "REQUEST" "GetMap"
  let url := setQueryItem url "BBOX" (viewBBox env st viewExtent)
  let url := setQueryItem url (crsKey st) st.mImageCrs
  let url := setQueryItem url "WIDTH" (qNumber pixelWidth)
  let url := setQueryItem url "HEIGHT" (qNumber pixelHeight)
  let url := setQueryItem url "LAYERS" layers
  let url := setQueryItem url "STYLES" styles
  let url := setQueryItem url "FORMAT" st.mImageMimeType
  setTransparentItem st (setDpiItems st url)

/-- The matrix `tempTm` of the maxWidth/maxHeight fallback (lines 807-812); it is a
`static` object, its identifier and scale denominator are never assigned. -/
def fallbackTileMatrix (st : Provider) (vres : ℚ) : QgsWmtsTileMatrix :=
  { identifier := "",
    scaleDenom := 0,
    topLeftX := st.mLayerExtent.xmin,
    topLeftY := st.mLayerExtent.ymax,
    tileWidth := st.mMaxWidth,
    tileHeight := st.mMaxHeight,
    matrixWidth := Int.ceil (st.mLayerExtent.width / st.mMaxWidth / vres),
    matrixHeight := Int.ceil (st.mLayerExtent.height / st.mMaxHeight / vres) }

/-- What draw has worked out when it reaches the `switch` on the tile mode: the matrix and
its resolution, the tile mode, the map size of a tile, the limits and the covering range. -/
structure TilePlan where
  tres : ℚ
  tm : QgsWmtsTileMatrix
  tileMode : QgsTileMode
  twMap : ℚ
  thMap : ℚ
  limits : QgsWmtsTileMatrixLimits
  range : TileRange
deriving DecidableEq

/-- Lines 770-870 of draw. The result is none where the C++ code has no defined result: in
tiled mode without tile layer, without matrix set or with an empty matrix set (the three
Q_ASSERT). -/
def drawPlan (st : Provider) (viewExtent : QgsRectangle) (pixelWidth : Int) : Option TilePlan :=
  let vres := viewExtent.width / pixelWidth
  let choice : Option (ℚ × QgsWmtsTileMatrix × QgsTileMode) :=
    if st.mTiled then
      match st.mTileLayer, st.mTileMatrixSet with
      | some tl, some tms =>
        (selectTileMatrix tms.tileMatrices vres).map (fun e => (e.1, e.2, tl.tileMode))
      | _, _ => none
    else some (vres, fallbackTileMatrix st vres, QgsTileMode.WMSC)
  choice.map (fun c =>
    let tres := c.1
    let tm := c.2.1
    let twMap : ℚ := tm.tileWidth * tres
    let thMap : ℚ := tm.tileHeight * tres
    let lim := tileLimits st.mTileLayer st.mTileMatrixSet tm
    { tres := tres, tm := tm, tileMode := c.2.2, twMap := twMap, thMap := thMap,
      limits := lim, range := coveringRange viewExtent tm twMap thMap lim })

/-- The URL all tiles of a WMS-C draw share (lines 887-918). -/
def wmscUrl (st : Provider) (tm : QgsWmtsTileMatrix) : QUrl :=
  let url := QUrl.ofString (if st.mIgnoreGetMapUrl then st.mBaseUrl else getMapUrl st)
  let url := setQueryItem url "SERVICE" "WMS"
  let url := setQueryItem url "VERSION" st.mCapabilities.version
  let url := setQueryItem url "REQUEST" "GetMap"
  let url := setQueryItem url "WIDTH" (qNumber tm.tileWidth)
  let url := setQueryItem url "HEIGHT" (qNumber tm.tileHeight)
  let url := setQueryItem url "LAYERS" (qJoin "," st.mActiveSubLayers)
  let url := setQueryItem url "STYLES" (qJoin "," st.mActiveSubStyles)
  let url := setQueryItem url "FORMAT" st.mImageMimeType
  let url := setQueryItem url (crsKey st) st.mImageCrs
  let url := if st.mTiled then setQueryItem url "TILED" "true" else url
  setTransparentItem st (setDpiItems st url)

/-- The text `turl` of one WMS-C tile (lines 925-931). -/
def wmscTileUrl (env : Env) (st : Provider) (p : TilePlan) (row col : Int) : QString :=
  (wmscUrl st p.tm).toString ++ "&BBOX=" ++
    bboxText (changeXY env st)
      (qgsDoubleToString (p.tm.topLeftX + col * p.twMap))
      (qgsDoubleToString (p.tm.topLeftY - (row + 1) * p.thMap))
      (qgsDoubleToString (p.tm.topLeftX + (col + 1) * p.twMap))
      (qgsDoubleToString (p.tm.topLeftY - row * p.thMap))

/-- The URL all tiles of a WMTS KVP draw share (lines 958-976); `base` is the text the QUrl
is made from. -/
def wmtsKvpUrl (st : Provider) (base : QString) (tm : QgsWmtsTileMatrix) : QUrl :=
  let url := QUrl.ofString base
  let url := setQueryItem url "SERVICE" "WMTS"
  let url := setQueryItem url "REQUEST" "GetTile"
  let url := setQueryItem url "VERSION" st.mCapabilities.version
  let url := setQueryItem url "LAYER" (st.mActiveSubLayers.getD 0 "")
  let url := setQueryItem url "STYLE" (st.mActiveSubStyles.getD 0 "")
  let url := setQueryItem url "FORMAT" st.mImageMimeType
  let url := setQueryItem url "TILEMATRIXSET" ((st.mTileMatrixSet.map (fun s => s.identifier)).getD "")
  let url := setQueryItem url "TILEMATRIX" tm.identifier
  let url := st.mTileDimensionValues.foldl (fun u kv => setQueryItem u kv.1 kv.2) url
  (url.removeQueryItem "TILEROW").removeQueryItem "TILECOL"

/-- The text `turl` of one WMTS KVP tile (lines 983-985). -/
def wmtsKvpTileUrl (st : Provider) (base : QString) (p : TilePlan) (row col : Int) : QString :=
  (wmtsKvpUrl st base p.tm).toString ++ "&TILEROW=" ++ qNumber row ++ "&TILECOL=" ++ qNumber col

/-- The resource template with style, matrix set, matrix and dimensions filled in (lines
1008-1017). -/
def wmtsRestUrl (st : Provider) (tm : QgsWmtsTileMatrix) : QString :=
  let url := ((st.mTileLayer.map (fun tl => tl.getTileURLs)).getD []).lookup st.mImageMimeType
    |>.getD ""
  let url := qReplaceCI url "\x7bstyle\x7d" (st.mActiveSubStyles.getD 0 "")
  let url := qReplaceCI url "\x7btilematrixset\x7d"
    ((st.mTileMatrixSet.map (fun s => s.identifier)).getD "")
  let url := qReplaceCI url "\x7btilematrix\x7d" tm.identifier
  st.mTileDimensionValues.foldl (fun u kv => qReplaceCI u ("\x7b" ++ kv.1 ++ "\x7d") kv.2) url

/-- The text `turl` of one WMTS REST tile (lines 1024-1026). -/
def wmtsRestTileUrl (st : Provider) (p : TilePlan) (row col : Int) : QString :=
  qReplaceCI (qReplaceCI (wmtsRestUrl st p.tm) "\x7btilerow\x7d" (qNumber row))
    "\x7btilecol\x7d" (qNumber col)

/-- The text `turl` of the tile `( row, col )` in the three branches of the `switch` (lines
882-1047); none in the `default` branch. -/
def tileUrl (env : Env) (st : Provider) (p : TilePlan) : Option (Int → Int → QString) :=
  match p.tileMode with
  | QgsTileMode.WMSC => some (wmscTileUrl env st p)
  | QgsTileMode.WMTS =>
    match getTileUrl st with
    | some kvp => some (wmtsKvpTileUrl st (if st.mIgnoreGetMapUrl then st.mBaseUrl else kvp) p)
    | none => some (wmtsRestTileUrl st p)
  | QgsTileMode.other => none

/-- The requests of the nested loops over the covering range, in dispatch order. Each one
carries the generation, the tile index, the map rectangle of the tile and the retry count
0. The counter `i` is advanced inside QgsDebugMsg only: the tile index is the running
number from 1 in a QGISDEBUG build and 0 otherwise. -/
def tileRequests (env : Env) (st : Provider) (p : TilePlan) (turl : Int → Int → QString) :
    List QNetworkRequest :=
  (tileList p.range).enum.map (fun krc =>
    let request := setAuthorization env st (QNetworkRequest.ofUrl (turl krc.2.1 krc.2.2))
    { request with
      preferCache := true, cacheSave := true, tileReqNo := st.mTileReqNo,
      tileIndex := if env.qgisDebug then (krc.1 : Int) + 1 else 0,
      tileRect := tileRect p.tm p.twMap p.thMap krc.2.1 krc.2.2, tileRetry := 0 })

/-- The method retrieveServerCapabilities (lines 1450-1558); the download and parse branch
is `Env.fetchCapabilities`. -/
def retrieveServerCapabilities (env : Env) (st : Provider) (forceRefresh : Bool) :
    Bool × Provider :=
  if st.mHttpCapabilitiesResponse.isNone || forceRefresh then
    match env.fetchCapabilities st with
    | (false, st1) => (false, st1)
    | (true, st1) => (st1.mError.isEmpty, st1)
  else (st.mError.isEmpty, st)

/-- The non-tiled branch of draw (lines 681-754), up to the wait for the reply. -/
def drawMap (env : Env) (st : Provider) (viewExtent : QgsRectangle)
    (pixelWidth pixelHeight : Int) : Provider :=
  let url := getMapRequestUrl env st viewExtent pixelWidth pixelHeight
  let request := setAuthorization env st (QNetworkRequest.ofUrl url.toString)
  let request := { request with cacheSave := true }
  { st with
    mGetFeatureInfoUrlBase :=
      if st.mIgnoreGetFeatureInfoUrl then st.mBaseUrl else getFeatureInfoUrl st,
    mCacheReply := some request,
    sent := st.sent ++ [request],
    statusLog := st.statusLog ++ ["Getting map via WMS."],
    mWaiting := true }

/-- The tiled branch of draw (lines 768-1057), up to the wait for the replies. In a
QGISDEBUG build a view that needs more than 100 tiles is given up (lines 872-880). -/
def drawTiles (env : Env) (st0 : Provider) (viewExtent : QgsRectangle) (pixelWidth : Int) :
    Provider :=
  let st := { st0 with mTileReqNo := st0.mTileReqNo + 1 }
  match drawPlan st viewExtent pixelWidth with
  | none => st
  | some p =>
    if env.qgisDebug && decide (tileCount p.range > 100) then
      { st with statusLog := st.statusLog ++
          ["current view would need " ++ qNumber (tileCount p.range) ++
            " tiles. tile request per draw limited to 100."] }
    else
      match tileUrl env st p with
      | none => st
      | some turl =>
        let requests := tileRequests env st p turl
        { st with
          sent := st.sent ++ requests,
          mTileReplies := st.mTileReplies ++ requests,
          statusLog := st.statusLog ++ ["Getting tiles."],
          mWaiting := true }

/-- The method draw (lines 608-1081) up to the point where it starts to wait for replies:
the image it will return and the provider with the requests dispatched. The replies that
arrive afterwards are handled by the reply slots; `abort()` of a running GetMap reply is
modelled as dropping it. -/
def draw (env : Env) (st0 : Provider) (viewExtent : QgsRectangle)
    (pixelWidth pixelHeight : Int) : Option QImage × Provider :=
  match retrieveServerCapabilities env st0 false with
  | (false, st) => (none, st)
  | (true, st) =>
    if st.mCachedImage.isSome && decide (st.mCachedViewExtent = viewExtent) &&
        decide (st.mCachedViewWidth = pixelWidth) &&
        decide (st.mCachedViewHeight = pixelHeight) then
      (st.mCachedImage, st)
    else
      let st1 := { st with
        mCacheReply := none,
        mCachedImage := some (QImage.blank pixelWidth pixelHeight),
        mCachedViewExtent := viewExtent,
        mCachedViewWidth := pixelWidth,
        mCachedViewHeight := pixelHeight }
      let st2 :=
        if !st1.mTiled && decide (st1.mMaxWidth = 0) && decide (st1.mMaxHeight = 0) then
          drawMap env st1 viewExtent pixelWidth pixelHeight
        else drawTiles env st1 viewExtent pixelWidth
      (st2.mCachedImage, st2)

/-- The end of draw: the wait is over (`mWaiting = false`, lines 764 and 1069). -/
def drawReturn (st : Provider) : Provider :=
  { st with mWaiting := false }

/-- The delivery of a finished tile reply to its slot: a reply finishes for a request that
is in flight (its reply is in `mTileReplies`). -/
def deliver (env : Env) (st : Provider) (reply : QNetworkReply) : Provider :=
  if reply.request ∈ st.mTileReplies then tileReplyFinished env st reply else st

/-- The delivery of a sequence of finished tile replies, one after the other. -/
def deliverAll (env : Env) (st : Provider) (replies : List QNetworkReply) : Provider :=
  replies.foldl (deliver env) st

/-- The logical tile request of a network request: its generation and its tile rectangle. -/
def QNetworkRequest.tileKey (r : QNetworkRequest) : Int × QRectF :=
  (r.tileReqNo, r.tileRect)

/-- The number of dispatches for the logical tile request `key`. -/
def dispatchCount (st : Provider) (key : Int × QRectF) : Nat :=
  st.sent.countP (fun r => r.tileKey = key)

/-- A run of setQueryItem calls, one for each item of the list in turn. -/
def setQueryItems (url : QUrl) (items : List (QString × QString)) : QUrl :=
  items.foldl (fun u kv => setQueryItem u kv.1 kv.2) url

/-- The ten items every GetMap request of a draw that is not tiled sets, in the order of
the setQueryItem calls (lines 710-719). -/
def getMapItems (env : Env) (st : Provider) (viewExtent : QgsRectangle)
    (pixelWidth pixelHeight : Int) : List (QString × QString) :=
  [ ("SERVICE", "WMS"),
    ("VERSION", st.mCapabilities.version),
    ("REQUEST", "GetMap"),
    ("BBOX", viewBBox env st viewExtent),
    (crsKey st, st.mImageCrs),
    ("WIDTH", qNumber pixelWidth),
    ("HEIGHT", qNumber pixelHeight),
    ("LAYERS", qJoin "," ((visibleLayersAndStyles st).map Prod.fst)),
    ("STYLES", qJoin "," ((visibleLayersAndStyles st).map Prod.snd)),
    ("FORMAT", st.mImageMimeType) ]

/-- The URL draw starts the GetMap request from (line 709). -/
def getMapBaseUrl (st : Provider) : QUrl :=
  QUrl.ofString (if st.mIgnoreGetMapUrl then st.mBaseUrl else getMapUrl st)

/-- The order of a `QMap<double, QgsWmtsTileMatrix>`: the keys ascend strictly, so no key
occurs twice. -/
@[reducible] def AscendingKeys (m : List (ℚ × QgsWmtsTileMatrix)) : Prop :=
  m.Pairwise (fun a b => a.1 < b.1)

/-! ## The axis rule as the specification words it -/

/-- The value of a text of decimal digits; a character that is no digit counts as 0. -/
def digitsValue (l : List Char) : Nat :=
  l.foldl (fun n c => 10 * n + (c.toNat - '0'.toNat)) 0

/-- The numbers of a dotted version text: "1.3.0" gives `[1, 3, 0]`. -/
def versionNumbers (v : QString) : List Nat :=
  (splitChars '.' v.data).map digitsValue

/-- Stated in the specification: "version ≥ 1.3", read on the numbers of the version text
(major first, then minor). -/
def versionAtLeast13 (v : QString) : Bool :=
  match versionNumbers v with
  | [] => false
  | [major] => decide (1 < major)
  | major :: minor :: _ => decide (1 < major) || (major == 1 && decide (3 ≤ minor))

/-- Stated in the specification: "swap = (version≥1.3 ∧ ¬ignore ∧ crsInverted) XOR
invert". -/
def statedSwap (env : Env) (st : Provider) : Bool :=
  xor (versionAtLeast13 st.mCapabilities.version && !st.mIgnoreAxisOrientation &&
    env.crsAxisInverted st.mImageCrs) st.mInvertAxisOrientation

/-- The invariant behind the retry bound, for the retry limit `M`, the dispatch log `sent`
and the requests in flight: no two requests in flight belong to the same logical tile
request, a request in flight with retry count `n` is the dispatch number `n + 1` of its
logical request, and no logical request was dispatched more than `M + 1` times. -/
structure RetryInv (M : Int) (sent inflight : List QNetworkRequest) : Prop where
  single : ∀ k, inflight.countP (fun r => decide (r.tileKey = k)) ≤ 1
  counted : ∀ q ∈ inflight,
    ((sent.countP (fun r => decide (r.tileKey = q.tileKey)) : Nat) : Int) = q.tileRetry + 1
  bounded : ∀ k, ((sent.countP (fun r => decide (r.tileKey = k)) : Nat) : Int) ≤ M + 1

/-- A reply that is no redirect: it reports an error or carries no redirection target. -/
@[reducible] def QNetworkReply.noRedirect (reply : QNetworkReply) : Prop :=
  reply.error = true ∨ reply.redirect = none

/-! ## Sample data -/

/-- A sample environment: a release build with the default retry limit, EPSG:4326 as the
axis-inverted CRS, a decoder that fails on an empty body only and a painter that overwrites
the pixels. -/
def sampleEnv : Env :=
  { qgisDebug := false,
    defaultTileMaxRetry := none,
    crsAxisInverted := fun crs => crs == "EPSG:4326",
    imageFromData := fun body =>
      if body.isEmpty then none else some { width := 1, height := 1, pixels := [body.length] },
    drawImage := fun _ dest _ src => { dest with pixels := src.pixels },
    parseServiceExceptionReportDom := fun _ => (false, none),
    toBase64 := fun s => s,
    fetchCapabilities := fun st => (false, st) }

/-- The same environment for a QGISDEBUG build. -/
def sampleDebugEnv : Env := { sampleEnv with qgisDebug := true }

def emptyOperation : QgsWmsOperationType :=
  { format := [], dcpType := [], allowedEncodings := [] }

/-- The provider of the source URI
`url=http://s/wms&layers=L&styles=&format=image/png&crs=EPSG:4326` on a WMS 1.1.1 server
that publishes no GetMap endpoint of its own. -/
def sampleProvider : Provider :=
  { mBaseUrl := prepareUri "http://s/wms",
    mIgnoreGetMapUrl := false,
    mIgnoreGetFeatureInfoUrl := false,
    mIgnoreAxisOrientation := false,
    mInvertAxisOrientation := false,
    mSmoothPixmapTransform := false,
    mDpiMode := { dpiQGIS := true, dpiUMN := true, dpiGeoServer := true },
    mDpi := -1,
    mUserName := none,
    mPassword := none,
    mReferer := none,
    mActiveSubLayers := ["L"],
    mActiveSubStyles := [""],
    mActiveSubLayerVisibility := [("L", true)],
    mImageMimeType := "image/png",
    mImageCrs := "EPSG:4326",
    mMaxWidth := 0,
    mMaxHeight := 0,
    mTiled := false,
    mTileLayer := none,
    mTileMatrixSet := none,
    mTileDimensionValues := [],
    mLayerExtent := { xmin := -180, ymin := -90, xmax := 180, ymax := 90 },
    mHttpCapabilitiesResponse := some "<WMT_MS_Capabilities version=\"1.1.1\"/>",
    mCapabilities :=
      { version := "1.1.1",
        request := { getMap := emptyOperation, getFeatureInfo := emptyOperation,
                     getTile := emptyOperation, getLegendGraphic := emptyOperation } },
    mErrorCaption := "",
    mErrorFormat := "",
    mError := "",
    mGetFeatureInfoUrlBase := "",
    mCachedImage := none,
    mCachedViewExtent := { xmin := 0, ymin := 0, xmax := 0, ymax := 0 },
    mCachedViewWidth := 0,
    mCachedViewHeight := 0,
    mCacheReply := none,
    mTileReplies := [],
    mTileReqNo := 0,
    mCacheHits := 0,
    mCacheMisses := 0,
    mErrors := 0,
    mWaiting := false,
    sent := [],
    messageLog := [],
    messageBoxes := [],
    statusLog := [],
    dataChangedCount := 0 }

/-- The sample provider on a server whose capabilities carry the version `version`. -/
def sampleProviderOfVersion (version : QString) : Provider :=
  { sampleProvider with
    mCapabilities := { sampleProvider.mCapabilities with version := version } }

/-- The view `( -10, -20, 10, 20 )`. -/
def sampleView : QgsRectangle := { xmin := -10, ymin := -20, xmax := 10, ymax := 20 }

/-- A matrix of resolution 1 (scale denominator `1 / 0.00028` in a CRS in metres) with
tiles of 256 x 256 pixels, 64 x 64 tiles, top left corner `( 0, 0 )`. -/
def fineMatrix : QgsWmtsTileMatrix :=
  { identifier := "fine", scaleDenom := 25000 / 7, topLeftX := 0, topLeftY := 0,
    tileWidth := 256, tileHeight := 256, matrixWidth := 64, matrixHeight := 64 }

/-- A matrix of resolution 2 (scale denominator `2 / 0.00028` in a CRS in metres) with
tiles of 256 x 256 pixels, 32 x 32 tiles, top left corner `( 0, 0 )`. -/
def coarseMatrix : QgsWmtsTileMatrix :=
  { identifier := "coarse", scaleDenom := 50000 / 7, topLeftX := 0, topLeftY := 0,
    tileWidth := 256, tileHeight := 256, matrixWidth := 32, matrixHeight := 32 }

/-- The matrix set of the two sample matrices, keyed by resolution. -/
def sampleMatrices : List (ℚ × QgsWmtsTileMatrix) :=
  [(1, fineMatrix), (2, coarseMatrix)]

/-- A WMTS tile layer linked to the matrix set "g" without limits, with a REST template for
image/png. -/
def sampleTileLayer : QgsWmtsTileLayer :=
  { tileMode := QgsTileMode.WMTS,
    identifier := "L",
    boundingBox := { crs := "EPSG:4326", box := { xmin := 0, ymin := -16384, xmax := 16384, ymax := 0 } },
    setLinks := [("g", { tileMatrixSet := "g", limits := [] })],
    getTileURLs :=
      [("image/png",
        "http://s/\x7bstyle\x7d/\x7btilematrixset\x7d/\x7btilematrix\x7d/\x7btilerow\x7d/\x7btilecol\x7d.png")] }

/-- The matrix set "g" of the two sample matrices. -/
def sampleTileMatrixSet : QgsWmtsTileMatrixSet :=
  { identifier := "g", crs := "EPSG:4326", tileMatrices := sampleMatrices }

/-- The sample provider in tiled mode: the WMTS layer L in style s on the matrix set g. -/
def tiledProvider : Provider :=
  { sampleProvider with
    mActiveSubStyles := ["s"],
    mTiled := true,
    mTileLayer := some sampleTileLayer,
    mTileMatrixSet := some sampleTileMatrixSet,
    mCapabilities := { sampleProvider.mCapabilities with version := "1.0.0" } }

/-- A view of 600 x 600 map units at resolution 1 that touches three columns and three rows
of the fine matrix. -/
def nineTileView : QgsRectangle := { xmin := 100, ymin := -700, xmax := 700, ymax := -100 }

/-- The plan of draw for the tiled sample provider and the nine tile view at 600 pixels. -/
def nineTilePlan : TilePlan :=
  { tres := 1, tm := fineMatrix, tileMode := QgsTileMode.WMTS, twMap := 256, thMap := 256,
    limits := { minTileRow := 0, maxTileRow := 63, minTileCol := 0, maxTileCol := 63 },
    range := { col0 := 0, row0 := 0, col1 := 2, row1 := 2 } }

/-- A view of 2815 x 2815 map units at resolution 1 that touches eleven columns and eleven
rows of the fine matrix. -/
def manyTileView : QgsRectangle := { xmin := 0, ymin := -2815, xmax := 2815, ymax := 0 }

/-- The plan of draw for the tiled sample provider and the many tile view at 2815 pixels. -/
def manyTilePlan : TilePlan :=
  { tres := 1, tm := fineMatrix, tileMode := QgsTileMode.WMTS, twMap := 256, thMap := 256,
    limits := { minTileRow := 0, maxTileRow := 63, minTileCol := 0, maxTileCol := 63 },
    range := { col0 := 0, row0 := 0, col1 := 10, row1 := 10 } }

/-- The view `( -10, -10, 10, 10 )`. -/
def squareView : QgsRectangle := { xmin := -10, ymin := -10, xmax := 10, ymax := 10 }

/-- The sample provider for a base URL that carries the item LAYERS twice. -/
def doubleLayersProvider : Provider :=
  { sampleProvider with mBaseUrl := prepareUri "http://s/wms?LAYERS=a&LAYERS=b" }

/-- A tile request of generation 1 for the tile rectangle `( 0, 0, 256, 256 )`. -/
def sampleTileRequest : QNetworkRequest :=
  { url := "http://s/wmts/5/3/7.png", rawHeaders := [], preferCache := true, cacheSave := true,
    tileReqNo := 1, tileIndex := 0, tileRect := { x := 0, y := 0, w := 256, h := 256 },
    tileRetry := 0 }

/-- A reply to `request` that carries a decodable image. -/
def imageReply (request : QNetworkRequest) : QNetworkReply :=
  { request := request, error := false, errorString := "", redirect := none,
    status := some 200, reasonPhrase := "OK", contentType := "image/png", body := "PNG",
    fromCache := false }

/-- A reply to `request` that reports a network error. -/
def errorReply (request : QNetworkRequest) : QNetworkReply :=
  { request := request, error := true, errorString := "Connection refused", redirect := none,
    status := none, reasonPhrase := "", contentType := "", body := "", fromCache := false }

/-- A reply to `request` that redirects to `target`. -/
def redirectReply (request : QNetworkRequest) (target : QString) : QNetworkReply :=
  { request := request, error := false, errorString := "", redirect := some target,
    status := some 302, reasonPhrase := "Found", contentType := "", body := "",
    fromCache := false }

/-- The sample provider in generation 2 with a cached image of one pixel, while the tile
request of generation 1 is still in flight. -/
def staleProvider : Provider :=
  { sampleProvider with
    mTileReqNo := 2,
    mCachedImage := some { width := 1, height := 1, pixels := [0] },
    mCachedViewExtent := { xmin := 0, ymin := 0, xmax := 256, ymax := 256 },
    mCachedViewWidth := 256,
    mCachedViewHeight := 256,
    mTileReplies := [sampleTileRequest],
    sent := [sampleTileRequest] }

/-- The sample provider in generation 1, right after the dispatch of the sample tile
request. -/
def freshProvider : Provider :=
  { sampleProvider with
    mTileReqNo := 1,
    mCachedImage := some { width := 1, height := 1, pixels := [0] },
    mCachedViewExtent := { xmin := 0, ymin := 0, xmax := 256, ymax := 256 },
    mCachedViewWidth := 256,
    mCachedViewHeight := 256,
    mTileReplies := [sampleTileRequest],
    sent := [sampleTileRequest] }

/-- Three network errors, each answered by a repeat, and then a redirect of the third
repeat. -/
def errorsThenRedirect : List QNetworkReply :=
  [ errorReply sampleTileRequest,
    errorReply { sampleTileRequest with tileRetry := 1 },
    errorReply { sampleTileRequest with tileRetry := 2 },
    redirectReply { sampleTileRequest with tileRetry := 3 } "http://t/wmts/5/3/7.png" ]

/-- Four network errors in a row: the first dispatch and each of its three repeats fail. -/
def fourErrors : List QNetworkReply :=
  [ errorReply sampleTileRequest,
    errorReply { sampleTileRequest with tileRetry := 1 },
    errorReply { sampleTileRequest with tileRetry := 2 },
    errorReply { sampleTileRequest with tileRetry := 3 } ]

/-! ## Stated rules and sample data for the tile requests -/

/-- Stated in the specification: "TRANSPARENT=TRUE is added iff format is neither JPEG nor
JPG (case-insensitive) nor the special sentinel image/x-jpegorpng". -/
def statedTransparent (mimeType : QString) : Bool :=
  !qContainsCI mimeType "jpeg" && !qContainsCI mimeType "jpg" &&
    mimeType != "image/x-jpegorpng"

/-- The items of the key `k` in a query, in their order. -/
def itemsOf (k : QString) (q : List (QString × QString)) : List (QString × QString) :=
  q.filter (fun kv => kv.1 == k)

/-- The sample provider for the format image/x-jpegorpng. -/
def jpegOrPngProvider : Provider :=
  { sampleProvider with mImageMimeType := "image/x-jpegorpng" }

/-- The sample provider for the format image/jpeg and a base URL that carries
TRANSPARENT=TRUE itself. -/
def transparentBaseProvider : Provider :=
  { sampleProvider with
    mBaseUrl := prepareUri "http://s/wms?TRANSPARENT=TRUE",
    mImageMimeType := "image/jpeg" }

/-- A provider of two active sublayers, of which the second is hidden. -/
def hiddenLayerProvider : Provider :=
  { sampleProvider with
    mActiveSubLayers := ["A", "B"],
    mActiveSubStyles := ["", ""],
    mActiveSubLayerVisibility := [("A", true), ("B", false)] }

/-- The provider of the two sublayers with a largest request size of 256 x 256 pixels: draw
takes the maxWidth/maxHeight fallback. -/
def fallbackProvider : Provider :=
  { hiddenLayerProvider with mMaxWidth := 256, mMaxHeight := 256 }

/-- The tiled sample provider on a server that publishes a GetTile endpoint for KVP. -/
def kvpProvider : Provider :=
  { tiledProvider with
    mTileDimensionValues := [("time", "2012")],
    mCapabilities :=
      { tiledProvider.mCapabilities with
        request :=
          { tiledProvider.mCapabilities.request with
            getTile := { format := [], dcpType := [{ httpGet := "http://s/wmts", httpPost := "" }],
                         allowedEncodings := ["KVP"] } } } }


/-- The eight items every WMTS KVP request sets, in the order of the setQueryItem calls
(lines 961-968). -/
def wmtsKvpItems (st : Provider) (tm : QgsWmtsTileMatrix) : List (QString × QString) :=
  [ ("SERVICE", "WMTS"),
    ("REQUEST", "GetTile"),
    ("VERSION", st.mCapabilities.version),
    ("LAYER", st.mActiveSubLayers.getD 0 ""),
    ("STYLE", st.mActiveSubStyles.getD 0 ""),
    ("FORMAT", st.mImageMimeType),
    ("TILEMATRIXSET", (st.mTileMatrixSet.map (fun s => s.identifier)).getD ""),
    ("TILEMATRIX", tm.identifier) ]

/-- The URL draw starts the WMTS KVP requests from (line 958), for the GetTile endpoint
`kvp` of the capabilities. -/
def getTileBaseUrl (st : Provider) (kvp : QString) : QString :=
  if st.mIgnoreGetMapUrl then st.mBaseUrl else kvp

/-- The row-major order of tile positions: by row, and by column within a row. -/
@[reducible] def RowMajor (a b : Int × Int) : Prop :=
  a.1 < b.1 ∨ (a.1 = b.1 ∧ a.2 < b.2)

/-- The KVP provider on a server whose GetTile endpoint carries TILEROW twice. -/
def doubleTileRowProvider : Provider :=
  { kvpProvider with
    mCapabilities :=
      { kvpProvider.mCapabilities with
        request :=
          { kvpProvider.mCapabilities.request with
            getTile := { format := [],
                         dcpType := [{ httpGet := "http://s/wmts?TILEROW=9&TILEROW=8", httpPost := "" }],
                         allowedEncodings := ["KVP"] } } } }

/-! ## Resource templates -/

/-- A piece of a resource template: literal text, or a placeholder, which stands for its
name between braces. -/
inductive TemplatePart where
  | text (chars : List Char)
  | hole (name : List Char)
deriving DecidableEq

/-- The characters of a piece. -/
def TemplatePart.chars : TemplatePart → List Char
  | .text cs => cs
  | .hole name => '\x7b' :: (name ++ ['\x7d'])

/-- The template text of a list of pieces. -/
def renderTemplate (parts : List TemplatePart) : List Char :=
  parts.flatMap TemplatePart.chars

/-- A text without braces. -/
@[reducible] def NoBrace (cs : List Char) : Prop :=
  '\x7b' ∉ cs ∧ '\x7d' ∉ cs

/-- The literal text of a piece, or the name of a placeholder. -/
def TemplatePart.content : TemplatePart → List Char
  | .text cs => cs
  | .hole name => name

/-- A piece whose text, or whose name, is without braces: in a template of such pieces the
braces are those around the placeholder names. -/
@[reducible] def TemplatePart.Flat (part : TemplatePart) : Prop :=
  NoBrace part.content

/-- A placeholder is replaced by the value of the first name in `values` that equals its
name up to case; a placeholder of another name and literal text stay. -/
def fillPart (values : List (QString × QString)) : TemplatePart → TemplatePart
  | .text cs => .text cs
  | .hole name =>
    match values.find? (fun nv => nv.1.data.map Char.toLower == name.map Char.toLower) with
    | some nv => .text nv.2.data
    | none => .hole name

/-- The resource template of the format of the session (line 1008). -/
def restTemplate (st : Provider) : QString :=
  (((st.mTileLayer.map (fun tl => tl.getTileURLs)).getD []).lookup st.mImageMimeType).getD ""

/-- The names and values of the replacements of a WMTS REST tile, in the order of the
`replace` calls (lines 1010-1026). -/
def restValues (st : Provider) (tm : QgsWmtsTileMatrix) (row col : Int) :
    List (QString × QString) :=
  [ ("style", st.mActiveSubStyles.getD 0 ""),
    ("tilematrixset", (st.mTileMatrixSet.map (fun s => s.identifier)).getD ""),
    ("tilematrix", tm.identifier) ]
  ++ st.mTileDimensionValues ++
  [ ("tilerow", qNumber row), ("tilecol", qNumber col) ]

/-- The plan of the specification's example: the matrix 5 of the matrix set g. -/
def restExamplePlan : TilePlan :=
  { nineTilePlan with tm := { fineMatrix with identifier := "5" } }

/-- The pieces of the resource template of the sample tile layer. -/
def sampleTemplateParts : List TemplatePart :=
  [ .text "http://s/".data, .hole "style".data, .text "/".data, .hole "tilematrixset".data,
    .text "/".data, .hole "tilematrix".data, .text "/".data, .hole "tilerow".data,
    .text "/".data, .hole "tilecol".data, .text ".png".data ]

/-- The tiled sample provider in the style "row", for a resource template with a
placeholder inside braces. -/
def nestedTemplateProvider : Provider :=
  { tiledProvider with
    mActiveSubStyles := ["row"],
    mTileLayer := some { sampleTileLayer with
      getTileURLs := [("image/png", "http://s/\x7btile\x7bstyle\x7d\x7d.png")] } }

/-- The pieces of the template of the nested provider: the placeholder of the style stands
between literal braces. -/
def nestedTemplateParts : List TemplatePart :=
  [ .text "http://s/\x7btile".data, .hole "style".data, .text "\x7d.png".data ]

/-! ## The document object model -/

/-- The class QDomNode, as far as the parser walks it: an element with its tag name, its
attributes and its child nodes; a text node; any other node (a comment, a processing
instruction), for which `toElement()` is null as it is for a text node. The document is
read with `setContent( xml, false, ... )`, without namespace processing: the tag name of an
element is its qualified name, prefix included. -/
inductive QDomNode where
  | element (tagName : QString) (attributes : List (QString × QString))
      (childNodes : List QDomNode)
  | chars (data : QString)
  | comment (data : QString)

/-- The test `!n.toElement().isNull()`. -/
def QDomNode.isElement : QDomNode → Bool
  | .element _ _ _ => true
  | _ => false

/-- The method `tagName()` of `n.toElement()`; the null element has the empty name. -/
def QDomNode.tagName : QDomNode → QString
  | .element t _ _ => t
  | _ => ""

def QDomNode.attributes : QDomNode → List (QString × QString)
  | .element _ a _ => a
  | _ => []

def QDomNode.childNodes : QDomNode → List QDomNode
  | .element _ _ c => c
  | _ => []

/-- The method `nodeName()`: the tag name of an element, `#text` and `#comment` for the
other nodes. -/
def QDomNode.nodeName : QDomNode → QString
  | .element t _ _ => t
  | .chars _ => "#text"
  | .comment _ => "#comment"

/-- The method `hasAttribute( name )`. -/
def QDomNode.hasAttribute (n : QDomNode) (name : QString) : Bool :=
  (n.attributes.lookup name).isSome

/-- The method `attribute( name )`; none is the null QString of a missing attribute. -/
def QDomNode.attributeOrNull (n : QDomNode) (name : QString) : Option QString :=
  n.attributes.lookup name

/-- The value of the attribute `name` in a list of attributes, read as a text: the null
QString of a missing attribute is empty. -/
def attributeOf (attributes : List (QString × QString)) (name : QString) : QString :=
  (attributes.lookup name).getD ""

/-- The method `attribute( name )`. -/
def QDomNode.attribute (n : QDomNode) (name : QString) : QString :=
  attributeOf n.attributes name

mutual
/-- The method `QDomElement::text()`: the text nodes below the element, joined in document
order. -/
def QDomNode.text : QDomNode → QString
  | .element _ _ cs => QDomNode.textOfNodes cs
  | .chars d => d
  | .comment _ => ""
/-- The texts of a list of nodes, joined. -/
def QDomNode.textOfNodes : List QDomNode → QString
  | [] => ""
  | n :: ns => n.text ++ QDomNode.textOfNodes ns
end

/-- The first element named `tag` in a list of sibling nodes. -/
def firstElementNamed (tag : QString) (nodes : List QDomNode) : Option QDomNode :=
  nodes.find? (fun c => c.isElement && c.tagName == tag)

/-- The method `firstChildElement( tag )`; none is the null element. -/
def QDomNode.firstChildElement (n : QDomNode) (tag : QString) : Option QDomNode :=
  firstElementNamed tag n.childNodes

/-- The method `firstChildElement( tag )` of a possibly null element: the null element has
no children. -/
def firstChildElementOf (n : Option QDomNode) (tag : QString) : Option QDomNode :=
  n.bind (fun e => e.firstChildElement tag)

/-- The method `text()` of a possibly null element. -/
def textOf (n : Option QDomNode) : QString :=
  (n.map QDomNode.text).getD ""

/-- The elements a loop `for ( e1 = e.firstChildElement( tag ); !e1.isNull();
e1 = e1.nextSiblingElement( tag ) )` visits, in order. -/
def QDomNode.childElements (n : QDomNode) (tag : QString) : List QDomNode :=
  n.childNodes.filter (fun c => c.isElement && c.tagName == tag)

/-- The method `namedItem( name )`: the first child node of that node name. -/
def QDomNode.namedItem (n : QDomNode) (name : QString) : Option QDomNode :=
  n.childNodes.find? (fun c => c.nodeName == name)

/-- The two lines `if ( tagName.startsWith( "wms:" ) ) tagName = tagName.mid( 4 );`. -/
def stripWms (tagName : QString) : QString :=
  if "wms:".data.isPrefixOf tagName.data then String.mk (tagName.data.drop 4) else tagName

/-- The two lines `if ( tagName.startsWith( "ows:" ) ) tagName = tagName.mid( 4 );`. -/
def stripOws (tagName : QString) : QString :=
  if "ows:".data.isPrefixOf tagName.data then String.mk (tagName.data.drop 4) else tagName

/-- The white space of `QChar::isSpace` in the ASCII range. -/
def isSpaceChar (c : Char) : Bool :=
  c == ' ' || c == '\t' || c == '\n' || c == '\r' || c.toNat == 11 || c.toNat == 12

/-- Splits a character list at each run of white space; `inRun` tells that the character
before belongs to a run. -/
def splitAtSpaceRuns : Bool → List Char → List (List Char)
  | _, [] => [[]]
  | inRun, c :: rest =>
    if isSpaceChar c then
      if inRun then splitAtSpaceRuns true rest else [] :: splitAtSpaceRuns true rest
    else
      match splitAtSpaceRuns false rest with
      | [] => [[c]]
      | seg :: segs => (c :: seg) :: segs

/-- The call `split( QRegExp( "\\s+" ) )`: empty parts are kept. -/
def qSplitSpaceRuns (s : QString) : List QString :=
  (splitAtSpaceRuns false s.data).map String.mk

/-- The call `split( " " )`: empty parts are kept. -/
def qSplitSpace (s : QString) : List QString :=
  (splitChars ' ' s.data).map String.mk

/-- The method `QString::trimmed()`. -/
def qTrimmed (s : QString) : QString :=
  String.mk ((s.data.dropWhile isSpaceChar).reverse.dropWhile isSpaceChar).reverse

/-- The call `split( " ", QString::SkipEmptyParts )`. -/
def qSplitSpaceSkipEmpty (s : QString) : List QString :=
  ((splitChars ' ' s.data).filter (fun part => !part.isEmpty)).map String.mk

/-! ## What the parser takes from Qt and from the core library -/

/-- The constructor `QgsRectangle( xmin, ymin, xmax, ymax )` of the core library
(qgsrectangle.cpp is not part of the sources at hand): it stores the corners and calls
`normalize()`. -/
def QgsRectangle.normalize (r : QgsRectangle) : QgsRectangle :=
  { xmin := min r.xmin r.xmax, ymin := min r.ymin r.ymax,
    xmax := max r.xmin r.xmax, ymax := max r.ymin r.ymax }

/-- The rectangle `QgsRectangle( xmin, ymin, xmax, ymax )`, and likewise the one of two
corner points. -/
def QgsRectangle.ofCorners (xmin ymin xmax ymax : ℚ) : QgsRectangle :=
  QgsRectangle.normalize { xmin := xmin, ymin := ymin, xmax := xmax, ymax := ymax }

/-- The default constructed QgsRectangle. -/
def QgsRectangle.null : QgsRectangle := { xmin := 0, ymin := 0, xmax := 0, ymax := 0 }

/-- The method `QgsRectangle::contains( rect )` of the core library (not part of the
sources at hand): `rect` lies within the rectangle, borders included. -/
def QgsRectangle.contains (r rect : QgsRectangle) : Bool :=
  decide (rect.xmin ≥ r.xmin) && decide (rect.xmax ≤ r.xmax) &&
    decide (rect.ymin ≥ r.ymin) && decide (rect.ymax ≤ r.ymax)

/-- The constant DEFAULT_LATLON_CRS (line 79). -/
def DEFAULT_LATLON_CRS : QString := "CRS:84"

/-- What the parser calls outside the provider: the XML reader, the number conversions of
QString and the coordinate reference systems of the core library.
`setContent` is `QDomDocument::setContent( xml, false, &errorMsg, &errorLine,
&errorColumn )`: the document element of a well-formed document, or the error with its
line and column. `toInt` and `toUInt` give 0 where the conversion fails; `toDouble` gives
none there (`ok = false`, value 0). `createFromOgcWmsCrs` tells whether the CRS can be
created from the text, `authid`, `axisInverted` and `metersPerUnit` (the factor
`QGis::fromUnitToUnitFactor( crs.mapUnits(), QGis::Meters )`) describe the CRS created
from it. `transformBoundingBox src dst` is `QgsCoordinateTransform( src, dst )
.transformBoundingBox`, none where it throws QgsCsException; `isFinite` is
`QgsRectangle::isFinite` of its result. -/
structure ParserEnv where
  setContent : QString → Except (QString × Int × Int) QDomNode
  toInt : QString → Int
  toUInt : QString → Nat
  toDouble : QString → Option ℚ
  createFromOgcWmsCrs : QString → Bool
  authid : QString → QString
  axisInverted : QString → Bool
  metersPerUnit : QString → ℚ
  transformBoundingBox : QString → QString → QgsRectangle → Option QgsRectangle
  isFinite : QgsRectangle → Bool

/-- The call `s.toDouble()` without the `ok` flag: 0 where the conversion fails. -/
def ParserEnv.toDoubleOrZero (penv : ParserEnv) (s : QString) : ℚ :=
  (penv.toDouble s).getD 0

/-! ## The capabilities model -/

/-- The struct QgsWmsServiceProperty; the contact information is left out. -/
structure QgsWmsServiceProperty where
  title : QString
  abstract : QString
  keywordList : List QString
  onlineResource : QString
  fees : QString
  accessConstraints : QString
  layerLimit : Nat
  maxWidth : Nat
  maxHeight : Nat
deriving DecidableEq

/-- The struct QgsWmsStyleProperty; the legend URLs are left out. -/
structure QgsWmsStyleProperty where
  name : QString
  title : QString
  abstract : QString
deriving DecidableEq

/-- The members of the struct QgsWmsLayerProperty other than the sublayers. -/
structure QgsWmsLayerData where
  orderId : Int
  name : QString
  title : QString
  abstract : QString
  keywordList : List QString
  crs : List QString
  ex_GeographicBoundingBox : QgsRectangle
  boundingBox : List QgsWmsBoundingBoxProperty
  style : List QgsWmsStyleProperty
  queryable : Bool
  cascaded : Nat
  opaqueLayer : Bool
  noSubsets : Bool
  fixedWidth : Nat
  fixedHeight : Nat
deriving DecidableEq

/-- The struct QgsWmsLayerProperty: its own members and the sublayers `layer`. -/
inductive QgsWmsLayerProperty where
  | mk (data : QgsWmsLayerData) (layer : List QgsWmsLayerProperty)

def QgsWmsLayerProperty.data : QgsWmsLayerProperty → QgsWmsLayerData
  | .mk d _ => d

def QgsWmsLayerProperty.layer : QgsWmsLayerProperty → List QgsWmsLayerProperty
  | .mk _ l => l

/-- A default constructed QgsWmsLayerData. -/
def QgsWmsLayerData.empty : QgsWmsLayerData :=
  { orderId := 0, name := "", title := "", abstract := "", keywordList := [], crs := [],
    ex_GeographicBoundingBox := QgsRectangle.null, boundingBox := [], style := [],
    queryable := false, cascaded := 0, opaqueLayer := false, noSubsets := false,
    fixedWidth := 0, fixedHeight := 0 }

/-- The struct QgsWmsCapabilityProperty. -/
structure QgsWmsCapabilityProperty where
  request : QgsWmsRequestProperty
  layer : QgsWmsLayerProperty

/-- The struct QgsWmsCapabilitiesProperty as the parser fills it: the version, the service
and the capability. (The structure QgsWmsCapabilitiesProperty above is its reduction to
what draw reads.) -/
structure QgsWmsCapabilitiesModel where
  version : QString
  service : QgsWmsServiceProperty
  capability : QgsWmsCapabilityProperty

/-- The members of QgsWmsProvider the capabilities parser reads and writes. The `QMap` and
`QHash` members are lists of `( key, value )` in iteration order; the place the hash
function gives a new key is not modelled, a new key goes to the end. The document
`mCapabilitiesDom` and the themes `mTileThemes` are left out. -/
structure ParserState where
  mIgnoreAxisOrientation : Bool
  mInvertAxisOrientation : Bool
  mErrorCaption : QString
  mErrorFormat : QString
  mError : QString
  mCapabilities : QgsWmsCapabilitiesModel
  mLayerCount : Int
  mLayerParents : List (Int × Int)
  mLayerParentNames : List (Int × List QString)
  mQueryableForLayer : List (QString × Bool)
  mCrsForLayer : List (QString × List QString)
  mLayersSupported : List QgsWmsLayerProperty
  mTileMatrixSets : List (QString × QgsWmtsTileMatrixSet)
  mTileLayersSupported : List QgsWmtsTileLayer

/-- The call `map[ key ] = value`, and `insert( key, value )` of a `QHash`: the value of an
existing key is replaced. -/
def mapInsert {κ ν : Type} [BEq κ] (key : κ) (value : ν) : List (κ × ν) → List (κ × ν)
  | [] => [(key, value)]
  | e :: rest => if e.1 == key then (key, value) :: rest else e :: mapInsert key value rest

/-- The call `insert( key, value )` of a `QMap< double, ... >`, which keeps its keys in
ascending order: the value of an existing key is replaced. -/
def qMapInsert {ν : Type} (key : ℚ) (value : ν) : List (ℚ × ν) → List (ℚ × ν)
  | [] => [(key, value)]
  | e :: rest =>
    if key < e.1 then (key, value) :: e :: rest
    else if key = e.1 then (key, value) :: rest
    else e :: qMapInsert key value rest

/-! ## The capabilities parser -/

/-- The method parseOnlineResource (lines 2046-2053). -/
def parseOnlineResource (e : QDomNode) : QString :=
  e.attribute "xlink:href"

/-- The method parseKeywordList (lines 2056-2082). -/
def parseKeywordList (e : QDomNode) (keywordListProperty : List QString) : List QString :=
  e.childNodes.foldl (fun acc n1 =>
    if n1.isElement && stripOws (stripWms n1.tagName) == "Keyword" then acc ++ [n1.text]
    else acc) keywordListProperty

/-- The method parseService (lines 1744-1806), without the contact information. -/
def parseService (penv : ParserEnv) (e : QDomNode) (serviceProperty : QgsWmsServiceProperty) :
    QgsWmsServiceProperty :=
  e.childNodes.foldl (fun sp e1 =>
    if !e1.isElement then sp
    else
      let tagName := stripOws (stripWms e1.tagName)
      if tagName == "Title" then { sp with title := e1.text }
      else if tagName == "Abstract" then { sp with abstract := e1.text }
      else if tagName == "KeywordList" || tagName == "Keywords" then
        { sp with keywordList := parseKeywordList e1 sp.keywordList }
      else if tagName == "OnlineResource" then
        { sp with onlineResource := parseOnlineResource e1 }
      else if tagName == "Fees" then { sp with fees := e1.text }
      else if tagName == "AccessConstraints" then { sp with accessConstraints := e1.text }
      else if tagName == "LayerLimit" then { sp with layerLimit := penv.toUInt e1.text }
      else if tagName == "MaxWidth" then { sp with maxWidth := penv.toUInt e1.text }
      else if tagName == "MaxHeight" then { sp with maxHeight := penv.toUInt e1.text }
      else sp) serviceProperty

/-- The method parseGet (lines 2085-2109), and likewise parsePost (lines 2112-2136): the
`xlink:href` of the last OnlineResource child, `href` without one. -/
def parseGet (e : QDomNode) (href : QString) : QString :=
  e.childNodes.foldl (fun h e1 =>
    if e1.isElement && stripWms e1.tagName == "OnlineResource" then parseOnlineResource e1
    else h) href

/-- The method parseHttp (lines 2139-2168). -/
def parseHttp (e : QDomNode) (httpProperty : QgsWmsDcpTypeProperty) : QgsWmsDcpTypeProperty :=
  e.childNodes.foldl (fun hp e1 =>
    if !e1.isElement then hp
    else
      let tagName := stripWms e1.tagName
      if tagName == "Get" then { hp with httpGet := parseGet e1 hp.httpGet }
      else if tagName == "Post" then { hp with httpPost := parseGet e1 hp.httpPost }
      else hp) httpProperty

/-- The method parseDcpType (lines 2171-2191): the tag name is compared as it stands. -/
def parseDcpType (e : QDomNode) (dcpType : QgsWmsDcpTypeProperty) : QgsWmsDcpTypeProperty :=
  e.childNodes.foldl (fun dcp e1 =>
    if e1.isElement && e1.tagName == "HTTP" then parseHttp e1 dcp else dcp) dcpType

/-- The method parseOperationType (lines 2194-2225). -/
def parseOperationType (e : QDomNode) (operationType : QgsWmsOperationType) :
    QgsWmsOperationType :=
  e.childNodes.foldl (fun ot e1 =>
    if !e1.isElement then ot
    else
      let tagName := stripWms e1.tagName
      if tagName == "Format" then { ot with format := ot.format ++ [e1.text] }
      else if tagName == "DCPType" then
        { ot with dcpType := ot.dcpType ++ [parseDcpType e1 { httpGet := "", httpPost := "" }] }
      else ot) operationType

/-- The method parseRequest (lines 2228-2264): the tag name is compared as it stands. -/
def parseRequest (e : QDomNode) (requestProperty : QgsWmsRequestProperty) :
    QgsWmsRequestProperty :=
  e.childNodes.foldl (fun rp e1 =>
    if !e1.isElement then rp
    else
      let operation := if e1.tagName == "Operation" then e1.attribute "name" else e1.tagName
      if operation == "GetMap" then { rp with getMap := parseOperationType e1 rp.getMap }
      else if operation == "GetFeatureInfo" then
        { rp with getFeatureInfo := parseOperationType e1 rp.getFeatureInfo }
      else if operation == "GetLegendGraphic" || operation == "sld:GetLegendGraphic" then
        { rp with getLegendGraphic := parseOperationType e1 rp.getLegendGraphic }
      else rp) requestProperty

/-- The method parseStyle (lines 2300-2344), without the legend URLs. -/
def parseStyle (e : QDomNode) (styleProperty : QgsWmsStyleProperty) : QgsWmsStyleProperty :=
  e.childNodes.foldl (fun sp e1 =>
    if !e1.isElement then sp
    else
      let tagName := stripWms e1.tagName
      if tagName == "Name" then { sp with name := e1.text }
      else if tagName == "Title" then { sp with title := e1.text }
      else if tagName == "Abstract" then { sp with abstract := e1.text }
      else sp) styleProperty

/-- The rectangle of the attributes minx, miny, maxx and maxy of an element. -/
def rectangleOfAttributes (penv : ParserEnv) (e1 : QDomNode) : QgsRectangle :=
  QgsRectangle.ofCorners (penv.toDoubleOrZero (e1.attribute "minx"))
    (penv.toDoubleOrZero (e1.attribute "miny")) (penv.toDoubleOrZero (e1.attribute "maxx"))
    (penv.toDoubleOrZero (e1.attribute "maxy"))

/-- The branch LatLonBoundingBox of parseLayer (lines 2421-2448): the rectangle of the
attributes, transformed to CRS:84 where the element names another SRS; where the
transformation throws, the rectangle stays as read. -/
def latLonBoundingBox (penv : ParserEnv) (e1 : QDomNode) : QgsRectangle :=
  let box := rectangleOfAttributes penv e1
  if e1.hasAttribute "SRS" && e1.attribute "SRS" != DEFAULT_LATLON_CRS then
    match penv.transformBoundingBox (e1.attribute "SRS") DEFAULT_LATLON_CRS box with
    | some transformed => transformed
    | none => box
  else box

/-- The branch EX_GeographicBoundingBox of parseLayer (lines 2449-2478): none where one of
the four bounds is missing or is no number. -/
def exGeographicBoundingBox (penv : ParserEnv) (e1 : QDomNode) : Option QgsRectangle :=
  let pre : QString := if e1.tagName == "wms:EX_GeographicBoundingBox" then "wms:" else ""
  let bound := fun (name : QString) =>
    penv.toDouble (textOf ((e1.namedItem (pre ++ name)).filter QDomNode.isElement))
  match bound "westBoundLongitude", bound "eastBoundLongitude",
      bound "southBoundLatitude", bound "northBoundLatitude" with
  | some w, some e, some s, some n => some (QgsRectangle.ofCorners w s e n)
  | _, _, _, _ => none

/-- The branch BoundingBox of parseLayer (lines 2479-2501): none without a CRS or SRS
attribute. -/
def layerBoundingBox (penv : ParserEnv) (e1 : QDomNode) : Option QgsWmsBoundingBoxProperty :=
  if e1.hasAttribute "CRS" then
    some { crs := e1.attribute "CRS", box := rectangleOfAttributes penv e1 }
  else if e1.hasAttribute "SRS" then
    some { crs := e1.attribute "SRS", box := rectangleOfAttributes penv e1 }
  else none

/-- The sublayer a nested Layer element starts from (lines 2382-2389): the style, the crs,
the bounding boxes and the geographic bounding box of the layer above, as they stand. -/
def inheritLayer (layerProperty : QgsWmsLayerData) : QgsWmsLayerProperty :=
  .mk { QgsWmsLayerData.empty with
        style := layerProperty.style,
        crs := layerProperty.crs,
        boundingBox := layerProperty.boundingBox,
        ex_GeographicBoundingBox := layerProperty.ex_GeographicBoundingBox } []

/-- The branches of the child loop of parseLayer other than the nested Layer (lines
2396-2545): what one child element does to the members of the layer. -/
def parseLayerMember (penv : ParserEnv) (e1 : QDomNode) (lp : QgsWmsLayerData) :
    QgsWmsLayerData :=
  let tagName := stripWms e1.tagName
  if tagName == "Name" then { lp with name := e1.text }
  else if tagName == "Title" then { lp with title := e1.text }
  else if tagName == "Abstract" then { lp with abstract := e1.text }
  else if tagName == "KeywordList" then
    { lp with keywordList := parseKeywordList e1 lp.keywordList }
  else if tagName == "SRS" || tagName == "CRS" then
    { lp with crs := lp.crs ++ qSplitSpaceRuns e1.text }
  else if tagName == "LatLonBoundingBox" then
    { lp with ex_GeographicBoundingBox := latLonBoundingBox penv e1 }
  else if tagName == "EX_GeographicBoundingBox" then
    match exGeographicBoundingBox penv e1 with
    | some box => { lp with ex_GeographicBoundingBox := box }
    | none => lp
  else if tagName == "BoundingBox" then
    match layerBoundingBox penv e1 with
    | some bbox => { lp with boundingBox := lp.boundingBox ++ [bbox] }
    | none => lp
  else if tagName == "Style" then
    { lp with style := lp.style ++ [parseStyle e1 { name := "", title := "", abstract := "" }] }
  else lp

/-- The end of parseLayer (lines 2552-2589): the parent is noted, a layer with a name is
registered (and, without sublayers, loses its style list afterwards), a layer with
sublayers is noted with its names, and a layer without parent loses its crs list. -/
def finishLayer (lp : QgsWmsLayerData) (sub : List QgsWmsLayerProperty)
    (parentOrderId : Option Int) (st : ParserState) : QgsWmsLayerProperty × ParserState :=
  let st1 : ParserState :=
    match parentOrderId with
    | some p => { st with mLayerParents := mapInsert lp.orderId p st.mLayerParents }
    | none => st
  let st2 : ParserState :=
    if lp.name != "" then
      { st1 with
        mQueryableForLayer := mapInsert lp.name lp.queryable st1.mQueryableForLayer,
        mCrsForLayer := mapInsert lp.name lp.crs st1.mCrsForLayer,
        mLayersSupported := st1.mLayersSupported ++ [.mk lp sub] }
    else st1
  let lp1 : QgsWmsLayerData :=
    if lp.name != "" && sub.isEmpty then { lp with style := [] } else lp
  let st3 : ParserState :=
    if !sub.isEmpty then
      { st2 with mLayerParentNames :=
          mapInsert lp1.orderId [lp1.name, lp1.title, lp1.abstract] st2.mLayerParentNames }
    else st2
  let lp2 : QgsWmsLayerData :=
    if parentOrderId.isNone then { lp1 with crs := [] } else lp1
  (.mk lp2 sub, st3)

/-- The start of parseLayer (lines 2358-2364): the order number and the members read from
the attributes of the Layer element. -/
def layerAttributes (penv : ParserEnv) (attributes : List (QString × QString))
    (layerProperty : QgsWmsLayerData) (orderId : Int) : QgsWmsLayerData :=
  { layerProperty with
    orderId := orderId,
    queryable := penv.toUInt (attributeOf attributes "queryable") != 0,
    cascaded := penv.toUInt (attributeOf attributes "cascaded"),
    opaqueLayer := penv.toUInt (attributeOf attributes "opaque") != 0,
    noSubsets := penv.toUInt (attributeOf attributes "noSubsets") != 0,
    fixedWidth := penv.toUInt (attributeOf attributes "fixedWidth"),
    fixedHeight := penv.toUInt (attributeOf attributes "fixedHeight") }

mutual
/-- The method parseLayer (lines 2347-2592) for the element `e`, the layer property it
fills (with what it holds already) and the order number of the layer above, none for a
layer without parent. -/
def parseLayer (penv : ParserEnv) :
    QDomNode → QgsWmsLayerProperty → Option Int → ParserState →
      QgsWmsLayerProperty × ParserState
  | .element _ attributes children, .mk lp0 sub0, parentOrderId, st =>
    let st1 : ParserState := { st with mLayerCount := st.mLayerCount + 1 }
    match parseLayerChildren penv children
        (layerAttributes penv attributes lp0 st1.mLayerCount) sub0 st1 with
    | (lp1, sub1, st2) => finishLayer lp1 sub1 parentOrderId st2
  | _, layerProperty, _, st => (layerProperty, st)
/-- The child loop of parseLayer (lines 2366-2550). -/
def parseLayerChildren (penv : ParserEnv) :
    List QDomNode → QgsWmsLayerData → List QgsWmsLayerProperty → ParserState →
      QgsWmsLayerData × List QgsWmsLayerProperty × ParserState
  | [], lp, sub, st => (lp, sub, st)
  | n1 :: rest, lp, sub, st =>
    if !n1.isElement then parseLayerChildren penv rest lp sub st
    else if stripWms n1.tagName == "Layer" then
      match parseLayer penv n1 (inheritLayer lp) (some lp.orderId) st with
      | (subLayerProperty, st1) =>
        parseLayerChildren penv rest lp (sub ++ [subLayerProperty]) st1
    else parseLayerChildren penv rest (parseLayerMember penv n1 lp) sub st
end

mutual
/-- The function _findNestedLayerProperty (lines 2595-2607). -/
def findNestedLayerProperty (layerName : QString) :
    QgsWmsLayerProperty → Option QgsWmsLayerProperty
  | .mk d children =>
    if d.name == layerName then some (.mk d children)
    else findNestedLayerPropertyIn layerName children
/-- The `foreach` loop of _findNestedLayerProperty. -/
def findNestedLayerPropertyIn (layerName : QString) :
    List QgsWmsLayerProperty → Option QgsWmsLayerProperty
  | [] => none
  | child :: rest =>
    match findNestedLayerProperty layerName child with
    | some res => some res
    | none => findNestedLayerPropertyIn layerName rest
end

/-- The second loop of extentForNonTiledLayer (lines 2634-2645) from the extent it starts
with: the first bounding box in CRS:84 that does not contain the extent replaces it. -/
def refineExtent (extent : QgsRectangle) : List QgsWmsBoundingBoxProperty → QgsRectangle
  | [] => extent
  | b :: rest =>
    if b.crs == DEFAULT_LATLON_CRS then
      if b.box.contains extent then refineExtent extent rest else b.box
    else refineExtent extent rest

/-- The extent extentForNonTiledLayer hands to the coordinate transformation (lines
2632-2645). -/
def extentToTransform (layerProperty : QgsWmsLayerData) : QgsRectangle :=
  refineExtent layerProperty.ex_GeographicBoundingBox layerProperty.boundingBox

/-- The method extentForNonTiledLayer (lines 2610-2673) on the layer tree `root` of the
capabilities: the result and the value of `extent` at the return. -/
def extentForNonTiledLayer (penv : ParserEnv) (root : QgsWmsLayerProperty)
    (layerName crs : QString) (extent : QgsRectangle) : Bool × QgsRectangle :=
  match findNestedLayerProperty layerName root with
  | none => (false, extent)
  | some layerProperty =>
    match layerProperty.data.boundingBox.find? (fun b => b.crs == crs) with
    | some b => (true, b.box)
    | none =>
      let extent1 := extentToTransform layerProperty.data
      if !penv.createFromOgcWmsCrs DEFAULT_LATLON_CRS || !penv.createFromOgcWmsCrs crs then
        (false, extent1)
      else
        match penv.transformBoundingBox DEFAULT_LATLON_CRS crs extent1 with
        | none => (false, extent1)
        | some extent2 => if !penv.isFinite extent2 then (false, extent2) else (true, extent2)

/-- The bounding box CRS of a TileSet and of a WMTS layer (lines 2729-2736 and 2955-2962):
the first of the attributes SRS, srs, CRS, crs the element has; `crs` without one. -/
def boundingBoxCrs (e1 : QDomNode) (crs : QString) : QString :=
  if e1.hasAttribute "SRS" then e1.attribute "SRS"
  else if e1.hasAttribute "srs" then e1.attribute "srs"
  else if e1.hasAttribute "CRS" then e1.attribute "CRS"
  else if e1.hasAttribute "crs" then e1.attribute "crs"
  else crs

/-- The locals of parseTileSetProfile after its child loop. -/
structure TileSetProfile where
  layers : List QString
  styles : List QString
  tileWidth : Int
  tileHeight : Int
  crs : QString
  boundingBox : QgsWmsBoundingBoxProperty
  resolutions : List QString

/-- The child loop of parseTileSetProfile (lines 2685-2748). -/
def tileSetProfile (penv : ParserEnv) (e : QDomNode) : TileSetProfile :=
  e.childNodes.foldl (fun t e1 =>
    if !e1.isElement then t
    else
      let tagName := stripWms e1.tagName
      if tagName == "Layers" then { t with layers := t.layers ++ [e1.text] }
      else if tagName == "Styles" then { t with styles := t.styles ++ [e1.text] }
      else if tagName == "Width" then { t with tileWidth := penv.toInt e1.text }
      else if tagName == "Height" then { t with tileHeight := penv.toInt e1.text }
      else if tagName == "SRS" then { t with crs := e1.text }
      else if tagName == "BoundingBox" then
        { t with boundingBox :=
            { crs := boundingBoxCrs e1 t.boundingBox.crs, box := rectangleOfAttributes penv e1 } }
      else if tagName == "Resolutions" then
        { t with resolutions := qSplitSpaceSkipEmpty (qTrimmed e1.text) }
      else t)
    { layers := [], styles := [], tileWidth := 0, tileHeight := 0, crs := "",
      boundingBox := { crs := "", box := QgsRectangle.null }, resolutions := [] }

/-- The matrices of a TileSet (lines 2763-2773): one for each resolution, numbered from 0.
The matrix sizes are those of the source where the resolution and the tile size are not
zero. -/
def tileSetMatrices (penv : ParserEnv) (t : TileSetProfile) : List (ℚ × QgsWmtsTileMatrix) :=
  t.resolutions.enum.foldl (fun acc irS =>
    let r := penv.toDoubleOrZero irS.2
    let matrixWidth := Int.ceil (t.boundingBox.box.width / t.tileWidth / r)
    let matrixHeight := Int.ceil (t.boundingBox.box.height / t.tileHeight / r)
    qMapInsert r
      { identifier := qNumber irS.1,
        scaleDenom := 0,
        topLeftX := t.boundingBox.box.xmin,
        topLeftY := t.boundingBox.box.ymin + matrixHeight * t.tileHeight * r,
        tileWidth := t.tileWidth,
        tileHeight := t.tileHeight,
        matrixWidth := matrixWidth,
        matrixHeight := matrixHeight } acc) []

/-- The method parseTileSetProfile (lines 2676-2776). -/
def parseTileSetProfile (penv : ParserEnv) (e : QDomNode) (st : ParserState) : ParserState :=
  let t := tileSetProfile penv e
  let msIdentifier : QString :=
    qJoin "_" t.layers ++ "-wmsc-" ++ qNumber st.mTileLayersSupported.length
  let l : QgsWmtsTileLayer :=
    { tileMode := QgsTileMode.WMSC,
      identifier := qJoin "," t.layers,
      boundingBox := t.boundingBox,
      setLinks := [(msIdentifier, { tileMatrixSet := msIdentifier, limits := [] })],
      getTileURLs := [] }
  let ms : QgsWmtsTileMatrixSet :=
    { identifier := msIdentifier, crs := t.crs, tileMatrices := tileSetMatrices penv t }
  { st with
    mTileLayersSupported := st.mTileLayersSupported ++ [l],
    mTileMatrixSets := mapInsert msIdentifier ms st.mTileMatrixSets }

/-- The matrices of one TileMatrixSet element (lines 2855-2902): a TileMatrix whose
TopLeftCorner has not two parts is skipped. -/
def wmtsTileMatrices (penv : ParserEnv) (n0 : QDomNode) (metersPerUnit : ℚ) (invert : Bool) :
    List (ℚ × QgsWmtsTileMatrix) :=
  (n0.childElements "TileMatrix").foldl (fun acc n1 =>
    let scaleDenom := penv.toDoubleOrZero (textOf (n1.firstChildElement "ScaleDenominator"))
    match qSplitSpace (textOf (n1.firstChildElement "TopLeftCorner")) with
    | [first, second] =>
      let res := scaleDenom * (28 / 100000) / metersPerUnit
      qMapInsert res
        { identifier := textOf (n1.firstChildElement "ows:Identifier"),
          scaleDenom := scaleDenom,
          topLeftX := penv.toDoubleOrZero (if invert then second else first),
          topLeftY := penv.toDoubleOrZero (if invert then first else second),
          tileWidth := penv.toInt (textOf (n1.firstChildElement "TileWidth")),
          tileHeight := penv.toInt (textOf (n1.firstChildElement "TileHeight")),
          matrixWidth := penv.toInt (textOf (n1.firstChildElement "MatrixWidth")),
          matrixHeight := penv.toInt (textOf (n1.firstChildElement "MatrixHeight")) } acc
    | _ => acc) []

/-- The matrix set of one TileMatrixSet element (lines 2826-2902). -/
def wmtsTileMatrixSet (penv : ParserEnv) (st : ParserState) (n0 : QDomNode) :
    QgsWmtsTileMatrixSet :=
  let supportedCRS := textOf (n0.firstChildElement "ows:SupportedCRS")
  let invert0 := !st.mIgnoreAxisOrientation && penv.axisInverted supportedCRS
  let invert := if st.mInvertAxisOrientation then !invert0 else invert0
  { identifier := textOf (n0.firstChildElement "ows:Identifier"),
    crs := penv.authid supportedCRS,
    tileMatrices := wmtsTileMatrices penv n0 (penv.metersPerUnit supportedCRS) invert }

/-- The test of one TileMatrixLimits element against the matrix set of the link (lines
3065-3096): the limits when they are valid. The matrix is the first one of the set, in the
order of the resolutions, that carries the identifier. -/
def tileMatrixLimits (penv : ParserEnv) (tms : QgsWmtsTileMatrixSet) (e3 : QDomNode) :
    Option (QString × QgsWmtsTileMatrixLimits) :=
  let id := textOf (e3.firstChildElement "TileMatrix")
  match tms.tileMatrices.find? (fun m => m.2.identifier == id) with
  | none => none
  | some m =>
    let limit : QgsWmtsTileMatrixLimits :=
      { minTileRow := penv.toInt (textOf (e3.firstChildElement "MinTileRow")),
        maxTileRow := penv.toInt (textOf (e3.firstChildElement "MaxTileRow")),
        minTileCol := penv.toInt (textOf (e3.firstChildElement "MinTileCol")),
        maxTileCol := penv.toInt (textOf (e3.firstChildElement "MaxTileCol")) }
    let isValid : Bool :=
      decide (limit.minTileCol ≥ 0) && decide (limit.minTileCol < m.2.matrixWidth) &&
      decide (limit.maxTileCol ≥ 0) && decide (limit.maxTileCol < m.2.matrixWidth) &&
      decide (limit.minTileCol ≤ limit.maxTileCol) &&
      decide (limit.minTileRow ≥ 0) && decide (limit.minTileRow < m.2.matrixHeight) &&
      decide (limit.maxTileRow ≥ 0) && decide (limit.maxTileRow < m.2.matrixHeight) &&
      decide (limit.minTileRow ≤ limit.maxTileRow)
    if isValid then some (id, limit) else none

/-- The TileMatrixLimits elements of a TileMatrixSetLink element, in the order of the two
nested loops (lines 3061-3063). -/
def tileMatrixLimitsElements (e1 : QDomNode) : List QDomNode :=
  (e1.childElements "TileMatrixSetLimits").flatMap
    (fun e2 => e2.childElements "TileMatrixLimits")

/-- One step of the loop over the TileMatrixLimits elements (lines 3065-3113): valid
limits are stored under the matrix identifier. -/
def insertTileMatrixLimits (penv : ParserEnv) (tms : QgsWmtsTileMatrixSet)
    (limits : List (QString × QgsWmtsTileMatrixLimits)) (e3 : QDomNode) :
    List (QString × QgsWmtsTileMatrixLimits) :=
  match tileMatrixLimits penv tms e3 with
  | some idLimit => mapInsert idLimit.1 idLimit.2 limits
  | none => limits

/-- The link of one TileMatrixSetLink element to the matrix set `tms` (lines 3049-3115). -/
def wmtsSetLink (penv : ParserEnv) (tms : QgsWmtsTileMatrixSet) (e1 : QDomNode) :
    QgsWmtsTileMatrixSetLink :=
  { tileMatrixSet := textOf (e1.firstChildElement "TileMatrixSet"),
    limits := (tileMatrixLimitsElements e1).foldl (insertTileMatrixLimits penv tms) [] }

/-- The loop over the TileMatrixSetLink elements of a layer (lines 3047-3118): a link to a
matrix set the document does not define is skipped. -/
def wmtsSetLinks (penv : ParserEnv) (st : ParserState) (e0 : QDomNode) :
    List (QString × QgsWmtsTileMatrixSetLink) :=
  (e0.childElements "TileMatrixSetLink").foldl (fun links e1 =>
    let name := textOf (e1.firstChildElement "TileMatrixSet")
    match st.mTileMatrixSets.lookup name with
    | none => links
    | some tms => mapInsert name (wmtsSetLink penv tms e1) links) []

/-- The rectangle of the corners of an ows:WGS84BoundingBox or ows:BoundingBox element
(lines 2931-2937 and 2947-2953); none where a corner has not two parts. -/
def cornersBox (penv : ParserEnv) (bbox : QDomNode) : Option QgsRectangle :=
  match qSplitSpace (textOf (bbox.firstChildElement "ows:LowerCorner")),
      qSplitSpace (textOf (bbox.firstChildElement "ows:UpperCorner")) with
  | [llx, lly], [urx, ury] =>
    some (QgsRectangle.ofCorners (penv.toDoubleOrZero llx) (penv.toDoubleOrZero lly)
      (penv.toDoubleOrZero urx) (penv.toDoubleOrZero ury))
  | _, _ => none

/-- The bounding box of a WMTS layer as the document gives it (lines 2926-2965): the
ows:WGS84BoundingBox in CRS:84, otherwise the ows:BoundingBox in the CRS of its attribute;
the CRS stays empty where the document gives neither. -/
def wmtsLayerBoundingBox (penv : ParserEnv) (e0 : QDomNode) : QgsWmsBoundingBoxProperty :=
  let fromWgs84 : QgsWmsBoundingBoxProperty :=
    match e0.firstChildElement "ows:WGS84BoundingBox" with
    | some bbox =>
      match cornersBox penv bbox with
      | some box => { crs := DEFAULT_LATLON_CRS, box := box }
      | none => { crs := "", box := QgsRectangle.null }
    | none => { crs := "", box := QgsRectangle.null }
  if fromWgs84.crs.isEmpty then
    match e0.firstChildElement "ows:BoundingBox" with
    | some bbox =>
      match cornersBox penv bbox with
      | some box => { crs := boundingBoxCrs bbox fromWgs84.crs, box := box }
      | none => fromWgs84
    | none => fromWgs84
  else fromWgs84

/-- The method nodeAttribute (lines 4754-4768) with the default value of `defValue`: the
attribute, or the null QString. (The loop over the attribute map converts each attribute
node with `toElement()`, which gives the null node: it finds nothing.) -/
def nodeAttribute (e : QDomNode) (name : QString) : QString :=
  if e.hasAttribute name then e.attribute name else ""

/-- The loop over the ResourceURL elements of a layer (lines 3120-3150), for the tile
templates. -/
def wmtsTileURLs (e0 : QDomNode) : List (QString × QString) :=
  (e0.childElements "ResourceURL").foldl (fun urls e1 =>
    let format := nodeAttribute e1 "format"
    let resourceType := nodeAttribute e1 "resourceType"
    let tmpl := nodeAttribute e1 "template"
    if format.isEmpty || resourceType.isEmpty || tmpl.isEmpty then urls
    else if resourceType == "tile" then mapInsert format tmpl urls
    else urls) []

/-- The tile layer of one Layer element of the Contents (lines 2916-3153). -/
def wmtsTileLayer (penv : ParserEnv) (st : ParserState) (e0 : QDomNode) : QgsWmtsTileLayer :=
  { tileMode := QgsTileMode.WMTS,
    identifier := textOf (e0.firstChildElement "ows:Identifier"),
    boundingBox := wmtsLayerBoundingBox penv e0,
    setLinks := wmtsSetLinks penv st e0,
    getTileURLs := wmtsTileURLs e0 }

/-- The method detectTileLayerBoundingBox (lines 3186-3222): the extent of the coarsest
matrix of the first linked matrix set, in the CRS of the set; none where the method
returns false. -/
def detectTileLayerBoundingBox (penv : ParserEnv) (st : ParserState) (l : QgsWmtsTileLayer) :
    Option QgsWmsBoundingBoxProperty :=
  match l.setLinks with
  | [] => none
  | setLink :: _ =>
    match st.mTileMatrixSets.lookup setLink.2.tileMatrixSet with
    | none => none
    | some tms =>
      if !penv.createFromOgcWmsCrs tms.crs then none
      else
        match tms.tileMatrices.getLast? with
        | none => none
        | some tm =>
          let res := tm.2.scaleDenom * (28 / 100000) / penv.metersPerUnit tms.crs
          some { crs := tms.crs,
                 box := QgsRectangle.ofCorners tm.2.topLeftX tm.2.topLeftY
                   (tm.2.topLeftX + res * tm.2.tileWidth * tm.2.matrixWidth)
                   (tm.2.topLeftY - res * tm.2.tileHeight * tm.2.matrixHeight) }

/-- One step of the loop "make sure that all layers have a bounding box" (lines
3168-3182). -/
def ensureBoundingBox (penv : ParserEnv) (st : ParserState) (l : QgsWmtsTileLayer) :
    QgsWmtsTileLayer :=
  if l.boundingBox.crs.isEmpty then
    match detectTileLayerBoundingBox penv st l with
    | some bbox => { l with boundingBox := bbox }
    | none =>
      { l with boundingBox :=
          { crs := DEFAULT_LATLON_CRS, box := QgsRectangle.ofCorners (-180) (-90) 180 90 } }
  else l

/-- The method parseWMTSContents (lines 2817-3183), without the themes. -/
def parseWMTSContents (penv : ParserEnv) (e : QDomNode) (st : ParserState) : ParserState :=
  let st1 : ParserState :=
    (e.childElements "TileMatrixSet").foldl (fun s n0 =>
      let tms := wmtsTileMatrixSet penv s n0
      { s with mTileMatrixSets := mapInsert tms.identifier tms s.mTileMatrixSets })
      { st with mTileMatrixSets := [] }
  let layers := (e.childElements "Layer").map (wmtsTileLayer penv st1)
  { st1 with mTileLayersSupported := layers.map (ensureBoundingBox penv st1) }

/-- The loop of lines 1888-1893, which collects the allowed encodings of an ows:Operation:
`e2` starts at the first ows:Value below the Get element and is advanced with
`e2 = e1.nextSiblingElement( "ows:Value" )`, where `e1` is the ows:Operation element
itself; `next` is that sibling of `e1`, the same in every round. `fuel` bounds the number
of rounds; none: the loop has not ended within the bound. -/
def allowedEncodingsLoop (next : Option QDomNode) :
    Nat → Option QDomNode → List QString → Option (List QString)
  | _, none, acc => some acc
  | 0, some _, _ => none
  | fuel + 1, some e2, acc => allowedEncodingsLoop next fuel next (acc ++ [e2.text])

/-- The branch ows:Operation of parseCapability (lines 1852-1894) for the element `n1` and
the nodes `rest` that follow it; none: the loop over the ows:Value elements has not ended
within `fuel` rounds. -/
def parseOwsOperation (fuel : Nat) (n1 : QDomNode) (rest : List QDomNode)
    (rp : QgsWmsRequestProperty) : Option QgsWmsRequestProperty :=
  let name := n1.attribute "name"
  let get := firstChildElementOf (firstChildElementOf (n1.firstChildElement "ows:DCP")
    "ows:HTTP") "ows:Get"
  match get.bind (fun g => g.attributeOrNull "xlink:href") with
  | none => some rp
  | some href =>
    let dcp : QgsWmsDcpTypeProperty := { httpGet := href, httpPost := "" }
    let first := firstChildElementOf (firstChildElementOf (firstChildElementOf get
      "ows:Constraint") "ows:AllowedValues") "ows:Value"
    let encodings := allowedEncodingsLoop (firstElementNamed "ows:Value" rest) fuel first []
    if name == "GetTile" then
      encodings.map (fun enc =>
        { rp with getTile :=
            { rp.getTile with dcpType := rp.getTile.dcpType ++ [dcp], allowedEncodings := enc } })
    else if name == "GetFeatureInfo" then
      encodings.map (fun enc =>
        { rp with getFeatureInfo :=
            { rp.getFeatureInfo with
              dcpType := rp.getFeatureInfo.dcpType ++ [dcp], allowedEncodings := enc } })
    else if name == "GetLegendGraphic" || name == "sld:GetLegendGraphic" then
      encodings.map (fun enc =>
        { rp with getLegendGraphic :=
            { rp.getLegendGraphic with
              dcpType := rp.getLegendGraphic.dcpType ++ [dcp], allowedEncodings := enc } })
    else some rp

/-- The loop of parseCapability (lines 1813-1896) over the child nodes of the element;
none: the loop over the ows:Value elements of an ows:Operation has not ended within `fuel`
rounds. -/
def parseCapabilityChildren (penv : ParserEnv) (fuel : Nat) :
    List QDomNode → ParserState → Option ParserState
  | [], st => some st
  | n1 :: rest, st =>
    if !n1.isElement then parseCapabilityChildren penv fuel rest st
    else
      let tagName := stripWms n1.tagName
      if tagName == "Request" then
        parseCapabilityChildren penv fuel rest
          { st with mCapabilities := { st.mCapabilities with capability :=
              { st.mCapabilities.capability with
                request := parseRequest n1 st.mCapabilities.capability.request } } }
      else if tagName == "Layer" then
        match parseLayer penv n1 st.mCapabilities.capability.layer none st with
        | (layerProperty, st1) =>
          parseCapabilityChildren penv fuel rest
            { st1 with mCapabilities := { st1.mCapabilities with capability :=
                { st1.mCapabilities.capability with layer := layerProperty } } }
      else if tagName == "VendorSpecificCapabilities" then
        parseCapabilityChildren penv fuel rest
          (n1.childNodes.foldl (fun s n2 =>
            if stripWms n2.tagName == "TileSet" then parseTileSetProfile penv n2 s else s) st)
      else if tagName == "ows:Operation" then
        match parseOwsOperation fuel n1 rest st.mCapabilities.capability.request with
        | none => none
        | some rp =>
          parseCapabilityChildren penv fuel rest
            { st with mCapabilities := { st.mCapabilities with capability :=
                { st.mCapabilities.capability with request := rp } } }
      else parseCapabilityChildren penv fuel rest st

/-- The method parseCapability (lines 1809-1899). -/
def parseCapability (penv : ParserEnv) (fuel : Nat) (e : QDomNode) (st : ParserState) :
    Option ParserState :=
  parseCapabilityChildren penv fuel e.childNodes st

/-- The loop of parseCapabilitiesDom over the child nodes of the document element (lines
1710-1736): the tag names are compared as they stand. -/
def parseDocumentChildren (penv : ParserEnv) (fuel : Nat) :
    List QDomNode → ParserState → Option ParserState
  | [], st => some st
  | e :: rest, st =>
    if !e.isElement then parseDocumentChildren penv fuel rest st
    else if e.tagName == "Service" || e.tagName == "ows:ServiceProvider" ||
        e.tagName == "ows:ServiceIdentification" then
      parseDocumentChildren penv fuel rest
        { st with mCapabilities := { st.mCapabilities with
            service := parseService penv e st.mCapabilities.service } }
    else if e.tagName == "Capability" || e.tagName == "ows:OperationsMetadata" then
      match parseCapability penv fuel e st with
      | none => none
      | some st1 => parseDocumentChildren penv fuel rest st1
    else if e.tagName == "Contents" then
      parseDocumentChildren penv fuel rest (parseWMTSContents penv e st)
    else parseDocumentChildren penv fuel rest st

/-- The test of the document element (lines 1688-1692). -/
def isCapabilitiesRoot (tagName : QString) : Bool :=
  tagName == "WMS_Capabilities" || tagName == "WMT_MS_Capabilities" || tagName == "Capabilities"

/-- The method parseCapabilitiesDom (lines 1649-1741) for `mCapabilities`, the one object
it is called for (line 1505): the returned flag and the provider. `fuel` bounds the rounds
of the loop over the ows:Value elements in parseCapability; none: that loop has not ended
within the bound. -/
def parseCapabilitiesDom (penv : ParserEnv) (fuel : Nat) (xml : QString) (st : ParserState) :
    Option (Bool × ParserState) :=
  match penv.setContent xml with
  | .error (errorMsg, errorLine, errorColumn) =>
    some (false,
      { st with
        mErrorCaption := "Dom Exception",
        mErrorFormat := "text/plain",
        mError := "Could not get WMS capabilities: " ++ errorMsg ++ " at line " ++
          qNumber errorLine ++ " column " ++ qNumber errorColumn ++
          "\nThis is probably due to an incorrect WMS Server URL.\nResponse was:\n\n" ++ xml })
  | .ok docElem =>
    if !isCapabilitiesRoot docElem.tagName then
      some (false,
        { st with
          mErrorCaption := "Dom Exception",
          mErrorFormat := "text/plain",
          mError := "Could not get WMS capabilities in the expected format (DTD): no " ++
            "WMS_Capabilities or WMT_MS_Capabilities found.\nThis might be due to an " ++
            "incorrect WMS Server URL.\nTag:" ++ docElem.tagName ++ "\nResponse was:\n" ++ xml })
    else
      (parseDocumentChildren penv fuel docElem.childNodes
        { st with mCapabilities :=
            { st.mCapabilities with version := docElem.attribute "version" } }).map
        (fun st1 => (true, st1))

/-! ## Sample data for the capabilities parser -/

/-- The value of a text of decimal digits; none for an empty text and for a text with
another character. -/
def digitsToNat (l : List Char) : Option Nat :=
  if l.isEmpty || !l.all Char.isDigit then none
  else some (l.foldl (fun n c => 10 * n + (c.toNat - '0'.toNat)) 0)

/-- A sample of `QString::toInt`: decimal digits with an optional minus sign, white space
around them ignored; 0 for any other text. -/
def sampleToInt (s : QString) : Int :=
  match (qTrimmed s).data with
  | '-' :: ds =>
    match digitsToNat ds with
    | some n => - (n : Int)
    | none => 0
  | ds =>
    match digitsToNat ds with
    | some n => (n : Int)
    | none => 0

/-- A sample of `QString::toDouble`: decimal digits with an optional minus sign and an
optional fraction; none for any other text. -/
def sampleToDouble (s : QString) : Option ℚ :=
  let cs := (qTrimmed s).data
  let neg := cs.head? == some '-'
  let body := if neg then cs.drop 1 else cs
  let ip := body.takeWhile (fun c => c != '.')
  let fp := (body.dropWhile (fun c => c != '.')).drop 1
  match digitsToNat ip, (if fp.isEmpty then some 0 else digitsToNat fp) with
  | some i, some f =>
    let v : ℚ := (i : ℚ) + (f : ℚ) / (10 : ℚ) ^ fp.length
    some (if neg then -v else v)
  | _, _ => none

/-- An element without attributes. -/
def elem (tag : QString) (children : List QDomNode) : QDomNode :=
  .element tag [] children

/-- An element without attributes that holds a text. -/
def textElem (tag : QString) (text : QString) : QDomNode :=
  .element tag [] [.chars text]

/-- An ows:Operation GetTile with an HTTP Get endpoint that allows the encoding KVP. -/
def loopOperation : QDomNode :=
  .element "ows:Operation" [("name", "GetTile")]
    [ elem "ows:DCP"
        [ elem "ows:HTTP"
            [ .element "ows:Get" [("xlink:href", "http://s/wmts")]
                [ .element "ows:Constraint" [("name", "GetEncoding")]
                    [ elem "ows:AllowedValues" [textElem "ows:Value" "KVP"] ] ] ] ] ]

/-- A WMTS capabilities document in which an ows:Value element follows the ows:Operation
GetTile as its sibling. -/
def loopDocument : QDomNode :=
  .element "Capabilities" [("version", "1.0.0")]
    [ elem "ows:OperationsMetadata" [loopOperation, textElem "ows:Value" "x"] ]

/-- The text of the loop document. -/
def loopXml : QString :=
  "<Capabilities version=\"1.0.0\"><ows:OperationsMetadata>" ++
  "<ows:Operation name=\"GetTile\"><ows:DCP><ows:HTTP><ows:Get xlink:href=\"http://s/wmts\">" ++
  "<ows:Constraint name=\"GetEncoding\"><ows:AllowedValues><ows:Value>KVP</ows:Value>" ++
  "</ows:AllowedValues></ows:Constraint></ows:Get></ows:HTTP></ows:DCP></ows:Operation>" ++
  "<ows:Value>x</ows:Value></ows:OperationsMetadata></Capabilities>"

/-- A WMS 1.3.0 capabilities document with unqualified element names. -/
def wmsDocument : QDomNode :=
  .element "WMS_Capabilities" [("version", "1.3.0")]
    [ elem "Service" [textElem "Title" "T"],
      elem "Capability"
        [ elem "Request"
            [ elem "GetMap"
                [ textElem "Format" "image/png",
                  elem "DCPType"
                    [ elem "HTTP"
                        [ elem "Get"
                            [ .element "OnlineResource" [("xlink:href", "http://s/wms?")] [] ] ] ] ] ],
          elem "Layer" [textElem "Name" "L", textElem "CRS" "EPSG:4326"] ] ]

/-- The text of the WMS document. -/
def wmsXml : QString :=
  "<WMS_Capabilities version=\"1.3.0\"><Service><Title>T</Title></Service><Capability>" ++
  "<Request><GetMap><Format>image/png</Format><DCPType><HTTP><Get>" ++
  "<OnlineResource xlink:href=\"http://s/wms?\"/></Get></HTTP></DCPType></GetMap></Request>" ++
  "<Layer><Name>L</Name><CRS>EPSG:4326</CRS></Layer></Capability></WMS_Capabilities>"

/-- An HTML page: a well-formed document with another document element. -/
def htmlDocument : QDomNode :=
  elem "html" [elem "body" [textElem "p" "Not found"]]

/-- The text of the HTML page. -/
def htmlXml : QString := "<html><body><p>Not found</p></body></html>"

mutual
/-- The document with the prefix `wms:` put before the name of every element that lies
`depth` or more levels below the node. -/
def qualifyFrom : Nat → QDomNode → QDomNode
  | 0, .element tag attributes children =>
    .element ("wms:" ++ tag) attributes (qualifyNodesFrom 0 children)
  | depth + 1, .element tag attributes children =>
    .element tag attributes (qualifyNodesFrom depth children)
  | _, .chars d => .chars d
  | _, .comment d => .comment d
/-- The nodes of a list, qualified from `depth` levels below them. -/
def qualifyNodesFrom : Nat → List QDomNode → List QDomNode
  | _, [] => []
  | depth, n :: ns => qualifyFrom depth n :: qualifyNodesFrom depth ns
end

/-- The documents the sample XML reader knows, by their text; the text of a document
qualified from some depth is the text of the document followed by `#` and the depth. -/
def sampleDocuments : List (QString × QDomNode) :=
  [ (loopXml, loopDocument),
    (wmsXml, wmsDocument),
    (wmsXml ++ "#1", qualifyFrom 1 wmsDocument),
    (wmsXml ++ "#3", qualifyFrom 3 wmsDocument),
    (wmsXml ++ "#4", qualifyFrom 4 wmsDocument),
    (htmlXml, htmlDocument) ]

/-- A sample of what the parser takes from outside: a reader that knows the sample
documents, decimal number conversions, the three CRS "CRS:84", "EPSG:4326" (axis-inverted,
in degrees) and "EPSG:3857" (in metres), and a transformation that knows the identity
only. -/
def samplePenv : ParserEnv :=
  { setContent := fun xml =>
      match sampleDocuments.lookup xml with
      | some docElem => .ok docElem
      | none => .error ("unexpected end of file", 1, 1),
    toInt := sampleToInt,
    toUInt := fun s => (sampleToInt s).toNat,
    toDouble := sampleToDouble,
    createFromOgcWmsCrs := fun crs =>
      crs == "CRS:84" || crs == "EPSG:4326" || crs == "EPSG:3857",
    authid := fun crs =>
      if crs == "CRS:84" || crs == "EPSG:4326" || crs == "EPSG:3857" then crs else "",
    axisInverted := fun crs => crs == "EPSG:4326",
    metersPerUnit := fun crs => if crs == "EPSG:3857" then 1 else 111319,
    transformBoundingBox := fun src dst r => if src == dst then some r else none,
    isFinite := fun _ => true }

/-- The members of a provider before its first capabilities document is parsed
(`mLayerCount` starts at -1, line 95). -/
def emptyState : ParserState :=
  { mIgnoreAxisOrientation := false, mInvertAxisOrientation := false,
    mErrorCaption := "", mErrorFormat := "", mError := "",
    mCapabilities :=
      { version := "",
        service := { title := "", abstract := "", keywordList := [], onlineResource := "",
                     fees := "", accessConstraints := "", layerLimit := 0, maxWidth := 0,
                     maxHeight := 0 },
        capability :=
          { request := { getMap := emptyOperation, getFeatureInfo := emptyOperation,
                         getTile := emptyOperation, getLegendGraphic := emptyOperation },
            layer := .mk QgsWmsLayerData.empty [] } },
    mLayerCount := -1, mLayerParents := [], mLayerParentNames := [], mQueryableForLayer := [],
    mCrsForLayer := [], mLayersSupported := [], mTileMatrixSets := [],
    mTileLayersSupported := [] }

/-- What the examples read off a parsed provider: the version, the title of the service,
the formats and the HTTP Get endpoints of GetMap and the names of the registered layers. -/
structure CapabilitiesSummary where
  version : QString
  title : QString
  formats : List QString
  endpoints : List QString
  layers : List QString
deriving DecidableEq

def ParserState.summary (st : ParserState) : CapabilitiesSummary :=
  { version := st.mCapabilities.version,
    title := st.mCapabilities.service.title,
    formats := st.mCapabilities.capability.request.getMap.format,
    endpoints := st.mCapabilities.capability.request.getMap.dcpType.map (fun dcp => dcp.httpGet),
    layers := st.mLayersSupported.map (fun l => l.data.name) }

/-! ## What a Layer element declares itself -/

/-- The CRS one child node of a Layer element declares: the parts of the text of an SRS or
CRS element. -/
def crsDeclaration (n1 : QDomNode) : List QString :=
  if n1.isElement && (stripWms n1.tagName == "SRS" || stripWms n1.tagName == "CRS") then
    qSplitSpaceRuns n1.text
  else []

/-- The CRS the children of a Layer element declare, in document order. -/
def declaredCrs (children : List QDomNode) : List QString :=
  children.flatMap crsDeclaration

/-- The style one child node of a Layer element declares. -/
def styleDeclaration (n1 : QDomNode) : List QgsWmsStyleProperty :=
  if n1.isElement && stripWms n1.tagName == "Style" then
    [parseStyle n1 { name := "", title := "", abstract := "" }]
  else []

/-- The styles the children of a Layer element declare, in document order. -/
def declaredStyles (children : List QDomNode) : List QgsWmsStyleProperty :=
  children.flatMap styleDeclaration

/-- The bounding box one child node of a Layer element declares. -/
def boundingBoxDeclaration (penv : ParserEnv) (n1 : QDomNode) : List QgsWmsBoundingBoxProperty :=
  if n1.isElement && stripWms n1.tagName == "BoundingBox" then
    (layerBoundingBox penv n1).toList
  else []

/-- The bounding boxes the children of a Layer element declare, in document order. -/
def declaredBoundingBoxes (penv : ParserEnv) (children : List QDomNode) :
    List QgsWmsBoundingBoxProperty :=
  children.flatMap (boundingBoxDeclaration penv)

/-- The geographic bounding box one child node of a Layer element declares: the one of a
LatLonBoundingBox, or of an EX_GeographicBoundingBox with four numbers. -/
def geographicDeclaration (penv : ParserEnv) (n1 : QDomNode) : Option QgsRectangle :=
  if n1.isElement && stripWms n1.tagName == "LatLonBoundingBox" then
    some (latLonBoundingBox penv n1)
  else if n1.isElement && stripWms n1.tagName == "EX_GeographicBoundingBox" then
    exGeographicBoundingBox penv n1
  else none

/-- The geographic bounding box the children of a Layer element declare: the last one in
document order, none where no child declares one. -/
def declaredGeographic (penv : ParserEnv) : List QDomNode → Option QgsRectangle
  | [] => none
  | n1 :: rest =>
    match declaredGeographic penv rest with
    | some box => some box
    | none => geographicDeclaration penv n1

/-- A bounding box in CRS:84 from its corners. -/
def bboxElem (minx miny maxx maxy : QString) : QDomNode :=
  .element "BoundingBox"
    [("CRS", "CRS:84"), ("minx", minx), ("miny", miny), ("maxx", maxx), ("maxy", maxy)] []

/-- The children of a Layer element named child that declares a CRS, a style and a
bounding box of its own. -/
def childLayerNodes : List QDomNode :=
  [ textElem "Name" "child", textElem "CRS" "EPSG:3857", elem "Style" [textElem "Name" "c"],
    bboxElem "-1" "-1" "1" "1" ]

/-- A layer above the child layer that declares the CRS EPSG:4326, the style p and a
bounding box. -/
def nestedLayerDocument : QDomNode :=
  elem "Layer"
    [ textElem "Title" "root", textElem "CRS" "EPSG:4326", bboxElem "-10" "-10" "10" "10",
      elem "Style" [textElem "Name" "p"], elem "Layer" childLayerNodes ]

/-- The members of the layer above at the nested Layer element: what the child layer
inherits. -/
def parentLayerData : QgsWmsLayerData :=
  { QgsWmsLayerData.empty with
    orderId := 0,
    title := "root",
    crs := ["EPSG:4326"],
    boundingBox := [{ crs := "CRS:84", box := { xmin := -10, ymin := -10, xmax := 10, ymax := 10 } }],
    style := [{ name := "p", title := "", abstract := "" }] }

/-! ## The limits of a matrix set link -/

/-- The limits a TileMatrixLimits element names (lines 3084-3087). -/
def limitsOfElement (penv : ParserEnv) (e3 : QDomNode) : QgsWmtsTileMatrixLimits :=
  { minTileRow := penv.toInt (textOf (e3.firstChildElement "MinTileRow")),
    maxTileRow := penv.toInt (textOf (e3.firstChildElement "MaxTileRow")),
    minTileCol := penv.toInt (textOf (e3.firstChildElement "MinTileCol")),
    maxTileCol := penv.toInt (textOf (e3.firstChildElement "MaxTileCol")) }

/-- Stated in the specification: the limits are validated, "0 ≤ min ≤ max <
matrix{Width,Height}", against the matrix of the linked set the identifier names (the
first one in the order of the resolutions). -/
@[reducible] def LimitsWithin (tms : QgsWmtsTileMatrixSet) (id : QString)
    (limit : QgsWmtsTileMatrixLimits) : Prop :=
  ∃ m, tms.tileMatrices.find? (fun m => m.2.identifier == id) = some m ∧
    (0 ≤ limit.minTileCol ∧ limit.minTileCol ≤ limit.maxTileCol ∧
      limit.maxTileCol < m.2.matrixWidth) ∧
    (0 ≤ limit.minTileRow ∧ limit.minTileRow ≤ limit.maxTileRow ∧
      limit.maxTileRow < m.2.matrixHeight)

/-- A TileMatrixLimits element. -/
def limitsElem (matrix minRow maxRow minCol maxCol : QString) : QDomNode :=
  elem "TileMatrixLimits"
    [ textElem "TileMatrix" matrix, textElem "MinTileRow" minRow, textElem "MaxTileRow" maxRow,
      textElem "MinTileCol" minCol, textElem "MaxTileCol" maxCol ]

/-- A TileMatrix element of 256 x 256 pixel tiles with the top left corner `( 0, 0 )`. -/
def matrixElem (identifier scaleDenominator matrixWidth matrixHeight : QString) : QDomNode :=
  elem "TileMatrix"
    [ textElem "ows:Identifier" identifier, textElem "ScaleDenominator" scaleDenominator,
      textElem "TopLeftCorner" "0 0", textElem "TileWidth" "256", textElem "TileHeight" "256",
      textElem "MatrixWidth" matrixWidth, textElem "MatrixHeight" matrixHeight ]

/-- The TileMatrixSet element g in EPSG:3857 with the matrices 0 (1 x 1 tiles) and 1 (2 x 2
tiles). -/
def matrixSetElement : QDomNode :=
  elem "TileMatrixSet"
    [ textElem "ows:Identifier" "g", textElem "ows:SupportedCRS" "EPSG:3857",
      matrixElem "0" "559082264" "1" "1", matrixElem "1" "279541132" "2" "2" ]

/-- The Contents of a WMTS document: the matrix set g; the layer A with a WGS84 bounding
box and two limits for the matrix 1 in its link to g, the second of them beyond the matrix;
the layer B without bounding box, linked to g; the layer C without bounding box and
without link. -/
def contentsElement : QDomNode :=
  elem "Contents"
    [ matrixSetElement,
      elem "Layer"
        [ textElem "ows:Identifier" "A",
          elem "ows:WGS84BoundingBox"
            [textElem "ows:LowerCorner" "-10 -20", textElem "ows:UpperCorner" "10 20"],
          elem "TileMatrixSetLink"
            [ textElem "TileMatrixSet" "g",
              elem "TileMatrixSetLimits"
                [limitsElem "1" "0" "1" "0" "0", limitsElem "1" "0" "2" "0" "1"] ] ],
      elem "Layer"
        [ textElem "ows:Identifier" "B",
          elem "TileMatrixSetLink" [textElem "TileMatrixSet" "g"] ],
      elem "Layer" [textElem "ows:Identifier" "C"] ]

/-- The matrix set g as the parser reads it. -/
def parsedMatrixSet : QgsWmtsTileMatrixSet :=
  wmtsTileMatrixSet samplePenv emptyState matrixSetElement

/-- The whole-world rectangle in CRS:84 (lines 3178-3179). -/
def worldBoundingBox : QgsWmsBoundingBoxProperty :=
  { crs := DEFAULT_LATLON_CRS, box := QgsRectangle.ofCorners (-180) (-90) 180 90 }

/-- A WMS 1.1.1 capabilities document with a WMS-C TileSet that names no bounding box. -/
def tileSetDocument : QDomNode :=
  .element "WMT_MS_Capabilities" [("version", "1.1.1")]
    [ elem "Capability"
        [ elem "VendorSpecificCapabilities"
            [ elem "TileSet"
                [ textElem "SRS" "EPSG:4326", textElem "Resolutions" "0.5 0.25",
                  textElem "Width" "256", textElem "Height" "256",
                  textElem "Format" "image/png", textElem "Layers" "L" ] ] ] ]

/-- The text of the TileSet document. -/
def tileSetXml : QString :=
  "<WMT_MS_Capabilities version=\"1.1.1\"><Capability><VendorSpecificCapabilities><TileSet>" ++
  "<SRS>EPSG:4326</SRS><Resolutions>0.5 0.25</Resolutions><Width>256</Width>" ++
  "<Height>256</Height><Format>image/png</Format><Layers>L</Layers></TileSet>" ++
  "</VendorSpecificCapabilities></Capability></WMT_MS_Capabilities>"

/-- The sample of what the parser takes from outside, for a reader that knows the TileSet
document. -/
def tileSetPenv : ParserEnv :=
  { samplePenv with
    setContent := fun xml =>
      if xml == tileSetXml then .ok tileSetDocument else samplePenv.setContent xml }

/-- The method `QgsRectangle::isEmpty` of the core library (not part of the sources at
hand): the rectangle has no width or no height. -/
def QgsRectangle.isEmpty (r : QgsRectangle) : Bool :=
  decide (r.xmax ≤ r.xmin) || decide (r.ymax ≤ r.ymin)

/-- The Contents of a WMTS document whose layer D names a WGS84 bounding box of one
point. -/
def pointContentsElement : QDomNode :=
  elem "Contents"
    [ elem "Layer"
        [ textElem "ows:Identifier" "D",
          elem "ows:WGS84BoundingBox"
            [textElem "ows:LowerCorner" "7 7", textElem "ows:UpperCorner" "7 7"] ] ]

/-! ## The extent of a layer that is not tiled -/

/-- Stated in the specification: a bounding box "strictly narrower" than the geographic
bounding box, contained in it and different from it. -/
def strictlyNarrower (box geographic : QgsRectangle) : Bool :=
  geographic.contains box && decide (box ≠ geographic)

/-- A layer L with the geographic bounding box `( 0, 0, 10, 10 )` and the CRS:84 bounding
box `( 5, 5, 20, 20 )`, which overlaps it. -/
def overlapLayer : QgsWmsLayerProperty :=
  .mk { QgsWmsLayerData.empty with
        name := "L",
        ex_GeographicBoundingBox := { xmin := 0, ymin := 0, xmax := 10, ymax := 10 },
        boundingBox := [{ crs := "CRS:84", box := { xmin := 5, ymin := 5, xmax := 20, ymax := 20 } }] }
    []

/-! ## Sample data for the redirects -/

/-- The reply to the sample tile request that redirects to the URL of the request itself. -/
def selfRedirectReply : QNetworkReply :=
  redirectReply sampleTileRequest sampleTileRequest.url

/-! ## The other requests of the provider -/

/-- The URL of the GetCapabilities request (lines 1456-1462). -/
def capabilitiesUrl (st : Provider) : QString :=
  if !qContains st.mBaseUrl "SERVICE=WMTS" && !qContains st.mBaseUrl "/WMTSCapabilities.xml" then
    st.mBaseUrl ++ "SERVICE=WMS&REQUEST=GetCapabilities"
  else st.mBaseUrl

/-- The request retrieveServerCapabilities dispatches (lines 1466-1472); the cache load
control PreferNetwork is the value `preferCache = false`. -/
def capabilitiesRequest (env : Env) (st : Provider) : QNetworkRequest :=
  { setAuthorization env st (QNetworkRequest.ofUrl (capabilitiesUrl st)) with
    preferCache := false, cacheSave := true }

/-- The request capabilitiesReplyFinished dispatches for a redirect to another URL (lines
1582-1589). -/
def capabilitiesRedirectRequest (env : Env) (st : Provider) (toUrl : QString) :
    QNetworkRequest :=
  { setAuthorization env st (QNetworkRequest.ofUrl toUrl) with
    preferCache := false, cacheSave := true }

/-- The slot cacheReplyFinished (lines 1359-1448) for the finished GetMap reply `reply`
(`mCacheReply`). The statement `p.drawImage( 0, 0, myLocalImage )` paints the image in its
own size at the origin, without the SmoothPixmapTransform hint. -/
def cacheReplyFinished (env : Env) (st : Provider) (reply : QNetworkReply) : Provider :=
  if !reply.error then
    match reply.redirect with
    | some target =>
      let request := QNetworkRequest.ofUrl target
      { st with mCacheReply := some request, sent := st.sent ++ [request] }
    | none =>
      if reply.status.isSome && decide (reply.status.getD 0 ≥ 400) then
        { st.logMessage ("Map request error (Status: " ++ qNumber (reply.status.getD 0) ++
            "; Reason phrase: " ++ reply.reasonPhrase ++ "; URL:" ++ reply.request.url ++ ")")
          with mCacheReply := none }
      else
        let text := reply.body
        let st1 : Provider :=
          match env.imageFromData text with
          | some myLocalImage =>
            { st with mCachedImage := st.mCachedImage.map (fun dest =>
                env.drawImage false dest
                  { x := 0, y := 0, w := myLocalImage.width, h := myLocalImage.height }
                  myLocalImage) }
          | none =>
            if qStartsWithCI reply.contentType "image/" ||
                reply.contentType.toLower == "application/octet-stream" then
              st.logMessage ("Returned image is flawed [Content-Type:" ++ reply.contentType ++
                "; URL:" ++ reply.request.url ++ "]")
            else
              let parsed :=
                if reply.contentType.toLower == "text/xml" then
                  env.parseServiceExceptionReportDom text
                else (false, none)
              let st2 := st.setServiceError parsed.2
              if parsed.1 then
                st2.logMessage ("Map request error (Title:" ++ st2.mErrorCaption ++
                  "; Error:" ++ st2.mError ++ "; URL: " ++ reply.request.url ++ ")")
              else
                st2.logMessage ("Map request error (Status: " ++
                  qNumber (reply.status.getD 0) ++ "; Response: " ++ text ++
                  "; Content-Type: " ++ reply.contentType ++ "; URL:" ++ reply.request.url ++
                  ")")
        let st3 := { st1 with mCacheReply := none }
        if !st3.mWaiting && (env.imageFromData text).isSome then
          { st3 with dataChangedCount := st3.dataChangedCount + 1 }
        else st3
  else
    let st1 := { st with mErrors := st.mErrors + 1 }
    let st2 :=
      if st1.mErrors < 100 then
        st1.logMessage ("Map request failed [error:" ++ reply.errorString ++ " url:" ++
          reply.request.url ++ "]")
      else if st1.mErrors = 100 then
        st1.logMessage "Not logging more than 100 request errors."
      else st1
    { st2 with mCacheReply := none }

/-- The GetFeatureInfo request identify dispatches for one visible and queryable sublayer
(lines 4300-4333). `myExtent`, `theWidth`, `theHeight` and `point` are the values identify
has worked out when it reaches the loop over the sublayers, `format` is the INFO_FORMAT and
`mFeatureCount` the member of that name. -/
def identifyRequest (env : Env) (st : Provider) (myExtent : QgsRectangle)
    (theWidth theHeight pointX pointY : Int) (layer style format : QString)
    (mFeatureCount : Int) : QNetworkRequest :=
  let requestUrl := QUrl.ofString st.mGetFeatureInfoUrlBase
  let requestUrl := setQueryItem requestUrl "SERVICE" "WMS"
  let requestUrl := setQueryItem requestUrl "VERSION" st.mCapabilities.version
  let requestUrl := setQueryItem requestUrl "REQUEST" "GetFeatureInfo"
  let requestUrl := setQueryItem requestUrl "BBOX" (viewBBox env st myExtent)
  let requestUrl := setQueryItem requestUrl (crsKey st) st.mImageCrs
  let requestUrl := setQueryItem requestUrl "WIDTH" (qNumber theWidth)
  let requestUrl := setQueryItem requestUrl "HEIGHT" (qNumber theHeight)
  let requestUrl := setQueryItem requestUrl "LAYERS" layer
  let requestUrl := setQueryItem requestUrl "STYLES" style
  let requestUrl := setQueryItem requestUrl "FORMAT" st.mImageMimeType
  let requestUrl := setQueryItem requestUrl "QUERY_LAYERS" layer
  let requestUrl := setQueryItem requestUrl "INFO_FORMAT" format
  let requestUrl :=
    if isVersion13 st then
      setQueryItem (setQueryItem requestUrl "I" (qNumber pointX)) "J" (qNumber pointY)
    else setQueryItem (setQueryItem requestUrl "X" (qNumber pointX)) "Y" (qNumber pointY)
  let requestUrl :=
    if mFeatureCount > 0 then setQueryItem requestUrl "FEATURE_COUNT" (qNumber mFeatureCount)
    else requestUrl
  setAuthorization env st (QNetworkRequest.ofUrl requestUrl.toString)

/-- The slot identifyReplyFinished (lines 4591-4652) for the finished GetFeatureInfo reply
`reply` (`mIdentifyReply`), as far as it concerns the members of `Provider`: the result
bodies and headers it stores are left out. `parserError` is the error of the
QgsNetworkReplyParser made from the reply, none when the parser is valid. -/
def identifyReplyFinished (st : Provider) (reply : QNetworkReply)
    (parserError : Option QString) : Provider :=
  if !reply.error then
    match reply.redirect with
    | some target =>
      { st with
        statusLog := st.statusLog ++ ["identify request redirected."],
        sent := st.sent ++ [QNetworkRequest.ofUrl target] }
    | none =>
      let st1 : Provider :=
        if reply.status.isSome && decide (reply.status.getD 0 ≥ 400) then
          let mError := "Map getfeatureinfo error " ++ qNumber (reply.status.getD 0) ++ ": " ++
            reply.reasonPhrase
          { st with mErrorFormat := "text/plain", mError := mError,
                    statusLog := st.statusLog ++ [mError] }
        else st
      match parserError with
      | some error =>
        let mError := "Cannot parse getfeatureinfo: " ++ error
        { st1 with mErrorFormat := "text/plain", mError := mError,
                   statusLog := st1.statusLog ++ [mError] }
      | none => st1
  else
    let mError := "Map getfeatureinfo error: " ++ reply.errorString ++ " [" ++
      reply.request.url ++ "]"
    { st with mErrorFormat := "text/plain", mError := mError,
              statusLog := st.statusLog ++ [mError],
              messageLog := st.messageLog ++ [mError] }

/-- The method `QUrl::hasQueryItem( key )`. -/
def QUrl.hasQueryItem (u : QUrl) (key : QString) : Bool :=
  u.query.any (fun kv => kv.1 == key)

/-- The request getLegendGraphic dispatches (lines 4795-4843) for the legend URL `lurl`
that getLegendGraphicUrl has found. `defaultLegendGraphicResolution` is the entry
"/qgis/defaultLegendGraphicResolution" of QSettings and `scale` the text
`QString::number( scale, 'f' )`. -/
def legendGraphicRequest (env : Env) (st : Provider) (lurl : QString)
    (defaultLegendGraphicResolution : Int) (scale : QString) : QNetworkRequest :=
  let setIfMissing (url : QUrl) (item value : QString) : QUrl :=
    if !url.hasQueryItem item then setQueryItem url item value else url
  let url := QUrl.ofString lurl
  let url := setIfMissing url "SERVICE" "WMS"
  let url := setIfMissing url "VERSION" st.mCapabilities.version
  let url := setIfMissing url "SLD_VERSION" "1.1.0"
  let url := setIfMissing url "REQUEST" "GetLegendGraphic"
  let url := setIfMissing url "FORMAT" st.mImageMimeType
  let url := setIfMissing url "LAYER" (st.mActiveSubLayers.getD 0 "")
  let url := setIfMissing url "STYLE" (st.mActiveSubStyles.getD 0 "")
  let url :=
    if defaultLegendGraphicResolution != 0 then
      let u1 :=
        if st.mDpiMode.dpiQGIS then
          setQueryItem url "DPI" (qNumber defaultLegendGraphicResolution)
        else url
      let u2 :=
        if st.mDpiMode.dpiUMN then
          setQueryItem
            (setQueryItem u1 "MAP_RESOLUTION" (qNumber defaultLegendGraphicResolution))
            "SCALE" scale
        else u1
      if st.mDpiMode.dpiGeoServer then
        setQueryItem
          (setQueryItem u2 "FORMAT_OPTIONS"
            ("dpi:" ++ qNumber defaultLegendGraphicResolution))
          "SCALE" scale
      else u2
    else url
  { setAuthorization env st (QNetworkRequest.ofUrl url.toString) with
    preferCache := false, cacheSave := true }

/-- The request getLegendGraphicReplyFinished dispatches for a redirect to another URL
(lines 4882-4889). -/
def legendGraphicRedirectRequest (env : Env) (st : Provider) (toUrl : QString) :
    QNetworkRequest :=
  { setAuthorization env st (QNetworkRequest.ofUrl toUrl) with
    preferCache := false, cacheSave := true }

/-- Stated in the specification: a request carries the header "Authorization: Basic
base64(user:pass)" if and only if credentials are present (a user name or a password is
set), and the header Referer if and only if a referer is present. -/
@[reducible] def carriesCredentials (env : Env) (st : Provider) (request : QNetworkRequest) :
    Prop :=
  request.rawHeaders.lookup "Authorization"
      = (if st.mUserName.isSome || st.mPassword.isSome then
          some ("Basic " ++ env.toBase64 (st.mUserName.getD "" ++ ":" ++ st.mPassword.getD ""))
        else none) ∧
    request.rawHeaders.lookup "Referer" = st.mReferer

/-- The sample provider with the user name u, the password p and the referer
http://r/. -/
def credentialsProvider : Provider :=
  { sampleProvider with mUserName := some "u", mPassword := some "p",
                        mReferer := some "http://r/" }

/-- The provider with credentials after the dispatch of the GetMap request for the square
view at 256 x 256 pixels. -/
def credentialsDrawn : Provider :=
  drawMap sampleEnv credentialsProvider squareView 256 256

/-- The reply that redirects the GetMap request of the provider with credentials to
http://t/wms?. -/
def mapRedirectReply : QNetworkReply :=
  redirectReply (credentialsDrawn.mCacheReply.getD (QNetworkRequest.ofUrl "")) "http://t/wms?"

/-! ## Service exception reports -/

/-- The method parseServiceException (lines 3299-3377): the text it composes in `mError`;
`mErrorCaption` becomes "Service Exception" and `mErrorFormat` "text/plain". -/
def parseServiceException (e : QDomNode) : QString :=
  let seCode := e.attribute "code"
  let seText := e.text
  let mError : QString :=
    if seCode == "InvalidFormat" then
      "Request contains a format not offered by the server."
    else if seCode == "InvalidCRS" then
      "Request contains a CRS not offered by the server for one or more of the Layers in " ++
      "the request."
    else if seCode == "InvalidSRS" then
      "Request contains a SRS not offered by the server for one or more of the Layers in " ++
      "the request."
    else if seCode == "LayerNotDefined" then
      "GetMap request is for a Layer not offered by the server, " ++
      "or GetFeatureInfo request is for a Layer not shown on the map."
    else if seCode == "StyleNotDefined" then
      "Request is for a Layer in a Style not offered by the server."
    else if seCode == "LayerNotQueryable" then
      "GetFeatureInfo request is applied to a Layer which is not declared queryable."
    else if seCode == "InvalidPoint" then
      "GetFeatureInfo request contains invalid X or Y value."
    else if seCode == "CurrentUpdateSequence" then
      "Value of (optional) UpdateSequence parameter in GetCapabilities request is equal to " ++
      "current value of service metadata update sequence number."
    else if seCode == "InvalidUpdateSequence" then
      "Value of (optional) UpdateSequence parameter in GetCapabilities request is greater " ++
      "than current value of service metadata update sequence number."
    else if seCode == "MissingDimensionValue" then
      "Request does not include a sample dimension value, and the server did not declare a " ++
      "default value for that dimension."
    else if seCode == "InvalidDimensionValue" then
      "Request contains an invalid sample dimension value."
    else if seCode == "OperationNotSupported" then
      "Request is for an optional operation that is not supported by the server."
    else if seCode.isEmpty then "(No error code was reported)"
    else seCode ++ " " ++ "(Unknown error code)"
  mError ++ "\n" ++ "The WMS vendor also reported: " ++ seText

/-- The method parseServiceExceptionReportDom (lines 3231-3296) of a provider with the base
URL `mBaseUrl`: its return value and, when it assigns them, the new
`( mErrorCaption, mError )`, as `Env.parseServiceExceptionReportDom` has them. -/
def parseServiceExceptionReportDom (penv : ParserEnv) (mBaseUrl : QString) (xml : QString) :
    Bool × Option (QString × QString) :=
  match penv.setContent xml with
  | .error (errorMsg, errorLine, errorColumn) =>
    (false, some ("Dom Exception",
      "Could not get WMS Service Exception at " ++ mBaseUrl ++ ": " ++ errorMsg ++
      " at line " ++ qNumber errorLine ++ " column " ++ qNumber errorColumn ++
      "\n\nResponse was:\n\n" ++ xml))
  | .ok docElem =>
    (true, docElem.childNodes.foldl (fun ce n =>
      if n.isElement && stripWms n.tagName == "ServiceException" then
        some ("Service Exception", parseServiceException n)
      else ce) none)

/-- A service exception report: the server does not offer the format asked for. -/
def exceptionDocument : QDomNode :=
  elem "ServiceExceptionReport"
    [ .element "ServiceException" [("code", "InvalidFormat")] [.chars "no such format"] ]

/-- The text of the service exception report. -/
def exceptionXml : QString :=
  "<ServiceExceptionReport><ServiceException code=\"InvalidFormat\">no such format" ++
  "</ServiceException></ServiceExceptionReport>"

/-- The sample of what the parser takes from outside, for a reader that knows the service
exception report. -/
def exceptionPenv : ParserEnv :=
  { samplePenv with
    setContent := fun xml =>
      if xml == exceptionXml then .ok exceptionDocument else samplePenv.setContent xml }

/-- The capabilities response of the sample provider. -/
def sampleCapabilitiesResponse : QString := "<WMT_MS_Capabilities version=\"1.1.1\"/>"

/-- The sample environment with the parser of service exception reports of the sample
provider and a server whose capabilities can be fetched. -/
def exceptionEnv : Env :=
  { sampleEnv with
    parseServiceExceptionReportDom :=
      parseServiceExceptionReportDom exceptionPenv sampleProvider.mBaseUrl,
    fetchCapabilities := fun st =>
      (true, { st with mHttpCapabilitiesResponse := some sampleCapabilitiesResponse,
                       mError := "" }) }

/-- The sample provider in generation 1 before its first capabilities request. -/
def unfetchedProvider : Provider :=
  { freshProvider with mHttpCapabilitiesResponse := none }

/-- The reply to the sample tile request that carries the service exception report. -/
def exceptionReply : QNetworkReply :=
  { request := sampleTileRequest, error := false, errorString := "", redirect := none,
    status := some 200, reasonPhrase := "OK", contentType := "text/xml", body := exceptionXml,
    fromCache := false }

/-! ## Stated rules and sample data for the ows:Operation elements -/

/-- The element `get` of the branch ows:Operation of parseCapability (lines 1853-1855): the
ows:Get element below ows:DCP and ows:HTTP of the operation. -/
def owsGetElement (n1 : QDomNode) : Option QDomNode :=
  firstChildElementOf (firstChildElementOf (n1.firstChildElement "ows:DCP") "ows:HTTP") "ows:Get"

/-- The ows:AllowedValues element below the ows:Constraint of a Get element. -/
def owsAllowedValues (get : Option QDomNode) : Option QDomNode :=
  firstChildElementOf (firstChildElementOf get "ows:Constraint") "ows:AllowedValues"

/-- Stated in the specification: the allowed encodings of an operation are the texts of all
ows:Value elements under the ows:Constraint/ows:AllowedValues of its Get element, in
document order. -/
def statedAllowedEncodings (get : Option QDomNode) : List QString :=
  match owsAllowedValues get with
  | none => []
  | some allowed => (allowed.childElements "ows:Value").map QDomNode.text

/-- An ows:Operation named `name` with the HTTP Get endpoint `href` that allows the
encodings `values`. -/
def owsOperation (name href : QString) (values : List QString) : QDomNode :=
  .element "ows:Operation" [("name", name)]
    [ elem "ows:DCP"
        [ elem "ows:HTTP"
            [ .element "ows:Get" [("xlink:href", href)]
                [ .element "ows:Constraint" [("name", "GetEncoding")]
                    [ elem "ows:AllowedValues" (values.map (textElem "ows:Value")) ] ] ] ] ]

/-- An ows:OperationsMetadata element whose operation GetTile allows the two encodings KVP
and RESTful. -/
def twoEncodingsMetadata : QDomNode :=
  elem "ows:OperationsMetadata" [owsOperation "GetTile" "http://s/wmts" ["KVP", "RESTful"]]

/-- The text of the ows:OperationsMetadata element with two encodings, in a WMTS
capabilities document. -/
def twoEncodingsXml : QString :=
  "<Capabilities version=\"1.0.0\"><ows:OperationsMetadata>" ++
  "<ows:Operation name=\"GetTile\"><ows:DCP><ows:HTTP><ows:Get xlink:href=\"http://s/wmts\">" ++
  "<ows:Constraint name=\"GetEncoding\"><ows:AllowedValues><ows:Value>KVP</ows:Value>" ++
  "<ows:Value>RESTful</ows:Value></ows:AllowedValues></ows:Constraint></ows:Get></ows:HTTP>" ++
  "</ows:DCP></ows:Operation></ows:OperationsMetadata></Capabilities>"

/-- The ows:OperationsMetadata element of the loop document: an ows:Value element follows
the ows:Operation GetTile as its sibling. -/
def loopMetadata : QDomNode :=
  elem "ows:OperationsMetadata" [loopOperation, textElem "ows:Value" "x"]

/-! ## The construction of a provider -/

/-- The class QgsDataSourceURI of the core library (not part of the sources at hand) after
`setEncodedUri( uriString )`, by its three accessors: `param( key )` (none is the null
QString of a missing parameter), `params( key )` and `hasParam( key )`. -/
structure QgsDataSourceURI where
  param : QString → Option QString
  params : QString → List QString
  hasParam : QString → Bool

/-- The source URI that holds the parameters `items`, in their order. -/
def QgsDataSourceURI.ofItems (items : List (QString × QString)) : QgsDataSourceURI :=
  { param := fun key => items.lookup key,
    params := fun key => (items.filter (fun kv => kv.1 == key)).map Prod.snd,
    hasParam := fun key => items.any (fun kv => kv.1 == key) }

/-- The method `QgsRectangle::combineExtentWith( rect )` of the core library (not part of
the sources at hand): the smallest rectangle that holds both. -/
def QgsRectangle.combineExtentWith (r rect : QgsRectangle) : QgsRectangle :=
  { xmin := min r.xmin rect.xmin, ymin := min r.ymin rect.ymin,
    xmax := max r.xmax rect.xmax, ymax := max r.ymax rect.ymax }

/-- The object QgsWmsProvider as its constructor and its layer methods see it: the members
draw and the reply handlers use (`provider`), the members the capabilities parser fills
(`parsed`) and the further members these methods write. `mCoordinateTransform` holds the
source and the destination CRS the transform was made from, `resolutions` is the property
of that name and `errors` lists the texts given to appendError. -/
structure WmsSource where
  provider : Provider
  parsed : ParserState
  mValid : Bool
  mExtentDirty : Bool
  mHttpUri : QString
  mTileMatrixSetId : QString
  mFeatureCount : Int
  mCrs : QString
  mCoordinateTransform : Option (QString × QString)
  resolutions : List ℚ
  errors : List QString

/-- What the download and parse branch of retrieveServerCapabilities (lines 1456-1552)
leaves behind: `ok` is false when the branch leaves with `return false`; the members it
may write follow (the error members, the response, the capabilities as draw reads them and
the members the parser fills), then the requests it has dispatched and the texts it has
logged and signalled. -/
structure CapabilitiesFetch where
  ok : Bool
  mHttpCapabilitiesResponse : Option QString
  mErrorCaption : QString
  mErrorFormat : QString
  mError : QString
  mCapabilities : QgsWmsCapabilitiesProperty
  parsed : ParserState
  sent : List QNetworkRequest
  messageLog : List QString
  statusLog : List QString

/-- What the construction of a provider takes from outside: the collaborators of draw and
of the parser, the download and parse branch of retrieveServerCapabilities, the cast
`( QgsWmsDpiMode ) n` and the value dpiAll of the enum QgsWmsDpiMode (declared in
qgswmsprovider.h, which is not part of the sources at hand), and the members `mDpi` and
`mWaiting` as they are when the body of the constructor starts. -/
structure SourceEnv where
  env : Env
  penv : ParserEnv
  fetchCapabilities : WmsSource → CapabilitiesFetch
  dpiModeOfInt : Int → QgsWmsDpiMode
  dpiAll : QgsWmsDpiMode
  mDpi : Int
  mWaiting : Bool

/-- The call `appendError( ERR( message ) )`. -/
def WmsSource.appendError (src : WmsSource) (message : QString) : WmsSource :=
  { src with errors := src.errors ++ [message] }

/-- The provider after the download and parse branch of retrieveServerCapabilities. -/
def WmsSource.fetched (src : WmsSource) (f : CapabilitiesFetch) : WmsSource :=
  { src with
    provider := { src.provider with
      mHttpCapabilitiesResponse := f.mHttpCapabilitiesResponse,
      mErrorCaption := f.mErrorCaption,
      mErrorFormat := f.mErrorFormat,
      mError := f.mError,
      mCapabilities := f.mCapabilities,
      sent := src.provider.sent ++ f.sent,
      messageLog := src.provider.messageLog ++ f.messageLog,
      statusLog := src.provider.statusLog ++ f.statusLog },
    parsed := f.parsed }

/-- The method retrieveServerCapabilities (lines 1450-1558) on the whole object. -/
def WmsSource.retrieveServerCapabilities (senv : SourceEnv) (src : WmsSource)
    (forceRefresh : Bool) : Bool × WmsSource :=
  if src.provider.mHttpCapabilitiesResponse.isNone || forceRefresh then
    let f := senv.fetchCapabilities src
    if !f.ok then (false, src.fetched f)
    else ((src.fetched f).provider.mError.isEmpty, src.fetched f)
  else (src.provider.mError.isEmpty, src)

/-- The method addLayers (lines 407-437). -/
def addLayers (src : WmsSource) (layers styles : List QString) : WmsSource :=
  if layers.length != styles.length then
    { src with
      provider := src.provider.logMessage "Number of layers and styles don't match",
      mValid := false }
  else
    { src with
      provider := { src.provider with
        mActiveSubLayers := src.provider.mActiveSubLayers ++ layers,
        mActiveSubStyles := src.provider.mActiveSubStyles ++ styles,
        mActiveSubLayerVisibility :=
          layers.foldl (fun visibility layer => mapInsert layer true visibility)
            src.provider.mActiveSubLayerVisibility,
        mTileLayer := if src.provider.mTiled then none else src.provider.mTileLayer },
      mExtentDirty := true }

/-- The map `styleMap` of setLayerOrder (lines 454-458): the style of each active layer; a
layer that is active twice keeps the style of its last place. -/
def styleMapOf (layers styles : List QString) : List (QString × QString) :=
  (layers.zip styles).foldl (fun styleMap ls => mapInsert ls.1 ls.2 styleMap) []

/-- The method setLayerOrder (lines 444-477), for active lists of the same length. -/
def setLayerOrder (src : WmsSource) (layers : List QString) : WmsSource :=
  if layers.length != src.provider.mActiveSubLayers.length then src
  else
    let styleMap := styleMapOf src.provider.mActiveSubLayers src.provider.mActiveSubStyles
    if layers.any (fun layer => (styleMap.lookup layer).isNone) then src
    else
      { src with
        provider := { src.provider with
          mActiveSubLayers := layers,
          mActiveSubStyles := layers.map (fun layer => (styleMap.lookup layer).getD "") } }

/-- The method setImageEncoding (lines 498-502). -/
def setImageEncoding (src : WmsSource) (mimeType : QString) : WmsSource :=
  { src with provider := { src.provider with mImageMimeType := mimeType } }

/-- The loop of setImageCrs over the supported tile layers (lines 543-572): the tile layer
it selects and the identifier of the matrix set after it. -/
def selectTileLayer (layer mImageCrs : QString)
    (mTileMatrixSets : List (QString × QgsWmtsTileMatrixSet)) :
    List QgsWmtsTileLayer → QString → Option QgsWmtsTileLayer × QString
  | [], mTileMatrixSetId => (none, mTileMatrixSetId)
  | tl :: rest, mTileMatrixSetId =>
    if tl.identifier != layer then
      selectTileLayer layer mImageCrs mTileMatrixSets rest mTileMatrixSetId
    else if mTileMatrixSetId.isEmpty && tl.setLinks.length == 1 then
      let tms := (tl.setLinks.map Prod.fst).getD 0 ""
      match mTileMatrixSets.lookup tms with
      | none => selectTileLayer layer mImageCrs mTileMatrixSets rest mTileMatrixSetId
      | some set =>
        if set.crs != mImageCrs then
          selectTileLayer layer mImageCrs mTileMatrixSets rest mTileMatrixSetId
        else (some tl, tms)
    else (some tl, mTileMatrixSetId)

/-- The method setImageCrs (lines 505-600). -/
def setImageCrs (senv : SourceEnv) (src0 : WmsSource) (crs : QString) : Bool × WmsSource :=
  let src : WmsSource :=
    if crs != src0.provider.mImageCrs && !crs.isEmpty then
      { src0 with
        provider := { src0.provider with mImageCrs := crs },
        mCoordinateTransform := none,
        mExtentDirty := true }
    else src0
  if src.provider.mTiled then
    if src.provider.mActiveSubLayers.length != 1 then
      (false, src.appendError "Number of tile layers must be one")
    else
      match src.retrieveServerCapabilities senv false with
      | (false, src1) => (false, src1)
      | (true, src1) =>
        if src1.parsed.mTileLayersSupported.length == 0 then
          (false, src1.appendError "Tile layer not found")
        else
          let selected := selectTileLayer (src1.provider.mActiveSubLayers.getD 0 "")
            src1.provider.mImageCrs src1.parsed.mTileMatrixSets
            src1.parsed.mTileLayersSupported src1.mTileMatrixSetId
          let mTileLayer : Option QgsWmtsTileLayer :=
            match selected.1 with
            | some tl => some tl
            | none => src1.provider.mTileLayer
          let mTileMatrixSet := src1.parsed.mTileMatrixSets.lookup selected.2
          let src2 : WmsSource :=
            { src1 with
              provider := { src1.provider with
                mTileLayer := mTileLayer, mTileMatrixSet := mTileMatrixSet },
              mTileMatrixSetId := selected.2,
              resolutions :=
                match mTileMatrixSet with
                | some set => set.tileMatrices.map Prod.fst
                | none => [] }
          if mTileLayer.isNone || mTileMatrixSet.isNone then
            (false, src2.appendError "Tile layer or tile matrix set not found")
          else (true, src2)
  else (true, src)

/-- One entry of the parameter tileDimensions (lines 196-208): `name=value` or `name`;
another text is skipped. -/
def insertTileDimension (values : List (QString × QString)) (param : List Char) :
    List (QString × QString) :=
  match splitChars '=' param with
  | [name] => mapInsert (String.mk name) "" values
  | [name, value] => mapInsert (String.mk name) (String.mk value) values
  | _ => values

/-- Lines 145-172 of parseUri: the members taken from the parameters of the URI before the
layers are added. -/
def parseUriMembers (senv : SourceEnv) (src0 : WmsSource) (uri : QgsDataSourceURI) :
    WmsSource :=
  { src0 with
    provider := { src0.provider with
      mTiled := false,
      mTileMatrixSet := none,
      mTileLayer := none,
      mTileDimensionValues := [],
      mMaxWidth := 0,
      mMaxHeight := 0,
      mBaseUrl := prepareUri ((uri.param "url").getD ""),
      mIgnoreGetMapUrl := uri.hasParam "IgnoreGetMapUrl",
      mIgnoreGetFeatureInfoUrl := uri.hasParam "IgnoreGetFeatureInfoUrl",
      mIgnoreAxisOrientation := uri.hasParam "IgnoreAxisOrientation",
      mInvertAxisOrientation := uri.hasParam "InvertAxisOrientation",
      mSmoothPixmapTransform := uri.hasParam "SmoothPixmapTransform",
      mDpiMode :=
        if uri.hasParam "dpiMode" then
          senv.dpiModeOfInt (senv.penv.toInt ((uri.param "dpiMode").getD ""))
        else senv.dpiAll,
      mUserName := uri.param "username",
      mPassword := uri.param "password",
      mReferer := uri.param "referer" },
    mHttpUri := (uri.param "url").getD "" }

/-- Lines 177-181 of parseUri: the parameters maxWidth and maxHeight. -/
def parseUriMaxSize (senv : SourceEnv) (src : WmsSource) (uri : QgsDataSourceURI) :
    WmsSource :=
  if uri.hasParam "maxWidth" && uri.hasParam "maxHeight" then
    { src with provider := { src.provider with
        mMaxWidth := senv.penv.toInt ((uri.param "maxWidth").getD ""),
        mMaxHeight := senv.penv.toInt ((uri.param "maxHeight").getD "") } }
  else src

/-- Lines 183-189 of parseUri: the parameter tileMatrixSet. -/
def parseUriTileMatrixSet (src : WmsSource) (uri : QgsDataSourceURI) : WmsSource :=
  if uri.hasParam "tileMatrixSet" then
    { src with
      provider := { src.provider with mTiled := true },
      mTileMatrixSetId := (uri.param "tileMatrixSet").getD "" }
  else src

/-- Lines 191-210 of parseUri: the parameter tileDimensions. -/
def parseUriTileDimensions (src : WmsSource) (uri : QgsDataSourceURI) : WmsSource :=
  if uri.hasParam "tileDimensions" then
    { src with provider := { src.provider with
        mTiled := true,
        mTileDimensionValues :=
          (splitChars ';' ((uri.param "tileDimensions").getD "").data).foldl
            insertTileDimension src.provider.mTileDimensionValues } }
  else src

/-- Lines 145-210 of parseUri: the provider when setImageCrs is called. -/
def parseUriParameters (senv : SourceEnv) (src0 : WmsSource) (uri : QgsDataSourceURI) :
    WmsSource :=
  let src := addLayers (parseUriMembers senv src0 uri) (uri.params "layers")
    (uri.params "styles")
  let src := setImageEncoding src ((uri.param "format").getD "")
  parseUriTileDimensions (parseUriTileMatrixSet (parseUriMaxSize senv src uri) uri) uri

/-- The method parseUri (lines 139-223) for the decoded source URI `uri`. -/
def parseUri (senv : SourceEnv) (src0 : WmsSource) (uri : QgsDataSourceURI) :
    Bool × WmsSource :=
  match setImageCrs senv (parseUriParameters senv src0 uri) ((uri.param "crs").getD "") with
  | (false, src) => (false, src.appendError "Cannot set CRS")
  | (true, src) =>
    (true, { src with
      mCrs := (uri.param "crs").getD "",
      mFeatureCount := senv.penv.toInt ((uri.param "featureCount").getD "") })

/-- The loop of calculateExtent over the active sublayers (lines 3482-3513): the layer
extent after it; `firstLayer` tells that no layer has given an extent yet. -/
def combineLayerExtents (penv : ParserEnv) (root : QgsWmsLayerProperty) (mImageCrs : QString) :
    List QString → Bool → QgsRectangle → QgsRectangle
  | [], _, mLayerExtent => mLayerExtent
  | layer :: rest, firstLayer, mLayerExtent =>
    match extentForNonTiledLayer penv root layer mImageCrs QgsRectangle.null with
    | (false, _) => combineLayerExtents penv root mImageCrs rest firstLayer mLayerExtent
    | (true, extent) =>
      combineLayerExtents penv root mImageCrs rest false
        (if firstLayer then extent else mLayerExtent.combineExtentWith extent)

/-- The method calculateExtent (lines 3421-3518). -/
def calculateExtent (senv : SourceEnv) (src0 : WmsSource) : Bool × WmsSource :=
  match src0.retrieveServerCapabilities senv false with
  | (false, src) => (false, src)
  | (true, src) =>
    let transform : QString × QString :=
      match src.mCoordinateTransform with
      | some t => t
      | none =>
        (match src.provider.mTiled, src.provider.mTileLayer with
          | true, some tl => tl.boundingBox.crs
          | _, _ => DEFAULT_LATLON_CRS,
         src.provider.mImageCrs)
    let src1 := { src with mCoordinateTransform := some transform }
    if src1.provider.mTiled then
      match src1.provider.mTileLayer with
      | some tl =>
        match senv.penv.transformBoundingBox transform.1 transform.2 tl.boundingBox.box with
        | some extent =>
          if senv.penv.isFinite extent then
            (true, { src1 with provider := { src1.provider with mLayerExtent := extent } })
          else (false, src1)
        | none => (false, src1)
      | none => (false, src1)
    else
      (true, { src1 with provider := { src1.provider with
        mLayerExtent :=
          combineLayerExtents senv.penv src1.parsed.mCapabilities.capability.layer
            src1.provider.mImageCrs src1.provider.mActiveSubLayers true
            src1.provider.mLayerExtent } })

/-- The members of a provider when the body of its constructor starts (lines 81-108):
the values of the initialiser list, and default constructed members otherwise. -/
def WmsSource.initial (senv : SourceEnv) (uri : QString) : WmsSource :=
  { provider :=
      { mBaseUrl := "",
        mIgnoreGetMapUrl := false,
        mIgnoreGetFeatureInfoUrl := false,
        mIgnoreAxisOrientation := false,
        mInvertAxisOrientation := false,
        mSmoothPixmapTransform := false,
        mDpiMode := senv.dpiAll,
        mDpi := senv.mDpi,
        mUserName := none,
        mPassword := none,
        mReferer := none,
        mActiveSubLayers := [],
        mActiveSubStyles := [],
        mActiveSubLayerVisibility := [],
        mImageMimeType := "",
        mImageCrs := DEFAULT_LATLON_CRS,
        mMaxWidth := 0,
        mMaxHeight := 0,
        mTiled := false,
        mTileLayer := none,
        mTileMatrixSet := none,
        mTileDimensionValues := [],
        mLayerExtent := QgsRectangle.null,
        mHttpCapabilitiesResponse := none,
        mCapabilities :=
          { version := "",
            request := { getMap := emptyOperation, getFeatureInfo := emptyOperation,
                         getTile := emptyOperation, getLegendGraphic := emptyOperation } },
        mErrorCaption := "",
        mErrorFormat := "",
        mError := "",
        mGetFeatureInfoUrlBase := "",
        mCachedImage := none,
        mCachedViewExtent := QgsRectangle.null,
        mCachedViewWidth := 0,
        mCachedViewHeight := 0,
        mCacheReply := none,
        mTileReplies := [],
        mTileReqNo := 0,
        mCacheHits := 0,
        mCacheMisses := 0,
        mErrors := 0,
        mWaiting := senv.mWaiting,
        sent := [],
        messageLog := [],
        messageBoxes := [],
        statusLog := [],
        dataChangedCount := 0 },
    parsed := emptyState,
    mValid := false,
    mExtentDirty := true,
    mHttpUri := uri,
    mTileMatrixSetId := "",
    mFeatureCount := 0,
    mCrs := "",
    mCoordinateTransform := none,
    resolutions := [],
    errors := [] }

/-- The constructor of QgsWmsProvider (lines 81-137) for the source URI `uriString`, which
QgsDataSourceURI decodes to `uri`. -/
def construct (senv : SourceEnv) (uriString : QString) (uri : QgsDataSourceURI) : WmsSource :=
  match parseUri senv (WmsSource.initial senv uriString) uri with
  | (false, src) => src.appendError "Cannot parse URI"
  | (true, src) =>
    match calculateExtent senv src with
    | (ok, src1) =>
      if !ok || src1.provider.mLayerExtent.isEmpty then
        src1.appendError "Cannot calculate extent"
      else { src1 with mValid := true }

/-- The method isValid (lines 3392-3395). -/
def WmsSource.isValid (src : WmsSource) : Bool := src.mValid

/-- What a method leaves of the validity flag, the active lists, the layer extent and the
tiled mode of the provider `a` in the provider `b`: all of them. -/
def KeepsLayers (a b : WmsSource) : Prop :=
  b.mValid = a.mValid ∧
  b.provider.mActiveSubLayers = a.provider.mActiveSubLayers ∧
  b.provider.mActiveSubStyles = a.provider.mActiveSubStyles ∧
  b.provider.mLayerExtent = a.provider.mLayerExtent ∧
  b.provider.mTiled = a.provider.mTiled

/-- A sample of what the construction takes from outside: the sample collaborators, all
DPI modes, and a server whose capabilities hold the layer L of the overlap example. -/
def sampleSourceEnv : SourceEnv :=
  { env := sampleEnv,
    penv := samplePenv,
    fetchCapabilities := fun src =>
      { ok := true,
        mHttpCapabilitiesResponse := some "<WMT_MS_Capabilities version=\"1.1.1\"/>",
        mErrorCaption := src.provider.mErrorCaption,
        mErrorFormat := src.provider.mErrorFormat,
        mError := "",
        mCapabilities := { src.provider.mCapabilities with version := "1.1.1" },
        parsed :=
          { src.parsed with
            mCapabilities :=
              { src.parsed.mCapabilities with
                version := "1.1.1",
                capability :=
                  { src.parsed.mCapabilities.capability with layer := overlapLayer } } },
        sent := [],
        messageLog := [],
        statusLog := [] },
    dpiModeOfInt := fun n =>
      { dpiQGIS := n % 2 == 1, dpiUMN := (n / 2) % 2 == 1, dpiGeoServer := (n / 4) % 2 == 1 },
    dpiAll := { dpiQGIS := true, dpiUMN := true, dpiGeoServer := true },
    mDpi := -1,
    mWaiting := false }

/-- The parameters of the source URI
`url=http://s/wms&layers=L&styles=&format=image/png&crs=CRS:84` followed by `more`. -/
def sampleUriItems (more : List (QString × QString)) : List (QString × QString) :=
  [("url", "http://s/wms"), ("layers", "L"), ("styles", ""), ("format", "image/png"),
   ("crs", "CRS:84")] ++ more

/-- The sample source URI with `maxWidth=256&maxHeight=0`. -/
def zeroHeightUri : QgsDataSourceURI :=
  QgsDataSourceURI.ofItems (sampleUriItems [("maxWidth", "256"), ("maxHeight", "0")])

/-- The sample source URI with `maxWidth=-256&maxHeight=-256`. -/
def negativeSizeUri : QgsDataSourceURI :=
  QgsDataSourceURI.ofItems (sampleUriItems [("maxWidth", "-256"), ("maxHeight", "-256")])

/-- A source URI with two layers and one style:
`url=http://s/wms&layers=L&layers=M&styles=&format=image/png&crs=CRS:84`. -/
def mismatchedUri : QgsDataSourceURI :=
  QgsDataSourceURI.ofItems
    [("url", "http://s/wms"), ("layers", "L"), ("layers", "M"), ("styles", ""),
     ("format", "image/png"), ("crs", "CRS:84")]

/-- The same source URI in tiled mode, with `tileMatrixSet=g`. -/
def mismatchedTiledUri : QgsDataSourceURI :=
  QgsDataSourceURI.ofItems
    [("url", "http://s/wms"), ("layers", "L"), ("layers", "M"), ("styles", ""),
     ("format", "image/png"), ("crs", "CRS:84"), ("tileMatrixSet", "g")]

/-- The test of line 679 of draw: the view is fetched with one GetMap request. -/
def drawsUntiled (st : Provider) : Bool :=
  !st.mTiled && decide (st.mMaxWidth = 0) && decide (st.mMaxHeight = 0)

/-- The provider of the sample source URI with `maxWidth=256&maxHeight=0`. -/
def zeroHeightProvider : Provider :=
  (construct sampleSourceEnv "url=http://s/wms&layers=L&styles=&format=image/png&crs=CRS:84&maxWidth=256&maxHeight=0"
    zeroHeightUri).provider

/-- A provider with the active layers a and b in the styles s and t. -/
def twoLayerSource : WmsSource :=
  addLayers (WmsSource.initial sampleSourceEnv "") ["a", "b"] ["s", "t"]

/-! ## Samples for the tile matrix selection, the covering range and the tile number -/

/-- A matrix set of the resolutions `2 ^ -60` and 2. -/
def roundingMatrices : List (ℚ × QgsWmtsTileMatrix) :=
  [(1 / 2 ^ 60, fineMatrix), (2, coarseMatrix)]

/-- The sample tile layer with TileMatrixLimits for the matrix "fine": the rows and the
columns 1 to 2. -/
def limitedTileLayer : QgsWmtsTileLayer :=
  { tileMode := QgsTileMode.WMTS,
    identifier := "L",
    boundingBox := { crs := "EPSG:4326", box := { xmin := 0, ymin := -16384, xmax := 16384, ymax := 0 } },
    setLinks :=
      [("g", { tileMatrixSet := "g",
               limits := [("fine", { minTileRow := 1, maxTileRow := 2,
                                     minTileCol := 1, maxTileCol := 2 })] })],
    getTileURLs := sampleTileLayer.getTileURLs }

/-- The tiled sample provider on the layer with TileMatrixLimits. -/
def limitedProvider : Provider :=
  { tiledProvider with mTileLayer := some limitedTileLayer }

/-- The plan of draw for the provider with TileMatrixLimits and the nine tile view at 600
pixels. -/
def limitedPlan : TilePlan :=
  { tres := 1, tm := fineMatrix, tileMode := QgsTileMode.WMTS, twMap := 256, thMap := 256,
    limits := { minTileRow := 1, maxTileRow := 2, minTileCol := 1, maxTileCol := 2 },
    range := { col0 := 1, row0 := 1, col1 := 2, row1 := 2 } }

/-- A view that reaches from the column 5 of the coarse matrix to the map coordinate
`2 ^ 40`, which lies in the column `2 ^ 31`. -/
def farView : QgsRectangle := { xmin := 2600, ymin := -700, xmax := 2 ^ 40, ymax := -100 }

/-- The plan of draw for the tiled sample provider and the far view at 600 pixels: the
cast of the column `2 ^ 31` gives `INT_MIN`, which is bounded to the column 0. -/
def farPlan : TilePlan :=
  { tres := 2, tm := coarseMatrix, tileMode := QgsTileMode.WMTS, twMap := 512, thMap := 512,
    limits := { minTileRow := 0, maxTileRow := 31, minTileCol := 0, maxTileCol := 31 },
    range := { col0 := 5, row0 := 0, col1 := 0, row1 := 1 } }

/-- A matrix of resolution 1 with 65536 x 65536 tiles of 256 x 256 pixels. -/
def hugeMatrix : QgsWmtsTileMatrix :=
  { identifier := "huge", scaleDenom := 25000 / 7, topLeftX := 0, topLeftY := 0,
    tileWidth := 256, tileHeight := 256, matrixWidth := 65536, matrixHeight := 65536 }

/-- The tiled sample provider on a matrix set of the matrix with 65536 x 65536 tiles. -/
def hugeProvider : Provider :=
  { tiledProvider with
    mTileMatrixSet := some { identifier := "g", crs := "EPSG:4326",
                             tileMatrices := [(1, hugeMatrix)] } }

/-- A view over all tiles of the matrix with 65536 x 65536 tiles. -/
def hugeView : QgsRectangle :=
  { xmin := 0, ymin := -16777215, xmax := 16777215, ymax := 0 }

/-- The plan of draw for the provider on the matrix with 65536 x 65536 tiles and the view
over all of them at 600 pixels. -/
def hugePlan : TilePlan :=
  { tres := 1, tm := hugeMatrix, tileMode := QgsTileMode.WMTS, twMap := 256, thMap := 256,
    limits := { minTileRow := 0, maxTileRow := 65535, minTileCol := 0, maxTileCol := 65535 },
    range := { col0 := 0, row0 := 0, col1 := 65535, row1 := 65535 } }

@[simp] theorem logMessage_mCachedImage (st : Provider) (msg : QString) :
    (st.logMessage msg).mCachedImage = st.mCachedImage := rfl

@[simp] theorem getTile_mCachedImage (st : Provider) (r : QNetworkRequest) :
    (st.getTile r).mCachedImage = st.mCachedImage := rfl

@[simp] theorem removeTileReply_mCachedImage (st : Provider) (r : QNetworkReply) :
    (st.removeTileReply r).mCachedImage = st.mCachedImage := rfl

@[simp] theorem emitTileStatus_mCachedImage (env : Env) (st : Provider) :
    (st.emitTileStatus env).mCachedImage = st.mCachedImage := by
  unfold Provider.emitTileStatus
  split <;> rfl

@[simp] theorem repeatTileRequest_mCachedImage (env : Env) (st : Provider)
    (r : QNetworkRequest) :
    (repeatTileRequest env st r).mCachedImage = st.mCachedImage := by
  unfold repeatTileRequest
  simp only []
  split_ifs <;> simp

@[simp] theorem countCacheSource_mCachedImage (env : Env) (st : Provider)
    (reply : QNetworkReply) :
    (countCacheSource env st reply).mCachedImage = st.mCachedImage := by
  unfold countCacheSource
  split_ifs <;> rfl

@[simp] theorem countCacheSource_mTileReqNo (env : Env) (st : Provider)
    (reply : QNetworkReply) :
    (countCacheSource env st reply).mTileReqNo = st.mTileReqNo := by
  unfold countCacheSource
  split_ifs <;> rfl

@[simp] theorem emitDataChanged_mCachedImage (st : Provider) :
    (emitDataChanged st).mCachedImage = st.mCachedImage := by
  unfold emitDataChanged
  split_ifs <;> rfl

@[simp] theorem setServiceError_mCachedImage (st : Provider)
    (ce : Option (QString × QString)) :
    (st.setServiceError ce).mCachedImage = st.mCachedImage := by
  cases ce <;> rfl

theorem tileContentError_mCachedImage (env : Env) (st : Provider) (reply : QNetworkReply) :
    (tileContentError env st reply).mCachedImage = st.mCachedImage := by
  unfold tileContentError
  simp only []
  split_ifs <;> simp

theorem compositeTile_stale (env : Env) (st : Provider) (reply : QNetworkReply)
    (hgen : reply.request.tileReqNo ≠ st.mTileReqNo) :
    compositeTile env st reply = st := by
  unfold compositeTile
  rw [if_neg (fun h => hgen h.symm)]

/-- C1: a tile reply whose request generation (TileReqNo) differs from the current
generation (mTileReqNo) leaves the cached image as it is, whatever its error state,
redirect, status, content type and body. -/
theorem tileReplyFinished_stale_keeps_image (env : Env) (st : Provider)
    (reply : QNetworkReply) (hgen : reply.request.tileReqNo ≠ st.mTileReqNo) :
    (tileReplyFinished env st reply).mCachedImage = st.mCachedImage := by
  have hgen2 : reply.request.tileReqNo ≠ (countCacheSource env st reply).mTileReqNo := by
    simpa using hgen
  unfold tileReplyFinished
  simp only []
  split_ifs
  · split
    · simp [tileRedirected]
    · simp [tileStatusError]
  · split
    · simp [tileRedirected]
    · simp [tileContentError_mCachedImage]
  · split
    · simp [tileRedirected]
    · simp [tileImage, compositeTile_stale _ _ _ hgen2]
  · simp [tileNetworkError]

/-- Witness for C1: the sample reply of generation 1 carries a decodable image and arrives
in generation 2; the cached pixel stays 0. -/
theorem tileReplyFinished_stale_keeps_image_witness :
    (imageReply sampleTileRequest).request.tileReqNo ≠ staleProvider.mTileReqNo ∧
    (tileReplyFinished sampleEnv staleProvider (imageReply sampleTileRequest)).mCachedImage
      = staleProvider.mCachedImage :=
  ⟨by decide, tileReplyFinished_stale_keeps_image _ _ _ (by decide)⟩

/-! ## The retry bound -/

@[simp] theorem setRawHeader_tileKey (r : QNetworkRequest) (n v : QString) :
    (r.setRawHeader n v).tileKey = r.tileKey := rfl

@[simp] theorem setRawHeader_tileRetry (r : QNetworkRequest) (n v : QString) :
    (r.setRawHeader n v).tileRetry = r.tileRetry := rfl

@[simp] theorem setAuthorization_tileKey (env : Env) (st : Provider) (r : QNetworkRequest) :
    (setAuthorization env st r).tileKey = r.tileKey := by
  unfold setAuthorization
  simp only []
  split <;> split_ifs <;> simp

theorem repeatedRequest_tileKey (env : Env) (st : Provider) (r : QNetworkRequest) :
    (repeatedRequest env st r).tileKey = r.tileKey :=
  setAuthorization_tileKey env st r

@[simp] theorem logMessage_sent (st : Provider) (msg : QString) :
    (st.logMessage msg).sent = st.sent := rfl

@[simp] theorem logMessage_mTileReplies (st : Provider) (msg : QString) :
    (st.logMessage msg).mTileReplies = st.mTileReplies := rfl

@[simp] theorem getTile_sent (st : Provider) (r : QNetworkRequest) :
    (st.getTile r).sent = st.sent ++ [r] := rfl

@[simp] theorem getTile_mTileReplies (st : Provider) (r : QNetworkRequest) :
    (st.getTile r).mTileReplies = st.mTileReplies ++ [r] := rfl

@[simp] theorem removeTileReply_sent (st : Provider) (r : QNetworkReply) :
    (st.removeTileReply r).sent = st.sent := rfl

@[simp] theorem removeTileReply_mTileReplies (st : Provider) (r : QNetworkReply) :
    (st.removeTileReply r).mTileReplies = st.mTileReplies.erase r.request := rfl

@[simp] theorem emitTileStatus_sent (env : Env) (st : Provider) :
    (st.emitTileStatus env).sent = st.sent := by
  unfold Provider.emitTileStatus
  split <;> rfl

@[simp] theorem emitTileStatus_mTileReplies (env : Env) (st : Provider) :
    (st.emitTileStatus env).mTileReplies = st.mTileReplies := by
  unfold Provider.emitTileStatus
  split <;> rfl

@[simp] theorem emitDataChanged_sent (st : Provider) :
    (emitDataChanged st).sent = st.sent := by
  unfold emitDataChanged
  split_ifs <;> rfl

@[simp] theorem emitDataChanged_mTileReplies (st : Provider) :
    (emitDataChanged st).mTileReplies = st.mTileReplies := by
  unfold emitDataChanged
  split_ifs <;> rfl

@[simp] theorem countCacheSource_sent (env : Env) (st : Provider) (reply : QNetworkReply) :
    (countCacheSource env st reply).sent = st.sent := by
  unfold countCacheSource
  split_ifs <;> rfl

@[simp] theorem countCacheSource_mTileReplies (env : Env) (st : Provider)
    (reply : QNetworkReply) :
    (countCacheSource env st reply).mTileReplies = st.mTileReplies := by
  unfold countCacheSource
  split_ifs <;> rfl

@[simp] theorem setServiceError_sent (st : Provider) (ce : Option (QString × QString)) :
    (st.setServiceError ce).sent = st.sent := by
  cases ce <;> rfl

@[simp] theorem setServiceError_mTileReplies (st : Provider)
    (ce : Option (QString × QString)) :
    (st.setServiceError ce).mTileReplies = st.mTileReplies := by
  cases ce <;> rfl

/-- What repeatTileRequest does to the dispatch log and to the requests in flight: nothing,
or, while the retry limit allows it, one more dispatch of the same logical request with
the retry count advanced by one. -/
theorem repeatTileRequest_dispatch (env : Env) (st : Provider) (q : QNetworkRequest) :
    ((repeatTileRequest env st q).sent = st.sent ∧
      (repeatTileRequest env st q).mTileReplies = st.mTileReplies) ∨
    (q.tileRetry + 1 ≤ env.maxRetry ∧
      ∃ q2 : QNetworkRequest, q2.tileKey = q.tileKey ∧ q2.tileRetry = q.tileRetry + 1 ∧
        (repeatTileRequest env st q).sent = st.sent ++ [q2] ∧
        (repeatTileRequest env st q).mTileReplies = st.mTileReplies ++ [q2]) := by
  unfold repeatTileRequest
  simp only []
  by_cases hmax : q.tileRetry + 1 > env.maxRetry
  · left
    rw [if_pos hmax]
    split_ifs <;> simp
  · right
    rw [if_neg hmax]
    refine ⟨by omega, ?_⟩
    split_ifs <;>
      exact ⟨_, repeatedRequest_tileKey _ _ _, rfl, rfl, rfl⟩

theorem compositeTile_dispatch (env : Env) (st : Provider) (reply : QNetworkReply) :
    ((compositeTile env st reply).sent = st.sent ∧
      (compositeTile env st reply).mTileReplies = st.mTileReplies) ∨
    (reply.request.tileRetry + 1 ≤ env.maxRetry ∧
      ∃ q2 : QNetworkRequest, q2.tileKey = reply.request.tileKey ∧
        q2.tileRetry = reply.request.tileRetry + 1 ∧
        (compositeTile env st reply).sent = st.sent ++ [q2] ∧
        (compositeTile env st reply).mTileReplies = st.mTileReplies ++ [q2]) := by
  unfold compositeTile
  split_ifs
  · split
    · left
      exact ⟨rfl, rfl⟩
    · exact repeatTileRequest_dispatch env _ reply.request
  · left
    exact ⟨rfl, rfl⟩

/-- What tileReplyFinished does to the dispatch log and to the requests in flight when the
reply is no redirect: the request of the reply leaves the requests in flight and either
nothing is dispatched or, while the retry limit allows it, the same logical request is
dispatched once more with the retry count advanced by one. -/
theorem tileReplyFinished_dispatch (env : Env) (st : Provider) (reply : QNetworkReply)
    (hnr : reply.noRedirect) :
    ((tileReplyFinished env st reply).sent = st.sent ∧
      (tileReplyFinished env st reply).mTileReplies = st.mTileReplies.erase reply.request) ∨
    (reply.request.tileRetry + 1 ≤ env.maxRetry ∧
      ∃ q2 : QNetworkRequest, q2.tileKey = reply.request.tileKey ∧
        q2.tileRetry = reply.request.tileRetry + 1 ∧
        (tileReplyFinished env st reply).sent = st.sent ++ [q2] ∧
        (tileReplyFinished env st reply).mTileReplies
          = (st.mTileReplies ++ [q2]).erase reply.request) := by
  unfold tileReplyFinished
  simp only []
  by_cases herr : reply.error = true
  · -- network error
    simp only [herr, Bool.not_true, Bool.false_eq_true, if_false]
    unfold tileNetworkError
    simp only []
    rcases repeatTileRequest_dispatch env
      { countCacheSource env st reply with
        mErrors := (countCacheSource env st reply).mErrors + 1 } reply.request with h | h
    · left
      refine ⟨?_, ?_⟩
      · simp only [emitTileStatus_sent, removeTileReply_sent, h.1]
        exact countCacheSource_sent env st reply
      · simp only [emitTileStatus_mTileReplies, removeTileReply_mTileReplies, h.2]
        exact congrArg (fun l => List.erase l reply.request)
          (countCacheSource_mTileReplies env st reply)
    · right
      obtain ⟨hM, q2, hk, hr, hs, hl⟩ := h
      refine ⟨hM, q2, hk, hr, ?_, ?_⟩
      · simp only [emitTileStatus_sent, removeTileReply_sent, hs]
        exact congrArg (fun l => l ++ [q2]) (countCacheSource_sent env st reply)
      · simp only [emitTileStatus_mTileReplies, removeTileReply_mTileReplies, hl]
        exact congrArg (fun l => List.erase (l ++ [q2]) reply.request)
          (countCacheSource_mTileReplies env st reply)
  · have hred : reply.redirect = none := by
      rcases hnr with h | h
      · exact absurd h herr
      · exact h
    have herr2 : reply.error = false := by simpa using herr
    simp only [herr2, Bool.not_false, if_true, hred]
    split_ifs
    · left
      simp [tileStatusError]
    · left
      unfold tileContentError
      simp only []
      split_ifs <;> simp
    · unfold tileImage
      rcases compositeTile_dispatch env (countCacheSource env st reply) reply with h | h
      · left
        simp [h.1, h.2]
      · right
        obtain ⟨hM, q2, hk, hr, hs, hl⟩ := h
        exact ⟨hM, q2, hk, hr, by simp [hs], by simp [hl]⟩

theorem countP_erase_add_one {α : Type} [DecidableEq α] (p : α → Bool) (a : α) (l : List α)
    (hmem : a ∈ l) (hp : p a = true) :
    (l.erase a).countP p + 1 = l.countP p := by
  induction l with
  | nil => cases hmem
  | cons b t ih =>
    by_cases hba : b = a
    · subst hba
      simp [List.countP_cons, hp]
    · have hat : a ∈ t := by
        rcases List.mem_cons.mp hmem with h | h
        · exact absurd h.symm hba
        · exact h
      have hbeq : (b == a) = false := by simpa using hba
      rw [List.erase_cons, hbeq]
      simp only [Bool.false_eq_true, if_false, List.countP_cons]
      have := ih hat
      omega

theorem countP_erase_le {α : Type} [DecidableEq α] (p : α → Bool) (a : α) (l : List α) :
    (l.erase a).countP p ≤ l.countP p :=
  (List.erase_sublist a l).countP_le p

/-- The retry invariant survives the removal of a request from the requests in flight. -/
theorem RetryInv.erase {M : Int} {sent inflight : List QNetworkRequest}
    (h : RetryInv M sent inflight) (q : QNetworkRequest) :
    RetryInv M sent (inflight.erase q) where
  single k := le_trans (countP_erase_le _ q inflight) (h.single k)
  counted r hr := h.counted r (List.mem_of_mem_erase hr)
  bounded := h.bounded

/-- The retry invariant survives a repeat: the request `q` in flight is answered and the
same logical request is dispatched again as `q2` with the retry count advanced by one,
within the retry limit. -/
theorem RetryInv.repeat {M : Int} {sent inflight : List QNetworkRequest}
    (h : RetryInv M sent inflight) (q q2 : QNetworkRequest) (hq : q ∈ inflight)
    (hk : q2.tileKey = q.tileKey) (hr : q2.tileRetry = q.tileRetry + 1)
    (hM : q.tileRetry + 1 ≤ M) :
    RetryInv M (sent ++ [q2]) ((inflight ++ [q2]).erase q) := by
  have herase : (inflight ++ [q2]).erase q = inflight.erase q ++ [q2] :=
    List.erase_append_left [q2] hq
  have hcq := h.counted q hq
  have hone : (inflight.erase q).countP (fun r => decide (r.tileKey = q.tileKey)) = 0 := by
    have h1 := countP_erase_add_one (fun r => decide (r.tileKey = q.tileKey)) q inflight hq
      (by simp)
    have h2 := h.single q.tileKey
    omega
  rw [herase]
  refine ⟨?_, ?_, ?_⟩
  · intro k
    rw [List.countP_append]
    by_cases hkq : q.tileKey = k
    · subst hkq
      rw [hone]
      simp [List.countP_cons, hk]
    · have h2 : [q2].countP (fun r => decide (r.tileKey = k)) = 0 := by
        simp [List.countP_cons, hk, hkq]
      rw [h2]
      exact le_trans (countP_erase_le _ q inflight) (h.single k)
  · intro r hrmem
    rw [List.countP_append]
    rcases List.mem_append.mp hrmem with hin | hin
    · have hrk : r.tileKey ≠ q.tileKey := by
        intro heq
        have hpos : 0 < (inflight.erase q).countP (fun x => decide (x.tileKey = q.tileKey)) :=
          List.countP_pos_iff.mpr ⟨r, hin, by simp [heq]⟩
        omega
      have h2 : [q2].countP (fun x => decide (x.tileKey = r.tileKey)) = 0 := by
        simp [List.countP_cons, hk, Ne.symm hrk]
      rw [h2]
      simpa using h.counted r (List.mem_of_mem_erase hin)
    · have hrq : r = q2 := by simpa using hin
      subst hrq
      have h2 : [r].countP (fun x => decide (x.tileKey = r.tileKey)) = 1 := by
        simp [List.countP_cons]
      rw [h2, hk, hr]
      push_cast
      omega
  · intro k
    rw [List.countP_append]
    by_cases hkq : q.tileKey = k
    · subst hkq
      have h2 : [q2].countP (fun r => decide (r.tileKey = q.tileKey)) = 1 := by
        simp [List.countP_cons, hk]
      rw [h2]
      push_cast
      omega
    · have h2 : [q2].countP (fun r => decide (r.tileKey = k)) = 0 := by
        simp [List.countP_cons, hk, hkq]
      rw [h2]
      simpa using h.bounded k

theorem countP_key_le_one (l : List QNetworkRequest)
    (hkeys : (l.map QNetworkRequest.tileKey).Nodup) (k : Int × QRectF) :
    l.countP (fun r => decide (r.tileKey = k)) ≤ 1 := by
  induction l with
  | nil => simp
  | cons a t ih =>
    rw [List.map_cons, List.nodup_cons] at hkeys
    rw [List.countP_cons]
    by_cases hak : a.tileKey = k
    · have hzero : t.countP (fun r => decide (r.tileKey = k)) = 0 := by
        rw [List.countP_eq_zero]
        intro r hr hrk
        apply hkeys.1
        rw [hak]
        exact List.mem_map.mpr ⟨r, hr, by simpa using hrk⟩
      rw [hzero]
      simp [hak]
    · have := ih hkeys.2
      simp [hak]
      exact this

/-- Right after their first dispatch the requests satisfy the retry invariant: all are in
flight with retry count 0 and no two belong to the same logical tile request. -/
theorem RetryInv.fresh {M : Int} (l : List QNetworkRequest) (hM : 0 ≤ M)
    (hzero : ∀ q ∈ l, q.tileRetry = 0) (hkeys : (l.map QNetworkRequest.tileKey).Nodup) :
    RetryInv M l l := by
  have hsingle : ∀ k, l.countP (fun r => decide (r.tileKey = k)) ≤ 1 :=
    fun k => countP_key_le_one l hkeys k
  refine ⟨hsingle, ?_, ?_⟩
  · intro q hq
    have hpos : 0 < l.countP (fun r => decide (r.tileKey = q.tileKey)) :=
      List.countP_pos_iff.mpr ⟨q, hq, by simp⟩
    have hle := hsingle q.tileKey
    rw [hzero q hq]
    have : l.countP (fun r => decide (r.tileKey = q.tileKey)) = 1 := by omega
    rw [this]
    rfl
  · intro k
    have hle := hsingle k
    have : ((l.countP (fun r => decide (r.tileKey = k)) : Nat) : Int) ≤ 1 := by exact_mod_cast hle
    omega

/-- The delivery of a reply that is no redirect keeps the retry invariant. -/
theorem deliver_retryInv (env : Env) (st : Provider) (reply : QNetworkReply)
    (hnr : reply.noRedirect) (h : RetryInv env.maxRetry st.sent st.mTileReplies) :
    RetryInv env.maxRetry (deliver env st reply).sent (deliver env st reply).mTileReplies := by
  unfold deliver
  split_ifs with hmem
  · rcases tileReplyFinished_dispatch env st reply hnr with h1 | h1
    · rw [h1.1, h1.2]
      exact h.erase reply.request
    · obtain ⟨hM, q2, hk, hr, hs, hl⟩ := h1
      rw [hs, hl]
      exact h.repeat reply.request q2 hmem hk hr hM
  · exact h

theorem deliverAll_retryInv (env : Env) (replies : List QNetworkReply) :
    ∀ st : Provider, (∀ r ∈ replies, r.noRedirect) →
      RetryInv env.maxRetry st.sent st.mTileReplies →
      RetryInv env.maxRetry (deliverAll env st replies).sent
        (deliverAll env st replies).mTileReplies := by
  induction replies with
  | nil => intro st _ h; exact h
  | cons r rest ih =>
    intro st hnr h
    have hstep := deliver_retryInv env st r (hnr r (List.mem_cons_self r rest)) h
    exact ih (deliver env st r) (fun x hx => hnr x (List.mem_cons_of_mem r hx)) hstep

/-- C2 (amended): with a retry limit `maxRetry ≥ 0`, start from a provider whose requests
were all dispatched once (all in flight, retry count 0, pairwise different generation and
tile rectangle). Over every sequence of replies without redirects (network errors, flawed
images, errors of status or content, images), the number of dispatches of each logical
tile request (same generation and tile rectangle) stays at most `maxRetry + 1`. -/
theorem retry_bound_without_redirect (env : Env) (st : Provider)
    (replies : List QNetworkReply) (hM : 0 ≤ env.maxRetry)
    (hfresh : st.mTileReplies = st.sent)
    (hzero : ∀ q ∈ st.sent, q.tileRetry = 0)
    (hkeys : (st.sent.map QNetworkRequest.tileKey).Nodup)
    (hnr : ∀ r ∈ replies, r.error = true ∨ r.redirect = none)
    (key : Int × QRectF) :
    (dispatchCount (deliverAll env st replies) key : Int) ≤ env.maxRetry + 1 := by
  have h0 : RetryInv env.maxRetry st.sent st.mTileReplies := by
    rw [hfresh]
    exact RetryInv.fresh st.sent hM hzero hkeys
  exact (deliverAll_retryInv env replies st hnr h0).bounded key

/-- Witness for C2 (amended): the sample tile fails four times in a row; it was dispatched
four times, the first dispatch and three repeats. -/
theorem retry_bound_without_redirect_witness :
    (0 ≤ sampleEnv.maxRetry ∧ freshProvider.mTileReplies = freshProvider.sent ∧
      (∀ r ∈ fourErrors, r.error = true ∨ r.redirect = none)) ∧
    dispatchCount (deliverAll sampleEnv freshProvider fourErrors) sampleTileRequest.tileKey = 4 ∧
    (dispatchCount (deliverAll sampleEnv freshProvider fourErrors) sampleTileRequest.tileKey
      : Int) ≤ sampleEnv.maxRetry + 1 :=
  ⟨⟨by decide, rfl, by decide⟩, by decide,
    retry_bound_without_redirect sampleEnv freshProvider fourErrors (by decide) rfl
      (by decide) (by decide) (by decide) sampleTileRequest.tileKey⟩

/-- Counterexample for C2 as stated: with the default limit of 3 the sample tile fails
three times and the third repeat is answered by a redirect. The redirect dispatches the
request again with retry count 0: five dispatches of one logical tile request, more than
`maxRetry + 1 = 4`. -/
theorem retry_bound_broken_by_redirect :
    sampleEnv.maxRetry = 3 ∧
    dispatchCount (deliverAll sampleEnv freshProvider errorsThenRedirect)
      sampleTileRequest.tileKey = 5 ∧
    ¬ ((5 : Int) ≤ sampleEnv.maxRetry + 1) := by
  refine ⟨by decide, by decide, by decide⟩

/-! ## The axis order of the BBOX -/

theorem mem_setQueryItem_self (u : QUrl) (k v : QString) :
    (k, v) ∈ (setQueryItem u k v).query := by
  simp [setQueryItem, QUrl.addQueryItem, QUrl.removeQueryItem]

theorem mem_setQueryItem_of_ne (u : QUrl) (k v k2 v2 : QString) (hne : k ≠ k2)
    (hmem : (k, v) ∈ u.query) : (k, v) ∈ (setQueryItem u k2 v2).query := by
  have hp : ¬ ((fun kv : QString × QString => kv.1 == k2) (k, v) = true) := by simpa using hne
  simp only [setQueryItem, QUrl.addQueryItem, QUrl.removeQueryItem, List.mem_append]
  left
  exact (List.mem_eraseP_of_neg (p := fun kv : QString × QString => kv.1 == k2) hp).mpr hmem

theorem mem_setDpiItems (st : Provider) (u : QUrl) (k v : QString)
    (h1 : k ≠ "DPI") (h2 : k ≠ "MAP_RESOLUTION") (h3 : k ≠ "FORMAT_OPTIONS")
    (hmem : (k, v) ∈ u.query) : (k, v) ∈ (setDpiItems st u).query := by
  unfold setDpiItems
  simp only []
  split_ifs <;>
    first
    | exact hmem
    | (repeat (first
        | exact hmem
        | apply mem_setQueryItem_of_ne _ _ _ _ _ (by assumption)))

theorem mem_setTransparentItem (st : Provider) (u : QUrl) (k v : QString)
    (h1 : k ≠ "TRANSPARENT") (hmem : (k, v) ∈ u.query) :
    (k, v) ∈ (setTransparentItem st u).query := by
  unfold setTransparentItem
  split_ifs
  · exact mem_setQueryItem_of_ne _ _ _ _ _ h1 hmem
  · exact hmem

theorem crsKey_cases (st : Provider) : crsKey st = "CRS" ∨ crsKey st = "SRS" := by
  unfold crsKey
  split_ifs
  · exact Or.inl rfl
  · exact Or.inr rfl

theorem bbox_ne_crsKey (st : Provider) : "BBOX" ≠ crsKey st := by
  rcases crsKey_cases st with h | h <;> rw [h] <;> decide

/-- C3 (amended): draw swaps the axes of the BBOX exactly when
`(version is "1.3.0" or "1.3" and not ignoreAxisOrientation and the image CRS is
axis-inverted) XOR invertAxisOrientation` holds: then the BBOX text is
`ymin,xmin,ymax,xmax`, otherwise `xmin,ymin,xmax,ymax`, and this text is the BBOX item of
the GetMap request; the BBOX of each WMS-C tile follows the same order. On a 1.3.0 server with the axis-inverted EPSG:4326 the view
`( -10, -20, 10, 20 )` is emitted as `-20,-10,20,10`, and as `-10,-20,10,20` once
invertAxisOrientation is set. -/
theorem bbox_axis_order (env : Env) (st : Provider) (viewExtent : QgsRectangle)
    (pixelWidth pixelHeight : Int) :
    changeXY env st
      = xor (decide (st.mCapabilities.version = "1.3.0" ∨ st.mCapabilities.version = "1.3") &&
          !st.mIgnoreAxisOrientation && env.crsAxisInverted st.mImageCrs)
        st.mInvertAxisOrientation ∧
    viewBBox env st viewExtent
      = (if changeXY env st then
          qgsDoubleToString viewExtent.ymin ++ "," ++ qgsDoubleToString viewExtent.xmin ++ "," ++
            qgsDoubleToString viewExtent.ymax ++ "," ++ qgsDoubleToString viewExtent.xmax
        else
          qgsDoubleToString viewExtent.xmin ++ "," ++ qgsDoubleToString viewExtent.ymin ++ "," ++
            qgsDoubleToString viewExtent.xmax ++ "," ++ qgsDoubleToString viewExtent.ymax) ∧
    ("BBOX", viewBBox env st viewExtent)
      ∈ (getMapRequestUrl env st viewExtent pixelWidth pixelHeight).query ∧
    (∀ (p : TilePlan) (row col : Int),
      wmscTileUrl env st p row col
        = (wmscUrl st p.tm).toString ++ "&BBOX=" ++
          (if changeXY env st then
            qgsDoubleToString (p.tm.topLeftY - (row + 1) * p.thMap) ++ "," ++
              qgsDoubleToString (p.tm.topLeftX + col * p.twMap) ++ "," ++
              qgsDoubleToString (p.tm.topLeftY - row * p.thMap) ++ "," ++
              qgsDoubleToString (p.tm.topLeftX + (col + 1) * p.twMap)
          else
            qgsDoubleToString (p.tm.topLeftX + col * p.twMap) ++ "," ++
              qgsDoubleToString (p.tm.topLeftY - (row + 1) * p.thMap) ++ "," ++
              qgsDoubleToString (p.tm.topLeftX + (col + 1) * p.twMap) ++ "," ++
              qgsDoubleToString (p.tm.topLeftY - row * p.thMap))) ∧
    viewBBox sampleEnv (sampleProviderOfVersion "1.3.0") sampleView = "-20,-10,20,10" ∧
    viewBBox sampleEnv
      { sampleProviderOfVersion "1.3.0" with mInvertAxisOrientation := true } sampleView
      = "-10,-20,10,20" := by
  refine ⟨?_, rfl, ?_, fun _ _ _ => rfl, by decide!, by decide!⟩
  · unfold changeXY isVersion13
    cases st.mIgnoreAxisOrientation <;> cases st.mInvertAxisOrientation <;>
      cases env.crsAxisInverted st.mImageCrs <;>
      by_cases h1 : st.mCapabilities.version = "1.3.0" <;>
      by_cases h2 : st.mCapabilities.version = "1.3" <;> simp [h1, h2]
  · unfold getMapRequestUrl
    simp only []
    apply mem_setTransparentItem _ _ _ _ (by decide)
    apply mem_setDpiItems _ _ _ _ (by decide) (by decide) (by decide)
    apply mem_setQueryItem_of_ne _ _ _ _ _ (by decide)
    apply mem_setQueryItem_of_ne _ _ _ _ _ (by decide)
    apply mem_setQueryItem_of_ne _ _ _ _ _ (by decide)
    apply mem_setQueryItem_of_ne _ _ _ _ _ (by decide)
    apply mem_setQueryItem_of_ne _ _ _ _ _ (by decide)
    apply mem_setQueryItem_of_ne _ _ _ _ _ (bbox_ne_crsKey st)
    exact mem_setQueryItem_self _ _ _

/-- Counterexample for C3 as stated: on a server of version 1.3.1 (at least 1.3) with the
axis-inverted EPSG:4326 and no override the stated formula asks for the swap, but draw
does not swap: the view `( -10, -20, 10, 20 )` is emitted as `-10,-20,10,20`. -/
theorem bbox_axis_order_version_131 :
    statedSwap sampleEnv (sampleProviderOfVersion "1.3.1") = true ∧
    changeXY sampleEnv (sampleProviderOfVersion "1.3.1") = false ∧
    viewBBox sampleEnv (sampleProviderOfVersion "1.3.1") sampleView = "-10,-20,10,20" ∧
    viewBBox sampleEnv (sampleProviderOfVersion "1.3.1") sampleView ≠ "-20,-10,20,10" := by
  refine ⟨by decide, by decide, by decide!, by decide!⟩

/-! ## Rounding of doubles -/

theorem log2Fuel_spec : ∀ (fuel n : Nat), n ≠ 0 → n ≤ fuel →
    2 ^ log2Fuel fuel n ≤ n ∧ n < 2 ^ (log2Fuel fuel n + 1) := by
  intro fuel
  induction fuel with
  | zero => intro n h0 hle; omega
  | succ f ih =>
    intro n h0 hle
    unfold log2Fuel
    split_ifs with h2
    · obtain ⟨h3, h4⟩ := ih (n / 2) (by omega) (by omega)
      generalize log2Fuel f (n / 2) = k at h3 h4
      rw [pow_succ] at h4
      rw [pow_succ, pow_succ, pow_succ]
      omega
    · simp
      omega

theorem natLog2_spec (n : Nat) (h0 : n ≠ 0) :
    2 ^ natLog2 n ≤ n ∧ n < 2 ^ (natLog2 n + 1) :=
  log2Fuel_spec n n h0 (le_refl n)

theorem floorLog2_spec (q : ℚ) (hq : 0 < q) :
    (2 : ℚ) ^ floorLog2 q ≤ q ∧ q < (2 : ℚ) ^ (floorLog2 q + 1) := by
  have hnum : 0 < q.num := Rat.num_pos.mpr hq
  have hn0 : q.num.natAbs ≠ 0 := by omega
  obtain ⟨ha1, ha2⟩ := natLog2_spec q.num.natAbs hn0
  obtain ⟨hd1, hd2⟩ := natLog2_spec q.den q.den_nz
  have hqe : q = (q.num.natAbs : ℚ) / (q.den : ℚ) := by
    have h1 : (q.num.natAbs : Int) = q.num := Int.natAbs_of_nonneg (le_of_lt hnum)
    have h2 : (q.num.natAbs : ℚ) = (q.num : ℚ) := by
      rw [← Int.cast_natCast, h1]
    rw [h2, Rat.num_div_den]
  have hdpos : (0 : ℚ) < (q.den : ℚ) := by exact_mod_cast q.den_pos
  unfold floorLog2
  simp only []
  generalize natLog2 q.num.natAbs = la at ha1 ha2 ⊢
  generalize natLog2 q.den = ld at hd1 hd2 ⊢
  generalize q.num.natAbs = a at ha1 ha2 hqe
  generalize q.den = d at hd1 hd2 hqe hdpos
  have ha1q : (2 : ℚ) ^ la ≤ (a : ℚ) := by exact_mod_cast ha1
  have ha2q : (a : ℚ) < (2 : ℚ) ^ (la + 1) := by exact_mod_cast ha2
  have hd1q : (2 : ℚ) ^ ld ≤ (d : ℚ) := by exact_mod_cast hd1
  have hd2q : (d : ℚ) < (2 : ℚ) ^ (ld + 1) := by exact_mod_cast hd2
  have hpa : (0 : ℚ) < (2 : ℚ) ^ la := by positivity
  have hpd : (0 : ℚ) < (2 : ℚ) ^ ld := by positivity
  have hk : (2 : ℚ) ^ ((la : Int) - (ld : Int)) = (2 : ℚ) ^ la / (2 : ℚ) ^ ld := by
    rw [zpow_sub₀ (by norm_num : (2 : ℚ) ≠ 0), zpow_natCast, zpow_natCast]
  rw [pow_succ] at ha2q hd2q
  split_ifs with h
  · refine ⟨h, ?_⟩
    rw [zpow_add_one₀ (by norm_num : (2 : ℚ) ≠ 0), hk, hqe, div_lt_iff₀ hdpos]
    calc (a : ℚ) < 2 ^ la * 2 := ha2q
      _ = 2 ^ la / 2 ^ ld * 2 * 2 ^ ld := by field_simp
      _ ≤ 2 ^ la / 2 ^ ld * 2 * (d : ℚ) := by
        apply mul_le_mul_of_nonneg_left hd1q
        positivity
  · rw [sub_add_cancel]
    refine ⟨?_, lt_of_not_le h⟩
    rw [zpow_sub_one₀ (by norm_num : (2 : ℚ) ≠ 0), hk, hqe, le_div_iff₀ hdpos]
    calc 2 ^ la / 2 ^ ld * (2 : ℚ)⁻¹ * (d : ℚ)
        ≤ 2 ^ la / 2 ^ ld * (2 : ℚ)⁻¹ * (2 ^ ld * 2) := by
          apply mul_le_mul_of_nonneg_left (le_of_lt hd2q)
          positivity
      _ = 2 ^ la := by field_simp
      _ ≤ (a : ℚ) := ha1q

theorem floorLog2_mono (a b : ℚ) (ha : 0 < a) (hab : a ≤ b) : floorLog2 a ≤ floorLog2 b := by
  have h1 := (floorLog2_spec a ha).1
  have h2 := (floorLog2_spec b (lt_of_lt_of_le ha hab)).2
  have h3 : (2 : ℚ) ^ floorLog2 a < (2 : ℚ) ^ (floorLog2 b + 1) :=
    lt_of_le_of_lt (le_trans h1 hab) h2
  have h4 := (zpow_lt_zpow_iff_right₀ (by norm_num : (1 : ℚ) < 2)).mp h3
  omega

theorem roundHalfEven_intCast (n : Int) : roundHalfEven (n : ℚ) = n := by
  unfold roundHalfEven
  simp

theorem roundHalfEven_bounds (x : ℚ) :
    Int.floor x ≤ roundHalfEven x ∧ roundHalfEven x ≤ Int.floor x + 1 := by
  unfold roundHalfEven
  simp only []
  split_ifs <;> omega

theorem roundHalfEven_mono (a b : ℚ) (hab : a ≤ b) : roundHalfEven a ≤ roundHalfEven b := by
  have hfl : Int.floor a ≤ Int.floor b := Int.floor_le_floor hab
  rcases lt_or_eq_of_le hfl with hlt | heq
  · have h1 := (roundHalfEven_bounds a).2
    have h2 := (roundHalfEven_bounds b).1
    omega
  · unfold roundHalfEven
    simp only []
    rw [heq]
    split_ifs <;> first | omega | (exfalso; linarith)

/-- The rounded value of a magnitude. -/
theorem roundDouble_of_nonneg (q : ℚ) (hq : 0 ≤ q) :
    roundDouble q
      = min ((roundHalfEven (q / (2 : ℚ) ^ (max (floorLog2 q) (-1022) - 52)) : ℚ)
          * (2 : ℚ) ^ (max (floorLog2 q) (-1022) - 52)) ((2 : ℚ) ^ (1024 : Int)) := by
  unfold roundDouble
  simp only [abs_of_nonneg hq, if_neg (not_lt.mpr hq)]

theorem roundDouble_neg (q : ℚ) : roundDouble (-q) = -roundDouble q := by
  unfold roundDouble
  simp only [abs_neg]
  rcases lt_trichotomy q 0 with h | h | h
  · rw [if_neg (by linarith), if_pos h, neg_neg]
  · subst h
    have hr : roundHalfEven 0 = 0 := by simpa using roundHalfEven_intCast 0
    simp only [neg_zero, abs_zero, zero_div, hr, Int.cast_zero, zero_mul, lt_self_iff_false,
      if_false]
    rw [min_eq_left (by positivity)]
    simp
  · rw [if_pos (by linarith), if_neg (by linarith)]

theorem roundDouble_nonneg (q : ℚ) (hq : 0 ≤ q) : 0 ≤ roundDouble q := by
  rw [roundDouble_of_nonneg q hq]
  apply le_min _ (by positivity)
  have hu : (0 : ℚ) < (2 : ℚ) ^ (max (floorLog2 q) (-1022) - 52) := by positivity
  have h0 : (0 : Int) ≤ roundHalfEven (q / (2 : ℚ) ^ (max (floorLog2 q) (-1022) - 52)) := by
    have := roundHalfEven_mono 0 _ (div_nonneg hq (le_of_lt hu))
    have h00 : roundHalfEven 0 = 0 := by simpa using roundHalfEven_intCast 0
    omega
  have : (0 : ℚ) ≤ (roundHalfEven (q / (2 : ℚ) ^ (max (floorLog2 q) (-1022) - 52)) : ℚ) := by
    exact_mod_cast h0
  exact mul_nonneg this (le_of_lt hu)

theorem roundDouble_mono_pos (a b : ℚ) (ha : 0 < a) (hab : a ≤ b) :
    roundDouble a ≤ roundDouble b := by
  have hb : 0 < b := lt_of_lt_of_le ha hab
  rw [roundDouble_of_nonneg a (le_of_lt ha), roundDouble_of_nonneg b (le_of_lt hb)]
  apply min_le_min _ (le_refl _)
  have hlog := floorLog2_mono a b ha hab
  have h2 : (2 : ℚ) ≠ 0 := by norm_num
  have h12 : (1 : ℚ) < 2 := by norm_num
  have hsa := floorLog2_spec a ha
  have hsb := floorLog2_spec b hb
  generalize floorLog2 a = fa at hlog hsa
  generalize floorLog2 b = fb at hlog hsb
  generalize hea : max fa (-1022) = ea
  generalize heb : max fb (-1022) = eb
  have hle : ea ≤ eb := by omega
  have hua : (0 : ℚ) < (2 : ℚ) ^ (ea - 52) := by positivity
  have hub : (0 : ℚ) < (2 : ℚ) ^ (eb - 52) := by positivity
  rcases lt_or_eq_of_le hle with hlt | heq
  · -- different binades: the power of two between them separates the two results
    have hfb : fb = eb := by omega
    have hfa : fa + 1 ≤ ea + 1 := by omega
    have hb1 : (2 : ℚ) ^ eb ≤ b := by
      rw [← hfb]; exact hsb.1
    have ha1 : a ≤ (2 : ℚ) ^ (ea + 1) :=
      le_trans (le_of_lt hsa.2) (zpow_le_zpow_right₀ (le_of_lt h12) hfa)
    have e53 : (2 : ℚ) ^ (53 : Int) * (2 : ℚ) ^ (ea - 52) = (2 : ℚ) ^ (ea + 1) := by
      rw [← zpow_add₀ h2]
      congr 1
      omega
    have e52 : (2 : ℚ) ^ (52 : Int) * (2 : ℚ) ^ (eb - 52) = (2 : ℚ) ^ eb := by
      rw [← zpow_add₀ h2]
      congr 1
      omega
    have c53 : (((2 : Int) ^ 53 : Int) : ℚ) = (2 : ℚ) ^ (53 : Int) := by norm_num
    have c52 : (((2 : Int) ^ 52 : Int) : ℚ) = (2 : ℚ) ^ (52 : Int) := by norm_num
    have hqa : a / (2 : ℚ) ^ (ea - 52) ≤ (((2 : Int) ^ 53 : Int) : ℚ) := by
      rw [div_le_iff₀ hua, c53, e53]
      exact ha1
    have hqb : (((2 : Int) ^ 52 : Int) : ℚ) ≤ b / (2 : ℚ) ^ (eb - 52) := by
      rw [le_div_iff₀ hub, c52, e52]
      exact hb1
    have hra := roundHalfEven_mono _ _ hqa
    have hrb := roundHalfEven_mono _ _ hqb
    rw [roundHalfEven_intCast] at hra hrb
    have hraq : (roundHalfEven (a / (2 : ℚ) ^ (ea - 52)) : ℚ) ≤ (2 : ℚ) ^ (53 : Int) := by
      rw [← c53]
      exact_mod_cast hra
    have hrbq : (2 : ℚ) ^ (52 : Int) ≤ (roundHalfEven (b / (2 : ℚ) ^ (eb - 52)) : ℚ) := by
      rw [← c52]
      exact_mod_cast hrb
    calc (roundHalfEven (a / (2 : ℚ) ^ (ea - 52)) : ℚ) * (2 : ℚ) ^ (ea - 52)
        ≤ (2 : ℚ) ^ (53 : Int) * (2 : ℚ) ^ (ea - 52) :=
          mul_le_mul_of_nonneg_right hraq (le_of_lt hua)
      _ = (2 : ℚ) ^ (ea + 1) := e53
      _ ≤ (2 : ℚ) ^ eb := zpow_le_zpow_right₀ (le_of_lt h12) (by omega)
      _ = (2 : ℚ) ^ (52 : Int) * (2 : ℚ) ^ (eb - 52) := e52.symm
      _ ≤ (roundHalfEven (b / (2 : ℚ) ^ (eb - 52)) : ℚ) * (2 : ℚ) ^ (eb - 52) :=
          mul_le_mul_of_nonneg_right hrbq (le_of_lt hub)
  · -- the same binade: the same spacing
    rw [← heq]
    have hq : a / (2 : ℚ) ^ (ea - 52) ≤ b / (2 : ℚ) ^ (ea - 52) :=
      div_le_div_of_nonneg_right hab (le_of_lt hua)
    have hr := roundHalfEven_mono _ _ hq
    have hrq : (roundHalfEven (a / (2 : ℚ) ^ (ea - 52)) : ℚ)
        ≤ (roundHalfEven (b / (2 : ℚ) ^ (ea - 52)) : ℚ) := by
      exact_mod_cast hr
    exact mul_le_mul_of_nonneg_right hrq (le_of_lt hua)

/-- Rounding keeps the order of the exact results. -/
theorem roundDouble_mono (a b : ℚ) (hab : a ≤ b) : roundDouble a ≤ roundDouble b := by
  have h0 : roundDouble 0 = 0 := by
    have := roundDouble_neg 0
    rw [neg_zero] at this
    linarith
  rcases lt_trichotomy a 0 with ha | ha | ha
  · have hna : roundDouble a = -roundDouble (-a) := by
      rw [roundDouble_neg, neg_neg]
    rcases lt_or_le b 0 with hb | hb
    · have hnb : roundDouble b = -roundDouble (-b) := by
        rw [roundDouble_neg, neg_neg]
      have := roundDouble_mono_pos (-b) (-a) (by linarith) (by linarith)
      rw [hna, hnb]
      linarith
    · have h1 := roundDouble_nonneg (-a) (by linarith)
      have h2 := roundDouble_nonneg b hb
      rw [hna]
      linarith
  · subst ha
    rw [h0]
    exact roundDouble_nonneg b hab
  · exact roundDouble_mono_pos a b ha hab

/-- A strictly smaller rounded result comes from a strictly smaller exact result. -/
theorem roundDouble_lt (a b : ℚ) (h : roundDouble a < roundDouble b) : a < b := by
  by_contra hn
  exact absurd (roundDouble_mono b a (not_lt.mp hn)) (not_le.mpr h)

/-- The difference `1 - 2 ^ -60` is rounded to 1, and a third to the double next to it. -/
theorem roundDouble_samples :
    roundDouble (1 - 1 / 2 ^ 60) = 1 ∧
    roundDouble (1 / 3) = 6004799503160661 / 18014398509481984 ∧
    roundDouble (3 / 10) = 5404319552844595 / 18014398509481984 := by
  refine ⟨by decide!, by decide!, by decide!⟩

/-! ## The choice of the tile matrix -/

/-- The scan splits an ascending map into the entries below `vres` and the rest: `prev`
ends as the largest entry below `vres` (or as it started when there is none), and the rest
starts with an entry of at least `vres`. -/
theorem scanResolutions_spec (vres : ℚ) :
    ∀ (m : List (ℚ × QgsWmtsTileMatrix)) (prev : Option (ℚ × QgsWmtsTileMatrix)),
      AscendingKeys m →
      ∃ pre : List (ℚ × QgsWmtsTileMatrix),
        m = pre ++ (scanResolutions vres m prev).2 ∧
        (∀ e ∈ pre, e.1 < vres) ∧
        (∀ e rest, (scanResolutions vres m prev).2 = e :: rest → vres ≤ e.1) ∧
        ((pre = [] ∧ (scanResolutions vres m prev).1 = prev) ∨
          ∃ p, p ∈ pre ∧ (scanResolutions vres m prev).1 = some p ∧ ∀ e ∈ pre, e.1 ≤ p.1) := by
  intro m
  induction m with
  | nil =>
    intro prev _
    exact ⟨[], rfl, by simp, by simp [scanResolutions], Or.inl ⟨rfl, rfl⟩⟩
  | cons e t ih =>
    intro prev hs
    have hs2 : (∀ b ∈ t, e.1 < b.1) ∧ AscendingKeys t := List.pairwise_cons.mp hs
    by_cases hlt : e.1 < vres
    · have hscan : scanResolutions vres (e :: t) prev = scanResolutions vres t (some e) := by
        simp [scanResolutions, hlt]
      rw [hscan]
      obtain ⟨pre, hm, hpre, hhead, hprev⟩ := ih (some e) hs2.2
      refine ⟨e :: pre, by rw [List.cons_append, ← hm], ?_, hhead, Or.inr ?_⟩
      · intro x hx
        rcases List.mem_cons.mp hx with h | h
        · rw [h]; exact hlt
        · exact hpre x h
      · rcases hprev with ⟨hnil, hp⟩ | ⟨p, hp, hsel, hmax⟩
        · refine ⟨e, List.mem_cons_self e pre, hp, ?_⟩
          intro x hx
          rw [hnil] at hx
          have : x = e := by simpa using hx
          rw [this]
        · refine ⟨p, List.mem_cons_of_mem e hp, hsel, ?_⟩
          intro x hx
          rcases List.mem_cons.mp hx with h | h
          · rw [h]
            have hpt : p ∈ t := by
              rw [hm]
              exact List.mem_append_left _ hp
            exact le_of_lt (hs2.1 p hpt)
          · exact hmax x h
    · have hscan : scanResolutions vres (e :: t) prev = (prev, e :: t) := by
        simp [scanResolutions, hlt]
      rw [hscan]
      refine ⟨[], rfl, by simp, ?_, Or.inl ⟨rfl, rfl⟩⟩
      intro x rest hx
      have hxe : e = x := by
        have := List.cons.inj hx
        exact this.1
      rw [← hxe]
      exact not_lt.mp hlt

/-- The matrix draw selects from a non-empty ascending map is an entry of the map next to
`vres`: no entry below `vres` is coarser and no entry of at least `vres` is finer. Its
rounded distance from `vres` is the least one; when it is finer than `vres` its rounded
distance is less than that of every entry of at least `vres`. -/
theorem selectTileMatrix_spec (m : List (ℚ × QgsWmtsTileMatrix)) (vres : ℚ)
    (hsorted : AscendingKeys m) (hne : m ≠ []) :
    ∃ e, selectTileMatrix m vres = some e ∧ e ∈ m ∧
      (∀ x ∈ m, roundDouble |e.1 - vres| ≤ roundDouble |x.1 - vres|) ∧
      (e.1 < vres → ∀ x ∈ m, vres ≤ x.1 →
        roundDouble (vres - e.1) < roundDouble (x.1 - vres)) ∧
      (∀ x ∈ m, x.1 < vres → x.1 ≤ e.1) ∧
      (∀ x ∈ m, vres ≤ x.1 → e.1 ≤ x.1) := by
  obtain ⟨pre, hm, hpre, hhead, hprev⟩ := scanResolutions_spec vres m none hsorted
  unfold selectTileMatrix
  generalize hscan : scanResolutions vres m none = r at hm hhead hprev
  obtain ⟨prev, rest⟩ := r
  simp only at hm hhead hprev
  have hsplit : (AscendingKeys pre ∧ AscendingKeys rest) ∧
      ∀ a ∈ pre, ∀ b ∈ rest, a.1 < b.1 := by
    have := hsorted
    rw [hm] at this
    have h3 := List.pairwise_append.mp this
    exact ⟨⟨h3.1, h3.2.1⟩, h3.2.2⟩
  have hbelow : ∀ a b : ℚ, a ≤ b → b < vres →
      roundDouble |b - vres| ≤ roundDouble |a - vres| := by
    intro a b hab hb
    rw [abs_of_neg (by linarith), abs_of_neg (by linarith)]
    exact roundDouble_mono _ _ (by linarith)
  have habove : ∀ a b : ℚ, vres ≤ a → a ≤ b →
      roundDouble |a - vres| ≤ roundDouble |b - vres| := by
    intro a b ha hab
    rw [abs_of_nonneg (by linarith), abs_of_nonneg (by linarith)]
    exact roundDouble_mono _ _ (by linarith)
  cases rest with
  | nil =>
    -- every entry lies below vres: the last one is taken
    rw [List.append_nil] at hm
    rcases hprev with ⟨hnil, _⟩ | ⟨p, hp, hsel, hmax⟩
    · exact absurd (hm.trans hnil) hne
    · refine ⟨p, by simp [hsel], by rw [hm]; exact hp, ?_, ?_, ?_, ?_⟩
      · intro x hx
        rw [hm] at hx
        exact hbelow x.1 p.1 (hmax x hx) (hpre p hp)
      · intro _ x hx hge
        rw [hm] at hx
        have := hpre x hx
        linarith
      · intro x hx _
        rw [hm] at hx
        exact hmax x hx
      · intro x hx hge
        rw [hm] at hx
        have := hpre x hx
        linarith
  | cons it rest2 =>
    have hit : vres ≤ it.1 := hhead it rest2 rfl
    have hrest : ∀ x ∈ it :: rest2, it.1 ≤ x.1 := by
      intro x hx
      rcases List.mem_cons.mp hx with h | h
      · rw [h]
      · exact le_of_lt ((List.pairwise_cons.mp hsplit.1.2).1 x h)
    rcases hprev with ⟨hnil, hsel⟩ | ⟨p, hp, hsel, hmax⟩
    · -- no entry lies below vres: the first one is taken
      rw [hnil, List.nil_append] at hm
      rw [hsel]
      refine ⟨it, rfl, by rw [hm]; exact List.mem_cons_self it rest2, ?_, ?_, ?_, ?_⟩
      · intro x hx
        rw [hm] at hx
        exact habove it.1 x.1 hit (hrest x hx)
      · intro hlt
        linarith
      · intro x hx hlt
        rw [hm] at hx
        have := hrest x hx
        linarith
      · intro x hx _
        rw [hm] at hx
        exact hrest x hx
    · rw [hsel]
      have hplt : p.1 < vres := hpre p hp
      by_cases hcl : roundDouble (vres - p.1) < roundDouble (it.1 - vres)
      · refine ⟨p, by simp [hcl], by rw [hm]; exact List.mem_append_left _ hp, ?_, ?_, ?_, ?_⟩
        · intro x hx
          rw [hm] at hx
          rcases List.mem_append.mp hx with h | h
          · exact hbelow x.1 p.1 (hmax x h) hplt
          · have h1 := hrest x h
            have h2 := roundDouble_mono (it.1 - vres) (x.1 - vres) (by linarith)
            rw [abs_of_neg (by linarith), abs_of_nonneg (by linarith), neg_sub]
            exact le_of_lt (lt_of_lt_of_le hcl h2)
        · intro _ x hx hge
          rw [hm] at hx
          rcases List.mem_append.mp hx with h | h
          · have := hpre x h
            linarith
          · have h1 := hrest x h
            exact lt_of_lt_of_le hcl (roundDouble_mono _ _ (by linarith))
        · intro x hx hlt
          rw [hm] at hx
          rcases List.mem_append.mp hx with h | h
          · exact hmax x h
          · have := hrest x h
            linarith
        · intro x hx hge
          rw [hm] at hx
          rcases List.mem_append.mp hx with h | h
          · have := hpre x h
            linarith
          · have := hrest x h
            linarith
      · refine ⟨it, by simp [hcl], by rw [hm]; simp, ?_, ?_, ?_, ?_⟩
        · intro x hx
          rw [hm] at hx
          rcases List.mem_append.mp hx with h | h
          · have h1 := hpre x h
            have h3 := hmax x h
            have h2 := roundDouble_mono (vres - p.1) (vres - x.1) (by linarith)
            rw [abs_of_nonneg (by linarith), abs_of_neg (by linarith), neg_sub]
            exact le_trans (not_lt.mp hcl) h2
          · exact habove it.1 x.1 hit (hrest x h)
        · intro hlt
          linarith
        · intro x hx hlt
          rw [hm] at hx
          rcases List.mem_append.mp hx with h | h
          · have := hpre x h
            linarith
          · have := hrest x h
            linarith
        · intro x hx _
          rw [hm] at hx
          rcases List.mem_append.mp hx with h | h
          · have := hpre x h
            linarith
          · exact hrest x h

/-- When every entry lies below `vres` the scan runs to the end and `prev` is the last
entry. -/
theorem scanResolutions_all_below (vres : ℚ) :
    ∀ (m : List (ℚ × QgsWmtsTileMatrix)) (prev : Option (ℚ × QgsWmtsTileMatrix)),
      (∀ e ∈ m, e.1 < vres) →
      scanResolutions vres m prev = (m.getLast?.or prev, []) := by
  intro m
  induction m with
  | nil => intro prev _; rfl
  | cons e t ih =>
    intro prev h
    have he : e.1 < vres := h e (List.mem_cons_self e t)
    have ht : ∀ x ∈ t, x.1 < vres := fun x hx => h x (List.mem_cons_of_mem e hx)
    have hscan : scanResolutions vres (e :: t) prev = scanResolutions vres t (some e) := by
      simp [scanResolutions, he]
    rw [hscan, ih (some e) ht, List.getLast?_cons]
    cases t.getLast? <;> rfl

/-- C4 (amended): for a non-empty tile matrix set (kept by ascending resolution, as the
QMap keeps it) and every view resolution `vres`, the matrix draw selects is a matrix of the
set whose difference to `vres`, as the double subtraction delivers it (rounded to a
double), is the least one; a matrix finer than `vres` is selected only when it is strictly
closer to `vres` than every matrix of resolution at least `vres`. For the resolutions 1 and
2 and `vres = 1.3` the matrix of resolution 1 is selected. -/
theorem nearest_rounded_resolution_selected (m : List (ℚ × QgsWmtsTileMatrix)) (vres : ℚ)
    (hsorted : AscendingKeys m) (hne : m ≠ []) :
    (∃ e, selectTileMatrix m vres = some e ∧ e ∈ m ∧
      (∀ x ∈ m, roundDouble |e.1 - vres| ≤ roundDouble |x.1 - vres|) ∧
      (e.1 < vres → ∀ x ∈ m, vres ≤ x.1 → vres - e.1 < x.1 - vres)) ∧
    selectTileMatrix sampleMatrices (13 / 10) = some (1, fineMatrix) := by
  obtain ⟨e, hsel, hmem, hmin, hfiner, _, _⟩ := selectTileMatrix_spec m vres hsorted hne
  exact ⟨⟨e, hsel, hmem, hmin,
    fun hlt x hx hge => roundDouble_lt _ _ (hfiner hlt x hx hge)⟩, by decide!⟩

/-- Witness for C4 (amended): the sample set at the view resolution 1.3. -/
theorem nearest_rounded_resolution_selected_witness :
    (AscendingKeys sampleMatrices ∧ sampleMatrices ≠ []) ∧
    ((∃ e, selectTileMatrix sampleMatrices (13 / 10) = some e ∧ e ∈ sampleMatrices ∧
      (∀ x ∈ sampleMatrices,
        roundDouble |e.1 - 13 / 10| ≤ roundDouble |x.1 - 13 / 10|) ∧
      (e.1 < 13 / 10 → ∀ x ∈ sampleMatrices, 13 / 10 ≤ x.1 → 13 / 10 - e.1 < x.1 - 13 / 10)) ∧
    selectTileMatrix sampleMatrices (13 / 10) = some (1, fineMatrix)) :=
  ⟨⟨by simp [AscendingKeys, sampleMatrices], by decide⟩,
    nearest_rounded_resolution_selected sampleMatrices (13 / 10)
      (by simp [AscendingKeys, sampleMatrices]) (by decide)⟩

/-- Counterexample for C4 as stated: in the set of the resolutions `2 ^ -60` and 2 the
matrix of resolution `2 ^ -60` is the nearer one to the view resolution 1, at the distance
`1 - 2 ^ -60` against 1. The double subtraction delivers 1 for both differences, the test
`vres - prev.key() < it.key() - vres` fails and draw selects the matrix of resolution 2. -/
theorem nearer_resolution_not_selected :
    (AscendingKeys roundingMatrices ∧ roundingMatrices ≠ []) ∧
    (1 / 2 ^ 60, fineMatrix) ∈ roundingMatrices ∧
    |(1 / 2 ^ 60 : ℚ) - 1| < |(2 : ℚ) - 1| ∧
    roundDouble (1 - 1 / 2 ^ 60) = 1 ∧ roundDouble (2 - 1) = 1 ∧
    selectTileMatrix roundingMatrices 1 = some (2, coarseMatrix) ∧
    ¬ ∀ x ∈ roundingMatrices, |(2 : ℚ) - 1| ≤ |x.1 - 1| := by
  refine ⟨⟨?_, by decide⟩, by simp [roundingMatrices],
    by decide!, by decide!, by decide!, by decide!, ?_⟩
  · simp [AscendingKeys, roundingMatrices]
    norm_num
  intro h
  have h1 := h (1 / 2 ^ 60, fineMatrix) (by simp [roundingMatrices])
  have h2 : ¬ |(2 : ℚ) - 1| ≤ |(1 / 2 ^ 60 : ℚ) - 1| := by decide!
  exact h2 h1

/-- C5 (amended): for a non-empty tile matrix set (kept by ascending resolution), if no
matrix has a resolution less than or equal to `vres`, the selection of draw uses the finest
matrix of the set (the first one, of the smallest resolution); it uses the coarsest matrix
(the last one, of the largest resolution) if every matrix has a resolution less than
`vres`. -/
theorem selection_outside_range (m : List (ℚ × QgsWmtsTileMatrix)) (vres : ℚ)
    (hsorted : AscendingKeys m) (hne : m ≠ []) :
    ((∀ e ∈ m, ¬ e.1 ≤ vres) →
      selectTileMatrix m vres = m.head? ∧
      ∃ f, m.head? = some f ∧ f ∈ m ∧ ∀ e ∈ m, f.1 ≤ e.1) ∧
    ((∀ e ∈ m, e.1 < vres) →
      selectTileMatrix m vres = m.getLast? ∧
      ∃ l, m.getLast? = some l ∧ l ∈ m ∧ ∀ e ∈ m, e.1 ≤ l.1) := by
  obtain ⟨s, hsel, hmem, _, _, hfinest, hcoarsest⟩ := selectTileMatrix_spec m vres hsorted hne
  constructor
  · intro h
    have hhead : selectTileMatrix m vres = m.head? := by
      cases m with
      | nil => exact absurd rfl hne
      | cons e t =>
        have he : ¬ e.1 < vres := fun hlt => h e (List.mem_cons_self e t) (le_of_lt hlt)
        simp [selectTileMatrix, scanResolutions, he]
    refine ⟨hhead, s, by rw [← hhead, hsel], hmem, ?_⟩
    intro e he
    exact hcoarsest e he (le_of_lt (not_le.mp (h e he)))
  · intro h
    have hlast : selectTileMatrix m vres = m.getLast? := by
      unfold selectTileMatrix
      rw [scanResolutions_all_below vres m none h]
      cases m.getLast? <;> rfl
    refine ⟨hlast, s, by rw [← hlast, hsel], hmem, ?_⟩
    intro e he
    exact hfinest e he (h e he)

/-- Witness for C5 (amended): in the sample set the view resolution 0.5 selects the matrix
of resolution 1 and the view resolution 3 the matrix of resolution 2. -/
theorem selection_outside_range_witness :
    (AscendingKeys sampleMatrices ∧ sampleMatrices ≠ []) ∧
    ((∀ e ∈ sampleMatrices, ¬ e.1 ≤ 1 / 2) ∧
      selectTileMatrix sampleMatrices (1 / 2) = sampleMatrices.head? ∧
      sampleMatrices.head? = some (1, fineMatrix)) ∧
    ((∀ e ∈ sampleMatrices, e.1 < 3) ∧
      selectTileMatrix sampleMatrices 3 = sampleMatrices.getLast? ∧
      sampleMatrices.getLast? = some (2, coarseMatrix)) := by
  have hs : AscendingKeys sampleMatrices := by simp [AscendingKeys, sampleMatrices]
  have h1 : ∀ e ∈ sampleMatrices, ¬ e.1 ≤ 1 / 2 := by
    simp [sampleMatrices]
    norm_num
  have h2 : ∀ e ∈ sampleMatrices, e.1 < 3 := by
    simp [sampleMatrices]
    norm_num
  exact ⟨⟨hs, by decide⟩,
    ⟨h1, ((selection_outside_range sampleMatrices (1 / 2) hs (by decide)).1 h1).1, by decide!⟩,
    ⟨h2, ((selection_outside_range sampleMatrices 3 hs (by decide)).2 h2).1, by decide!⟩⟩

/-- Counterexample for C5 as stated: in the sample set no matrix has a resolution of at
most 0.5, and draw selects the matrix of resolution 1 for the view resolution 0.5, not
the coarsest matrix, which has the resolution 2. -/
theorem coarsest_not_selected_below_range :
    (∀ e ∈ sampleMatrices, ¬ e.1 ≤ 1 / 2) ∧
    selectTileMatrix sampleMatrices (1 / 2) = some (1, fineMatrix) ∧
    sampleMatrices.getLast? = some (2, coarseMatrix) ∧
    (∀ e ∈ sampleMatrices, e.1 ≤ 2) ∧
    selectTileMatrix sampleMatrices (1 / 2) ≠ some (2, coarseMatrix) := by
  refine ⟨?_, by decide!, by decide!, ?_, by decide!⟩
  · simp [sampleMatrices]
    norm_num
  · simp [sampleMatrices]

/-- C6: for a non-empty tile matrix set and view resolutions `v1 < v2`, the matrix selected
for `v1` is never coarser than the matrix selected for `v2`: its resolution is less than
or equal. -/
theorem selection_monotone (m : List (ℚ × QgsWmtsTileMatrix)) (v1 v2 : ℚ)
    (hsorted : AscendingKeys m) (hne : m ≠ []) (hlt : v1 < v2) :
    ∃ e1 e2, selectTileMatrix m v1 = some e1 ∧ selectTileMatrix m v2 = some e2 ∧
      e1.1 ≤ e2.1 := by
  obtain ⟨e1, hs1, hm1, hmin1, _, _, hup1⟩ := selectTileMatrix_spec m v1 hsorted hne
  obtain ⟨e2, hs2, hm2, _, hfiner2, hlow2, _⟩ := selectTileMatrix_spec m v2 hsorted hne
  refine ⟨e1, e2, hs1, hs2, ?_⟩
  by_contra hnot
  have hgt : e2.1 < e1.1 := not_le.mp hnot
  -- the two selections are the same pair of neighbours of both resolutions
  have h1 : v2 ≤ e1.1 := by
    by_contra h
    have := hlow2 e1 hm1 (not_le.mp h)
    linarith
  have h2 : e2.1 < v1 := by
    by_contra h
    have := hup1 e2 hm2 (not_lt.mp h)
    linarith
  have h3 := hfiner2 (by linarith) e1 hm1 h1
  have h4 := hmin1 e2 hm2
  rw [abs_of_nonneg (by linarith), abs_of_neg (by linarith), neg_sub] at h4
  have h5 := roundDouble_mono (v1 - e2.1) (v2 - e2.1) (by linarith)
  have h6 := roundDouble_mono (e1.1 - v2) (e1.1 - v1) (by linarith)
  linarith

/-- Witness for C6: in the sample set the view resolutions 1.3 and 1.7 select the matrices
of resolution 1 and 2. -/
theorem selection_monotone_witness :
    (AscendingKeys sampleMatrices ∧ sampleMatrices ≠ [] ∧ (13 / 10 : ℚ) < 17 / 10) ∧
    selectTileMatrix sampleMatrices (13 / 10) = some (1, fineMatrix) ∧
    selectTileMatrix sampleMatrices (17 / 10) = some (2, coarseMatrix) ∧
    ∃ e1 e2, selectTileMatrix sampleMatrices (13 / 10) = some e1 ∧
      selectTileMatrix sampleMatrices (17 / 10) = some e2 ∧ e1.1 ≤ e2.1 :=
  ⟨⟨by simp [AscendingKeys, sampleMatrices], by decide, by norm_num⟩, by decide!, by decide!,
    selection_monotone sampleMatrices (13 / 10) (17 / 10)
      (by simp [AscendingKeys, sampleMatrices]) (by decide) (by norm_num)⟩

/-! ## The covering range -/

theorem mem_intRange (lo hi x : Int) : x ∈ intRange lo hi ↔ lo ≤ x ∧ x ≤ hi := by
  unfold intRange
  constructor
  · intro h
    obtain ⟨k, hk, hkx⟩ := List.mem_map.mp h
    rw [List.mem_range] at hk
    omega
  · rintro ⟨h1, h2⟩
    exact List.mem_map.mpr ⟨(x - lo).toNat, List.mem_range.mpr (by omega), by omega⟩

theorem mem_tileList (r : TileRange) (row col : Int) :
    (row, col) ∈ tileList r ↔
      (r.row0 ≤ row ∧ row ≤ r.row1) ∧ (r.col0 ≤ col ∧ col ≤ r.col1) := by
  unfold tileList
  constructor
  · intro h
    obtain ⟨a, ha, hmem⟩ := List.mem_flatMap.mp h
    obtain ⟨b, hb, hab⟩ := List.mem_map.mp hmem
    have h1 : a = row := congrArg Prod.fst hab
    have h2 : b = col := congrArg Prod.snd hab
    rw [← h1, ← h2]
    exact ⟨(mem_intRange _ _ a).mp ha, (mem_intRange _ _ b).mp hb⟩
  · rintro ⟨ha, hb⟩
    exact List.mem_flatMap.mpr ⟨row, (mem_intRange _ _ row).mpr ha,
      List.mem_map.mpr ⟨col, (mem_intRange _ _ col).mpr hb, rfl⟩⟩

theorem qBound_within (lo val hi : Int) (h : lo ≤ hi) :
    lo ≤ qBound lo val hi ∧ qBound lo val hi ≤ hi := by
  unfold qBound
  omega

theorem qBound_mono (lo hi a b : Int) (h : a ≤ b) : qBound lo a hi ≤ qBound lo b hi := by
  unfold qBound
  omega

/-- What a plan of draw consists of. -/
theorem drawPlan_some (st : Provider) (viewExtent : QgsRectangle) (pixelWidth : Int)
    (p : TilePlan) (hplan : drawPlan st viewExtent pixelWidth = some p) :
    p.twMap = p.tm.tileWidth * p.tres ∧ p.thMap = p.tm.tileHeight * p.tres ∧
    p.limits = tileLimits st.mTileLayer st.mTileMatrixSet p.tm ∧
    p.range = coveringRange viewExtent p.tm p.twMap p.thMap p.limits := by
  unfold drawPlan at hplan
  simp only [Option.map_eq_some'] at hplan
  obtain ⟨c, _, hp⟩ := hplan
  rw [← hp]
  exact ⟨rfl, rfl, rfl, rfl⟩

/-- A rounded result is at most `2 ^ 1024` in magnitude. -/
theorem abs_roundDouble_le (q : ℚ) : |roundDouble q| ≤ (2 : ℚ) ^ (1024 : Int) := by
  have hpos : ∀ x : ℚ, 0 ≤ x → roundDouble x ≤ (2 : ℚ) ^ (1024 : Int) := by
    intro x hx
    rw [roundDouble_of_nonneg x hx]
    exact min_le_right _ _
  rcases le_or_lt 0 q with h | h
  · rw [abs_of_nonneg (roundDouble_nonneg q h)]
    exact hpos q h
  · have h1 := hpos (-q) (by linarith)
    have h2 := roundDouble_nonneg (-q) (by linarith)
    rw [roundDouble_neg] at h1 h2
    rw [abs_of_nonpos (by linarith)]
    exact h1

/-- The double division by a positive divisor keeps the order of the dividends. -/
theorem doubleDiv_mono (d1 d2 den : ℚ) (hden : 0 < den)
    (h1 : |d1| ≤ (2 : ℚ) ^ (1024 : Int)) (h2 : |d2| ≤ (2 : ℚ) ^ (1024 : Int))
    (h : d1 ≤ d2) : doubleDiv d1 den ≤ doubleDiv d2 den := by
  have hb1 := abs_le.mp h1
  have hb2 := abs_le.mp h2
  unfold doubleDiv
  simp only [if_pos hden]
  by_cases hi1 : |d1| = (2 : ℚ) ^ (1024 : Int)
  · by_cases hi2 : |d2| = (2 : ℚ) ^ (1024 : Int)
    · rw [if_pos hi1, if_pos hi2]
      exact h
    · rw [if_pos hi1, if_neg hi2]
      have hd1 : d1 = -(2 : ℚ) ^ (1024 : Int) := by
        rcases abs_eq (by positivity : (0 : ℚ) ≤ (2 : ℚ) ^ (1024 : Int)) |>.mp hi1 with e | e
        · exfalso
          apply hi2
          have : d2 = (2 : ℚ) ^ (1024 : Int) := le_antisymm hb2.2 (by rw [← e]; exact h)
          rw [this]
          exact abs_of_nonneg (by positivity)
        · exact e
      rw [hd1]
      exact (abs_le.mp (abs_roundDouble_le _)).1
  · by_cases hi2 : |d2| = (2 : ℚ) ^ (1024 : Int)
    · rw [if_neg hi1, if_pos hi2]
      have hd2 : d2 = (2 : ℚ) ^ (1024 : Int) := by
        rcases abs_eq (by positivity : (0 : ℚ) ≤ (2 : ℚ) ^ (1024 : Int)) |>.mp hi2 with e | e
        · exact e
        · exfalso
          apply hi1
          have : d1 = -(2 : ℚ) ^ (1024 : Int) := le_antisymm (by rw [← e]; exact h) hb1.1
          rw [this, abs_neg]
          exact abs_of_nonneg (by positivity)
      rw [hd2]
      exact (abs_le.mp (abs_roundDouble_le _)).2
    · rw [if_neg hi1, if_neg hi2]
      exact roundDouble_mono _ _ (div_le_div_of_nonneg_right h (le_of_lt hden))

/-- The floor of the double quotient grows with the minuend. -/
theorem floorQuotient_mono_left (a1 a2 b den : ℚ) (hden : 0 < den) (h : a1 ≤ a2) :
    floorQuotient a1 b den ≤ floorQuotient a2 b den :=
  Int.floor_le_floor (doubleDiv_mono _ _ den hden (abs_roundDouble_le _)
    (abs_roundDouble_le _) (roundDouble_mono _ _ (by linarith)))

/-- The floor of the double quotient falls with the subtrahend. -/
theorem floorQuotient_mono_right (a b1 b2 den : ℚ) (hden : 0 < den) (h : b2 ≤ b1) :
    floorQuotient a b1 den ≤ floorQuotient a b2 den :=
  Int.floor_le_floor (doubleDiv_mono _ _ den hden (abs_roundDouble_le _)
    (abs_roundDouble_le _) (roundDouble_mono _ _ (by linarith)))

theorem intMin_le_floorQuotientToInt (a b den : ℚ) : intMin ≤ floorQuotientToInt a b den := by
  unfold floorQuotientToInt
  simp only []
  split_ifs with h1 h2
  · exact le_refl _
  · exact h2.1
  · exact le_refl _

/-- The cast is the floor where the floor is a value of `int`. -/
theorem floorQuotientToInt_of_fits (a b den : ℚ) (hden : den ≠ 0)
    (hlo : intMin ≤ floorQuotient a b den) (hhi : floorQuotient a b den < 2 ^ 31) :
    floorQuotientToInt a b den = floorQuotient a b den := by
  unfold floorQuotientToInt
  simp only [if_neg hden]
  rw [if_pos ⟨hlo, hhi⟩]

/-- The cast keeps the order of two floors of which the larger one is below `2 ^ 31`. -/
theorem floorQuotientToInt_mono (a1 b1 a2 b2 den : ℚ) (hden : den ≠ 0)
    (hab : floorQuotient a1 b1 den ≤ floorQuotient a2 b2 den)
    (hfit : floorQuotient a2 b2 den < 2 ^ 31) :
    floorQuotientToInt a1 b1 den ≤ floorQuotientToInt a2 b2 den := by
  by_cases hlo : intMin ≤ floorQuotient a1 b1 den
  · rw [floorQuotientToInt_of_fits a1 b1 den hden hlo (lt_of_le_of_lt hab hfit),
      floorQuotientToInt_of_fits a2 b2 den hden (le_trans hlo hab) hfit]
    exact hab
  · have ha : floorQuotientToInt a1 b1 den = intMin := by
      unfold floorQuotientToInt
      simp only [if_neg hden]
      rw [if_neg (fun h => hlo h.1)]
    rw [ha]
    exact intMin_le_floorQuotientToInt a2 b2 den

/-- The limits are the TileMatrixLimits the tile layer publishes for the matrix in its link
to the matrix set. -/
theorem tileLimits_published (tl : QgsWmtsTileLayer) (tms : QgsWmtsTileMatrixSet)
    (tm : QgsWmtsTileMatrix) (link : QgsWmtsTileMatrixSetLink) (tml : QgsWmtsTileMatrixLimits)
    (hlink : tl.setLinks.lookup tms.identifier = some link)
    (hlim : link.limits.lookup tm.identifier = some tml) :
    tileLimits (some tl) (some tms) tm = tml := by
  unfold tileLimits
  simp only [hlink, hlim]

/-- Without published TileMatrixLimits for the matrix the limits are the whole matrix. -/
theorem tileLimits_unpublished (tileLayer : Option QgsWmtsTileLayer)
    (tileMatrixSet : Option QgsWmtsTileMatrixSet) (tm : QgsWmtsTileMatrix)
    (hnone : ∀ tl tms link, tileLayer = some tl → tileMatrixSet = some tms →
      tl.setLinks.lookup tms.identifier = some link → link.limits.lookup tm.identifier = none) :
    tileLimits tileLayer tileMatrixSet tm
      = { minTileRow := 0, maxTileRow := tm.matrixHeight - 1,
          minTileCol := 0, maxTileCol := tm.matrixWidth - 1 } := by
  unfold tileLimits
  cases tileLayer with
  | none => rfl
  | some tl =>
    cases tileMatrixSet with
    | none => rfl
    | some tms =>
      simp only []
      cases hlink : tl.setLinks.lookup tms.identifier with
      | none => rfl
      | some link =>
        simp only [hnone tl tms link rfl rfl hlink]
        rfl

/-- C7: in a tiled draw with a normalised view extent, positive tile map sizes and limits
with `minCol ≤ maxCol` and `minRow ≤ maxRow` (the TileMatrixLimits the layer publishes for
the selected matrix, or the whole matrix when none are published), the four values of the
covering range lie within the limits, and so does every `( row, col )` the dispatch loops
visit. The range is in order, `col0 ≤ col1` and `row0 ≤ row1`, when the floors that lines
869 and 870 compute for the bottom right corner of the view extent are below `2 ^ 31`, so
that their cast to `int` has a value to deliver. -/
theorem covering_range_within_limits (st : Provider) (viewExtent : QgsRectangle)
    (pixelWidth : Int) (p : TilePlan)
    (hplan : drawPlan st viewExtent pixelWidth = some p)
    (hx : viewExtent.xmin ≤ viewExtent.xmax) (hy : viewExtent.ymin ≤ viewExtent.ymax)
    (htw : 0 < p.twMap) (hth : 0 < p.thMap)
    (hcol : p.limits.minTileCol ≤ p.limits.maxTileCol)
    (hrow : p.limits.minTileRow ≤ p.limits.maxTileRow) :
    ((∀ tl tms link tml, st.mTileLayer = some tl → st.mTileMatrixSet = some tms →
        tl.setLinks.lookup tms.identifier = some link →
        link.limits.lookup p.tm.identifier = some tml → p.limits = tml) ∧
      ((∀ tl tms link, st.mTileLayer = some tl → st.mTileMatrixSet = some tms →
        tl.setLinks.lookup tms.identifier = some link →
        link.limits.lookup p.tm.identifier = none) →
        p.limits = { minTileRow := 0, maxTileRow := p.tm.matrixHeight - 1,
                     minTileCol := 0, maxTileCol := p.tm.matrixWidth - 1 })) ∧
    (p.limits.minTileCol ≤ p.range.col0 ∧ p.range.col0 ≤ p.limits.maxTileCol ∧
      p.limits.minTileCol ≤ p.range.col1 ∧ p.range.col1 ≤ p.limits.maxTileCol) ∧
    (p.limits.minTileRow ≤ p.range.row0 ∧ p.range.row0 ≤ p.limits.maxTileRow ∧
      p.limits.minTileRow ≤ p.range.row1 ∧ p.range.row1 ≤ p.limits.maxTileRow) ∧
    (∀ rc ∈ tileList p.range,
      (p.limits.minTileRow ≤ rc.1 ∧ rc.1 ≤ p.limits.maxTileRow) ∧
      (p.limits.minTileCol ≤ rc.2 ∧ rc.2 ≤ p.limits.maxTileCol)) ∧
    (floorQuotient viewExtent.xmax p.tm.topLeftX p.twMap < 2 ^ 31 →
      p.range.col0 ≤ p.range.col1) ∧
    (floorQuotient p.tm.topLeftY viewExtent.ymin p.thMap < 2 ^ 31 →
      p.range.row0 ≤ p.range.row1) := by
  obtain ⟨_, _, hlim, hrange⟩ := drawPlan_some st viewExtent pixelWidth p hplan
  have hc0 := qBound_within p.limits.minTileCol
    (floorQuotientToInt viewExtent.xmin p.tm.topLeftX p.twMap) p.limits.maxTileCol hcol
  have hc1 := qBound_within p.limits.minTileCol
    (floorQuotientToInt viewExtent.xmax p.tm.topLeftX p.twMap) p.limits.maxTileCol hcol
  have hr0 := qBound_within p.limits.minTileRow
    (floorQuotientToInt p.tm.topLeftY viewExtent.ymax p.thMap) p.limits.maxTileRow hrow
  have hr1 := qBound_within p.limits.minTileRow
    (floorQuotientToInt p.tm.topLeftY viewExtent.ymin p.thMap) p.limits.maxTileRow hrow
  have hcm := floorQuotient_mono_left viewExtent.xmin viewExtent.xmax p.tm.topLeftX p.twMap
    htw hx
  have hrm := floorQuotient_mono_right p.tm.topLeftY viewExtent.ymax viewExtent.ymin p.thMap
    hth hy
  have hcols : p.limits.minTileCol ≤ p.range.col0 ∧ p.range.col0 ≤ p.limits.maxTileCol ∧
      p.limits.minTileCol ≤ p.range.col1 ∧ p.range.col1 ≤ p.limits.maxTileCol := by
    rw [hrange]
    exact ⟨hc0.1, hc0.2, hc1.1, hc1.2⟩
  have hrows : p.limits.minTileRow ≤ p.range.row0 ∧ p.range.row0 ≤ p.limits.maxTileRow ∧
      p.limits.minTileRow ≤ p.range.row1 ∧ p.range.row1 ≤ p.limits.maxTileRow := by
    rw [hrange]
    exact ⟨hr0.1, hr0.2, hr1.1, hr1.2⟩
  refine ⟨⟨?_, ?_⟩, hcols, hrows, ?_, ?_, ?_⟩
  · intro tl tms link tml htl htms hlink hlimits
    rw [hlim, htl, htms]
    exact tileLimits_published tl tms p.tm link tml hlink hlimits
  · intro hnone
    rw [hlim]
    exact tileLimits_unpublished st.mTileLayer st.mTileMatrixSet p.tm hnone
  · rintro ⟨row, col⟩ hrc
    have := (mem_tileList p.range row col).mp hrc
    simp only
    omega
  · intro hfit
    rw [hrange]
    exact qBound_mono p.limits.minTileCol p.limits.maxTileCol _ _
      (floorQuotientToInt_mono _ _ _ _ p.twMap (ne_of_gt htw) hcm hfit)
  · intro hfit
    rw [hrange]
    exact qBound_mono p.limits.minTileRow p.limits.maxTileRow _ _
      (floorQuotientToInt_mono _ _ _ _ p.thMap (ne_of_gt hth) hrm hfit)

/-- Witness for C7: on the layer that publishes the rows and columns 1 to 2 as
TileMatrixLimits of the fine matrix, the nine tile view gives the range of the columns 1
to 2 and the rows 1 to 2. -/
theorem covering_range_within_limits_witness :
    (drawPlan limitedProvider nineTileView 600 = some limitedPlan ∧
      nineTileView.xmin ≤ nineTileView.xmax ∧ nineTileView.ymin ≤ nineTileView.ymax ∧
      0 < limitedPlan.twMap ∧ 0 < limitedPlan.thMap ∧
      limitedPlan.limits.minTileCol ≤ limitedPlan.limits.maxTileCol ∧
      limitedPlan.limits.minTileRow ≤ limitedPlan.limits.maxTileRow) ∧
    (limitedPlan.limits
        = { minTileRow := 1, maxTileRow := 2, minTileCol := 1, maxTileCol := 2 } ∧
      limitedPlan.range = { col0 := 1, row0 := 1, col1 := 2, row1 := 2 } ∧
      floorQuotient nineTileView.xmax limitedPlan.tm.topLeftX limitedPlan.twMap < 2 ^ 31 ∧
      floorQuotient limitedPlan.tm.topLeftY nineTileView.ymin limitedPlan.thMap < 2 ^ 31) ∧
    (limitedPlan.limits.minTileCol ≤ limitedPlan.range.col0 ∧
      limitedPlan.range.col0 ≤ limitedPlan.limits.maxTileCol ∧
      limitedPlan.limits.minTileCol ≤ limitedPlan.range.col1 ∧
      limitedPlan.range.col1 ≤ limitedPlan.limits.maxTileCol) ∧
    (limitedPlan.limits.minTileRow ≤ limitedPlan.range.row0 ∧
      limitedPlan.range.row0 ≤ limitedPlan.limits.maxTileRow ∧
      limitedPlan.limits.minTileRow ≤ limitedPlan.range.row1 ∧
      limitedPlan.range.row1 ≤ limitedPlan.limits.maxTileRow) ∧
    (∀ rc ∈ tileList limitedPlan.range,
      (limitedPlan.limits.minTileRow ≤ rc.1 ∧ rc.1 ≤ limitedPlan.limits.maxTileRow) ∧
      (limitedPlan.limits.minTileCol ≤ rc.2 ∧ rc.2 ≤ limitedPlan.limits.maxTileCol)) ∧
    limitedPlan.range.col0 ≤ limitedPlan.range.col1 ∧
    limitedPlan.range.row0 ≤ limitedPlan.range.row1 := by
  have h := covering_range_within_limits limitedProvider nineTileView 600 limitedPlan
    (by decide!) (by decide!) (by decide!) (by decide!) (by decide!) (by decide) (by decide)
  exact ⟨⟨by decide!, by decide!, by decide!, by decide!, by decide!, by decide, by decide⟩,
    ⟨rfl, rfl, by decide!, by decide!⟩, h.2.1, h.2.2.1, h.2.2.2.1,
    h.2.2.2.2.1 (by decide!), h.2.2.2.2.2 (by decide!)⟩

/-- The failing input of C7: the far view is normalised, the tile map sizes of the plan
are positive and the limits are the whole coarse matrix, the columns 0 to 31. The right
edge of the view lies in the column `2 ^ 31`, which is no value of `int`: the cast of line
869 gives `INT_MIN`, `qBound` raises it to the column 0, and the range has
`col1 = 0 < col0 = 5`. -/
theorem covering_range_inverted_by_cast :
    drawPlan tiledProvider farView 600 = some farPlan ∧
    (farView.xmin ≤ farView.xmax ∧ farView.ymin ≤ farView.ymax) ∧
    (0 < farPlan.twMap ∧ 0 < farPlan.thMap) ∧
    (farPlan.limits.minTileCol ≤ farPlan.limits.maxTileCol ∧
      farPlan.limits.minTileRow ≤ farPlan.limits.maxTileRow) ∧
    floorQuotient farView.xmax farPlan.tm.topLeftX farPlan.twMap = 2 ^ 31 ∧
    floorQuotientToInt farView.xmax farPlan.tm.topLeftX farPlan.twMap = intMin ∧
    farPlan.range.col0 = 5 ∧ farPlan.range.col1 = 0 ∧
    ¬ farPlan.range.col0 ≤ farPlan.range.col1 := by
  refine ⟨by decide!, ⟨by decide!, by decide!⟩, ⟨by decide!, by decide!⟩,
    ⟨by decide, by decide⟩, by decide!, by decide!, rfl, rfl, by decide⟩

/-- The plan of draw does not depend on the members draw has written before it plans: the
cached image, the cached view, the GetMap reply and the generation. -/
theorem drawPlan_after_reset (st : Provider) (viewExtent : QgsRectangle)
    (pixelWidth pixelHeight : Int) (n : Int) :
    drawPlan
      { st with
        mCacheReply := none,
        mCachedImage := some (QImage.blank pixelWidth pixelHeight),
        mCachedViewExtent := viewExtent,
        mCachedViewWidth := pixelWidth,
        mCachedViewHeight := pixelHeight,
        mTileReqNo := n } viewExtent pixelWidth
      = drawPlan st viewExtent pixelWidth := rfl

/-- In a QGISDEBUG build the tiled branch of draw dispatches nothing for a plan whose tile
number `n` is more than 100. -/
theorem drawTiles_capped (env : Env) (st : Provider) (viewExtent : QgsRectangle)
    (pixelWidth : Int) (p : TilePlan) (hdebug : env.qgisDebug = true)
    (hplan : drawPlan { st with mTileReqNo := st.mTileReqNo + 1 } viewExtent pixelWidth = some p)
    (hcount : 100 < tileCount p.range) :
    (drawTiles env st viewExtent pixelWidth).sent = st.sent ∧
    (drawTiles env st viewExtent pixelWidth).mTileReplies = st.mTileReplies ∧
    (drawTiles env st viewExtent pixelWidth).mCachedImage = st.mCachedImage := by
  unfold drawTiles
  simp only [hplan, hdebug]
  have hc : decide (tileCount p.range > 100) = true := by simpa using hcount
  simp only [hc, Bool.and_self, if_true]
  exact ⟨trivial, trivial, trivial⟩

/-! ## The GetMap request of a draw that is not tiled -/

/-- Where a key occurs at most once, removeQueryItem removes every item of that key. -/
theorem eraseP_key_eq_filter (k : QString) (l : List (QString × QString))
    (h : l.countP (fun kv => kv.1 == k) ≤ 1) :
    l.eraseP (fun kv => kv.1 == k) = l.filter (fun kv => !(kv.1 == k)) := by
  induction l with
  | nil => rfl
  | cons a t ih =>
    by_cases hak : (a.1 == k) = true
    · rw [List.eraseP_cons_of_pos (by simpa using hak)]
      rw [List.countP_cons_of_pos _ _ (by simpa using hak)] at h
      have hzero : t.countP (fun kv => kv.1 == k) = 0 := by omega
      rw [List.countP_eq_zero] at hzero
      rw [List.filter_cons_of_neg (by simp [hak])]
      symm
      rw [List.filter_eq_self]
      intro x hx
      have := hzero x hx
      simpa using this
    · rw [List.eraseP_cons_of_neg (by simpa using hak)]
      rw [List.countP_cons_of_neg _ _ (by simpa using hak)] at h
      rw [List.filter_cons_of_pos (by simpa using hak), ih h]

theorem setQueryItem_base (u : QUrl) (k v : QString) : (setQueryItem u k v).base = u.base :=
  rfl

/-- A run of setQueryItem calls for pairwise different keys, on a URL that carries each of
these keys at most once: the items of these keys leave the query and the new items follow
at its end, in the order of the calls. -/
theorem setQueryItems_query (items : List (QString × QString)) :
    ∀ u : QUrl, (items.map Prod.fst).Nodup →
      (∀ k ∈ items.map Prod.fst, u.query.countP (fun kv => kv.1 == k) ≤ 1) →
      (setQueryItems u items).query
        = u.query.filter (fun kv => !decide (kv.1 ∈ items.map Prod.fst)) ++ items := by
  induction items with
  | nil =>
    intro u _ _
    simp [setQueryItems]
  | cons kv rest ih =>
    intro u hnodup hcount
    rw [List.map_cons, List.nodup_cons] at hnodup
    have hk := hcount kv.1 (by simp)
    have hq : (setQueryItem u kv.1 kv.2).query
        = u.query.filter (fun x => !(x.1 == kv.1)) ++ [kv] := by
      simp only [setQueryItem, QUrl.addQueryItem, QUrl.removeQueryItem]
      rw [eraseP_key_eq_filter kv.1 u.query hk]
    have hstep : setQueryItems u (kv :: rest) = setQueryItems (setQueryItem u kv.1 kv.2) rest :=
      rfl
    rw [hstep, ih (setQueryItem u kv.1 kv.2) hnodup.2, hq]
    · rw [List.filter_append, List.filter_filter]
      have hkv : ([kv].filter (fun x => !decide (x.1 ∈ rest.map Prod.fst))) = [kv] := by
        rw [List.filter_eq_self]
        intro x hx
        have hxk : x = kv := by simpa using hx
        rw [hxk]
        simpa using hnodup.1
      rw [hkv, List.append_assoc]
      congr 1
      apply List.filter_congr
      intro x _
      by_cases h1 : x.1 = kv.1 <;> by_cases h2 : x.1 ∈ rest.map Prod.fst <;>
        simp [h1, h2]
    · intro k hkmem
      rw [hq, List.countP_append]
      have hne : kv.1 ≠ k := fun h => hnodup.1 (h ▸ hkmem)
      have h1 : [kv].countP (fun x => x.1 == k) = 0 := by
        simp [List.countP_cons, hne]
      have h2 : (u.query.filter (fun x => !(x.1 == kv.1))).countP (fun x => x.1 == k)
          ≤ u.query.countP (fun x => x.1 == k) :=
        (List.filter_sublist u.query).countP_le _
      have h3 := hcount k (by simp [hkmem])
      omega

theorem getMapRequestUrl_eq (env : Env) (st : Provider) (viewExtent : QgsRectangle)
    (pixelWidth pixelHeight : Int) :
    getMapRequestUrl env st viewExtent pixelWidth pixelHeight
      = setTransparentItem st (setDpiItems st
          (setQueryItems (getMapBaseUrl st)
            (getMapItems env st viewExtent pixelWidth pixelHeight))) := rfl

/-- A setQueryItem call for a key outside `keys` does not change the items of the keys in
`keys`. -/
theorem filter_setQueryItem_other (keys : List QString) (u : QUrl) (k v : QString)
    (hk : k ∉ keys) :
    (setQueryItem u k v).query.filter (fun kv => decide (kv.1 ∈ keys))
      = u.query.filter (fun kv => decide (kv.1 ∈ keys)) := by
  simp only [setQueryItem, QUrl.addQueryItem, QUrl.removeQueryItem, List.filter_append]
  have h1 : [(k, v)].filter (fun kv => decide (kv.1 ∈ keys)) = [] := by
    simp [hk]
  rw [h1, List.append_nil]
  induction u.query with
  | nil => rfl
  | cons a t ih =>
    by_cases hak : (a.1 == k) = true
    · rw [List.eraseP_cons_of_pos (by simpa using hak)]
      have hane : a.1 ∉ keys := by
        have : a.1 = k := by simpa using hak
        rw [this]
        exact hk
      rw [List.filter_cons_of_neg (by simpa using hane)]
    · rw [List.eraseP_cons_of_neg (by simpa using hak)]
      by_cases hin : a.1 ∈ keys
      · rw [List.filter_cons_of_pos (by simpa using hin),
          List.filter_cons_of_pos (by simpa using hin), ih]
      · rw [List.filter_cons_of_neg (by simpa using hin),
          List.filter_cons_of_neg (by simpa using hin), ih]

theorem filter_setDpiItems (keys : List QString) (st : Provider) (u : QUrl)
    (h1 : "DPI" ∉ keys) (h2 : "MAP_RESOLUTION" ∉ keys) (h3 : "FORMAT_OPTIONS" ∉ keys) :
    (setDpiItems st u).query.filter (fun kv => decide (kv.1 ∈ keys))
      = u.query.filter (fun kv => decide (kv.1 ∈ keys)) := by
  unfold setDpiItems
  simp only []
  split_ifs <;>
    simp only [filter_setQueryItem_other keys _ _ _ h1, filter_setQueryItem_other keys _ _ _ h2,
      filter_setQueryItem_other keys _ _ _ h3]

theorem filter_setTransparentItem (keys : List QString) (st : Provider) (u : QUrl)
    (h1 : "TRANSPARENT" ∉ keys) :
    (setTransparentItem st u).query.filter (fun kv => decide (kv.1 ∈ keys))
      = u.query.filter (fun kv => decide (kv.1 ∈ keys)) := by
  unfold setTransparentItem
  split_ifs
  · exact filter_setQueryItem_other keys _ _ _ h1
  · rfl

theorem filter_filter_not {α : Type} (p : α → Bool) (l : List α) :
    (l.filter (fun x => !p x)).filter p = [] := by
  rw [List.filter_eq_nil_iff]
  intro x hx
  have := (List.mem_filter.mp hx).2
  simpa using this

/-- The keys of the ten items of the GetMap request. -/
theorem getMapItems_keys (env : Env) (st : Provider) (viewExtent : QgsRectangle)
    (pixelWidth pixelHeight : Int) :
    (getMapItems env st viewExtent pixelWidth pixelHeight).map Prod.fst
      = ["SERVICE", "VERSION", "REQUEST", "BBOX", crsKey st, "WIDTH", "HEIGHT", "LAYERS",
          "STYLES", "FORMAT"] := rfl

/-- The ten items of the GetMap request of a draw that is not tiled, for a base URL that
carries each of their keys at most once. -/
theorem getMapRequestUrl_items (env : Env) (st : Provider) (viewExtent : QgsRectangle)
    (pixelWidth pixelHeight : Int)
    (hbase : ∀ k ∈ ["SERVICE", "VERSION", "REQUEST", "BBOX", crsKey st, "WIDTH", "HEIGHT",
        "LAYERS", "STYLES", "FORMAT"],
      (getMapBaseUrl st).query.countP (fun kv => kv.1 == k) ≤ 1) :
    (getMapRequestUrl env st viewExtent pixelWidth pixelHeight).query.filter
        (fun kv => decide (kv.1 ∈ ["SERVICE", "VERSION", "REQUEST", "BBOX", crsKey st, "WIDTH",
          "HEIGHT", "LAYERS", "STYLES", "FORMAT"]))
      = getMapItems env st viewExtent pixelWidth pixelHeight := by
  have hnodup : ["SERVICE", "VERSION", "REQUEST", "BBOX", crsKey st, "WIDTH", "HEIGHT",
      "LAYERS", "STYLES", "FORMAT"].Nodup := by
    rcases crsKey_cases st with h | h <;> rw [h] <;> decide
  have hdpi : "DPI" ∉ ["SERVICE", "VERSION", "REQUEST", "BBOX", crsKey st, "WIDTH", "HEIGHT",
      "LAYERS", "STYLES", "FORMAT"] := by
    rcases crsKey_cases st with h | h <;> rw [h] <;> decide
  have hmap : "MAP_RESOLUTION" ∉ ["SERVICE", "VERSION", "REQUEST", "BBOX", crsKey st, "WIDTH",
      "HEIGHT", "LAYERS", "STYLES", "FORMAT"] := by
    rcases crsKey_cases st with h | h <;> rw [h] <;> decide
  have hopt : "FORMAT_OPTIONS" ∉ ["SERVICE", "VERSION", "REQUEST", "BBOX", crsKey st, "WIDTH",
      "HEIGHT", "LAYERS", "STYLES", "FORMAT"] := by
    rcases crsKey_cases st with h | h <;> rw [h] <;> decide
  have htr : "TRANSPARENT" ∉ ["SERVICE", "VERSION", "REQUEST", "BBOX", crsKey st, "WIDTH",
      "HEIGHT", "LAYERS", "STYLES", "FORMAT"] := by
    rcases crsKey_cases st with h | h <;> rw [h] <;> decide
  rw [getMapRequestUrl_eq, filter_setTransparentItem _ _ _ htr,
    filter_setDpiItems _ _ _ hdpi hmap hopt,
    setQueryItems_query _ _
      (by rw [getMapItems_keys]; exact hnodup)
      (by rw [getMapItems_keys]; exact hbase),
    getMapItems_keys, List.filter_append]
  have hleft := filter_filter_not
    (fun kv : QString × QString => decide (kv.1 ∈ ["SERVICE", "VERSION", "REQUEST", "BBOX",
      crsKey st, "WIDTH", "HEIGHT", "LAYERS", "STYLES", "FORMAT"])) (getMapBaseUrl st).query
  have hright : (getMapItems env st viewExtent pixelWidth pixelHeight).filter
      (fun kv => decide (kv.1 ∈ ["SERVICE", "VERSION", "REQUEST", "BBOX", crsKey st, "WIDTH",
          "HEIGHT", "LAYERS", "STYLES", "FORMAT"]))
      = getMapItems env st viewExtent pixelWidth pixelHeight := by
    rw [List.filter_eq_self]
    intro x hx
    have : x.1 ∈ (getMapItems env st viewExtent pixelWidth pixelHeight).map Prod.fst :=
      List.mem_map.mpr ⟨x, hx, rfl⟩
    rw [getMapItems_keys] at this
    simpa using this
  rw [hleft, hright, List.nil_append]

@[simp] theorem setAuthorization_url (env : Env) (st : Provider) (r : QNetworkRequest) :
    (setAuthorization env st r).url = r.url := by
  unfold setAuthorization
  simp only []
  split <;> split_ifs <;> rfl

theorem drawMap_sent (env : Env) (st : Provider) (viewExtent : QgsRectangle)
    (pixelWidth pixelHeight : Int) :
    (drawMap env st viewExtent pixelWidth pixelHeight).sent.map QNetworkRequest.url
      = st.sent.map QNetworkRequest.url
        ++ [(getMapRequestUrl env st viewExtent pixelWidth pixelHeight).toString] := by
  unfold drawMap
  simp only [List.map_append, List.map_cons, List.map_nil]
  congr 1
  exact congrArg (fun x => [x]) (setAuthorization_url env st _)

/-- The request a draw that is not tiled dispatches when it cannot reuse a cached image. -/
theorem draw_map_request (env : Env) (st : Provider) (viewExtent : QgsRectangle)
    (pixelWidth pixelHeight : Int)
    (hcaps : retrieveServerCapabilities env st false = (true, st))
    (hmode : st.mTiled = false ∧ st.mMaxWidth = 0 ∧ st.mMaxHeight = 0)
    (hnew : ¬ (st.mCachedImage.isSome = true ∧ st.mCachedViewExtent = viewExtent ∧
      st.mCachedViewWidth = pixelWidth ∧ st.mCachedViewHeight = pixelHeight)) :
    (draw env st viewExtent pixelWidth pixelHeight).2.sent.map QNetworkRequest.url
      = st.sent.map QNetworkRequest.url
        ++ [(getMapRequestUrl env st viewExtent pixelWidth pixelHeight).toString] := by
  unfold draw
  rw [hcaps]
  have hcond : (st.mCachedImage.isSome && decide (st.mCachedViewExtent = viewExtent) &&
      decide (st.mCachedViewWidth = pixelWidth) &&
      decide (st.mCachedViewHeight = pixelHeight)) = false := by
    rw [Bool.eq_false_iff]
    intro h
    simp only [Bool.and_eq_true, decide_eq_true_eq] at h
    exact hnew ⟨h.1.1.1, h.1.1.2, h.1.2, h.2⟩
  simp only [hcond, Bool.false_eq_true, if_false, hmode.1,
    hmode.2.1, hmode.2.2, Bool.not_false, decide_True, Bool.and_self, if_true]
  rw [drawMap_sent]
  rfl

/-- C10 (amended): for every draw that is not tiled (and does not reuse the cached image,
so that it issues a request) and whose base URL carries none of the
names SERVICE, VERSION, REQUEST, BBOX, the CRS key, WIDTH, HEIGHT, LAYERS, STYLES, FORMAT
more than once, the query of the GetMap URL carries each of SERVICE=WMS, VERSION,
REQUEST=GetMap, BBOX, the CRS key (SRS for 1.1.1, CRS for 1.3.0), WIDTH, HEIGHT, LAYERS,
STYLES, FORMAT exactly once and in this order, with LAYERS and STYLES the comma-joined
visible active sublayers and their parallel styles; the URL of the request draw
dispatches is the text of this URL. For url=http://s/wms, layer L, empty style,
image/png, EPSG:4326 and the view `( -10, -10, 10, 10 )` at 200 x 200 on a 1.1.1 server
the URL is the one of the specification. -/
theorem getmap_request_query (env : Env) (st : Provider) (viewExtent : QgsRectangle)
    (pixelWidth pixelHeight : Int)
    (hcaps : retrieveServerCapabilities env st false = (true, st))
    (hmode : st.mTiled = false ∧ st.mMaxWidth = 0 ∧ st.mMaxHeight = 0)
    (hnew : ¬ (st.mCachedImage.isSome = true ∧ st.mCachedViewExtent = viewExtent ∧
      st.mCachedViewWidth = pixelWidth ∧ st.mCachedViewHeight = pixelHeight))
    (hbase : ∀ k ∈ ["SERVICE", "VERSION", "REQUEST", "BBOX", crsKey st, "WIDTH", "HEIGHT",
        "LAYERS", "STYLES", "FORMAT"],
      (getMapBaseUrl st).query.countP (fun kv => kv.1 == k) ≤ 1) :
    (getMapRequestUrl env st viewExtent pixelWidth pixelHeight).query.filter
        (fun kv => decide (kv.1 ∈ ["SERVICE", "VERSION", "REQUEST", "BBOX", crsKey st, "WIDTH",
          "HEIGHT", "LAYERS", "STYLES", "FORMAT"]))
      = [ ("SERVICE", "WMS"),
          ("VERSION", st.mCapabilities.version),
          ("REQUEST", "GetMap"),
          ("BBOX", viewBBox env st viewExtent),
          (crsKey st, st.mImageCrs),
          ("WIDTH", qNumber pixelWidth),
          ("HEIGHT", qNumber pixelHeight),
          ("LAYERS", qJoin "," ((visibleLayersAndStyles st).map Prod.fst)),
          ("STYLES", qJoin "," ((visibleLayersAndStyles st).map Prod.snd)),
          ("FORMAT", st.mImageMimeType) ] ∧
    (st.mCapabilities.version = "1.1.1" → crsKey st = "SRS") ∧
    (st.mCapabilities.version = "1.3.0" → crsKey st = "CRS") ∧
    visibleLayersAndStyles st
      = (st.mActiveSubLayers.zip st.mActiveSubStyles).filter
          (fun ls => (st.mActiveSubLayerVisibility.lookup ls.1).getD false) ∧
    (draw env st viewExtent pixelWidth pixelHeight).2.sent.map QNetworkRequest.url
      = st.sent.map QNetworkRequest.url
        ++ [(getMapRequestUrl env st viewExtent pixelWidth pixelHeight).toString] ∧
    (draw sampleEnv sampleProvider squareView 200 200).2.sent.map QNetworkRequest.url
      = ["http://s/wms?SERVICE=WMS&VERSION=1.1.1&REQUEST=GetMap&BBOX=-10,-10,10,10&SRS=EPSG:4326&WIDTH=200&HEIGHT=200&LAYERS=L&STYLES=&FORMAT=image/png&TRANSPARENT=TRUE"] := by
  refine ⟨getMapRequestUrl_items env st viewExtent pixelWidth pixelHeight hbase, ?_, ?_, rfl,
    draw_map_request env st viewExtent pixelWidth pixelHeight hcaps hmode hnew, by decide!⟩
  · intro h
    simp [crsKey, isVersion13, h]
  · intro h
    simp [crsKey, isVersion13, h]

/-- Witness for C10 (amended): the sample provider of the specification's first scenario. -/
theorem getmap_request_query_witness :
    (retrieveServerCapabilities sampleEnv sampleProvider false = (true, sampleProvider) ∧
      (sampleProvider.mTiled = false ∧ sampleProvider.mMaxWidth = 0 ∧
        sampleProvider.mMaxHeight = 0) ∧
      sampleProvider.mCachedImage = none ∧
      (getMapBaseUrl sampleProvider).query = []) ∧
    (getMapRequestUrl sampleEnv sampleProvider squareView 200 200).query.filter
        (fun kv => decide (kv.1 ∈ ["SERVICE", "VERSION", "REQUEST", "BBOX",
          crsKey sampleProvider, "WIDTH", "HEIGHT", "LAYERS", "STYLES", "FORMAT"]))
      = [ ("SERVICE", "WMS"), ("VERSION", "1.1.1"), ("REQUEST", "GetMap"),
          ("BBOX", "-10,-10,10,10"), ("SRS", "EPSG:4326"), ("WIDTH", "200"), ("HEIGHT", "200"),
          ("LAYERS", "L"), ("STYLES", ""), ("FORMAT", "image/png") ] :=
  ⟨⟨rfl, ⟨rfl, rfl, rfl⟩, rfl, by decide⟩,
    ((getmap_request_query sampleEnv sampleProvider squareView 200 200 rfl ⟨rfl, rfl, rfl⟩
      (by decide) (by decide)).1).trans (by decide!)⟩

/-- Counterexample for C10 as stated: for the base URL `http://s/wms?LAYERS=a&LAYERS=b`
setQueryItem replaces the first LAYERS item only (QUrl::removeQueryItem removes the first
pair of the key): the GetMap URL carries LAYERS twice. -/
theorem getmap_layers_twice :
    (getMapBaseUrl doubleLayersProvider).query = [("LAYERS", "a"), ("LAYERS", "b")] ∧
    (getMapRequestUrl sampleEnv doubleLayersProvider squareView 200 200).query
      = [ ("LAYERS", "b"), ("SERVICE", "WMS"), ("VERSION", "1.1.1"), ("REQUEST", "GetMap"),
          ("BBOX", "-10,-10,10,10"), ("SRS", "EPSG:4326"), ("WIDTH", "200"), ("HEIGHT", "200"),
          ("LAYERS", "L"), ("STYLES", ""), ("FORMAT", "image/png"), ("TRANSPARENT", "TRUE") ] ∧
    (getMapRequestUrl sampleEnv doubleLayersProvider squareView 200 200).query.countP
        (fun kv => kv.1 == "LAYERS") = 2 := by
  refine ⟨by decide, by decide!, by decide!⟩

/-! ## The item TRANSPARENT -/

theorem itemsOf_eraseP (k k2 : QString) (l : List (QString × QString)) :
    itemsOf k (l.eraseP (fun kv => kv.1 == k2))
      = if k2 = k then (itemsOf k l).drop 1 else itemsOf k l := by
  unfold itemsOf
  induction l with
  | nil => simp
  | cons a t ih =>
    by_cases hak : a.1 = k2
    · rw [List.eraseP_cons_of_pos (by simpa using hak)]
      by_cases hk : k2 = k
      · have : (a.1 == k) = true := by simp [hak, hk]
        simp [List.filter_cons, this, hk]
      · have : (a.1 == k) = false := by simp [hak, hk]
        simp [List.filter_cons, this, hk]
    · rw [List.eraseP_cons_of_neg (by simpa using hak)]
      by_cases hk : k2 = k
      · have hne : (a.1 == k) = false := by
          simp only [beq_eq_false_iff_ne]
          intro h
          exact hak (h.trans hk.symm)
        rw [List.filter_cons, List.filter_cons, hne, ih]
        simp [hk]
      · rw [List.filter_cons, ih]
        simp only [hk, if_false]
        rw [List.filter_cons]

theorem itemsOf_setQueryItem (k : QString) (u : QUrl) (k2 v : QString) :
    itemsOf k (setQueryItem u k2 v).query
      = if k2 = k then (itemsOf k u.query).drop 1 ++ [(k2, v)] else itemsOf k u.query := by
  have h := itemsOf_eraseP k k2 u.query
  simp only [setQueryItem, QUrl.addQueryItem, QUrl.removeQueryItem]
  unfold itemsOf at h ⊢
  rw [List.filter_append, h]
  by_cases hk : k2 = k
  · simp [hk]
  · simp [hk]

theorem itemsOf_removeQueryItem (k : QString) (u : QUrl) (k2 : QString) :
    itemsOf k (u.removeQueryItem k2).query
      = if k2 = k then (itemsOf k u.query).drop 1 else itemsOf k u.query :=
  itemsOf_eraseP k k2 u.query

theorem wantsTransparent_iff (m : QString) :
    wantsTransparent m = true ↔
      (m = "image/x-jpegorpng" ∨ (qContainsCI m "jpeg" = false ∧ qContainsCI m "jpg" = false)) := by
  simp [wantsTransparent]

theorem itemsOf_setDpiItems (k : QString) (st : Provider) (u : QUrl)
    (h1 : k ≠ "DPI") (h2 : k ≠ "MAP_RESOLUTION") (h3 : k ≠ "FORMAT_OPTIONS") :
    itemsOf k (setDpiItems st u).query = itemsOf k u.query := by
  unfold setDpiItems
  simp only []
  split_ifs <;> simp [itemsOf_setQueryItem, Ne.symm h1, Ne.symm h2, Ne.symm h3]

theorem itemsOf_transparent_getMap (env : Env) (st : Provider) (viewExtent : QgsRectangle)
    (pixelWidth pixelHeight : Int) :
    itemsOf "TRANSPARENT" (setDpiItems st (setQueryItems (getMapBaseUrl st)
        (getMapItems env st viewExtent pixelWidth pixelHeight))).query
      = itemsOf "TRANSPARENT" (getMapBaseUrl st).query := by
  rw [itemsOf_setDpiItems _ _ _ (by decide) (by decide) (by decide)]
  rcases crsKey_cases st with h | h <;>
    simp [setQueryItems, getMapItems, itemsOf_setQueryItem, h]

theorem itemsOf_transparent_wmsc (st : Provider) (tm : QgsWmtsTileMatrix) :
    ∃ u, wmscUrl st tm = setTransparentItem st u ∧
      itemsOf "TRANSPARENT" u.query = itemsOf "TRANSPARENT" (getMapBaseUrl st).query := by
  refine ⟨_, rfl, ?_⟩
  rw [itemsOf_setDpiItems _ _ _ (by decide) (by decide) (by decide)]
  rcases crsKey_cases st with h | h <;> by_cases ht : st.mTiled = true <;>
    simp [itemsOf_setQueryItem, h, ht, getMapBaseUrl]

theorem mem_itemsOf (k v : QString) (q : List (QString × QString)) :
    (k, v) ∈ itemsOf k q ↔ (k, v) ∈ q := by
  simp [itemsOf]

theorem mem_setTransparentItem_iff (st : Provider) (u : QUrl)
    (h : ("TRANSPARENT", "TRUE") ∉ u.query) :
    ("TRANSPARENT", "TRUE") ∈ (setTransparentItem st u).query
      ↔ wantsTransparent st.mImageMimeType = true := by
  unfold setTransparentItem
  split_ifs with hw
  · simp [hw, mem_setQueryItem_self]
  · simp [hw, h]

/-- C11 (amended): for every image format string and every base URL that does not carry
the item TRANSPARENT=TRUE itself, the GetMap request (the one of a draw that is not tiled
and the one all WMS-C tiles share) includes TRANSPARENT=TRUE if and only if the format is
the sentinel image/x-jpegorpng or contains neither "jpeg" nor "jpg" (case-insensitive). -/
theorem transparent_item_iff (env : Env) (st : Provider) (viewExtent : QgsRectangle)
    (pixelWidth pixelHeight : Int) (tm : QgsWmtsTileMatrix)
    (hbase : ("TRANSPARENT", "TRUE") ∉ (getMapBaseUrl st).query) :
    (("TRANSPARENT", "TRUE") ∈ (getMapRequestUrl env st viewExtent pixelWidth pixelHeight).query
      ↔ (st.mImageMimeType = "image/x-jpegorpng" ∨
          (qContainsCI st.mImageMimeType "jpeg" = false ∧
            qContainsCI st.mImageMimeType "jpg" = false))) ∧
    (("TRANSPARENT", "TRUE") ∈ (wmscUrl st tm).query
      ↔ (st.mImageMimeType = "image/x-jpegorpng" ∨
          (qContainsCI st.mImageMimeType "jpeg" = false ∧
            qContainsCI st.mImageMimeType "jpg" = false))) := by
  constructor
  · rw [getMapRequestUrl_eq, mem_setTransparentItem_iff, wantsTransparent_iff]
    rw [← mem_itemsOf, itemsOf_transparent_getMap, mem_itemsOf]
    exact hbase
  · obtain ⟨u, hu, hitems⟩ := itemsOf_transparent_wmsc st tm
    rw [hu, mem_setTransparentItem_iff, wantsTransparent_iff]
    rw [← mem_itemsOf, hitems, mem_itemsOf]
    exact hbase

/-- Witness for C11 (amended): the sample provider with the format image/png. -/
theorem transparent_item_iff_witness :
    ("TRANSPARENT", "TRUE") ∉ (getMapBaseUrl sampleProvider).query ∧
    ("TRANSPARENT", "TRUE") ∈ (getMapRequestUrl sampleEnv sampleProvider squareView 200 200).query ∧
    ("TRANSPARENT", "TRUE") ∈ (wmscUrl sampleProvider fineMatrix).query :=
  ⟨by decide,
    (transparent_item_iff sampleEnv sampleProvider squareView 200 200 fineMatrix
      (by decide)).1.mpr (Or.inr (by decide!)),
    (transparent_item_iff sampleEnv sampleProvider squareView 200 200 fineMatrix
      (by decide)).2.mpr (Or.inr (by decide!))⟩

/-- Counterexample for C11 as stated: for the sentinel image/x-jpegorpng the stated rule
asks for no TRANSPARENT item, but draw sends TRANSPARENT=TRUE; and for image/jpeg on a
base URL that carries TRANSPARENT=TRUE the item stays in the request. -/
theorem transparent_for_jpegorpng :
    statedTransparent "image/x-jpegorpng" = false ∧
    ("TRANSPARENT", "TRUE") ∈
      (getMapRequestUrl sampleEnv jpegOrPngProvider squareView 200 200).query ∧
    ("TRANSPARENT", "TRUE") ∈ (wmscUrl jpegOrPngProvider fineMatrix).query ∧
    (draw sampleEnv jpegOrPngProvider squareView 200 200).2.sent.map QNetworkRequest.url
      = ["http://s/wms?SERVICE=WMS&VERSION=1.1.1&REQUEST=GetMap&BBOX=-10,-10,10,10&SRS=EPSG:4326&WIDTH=200&HEIGHT=200&LAYERS=L&STYLES=&FORMAT=image/x-jpegorpng&TRANSPARENT=TRUE"] ∧
    statedTransparent "image/jpeg" = false ∧
    wantsTransparent "image/jpeg" = false ∧
    ("TRANSPARENT", "TRUE") ∈
      (getMapRequestUrl sampleEnv transparentBaseProvider squareView 200 200).query := by
  refine ⟨by decide!, by decide!, by decide!, by decide!, by decide!, by decide!, by decide!⟩


/-! ## The WMS-C request and the GetMap request of the same state -/

theorem visibleLayersAndStyles_all (st : Provider)
    (hvis : ∀ l ∈ st.mActiveSubLayers, (st.mActiveSubLayerVisibility.lookup l).getD false = true) :
    visibleLayersAndStyles st = st.mActiveSubLayers.zip st.mActiveSubStyles := by
  unfold visibleLayersAndStyles
  rw [List.filter_eq_self]
  intro a ha
  exact hvis a.1 (List.of_mem_zip (a := a.1) (b := a.2) ha).1

theorem itemsOf_setDpiItems_congr (k : QString) (st : Provider) (u1 u2 : QUrl)
    (h : itemsOf k u1.query = itemsOf k u2.query) :
    itemsOf k (setDpiItems st u1).query = itemsOf k (setDpiItems st u2).query := by
  unfold setDpiItems
  simp only []
  split_ifs <;> simp only [itemsOf_setQueryItem, h]

theorem itemsOf_setTransparentItem_congr (k : QString) (st : Provider) (u1 u2 : QUrl)
    (h : itemsOf k u1.query = itemsOf k u2.query) :
    itemsOf k (setTransparentItem st u1).query = itemsOf k (setTransparentItem st u2).query := by
  unfold setTransparentItem
  split_ifs <;> simp only [itemsOf_setQueryItem, h]

theorem wmsc_items (env : Env) (st : Provider) (viewExtent : QgsRectangle)
    (pixelWidth pixelHeight : Int) (tm : QgsWmtsTileMatrix)
    (hvis : ∀ l ∈ st.mActiveSubLayers, (st.mActiveSubLayerVisibility.lookup l).getD false = true)
    (hlen : st.mActiveSubLayers.length = st.mActiveSubStyles.length)
    (k : QString) (hk : k ∉ ["WIDTH", "HEIGHT", "BBOX", "TILED"]) :
    itemsOf k (wmscUrl st tm).query
      = itemsOf k (getMapRequestUrl env st viewExtent pixelWidth pixelHeight).query := by
  have hl : (visibleLayersAndStyles st).map Prod.fst = st.mActiveSubLayers := by
    rw [visibleLayersAndStyles_all st hvis]
    exact List.map_fst_zip _ _ (le_of_eq hlen)
  have hs : (visibleLayersAndStyles st).map Prod.snd = st.mActiveSubStyles := by
    rw [visibleLayersAndStyles_all st hvis]
    exact List.map_snd_zip _ _ (le_of_eq hlen.symm)
  simp only [List.mem_cons, List.mem_singleton, not_or, List.not_mem_nil, or_false] at hk
  obtain ⟨hw, hh, hb, ht⟩ := hk
  unfold wmscUrl getMapRequestUrl
  simp only [hl, hs]
  apply itemsOf_setTransparentItem_congr
  apply itemsOf_setDpiItems_congr
  rcases crsKey_cases st with h | h <;> rw [h] <;> by_cases htiled : st.mTiled = true
  all_goals
    simp only [htiled, if_true, if_false, Bool.false_eq_true]
    first
    | (by_cases hc : k = "CRS"
       · subst hc
         simp [itemsOf_setQueryItem]
       · simp [itemsOf_setQueryItem, Ne.symm hc, Ne.symm hw, Ne.symm hh, Ne.symm hb, Ne.symm ht])
    | (by_cases hc : k = "SRS"
       · subst hc
         simp [itemsOf_setQueryItem]
       · simp [itemsOf_setQueryItem, Ne.symm hc, Ne.symm hw, Ne.symm hh, Ne.symm hb, Ne.symm ht])

theorem mem_wmscUrl_size (st : Provider) (tm : QgsWmtsTileMatrix) :
    ("WIDTH", qNumber tm.tileWidth) ∈ (wmscUrl st tm).query ∧
    ("HEIGHT", qNumber tm.tileHeight) ∈ (wmscUrl st tm).query := by
  constructor
  · apply mem_setTransparentItem _ _ _ _ (by decide)
    apply mem_setDpiItems _ _ _ _ (by decide) (by decide) (by decide)
    rw [← mem_itemsOf]
    rcases crsKey_cases st with h | h <;> rw [h] <;> by_cases htiled : st.mTiled = true <;>
      simp [htiled, itemsOf_setQueryItem]
  · apply mem_setTransparentItem _ _ _ _ (by decide)
    apply mem_setDpiItems _ _ _ _ (by decide) (by decide) (by decide)
    rw [← mem_itemsOf]
    rcases crsKey_cases st with h | h <;> rw [h] <;> by_cases htiled : st.mTiled = true <;>
      simp [htiled, itemsOf_setQueryItem]

theorem itemsOf_setTransparentItem (k : QString) (st : Provider) (u : QUrl)
    (h1 : k ≠ "TRANSPARENT") :
    itemsOf k (setTransparentItem st u).query = itemsOf k u.query := by
  unfold setTransparentItem
  split_ifs <;> simp [itemsOf_setQueryItem, Ne.symm h1]

theorem itemsOf_wmscUrl_tiled (st : Provider) (tm : QgsWmtsTileMatrix) :
    itemsOf "TILED" (wmscUrl st tm).query
      = if st.mTiled then (itemsOf "TILED" (getMapBaseUrl st).query).drop 1 ++ [("TILED", "true")]
        else itemsOf "TILED" (getMapBaseUrl st).query := by
  unfold wmscUrl
  rw [itemsOf_setTransparentItem _ _ _ (by decide),
    itemsOf_setDpiItems _ _ _ (by decide) (by decide) (by decide)]
  rcases crsKey_cases st with h | h <;> rw [h] <;> by_cases htiled : st.mTiled = true <;>
    simp [htiled, itemsOf_setQueryItem, getMapBaseUrl]

theorem itemsOf_wmscUrl_bbox (st : Provider) (tm : QgsWmtsTileMatrix) :
    itemsOf "BBOX" (wmscUrl st tm).query = itemsOf "BBOX" (getMapBaseUrl st).query := by
  unfold wmscUrl
  rw [itemsOf_setTransparentItem _ _ _ (by decide),
    itemsOf_setDpiItems _ _ _ (by decide) (by decide) (by decide)]
  rcases crsKey_cases st with h | h <;> rw [h] <;> by_cases htiled : st.mTiled = true <;>
    simp [htiled, itemsOf_setQueryItem, getMapBaseUrl]

/-- C12 (amended): for every session state in which every active sublayer is visible (and
the lists of sublayers and styles are parallel), the URL all WMS-C tiles share carries for
every key other than WIDTH, HEIGHT, BBOX and TILED the same items as the non-tiled GetMap
request for that state (so LAYERS, STYLES, FORMAT, the CRS key, DPI, MAP_RESOLUTION,
FORMAT_OPTIONS and TRANSPARENT agree); WIDTH and HEIGHT are the tile size; TILED=true is
set when the session is tiled and is not set in the maxWidth/maxHeight fallback; no BBOX
item is set, the BBOX of the tile is appended to the text of the URL. -/
theorem wmsc_request_matches_getmap (env : Env) (st : Provider) (viewExtent : QgsRectangle)
    (pixelWidth pixelHeight : Int) (p : TilePlan) (row col : Int)
    (hvis : ∀ l ∈ st.mActiveSubLayers,
      (st.mActiveSubLayerVisibility.lookup l).getD false = true)
    (hlen : st.mActiveSubLayers.length = st.mActiveSubStyles.length) :
    (∀ k, k ∉ ["WIDTH", "HEIGHT", "BBOX", "TILED"] →
      itemsOf k (wmscUrl st p.tm).query
        = itemsOf k (getMapRequestUrl env st viewExtent pixelWidth pixelHeight).query) ∧
    ("WIDTH", qNumber p.tm.tileWidth) ∈ (wmscUrl st p.tm).query ∧
    ("HEIGHT", qNumber p.tm.tileHeight) ∈ (wmscUrl st p.tm).query ∧
    itemsOf "TILED" (wmscUrl st p.tm).query
      = (if st.mTiled then
          (itemsOf "TILED" (getMapBaseUrl st).query).drop 1 ++ [("TILED", "true")]
        else itemsOf "TILED" (getMapBaseUrl st).query) ∧
    itemsOf "BBOX" (wmscUrl st p.tm).query = itemsOf "BBOX" (getMapBaseUrl st).query ∧
    wmscTileUrl env st p row col
      = (wmscUrl st p.tm).toString ++ "&BBOX=" ++
          bboxText (changeXY env st)
            (qgsDoubleToString (tileRect p.tm p.twMap p.thMap row col).left)
            (qgsDoubleToString (tileRect p.tm p.twMap p.thMap row col).top)
            (qgsDoubleToString (p.tm.topLeftX + (col + 1) * p.twMap))
            (qgsDoubleToString (p.tm.topLeftY - row * p.thMap)) :=
  ⟨fun k hk => wmsc_items env st viewExtent pixelWidth pixelHeight p.tm hvis hlen k hk,
    (mem_wmscUrl_size st p.tm).1, (mem_wmscUrl_size st p.tm).2,
    itemsOf_wmscUrl_tiled st p.tm, itemsOf_wmscUrl_bbox st p.tm, rfl⟩

/-- Witness for C12 (amended): the tiled sample provider, whose only sublayer is visible. -/
theorem wmsc_request_matches_getmap_witness :
    ((∀ l ∈ tiledProvider.mActiveSubLayers,
        (tiledProvider.mActiveSubLayerVisibility.lookup l).getD false = true) ∧
      tiledProvider.mActiveSubLayers.length = tiledProvider.mActiveSubStyles.length) ∧
    itemsOf "LAYERS" (wmscUrl tiledProvider fineMatrix).query
      = itemsOf "LAYERS" (getMapRequestUrl sampleEnv tiledProvider nineTileView 600 600).query :=
  ⟨⟨by decide, rfl⟩,
    (wmsc_request_matches_getmap sampleEnv tiledProvider nineTileView 600 600 nineTilePlan 0 0
      (by decide) rfl).1 "LAYERS" (by decide)⟩

/-- Counterexample for C12 as stated: in the maxWidth/maxHeight fallback with the hidden
sublayer B the tile requests carry no TILED item, and their LAYERS item names both
sublayers while the non-tiled request for the same state names the visible one only. -/
theorem wmsc_fallback_hidden_layer :
    fallbackProvider.mTiled = false ∧
    fallbackProvider.mActiveSubLayerVisibility.lookup "B" = some false ∧
    (draw sampleEnv fallbackProvider squareView 200 200).2.sent.map QNetworkRequest.url
      = ["http://s/wms?SERVICE=WMS&VERSION=1.1.1&REQUEST=GetMap&WIDTH=256&HEIGHT=256&LAYERS=A,B&STYLES=,&FORMAT=image/png&SRS=EPSG:4326&TRANSPARENT=TRUE&BBOX=-26.4,-12.4,-0.8,13.2",
         "http://s/wms?SERVICE=WMS&VERSION=1.1.1&REQUEST=GetMap&WIDTH=256&HEIGHT=256&LAYERS=A,B&STYLES=,&FORMAT=image/png&SRS=EPSG:4326&TRANSPARENT=TRUE&BBOX=-0.8,-12.4,24.8,13.2"] ∧
    itemsOf "TILED" (wmscUrl fallbackProvider (fallbackTileMatrix fallbackProvider (1 / 10))).query
      = [] ∧
    itemsOf "LAYERS" (wmscUrl fallbackProvider (fallbackTileMatrix fallbackProvider (1 / 10))).query
      = [("LAYERS", "A,B")] ∧
    itemsOf "LAYERS" (getMapRequestUrl sampleEnv fallbackProvider squareView 200 200).query
      = [("LAYERS", "A")] := by
  refine ⟨rfl, by decide, by decide!, by decide!, by decide!, by decide!⟩

/-! ## The requests of a WMTS KVP draw -/

theorem map_enumFrom_snd {α β : Type} (g : α → β) (l : List α) :
    ∀ n, (l.enumFrom n).map (fun kx => g kx.2) = l.map g := by
  induction l with
  | nil => intro n; rfl
  | cons a t ih => intro n; simp [List.enumFrom, ih]

theorem tileRequests_urls (env : Env) (st : Provider) (p : TilePlan)
    (turl : Int → Int → QString) :
    (tileRequests env st p turl).map QNetworkRequest.url
      = (tileList p.range).map (fun rc => turl rc.1 rc.2) := by
  unfold tileRequests
  rw [List.map_map]
  have h : (QNetworkRequest.url ∘ fun (krc : Nat × Int × Int) =>
      let request := setAuthorization env st (QNetworkRequest.ofUrl (turl krc.2.1 krc.2.2))
      { request with
        preferCache := true, cacheSave := true, tileReqNo := st.mTileReqNo,
        tileIndex := if env.qgisDebug then (krc.1 : Int) + 1 else 0,
        tileRect := tileRect p.tm p.twMap p.thMap krc.2.1 krc.2.2, tileRetry := 0 })
      = fun krc => (fun rc : Int × Int => turl rc.1 rc.2) krc.2 := by
    funext krc
    simp only [Function.comp]
    exact setAuthorization_url env st _
  rw [h]
  exact map_enumFrom_snd (fun rc : Int × Int => turl rc.1 rc.2) (tileList p.range) 0

theorem drawTiles_urls (env : Env) (st : Provider) (viewExtent : QgsRectangle)
    (pixelWidth : Int) (p : TilePlan) (turl : Int → Int → QString)
    (hplan : drawPlan { st with mTileReqNo := st.mTileReqNo + 1 } viewExtent pixelWidth = some p)
    (hcap : env.qgisDebug = false ∨ tileCount p.range ≤ 100)
    (hurl : tileUrl env { st with mTileReqNo := st.mTileReqNo + 1 } p = some turl) :
    (drawTiles env st viewExtent pixelWidth).sent.map QNetworkRequest.url
      = st.sent.map QNetworkRequest.url ++ (tileList p.range).map (fun rc => turl rc.1 rc.2) := by
  unfold drawTiles
  simp only [hplan]
  have hc : (env.qgisDebug && decide (tileCount p.range > 100)) = false := by
    rcases hcap with h | h
    · simp [h]
    · have : ¬ tileCount p.range > 100 := by omega
      simp [this]
  simp only [hc, Bool.false_eq_true, if_false, hurl, List.map_append, tileRequests_urls]

theorem draw_tiles_urls (env : Env) (st : Provider) (viewExtent : QgsRectangle)
    (pixelWidth pixelHeight : Int) (p : TilePlan) (turl : Int → Int → QString)
    (hcaps : retrieveServerCapabilities env st false = (true, st))
    (hnew : ¬ (st.mCachedImage.isSome = true ∧ st.mCachedViewExtent = viewExtent ∧
      st.mCachedViewWidth = pixelWidth ∧ st.mCachedViewHeight = pixelHeight))
    (htiled : st.mTiled = true ∨ st.mMaxWidth ≠ 0 ∨ st.mMaxHeight ≠ 0)
    (hplan : drawPlan st viewExtent pixelWidth = some p)
    (hcap : env.qgisDebug = false ∨ tileCount p.range ≤ 100)
    (hurl : tileUrl env
      { st with
        mCacheReply := none,
        mCachedImage := some (QImage.blank pixelWidth pixelHeight),
        mCachedViewExtent := viewExtent,
        mCachedViewWidth := pixelWidth,
        mCachedViewHeight := pixelHeight,
        mTileReqNo := st.mTileReqNo + 1 } p = some turl) :
    (draw env st viewExtent pixelWidth pixelHeight).2.sent.map QNetworkRequest.url
      = st.sent.map QNetworkRequest.url ++ (tileList p.range).map (fun rc => turl rc.1 rc.2) := by
  unfold draw
  rw [hcaps]
  have hcond : (st.mCachedImage.isSome && decide (st.mCachedViewExtent = viewExtent) &&
      decide (st.mCachedViewWidth = pixelWidth) &&
      decide (st.mCachedViewHeight = pixelHeight)) = false := by
    rw [Bool.eq_false_iff]
    intro h
    simp only [Bool.and_eq_true, decide_eq_true_eq] at h
    exact hnew ⟨h.1.1.1, h.1.1.2, h.1.2, h.2⟩
  have hmode : (!st.mTiled && decide (st.mMaxWidth = 0) && decide (st.mMaxHeight = 0)) = false := by
    rw [Bool.eq_false_iff]
    intro h
    simp only [Bool.and_eq_true, Bool.not_eq_true', decide_eq_true_eq] at h
    rcases htiled with h1 | h1 | h1
    · rw [h1] at h
      exact absurd h.1.1 (by decide)
    · exact h1 h.1.2
    · exact h1 h.2
  simp only [hcond, Bool.false_eq_true, if_false, hmode]
  exact drawTiles_urls env _ viewExtent pixelWidth p turl
    ((drawPlan_after_reset st viewExtent pixelWidth pixelHeight (st.mTileReqNo + 1)).trans hplan)
    hcap hurl

theorem length_intRange (lo hi : Int) : (intRange lo hi).length = (hi + 1 - lo).toNat := by
  simp [intRange]

theorem pairwise_intRange (lo hi : Int) : (intRange lo hi).Pairwise (fun a b => a < b) := by
  unfold intRange
  rw [List.pairwise_map]
  exact (List.pairwise_lt_range _).imp (fun h => by omega)

theorem length_flatMap_const {α β : Type} (f : α → List β) (c : Nat)
    (h : ∀ a, (f a).length = c) (l : List α) : (l.flatMap f).length = l.length * c := by
  induction l with
  | nil => simp
  | cons a t ih =>
    rw [List.flatMap_cons, List.length_append, ih, h a, List.length_cons]
    ring

theorem length_tileList (r : TileRange) :
    (tileList r).length = (r.row1 + 1 - r.row0).toNat * (r.col1 + 1 - r.col0).toNat := by
  unfold tileList
  rw [length_flatMap_const _ (r.col1 + 1 - r.col0).toNat
    (fun a => by rw [List.length_map, length_intRange]), length_intRange]

theorem length_tileList_of_le (r : TileRange) (hrow : r.row0 ≤ r.row1) (hcol : r.col0 ≤ r.col1) :
    ((tileList r).length : Int) = (r.row1 - r.row0 + 1) * (r.col1 - r.col0 + 1) := by
  rw [length_tileList]
  push_cast
  rw [Int.toNat_of_nonneg (by omega), Int.toNat_of_nonneg (by omega)]
  ring

theorem pairwise_tileList (r : TileRange) : (tileList r).Pairwise RowMajor := by
  unfold tileList
  rw [List.pairwise_flatMap]
  constructor
  · intro row _
    rw [List.pairwise_map]
    exact (pairwise_intRange _ _).imp (fun h => Or.inr ⟨rfl, h⟩)
  · refine (pairwise_intRange _ _).imp ?_
    intro a b hab x hx y hy
    obtain ⟨_, _, rfl⟩ := List.mem_map.mp hx
    obtain ⟨_, _, rfl⟩ := List.mem_map.mp hy
    exact Or.inl hab

theorem wmtsKvpUrl_eq (st : Provider) (base : QString) (tm : QgsWmtsTileMatrix) :
    wmtsKvpUrl st base tm
      = ((setQueryItems (setQueryItems (QUrl.ofString base) (wmtsKvpItems st tm))
          st.mTileDimensionValues).removeQueryItem "TILEROW").removeQueryItem "TILECOL" := rfl

theorem mem_removeQueryItem_of_ne (u : QUrl) (k v k2 : QString) (hne : k ≠ k2)
    (hmem : (k, v) ∈ u.query) : (k, v) ∈ (u.removeQueryItem k2).query := by
  have hp : ¬ ((fun kv : QString × QString => kv.1 == k2) (k, v) = true) := by simpa using hne
  exact (List.mem_eraseP_of_neg (p := fun kv : QString × QString => kv.1 == k2) hp).mpr hmem

theorem mem_setQueryItems_of_not_mem (items : List (QString × QString)) (k v : QString)
    (hk : k ∉ items.map Prod.fst) :
    ∀ u : QUrl, (k, v) ∈ u.query → (k, v) ∈ (setQueryItems u items).query := by
  induction items with
  | nil => intro u h; exact h
  | cons a rest ih =>
    intro u h
    rw [List.map_cons, List.mem_cons, not_or] at hk
    exact ih hk.2 (setQueryItem u a.1 a.2) (mem_setQueryItem_of_ne u k v a.1 a.2 hk.1 h)

theorem mem_setQueryItems_self (items : List (QString × QString))
    (hnodup : (items.map Prod.fst).Nodup) (kv : QString × QString) (hkv : kv ∈ items) :
    ∀ u : QUrl, kv ∈ (setQueryItems u items).query := by
  induction items with
  | nil => exact absurd hkv (List.not_mem_nil _)
  | cons a rest ih =>
    intro u
    rw [List.map_cons, List.nodup_cons] at hnodup
    rcases List.mem_cons.mp hkv with h | h
    · subst h
      exact mem_setQueryItems_of_not_mem rest kv.1 kv.2 hnodup.1 (setQueryItem u kv.1 kv.2)
        (mem_setQueryItem_self u kv.1 kv.2)
    · exact ih hnodup.2 h (setQueryItem u a.1 a.2)

theorem itemsOf_setQueryItems_length (k : QString) (items : List (QString × QString)) :
    ∀ u : QUrl, (itemsOf k u.query).length ≤ 1 →
      (itemsOf k (setQueryItems u items).query).length ≤ 1 := by
  induction items with
  | nil => intro u h; exact h
  | cons a rest ih =>
    intro u h
    apply ih (setQueryItem u a.1 a.2)
    rw [itemsOf_setQueryItem]
    split_ifs
    · simp only [List.length_append, List.length_drop, List.length_singleton]
      omega
    · exact h

theorem itemsOf_eq_nil_iff (k : QString) (q : List (QString × QString)) :
    itemsOf k q = [] ↔ ∀ kv ∈ q, kv.1 ≠ k := by
  simp [itemsOf, List.filter_eq_nil_iff]

theorem wmtsKvpUrl_no_tile_item (st : Provider) (base : QString) (tm : QgsWmtsTileMatrix)
    (hbase : ∀ k ∈ ["TILEROW", "TILECOL"], (itemsOf k (QUrl.ofString base).query).length ≤ 1) :
    ∀ kv ∈ (wmtsKvpUrl st base tm).query, kv.1 ≠ "TILEROW" ∧ kv.1 ≠ "TILECOL" := by
  have hrow := itemsOf_setQueryItems_length "TILEROW" st.mTileDimensionValues _
    (itemsOf_setQueryItems_length "TILEROW" (wmtsKvpItems st tm) _ (hbase "TILEROW" (by simp)))
  have hcol := itemsOf_setQueryItems_length "TILECOL" st.mTileDimensionValues _
    (itemsOf_setQueryItems_length "TILECOL" (wmtsKvpItems st tm) _ (hbase "TILECOL" (by simp)))
  have h1 : itemsOf "TILEROW" (wmtsKvpUrl st base tm).query = [] := by
    rw [wmtsKvpUrl_eq, itemsOf_removeQueryItem, itemsOf_removeQueryItem]
    simp only [if_true]
    rw [if_neg (by decide)]
    apply List.eq_nil_of_length_eq_zero
    rw [List.length_drop]
    omega
  have h2 : itemsOf "TILECOL" (wmtsKvpUrl st base tm).query = [] := by
    rw [wmtsKvpUrl_eq, itemsOf_removeQueryItem, itemsOf_removeQueryItem]
    simp only [if_true]
    rw [if_neg (by decide)]
    apply List.eq_nil_of_length_eq_zero
    rw [List.length_drop]
    omega
  intro kv hkv
  exact ⟨(itemsOf_eq_nil_iff _ _).mp h1 kv hkv, (itemsOf_eq_nil_iff _ _).mp h2 kv hkv⟩

theorem wmtsKvpItems_keys (st : Provider) (tm : QgsWmtsTileMatrix) :
    (wmtsKvpItems st tm).map Prod.fst
      = ["SERVICE", "REQUEST", "VERSION", "LAYER", "STYLE", "FORMAT", "TILEMATRIXSET",
          "TILEMATRIX"] := rfl

theorem mem_wmtsKvpUrl_fixed (st : Provider) (base : QString) (tm : QgsWmtsTileMatrix)
    (kv : QString × QString) (hkv : kv ∈ wmtsKvpItems st tm)
    (hdim : kv.1 ∉ st.mTileDimensionValues.map Prod.fst) :
    kv ∈ (wmtsKvpUrl st base tm).query := by
  have hkey : kv.1 ∈ (wmtsKvpItems st tm).map Prod.fst := List.mem_map.mpr ⟨kv, hkv, rfl⟩
  rw [wmtsKvpItems_keys] at hkey
  have hrow : kv.1 ≠ "TILEROW" := by
    intro h
    rw [h] at hkey
    exact absurd hkey (by decide)
  have hcol : kv.1 ≠ "TILECOL" := by
    intro h
    rw [h] at hkey
    exact absurd hkey (by decide)
  rw [wmtsKvpUrl_eq]
  apply mem_removeQueryItem_of_ne _ kv.1 kv.2 _ hcol
  apply mem_removeQueryItem_of_ne _ kv.1 kv.2 _ hrow
  apply mem_setQueryItems_of_not_mem _ kv.1 kv.2 hdim
  exact mem_setQueryItems_self _ (by rw [wmtsKvpItems_keys]; decide) kv hkv _

theorem mem_wmtsKvpUrl_dimension (st : Provider) (base : QString) (tm : QgsWmtsTileMatrix)
    (hdims : (st.mTileDimensionValues.map Prod.fst).Nodup)
    (kv : QString × QString) (hkv : kv ∈ st.mTileDimensionValues)
    (hrow : kv.1 ≠ "TILEROW") (hcol : kv.1 ≠ "TILECOL") :
    kv ∈ (wmtsKvpUrl st base tm).query := by
  rw [wmtsKvpUrl_eq]
  apply mem_removeQueryItem_of_ne _ kv.1 kv.2 _ hcol
  apply mem_removeQueryItem_of_ne _ kv.1 kv.2 _ hrow
  exact mem_setQueryItems_self _ hdims kv hkv _

theorem tileUrl_kvp (env : Env) (st : Provider) (p : TilePlan) (kvp : QString)
    (hmode : p.tileMode = QgsTileMode.WMTS) (hkvp : getTileUrl st = some kvp) :
    tileUrl env st p = some (wmtsKvpTileUrl st (getTileBaseUrl st kvp) p) := by
  unfold tileUrl
  rw [hmode]
  simp only [hkvp]
  rfl

/-- C13 (amended): for every draw in WMTS KVP mode that issues requests (the cached image
is not reused and, in a QGISDEBUG build, the covering range has at most 100 tiles) with a
covering range `row0 ≤ row1`, `col0 ≤ col1`, exactly `(row1-row0+1)*(col1-col0+1)` requests
are dispatched, one per `( row, col )` of the covering range in row-major order; the URL of
each is the text of the shared URL followed by `&TILEROW=row&TILECOL=col`. The shared URL
carries SERVICE=WMTS, REQUEST=GetTile, VERSION, LAYER (first active sublayer), STYLE (first
active style), FORMAT, TILEMATRIXSET and TILEMATRIX (identifiers of the selected set and
matrix), each unless a tile dimension of the same name replaces it, and one item per tile
dimension value of the session (unless it is named TILEROW or TILECOL); it carries no
TILEROW and no TILECOL item when the GetTile endpoint carries each at most once. -/
theorem wmts_kvp_requests (env : Env) (st : Provider) (viewExtent : QgsRectangle)
    (pixelWidth pixelHeight : Int) (p : TilePlan) (kvp : QString)
    (hcaps : retrieveServerCapabilities env st false = (true, st))
    (hnew : ¬ (st.mCachedImage.isSome = true ∧ st.mCachedViewExtent = viewExtent ∧
      st.mCachedViewWidth = pixelWidth ∧ st.mCachedViewHeight = pixelHeight))
    (htiled : st.mTiled = true ∨ st.mMaxWidth ≠ 0 ∨ st.mMaxHeight ≠ 0)
    (hplan : drawPlan st viewExtent pixelWidth = some p)
    (hmode : p.tileMode = QgsTileMode.WMTS)
    (hkvp : getTileUrl st = some kvp)
    (hcap : env.qgisDebug = false ∨ tileCount p.range ≤ 100)
    (hrange : p.range.row0 ≤ p.range.row1 ∧ p.range.col0 ≤ p.range.col1)
    (hdims : (st.mTileDimensionValues.map Prod.fst).Nodup)
    (hbase : ∀ k ∈ ["TILEROW", "TILECOL"],
      (itemsOf k (QUrl.ofString (getTileBaseUrl st kvp)).query).length ≤ 1) :
    (draw env st viewExtent pixelWidth pixelHeight).2.sent.map QNetworkRequest.url
      = st.sent.map QNetworkRequest.url ++
          (tileList p.range).map (fun rc =>
            (wmtsKvpUrl st (getTileBaseUrl st kvp) p.tm).toString
              ++ "&TILEROW=" ++ qNumber rc.1 ++ "&TILECOL=" ++ qNumber rc.2) ∧
    ((tileList p.range).length : Int)
      = (p.range.row1 - p.range.row0 + 1) * (p.range.col1 - p.range.col0 + 1) ∧
    (tileList p.range).Pairwise RowMajor ∧
    (∀ row col, (row, col) ∈ tileList p.range ↔
      (p.range.row0 ≤ row ∧ row ≤ p.range.row1) ∧ (p.range.col0 ≤ col ∧ col ≤ p.range.col1)) ∧
    (∀ kv ∈ [ ("SERVICE", "WMTS"),
              ("REQUEST", "GetTile"),
              ("VERSION", st.mCapabilities.version),
              ("LAYER", st.mActiveSubLayers.getD 0 ""),
              ("STYLE", st.mActiveSubStyles.getD 0 ""),
              ("FORMAT", st.mImageMimeType),
              ("TILEMATRIXSET", (st.mTileMatrixSet.map (fun s => s.identifier)).getD ""),
              ("TILEMATRIX", p.tm.identifier) ],
      kv.1 ∉ st.mTileDimensionValues.map Prod.fst →
        kv ∈ (wmtsKvpUrl st (getTileBaseUrl st kvp) p.tm).query) ∧
    (∀ kv ∈ st.mTileDimensionValues, kv.1 ≠ "TILEROW" → kv.1 ≠ "TILECOL" →
      kv ∈ (wmtsKvpUrl st (getTileBaseUrl st kvp) p.tm).query) ∧
    (∀ kv ∈ (wmtsKvpUrl st (getTileBaseUrl st kvp) p.tm).query,
      kv.1 ≠ "TILEROW" ∧ kv.1 ≠ "TILECOL") := by
  refine ⟨?_, length_tileList_of_le p.range hrange.1 hrange.2, pairwise_tileList p.range,
    mem_tileList p.range,
    fun kv hkv hdim => mem_wmtsKvpUrl_fixed st _ p.tm kv hkv hdim,
    fun kv hkv hrow hcol => mem_wmtsKvpUrl_dimension st _ p.tm hdims kv hkv hrow hcol,
    wmtsKvpUrl_no_tile_item st _ p.tm hbase⟩
  exact draw_tiles_urls env st viewExtent pixelWidth pixelHeight p _ hcaps hnew htiled hplan hcap
    (tileUrl_kvp env _ p kvp hmode hkvp)

/-- Witness for C13 (amended): the nine tile view on the KVP provider with the dimension
time=2012. -/
theorem wmts_kvp_requests_witness :
    (retrieveServerCapabilities sampleEnv kvpProvider false = (true, kvpProvider) ∧
      kvpProvider.mCachedImage = none ∧
      kvpProvider.mTiled = true ∧
      drawPlan kvpProvider nineTileView 600 = some nineTilePlan ∧
      nineTilePlan.tileMode = QgsTileMode.WMTS ∧
      getTileUrl kvpProvider = some "http://s/wmts?") ∧
    (draw sampleEnv kvpProvider nineTileView 600 600).2.sent.map QNetworkRequest.url
      = kvpProvider.sent.map QNetworkRequest.url ++
          (tileList nineTilePlan.range).map (fun rc =>
            (wmtsKvpUrl kvpProvider (getTileBaseUrl kvpProvider "http://s/wmts?")
                nineTilePlan.tm).toString
              ++ "&TILEROW=" ++ qNumber rc.1 ++ "&TILECOL=" ++ qNumber rc.2) ∧
    ((tileList nineTilePlan.range).length : Int) = (2 - 0 + 1) * (2 - 0 + 1) ∧
    (draw sampleEnv kvpProvider nineTileView 600 600).2.sent.map QNetworkRequest.url
      = [ "http://s/wmts?SERVICE=WMTS&REQUEST=GetTile&VERSION=1.0.0&LAYER=L&STYLE=s&FORMAT=image/png&TILEMATRIXSET=g&TILEMATRIX=fine&time=2012&TILEROW=0&TILECOL=0",
          "http://s/wmts?SERVICE=WMTS&REQUEST=GetTile&VERSION=1.0.0&LAYER=L&STYLE=s&FORMAT=image/png&TILEMATRIXSET=g&TILEMATRIX=fine&time=2012&TILEROW=0&TILECOL=1",
          "http://s/wmts?SERVICE=WMTS&REQUEST=GetTile&VERSION=1.0.0&LAYER=L&STYLE=s&FORMAT=image/png&TILEMATRIXSET=g&TILEMATRIX=fine&time=2012&TILEROW=0&TILECOL=2",
          "http://s/wmts?SERVICE=WMTS&REQUEST=GetTile&VERSION=1.0.0&LAYER=L&STYLE=s&FORMAT=image/png&TILEMATRIXSET=g&TILEMATRIX=fine&time=2012&TILEROW=1&TILECOL=0",
          "http://s/wmts?SERVICE=WMTS&REQUEST=GetTile&VERSION=1.0.0&LAYER=L&STYLE=s&FORMAT=image/png&TILEMATRIXSET=g&TILEMATRIX=fine&time=2012&TILEROW=1&TILECOL=1",
          "http://s/wmts?SERVICE=WMTS&REQUEST=GetTile&VERSION=1.0.0&LAYER=L&STYLE=s&FORMAT=image/png&TILEMATRIXSET=g&TILEMATRIX=fine&time=2012&TILEROW=1&TILECOL=2",
          "http://s/wmts?SERVICE=WMTS&REQUEST=GetTile&VERSION=1.0.0&LAYER=L&STYLE=s&FORMAT=image/png&TILEMATRIXSET=g&TILEMATRIX=fine&time=2012&TILEROW=2&TILECOL=0",
          "http://s/wmts?SERVICE=WMTS&REQUEST=GetTile&VERSION=1.0.0&LAYER=L&STYLE=s&FORMAT=image/png&TILEMATRIXSET=g&TILEMATRIX=fine&time=2012&TILEROW=2&TILECOL=1",
          "http://s/wmts?SERVICE=WMTS&REQUEST=GetTile&VERSION=1.0.0&LAYER=L&STYLE=s&FORMAT=image/png&TILEMATRIXSET=g&TILEMATRIX=fine&time=2012&TILEROW=2&TILECOL=2" ] :=
  have h := wmts_kvp_requests sampleEnv kvpProvider nineTileView 600 600 nineTilePlan
    "http://s/wmts?" rfl (by decide) (Or.inl rfl) (by decide!) rfl (by decide) (Or.inl rfl)
    (by decide) (by decide) (by decide)
  ⟨⟨rfl, rfl, rfl, by decide!, rfl, by decide⟩, h.1, h.2.1, by decide!⟩

/-- Counterexample for C13 as stated: in a QGISDEBUG build the many tile view, a WMTS KVP
draw whose covering range has 121 tiles, dispatches no request at all; and for a GetTile
endpoint that carries TILEROW twice each request carries TILEROW twice. -/
theorem wmts_kvp_requests_given_up :
    sampleDebugEnv.qgisDebug = true ∧
    drawPlan kvpProvider manyTileView 2815 = some manyTilePlan ∧
    manyTilePlan.tileMode = QgsTileMode.WMTS ∧
    getTileUrl kvpProvider = some "http://s/wmts?" ∧
    (manyTilePlan.range.row1 - manyTilePlan.range.row0 + 1)
      * (manyTilePlan.range.col1 - manyTilePlan.range.col0 + 1) = 121 ∧
    (draw sampleDebugEnv kvpProvider manyTileView 2815 2815).2.sent = [] ∧
    getTileUrl doubleTileRowProvider = some "http://s/wmts?TILEROW=9&TILEROW=8&" ∧
    ((draw sampleEnv doubleTileRowProvider nineTileView 600 600).2.sent.map
        QNetworkRequest.url).head?
      = some "http://s/wmts?TILEROW=8&SERVICE=WMTS&REQUEST=GetTile&VERSION=1.0.0&LAYER=L&STYLE=s&FORMAT=image/png&TILEMATRIXSET=g&TILEMATRIX=fine&time=2012&TILEROW=0&TILECOL=0" := by
  refine ⟨rfl, by decide!, rfl, by decide, by decide, by decide!, by decide, by decide!⟩

/-! ## The URL of a WMTS REST tile -/

theorem wmtsRestTileUrl_eq (st : Provider) (p : TilePlan) (row col : Int) :
    wmtsRestTileUrl st p row col
      = (restValues st p.tm row col).foldl
          (fun u nv => qReplaceCI u ("\x7b" ++ nv.1 ++ "\x7d") nv.2) (restTemplate st) := by
  unfold wmtsRestTileUrl wmtsRestUrl restValues restTemplate
  simp only [List.foldl_append, List.foldl_cons, List.foldl_nil]
  rfl

theorem toLower_eq_open (c : Char) : c.toLower = '\x7b' ↔ c = '\x7b' := by
  constructor
  · intro h
    unfold Char.toLower at h
    simp only [] at h
    split_ifs at h with hr
    · exfalso
      generalize c.toNat = n at h hr
      obtain ⟨h1, h2⟩ := hr
      interval_cases n <;> exact absurd h (by decide)
    · exact h
  · intro h
    rw [h]
    rfl

theorem toLower_eq_close (c : Char) : c.toLower = '\x7d' ↔ c = '\x7d' := by
  constructor
  · intro h
    unfold Char.toLower at h
    simp only [] at h
    split_ifs at h with hr
    · exfalso
      generalize c.toNat = n at h hr
      obtain ⟨h1, h2⟩ := hr
      interval_cases n <;> exact absurd h (by decide)
    · exact h
  · intro h
    rw [h]
    rfl

theorem replaceCIChars_skip (before after : List Char) (l t : List Char) :
    replaceCIChars before after l.length (l ++ t) = replaceCIChars before after 0 t := by
  induction l with
  | nil => rfl
  | cons c l ih =>
    simp only [List.length_cons, List.cons_append]
    rw [replaceCIChars]
    exact ih

theorem replaceCIChars_text (name after : List Char) (s t : List Char)
    (hs : '\x7b' ∉ s) :
    replaceCIChars ('\x7b' :: (name ++ ['\x7d'])) after 0 (s ++ t)
      = s ++ replaceCIChars ('\x7b' :: (name ++ ['\x7d'])) after 0 t := by
  induction s with
  | nil => rfl
  | cons c s ih =>
    rw [List.mem_cons, not_or] at hs
    simp only [List.cons_append]
    rw [replaceCIChars]
    have hc : ('\x7b' == c.toLower) = false := by
      rw [beq_eq_false_iff_ne]
      intro h
      exact hs.1 ((toLower_eq_open c).mp h.symm).symm
    have hpre : (List.map Char.toLower ('\x7b' :: (name ++ ['\x7d']))).isPrefixOf
        (List.map Char.toLower (c :: (s ++ t))) = false := by
      simp only [List.map_cons, List.isPrefixOf]
      have : Char.toLower '\x7b' = '\x7b' := rfl
      rw [this, hc, Bool.false_and]
    rw [hpre]
    simp only [Bool.false_eq_true, if_false]
    rw [ih hs.2]

theorem prefix_close (x : List Char) :
    ∀ y z : List Char, '\x7d' ∉ x → '\x7d' ∉ y → x ++ ['\x7d'] <+: y ++ '\x7d' :: z → x = y := by
  induction x with
  | nil =>
    intro y z _ hy h
    cases y with
    | nil => rfl
    | cons b y =>
      simp only [List.nil_append, List.cons_append, List.cons_prefix_cons] at h
      exact absurd h.1 (fun hb => hy (by rw [← hb]; exact List.mem_cons_self _ _))
  | cons a x ih =>
    intro y z hx hy h
    rw [List.mem_cons, not_or] at hx
    cases y with
    | nil =>
      simp only [List.nil_append, List.cons_append, List.cons_prefix_cons] at h
      exact absurd h.1.symm hx.1
    | cons b y =>
      rw [List.mem_cons, not_or] at hy
      simp only [List.cons_append, List.cons_prefix_cons] at h
      rw [h.1, ih y z hx.2 hy.2 h.2]

theorem not_mem_map_toLower_close (l : List Char) (h : '\x7d' ∉ l) :
    '\x7d' ∉ l.map Char.toLower := by
  intro hmem
  obtain ⟨c, hc, hcl⟩ := List.mem_map.mp hmem
  rw [(toLower_eq_close c).mp hcl] at hc
  exact h hc

theorem replaceCIChars_hole_match (name after n t : List Char)
    (hm : name.map Char.toLower = n.map Char.toLower) :
    replaceCIChars ('\x7b' :: (name ++ ['\x7d'])) after 0 ('\x7b' :: (n ++ ['\x7d']) ++ t)
      = after ++ replaceCIChars ('\x7b' :: (name ++ ['\x7d'])) after 0 t := by
  have hlen : name.length = n.length := by
    have := congrArg List.length hm
    simpa using this
  simp only [List.cons_append]
  rw [replaceCIChars]
  have hpre : (List.map Char.toLower ('\x7b' :: (name ++ ['\x7d']))).isPrefixOf
      (List.map Char.toLower ('\x7b' :: (n ++ ['\x7d'] ++ t))) = true := by
    rw [List.isPrefixOf_iff_prefix]
    simp only [List.map_cons, List.map_append, List.map_nil, hm, List.append_assoc]
    exact (List.prefix_cons_inj _).mpr ((List.prefix_append_right_inj _).mpr
      (List.prefix_append _ _))
  rw [hpre]
  simp only [if_true]
  have hskip : ('\x7b' :: (name ++ ['\x7d'])).length - 1 = (n ++ ['\x7d']).length := by
    simp [hlen]
  rw [hskip, replaceCIChars_skip]

theorem replaceCIChars_hole_other (name after n t : List Char)
    (hm : name.map Char.toLower ≠ n.map Char.toLower)
    (hname : '\x7d' ∉ name) (hn : NoBrace n) :
    replaceCIChars ('\x7b' :: (name ++ ['\x7d'])) after 0 ('\x7b' :: (n ++ ['\x7d']) ++ t)
      = '\x7b' :: (n ++ ['\x7d']) ++ replaceCIChars ('\x7b' :: (name ++ ['\x7d'])) after 0 t := by
  simp only [List.cons_append]
  rw [replaceCIChars]
  have hpre : (List.map Char.toLower ('\x7b' :: (name ++ ['\x7d']))).isPrefixOf
      (List.map Char.toLower ('\x7b' :: (n ++ ['\x7d'] ++ t))) = false := by
    rw [Bool.eq_false_iff]
    intro h
    rw [List.isPrefixOf_iff_prefix] at h
    simp only [List.map_cons, List.map_append, List.map_nil, List.append_assoc,
      List.singleton_append] at h
    have h2 := (List.prefix_cons_inj _).mp h
    have hc : Char.toLower '\x7d' = '\x7d' := rfl
    rw [hc] at h2
    exact hm (prefix_close _ _ _ (not_mem_map_toLower_close name hname)
      (not_mem_map_toLower_close n hn.2) h2)
  rw [hpre]
  simp only [Bool.false_eq_true, if_false]
  have hopen : '\x7b' ∉ n ++ ['\x7d'] := by
    simp only [List.mem_append, List.mem_singleton, not_or]
    exact ⟨hn.1, by decide⟩
  rw [replaceCIChars_text name after (n ++ ['\x7d']) t hopen]

theorem fillPart_single_hole (nv : QString × QString) (n : List Char) :
    fillPart [nv] (TemplatePart.hole n)
      = if nv.1.data.map Char.toLower = n.map Char.toLower then TemplatePart.text nv.2.data
        else TemplatePart.hole n := by
  by_cases h : nv.1.data.map Char.toLower = n.map Char.toLower
  · simp [fillPart, List.find?, h]
  · have hb : (nv.1.data.map Char.toLower == n.map Char.toLower) = false := by
      rw [beq_eq_false_iff_ne]
      exact h
    simp only [fillPart, List.find?, hb, if_neg h]

/-- One `replace` call on a flat template fills the placeholders of that name. -/
theorem replace_placeholder (nv : QString × QString) (hname : '\x7d' ∉ nv.1.data)
    (parts : List TemplatePart) (hflat : ∀ part ∈ parts, part.Flat) :
    replaceCIChars ('\x7b' :: (nv.1.data ++ ['\x7d'])) nv.2.data 0 (renderTemplate parts)
      = renderTemplate (parts.map (fillPart [nv])) := by
  induction parts with
  | nil => rfl
  | cons part rest ih =>
    have hrest := ih (fun q hq => hflat q (List.mem_cons_of_mem _ hq))
    have hpart := hflat part (List.mem_cons_self _ _)
    unfold renderTemplate at hrest ⊢
    rw [List.map_cons, List.flatMap_cons, List.flatMap_cons]
    cases part with
    | text cs =>
      rw [show fillPart [nv] (TemplatePart.text cs) = TemplatePart.text cs from rfl]
      simp only [TemplatePart.chars]
      have hcs : '\x7b' ∉ cs := hpart.1
      rw [replaceCIChars_text _ _ _ _ hcs, hrest]
    | hole n =>
      rw [fillPart_single_hole]
      by_cases hm : nv.1.data.map Char.toLower = n.map Char.toLower
      · rw [if_pos hm]
        simp only [TemplatePart.chars]
        rw [replaceCIChars_hole_match _ _ _ _ hm, hrest]
      · rw [if_neg hm]
        simp only [TemplatePart.chars]
        have hn : NoBrace n := hpart
        rw [replaceCIChars_hole_other _ _ _ _ hm hname hn, hrest]

theorem fillPart_cons (nv : QString × QString) (values : List (QString × QString))
    (part : TemplatePart) :
    fillPart values (fillPart [nv] part) = fillPart (nv :: values) part := by
  cases part with
  | text cs => rfl
  | hole n =>
    rw [fillPart_single_hole]
    by_cases hm : nv.1.data.map Char.toLower = n.map Char.toLower
    · rw [if_pos hm]
      simp [fillPart, List.find?, hm]
    · rw [if_neg hm]
      have hb : (nv.1.data.map Char.toLower == n.map Char.toLower) = false := by
        rw [beq_eq_false_iff_ne]
        exact hm
      simp only [fillPart, List.find?, hb]

theorem fillPart_flat (nv : QString × QString) (hvalue : NoBrace nv.2.data)
    (part : TemplatePart) (hpart : part.Flat) : (fillPart [nv] part).Flat := by
  cases part with
  | text cs => exact hpart
  | hole n =>
    rw [fillPart_single_hole]
    split_ifs
    · exact hvalue
    · exact hpart

theorem placeholder_data (name : QString) :
    ("\x7b" ++ name ++ "\x7d").data = '\x7b' :: (name.data ++ ['\x7d']) := by
  rw [String.data_append, String.data_append]
  rfl

/-- The run of `replace` calls on a flat template fills each placeholder with the value of
the first name that matches it. -/
theorem replace_placeholders (values : List (QString × QString)) :
    ∀ parts : List TemplatePart, (∀ part ∈ parts, part.Flat) →
      (∀ nv ∈ values, '\x7d' ∉ nv.1.data ∧ NoBrace nv.2.data) →
      values.foldl (fun u nv => qReplaceCI u ("\x7b" ++ nv.1 ++ "\x7d") nv.2)
          (String.mk (renderTemplate parts))
        = String.mk (renderTemplate (parts.map (fillPart values))) := by
  induction values with
  | nil =>
    intro parts _ _
    have : parts.map (fillPart []) = parts := by
      rw [List.map_congr_left (g := id), List.map_id]
      intro part _
      cases part <;> rfl
    rw [this]
    rfl
  | cons nv rest ih =>
    intro parts hflat hvalues
    have hnv := hvalues nv (List.mem_cons_self _ _)
    rw [List.foldl_cons]
    have hstep : qReplaceCI (String.mk (renderTemplate parts)) ("\x7b" ++ nv.1 ++ "\x7d") nv.2
        = String.mk (renderTemplate (parts.map (fillPart [nv]))) := by
      unfold qReplaceCI
      rw [placeholder_data, replace_placeholder nv hnv.1 parts hflat]
    rw [hstep, ih (parts.map (fillPart [nv]))]
    · rw [List.map_map, show (fillPart rest ∘ fillPart [nv]) = fillPart (nv :: rest) from
        funext (fun part => fillPart_cons nv rest part)]
    · intro part hpart
      obtain ⟨q, hq, rfl⟩ := List.mem_map.mp hpart
      exact fillPart_flat nv hnv.2 q (hflat q hq)
    · intro x hx
      exact hvalues x (List.mem_cons_of_mem _ hx)

theorem digitChar_noBrace (d : Nat) (hd : d < 10) :
    Nat.digitChar d ≠ '\x7b' ∧ Nat.digitChar d ≠ '\x7d' := by
  interval_cases d <;> decide

theorem toDigitsCore_noBrace (fuel : Nat) :
    ∀ (n : Nat) (ds : List Char), (∀ c ∈ ds, c ≠ '\x7b' ∧ c ≠ '\x7d') →
      ∀ c ∈ Nat.toDigitsCore 10 fuel n ds, c ≠ '\x7b' ∧ c ≠ '\x7d' := by
  induction fuel with
  | zero =>
    intro n ds hds c hc
    exact hds c hc
  | succ fuel ih =>
    intro n ds hds c hc
    unfold Nat.toDigitsCore at hc
    simp only [] at hc
    have hcons : ∀ c ∈ Nat.digitChar (n % 10) :: ds, c ≠ '\x7b' ∧ c ≠ '\x7d' := by
      intro x hx
      rcases List.mem_cons.mp hx with h | h
      · rw [h]
        exact digitChar_noBrace _ (Nat.mod_lt _ (by decide))
      · exact hds x h
    split_ifs at hc
    · exact hcons c hc
    · exact ih _ _ hcons c hc

theorem qNumber_noBrace (n : Int) : NoBrace (qNumber n).data := by
  have hrepr : ∀ m : Nat, NoBrace (toString m).data := by
    intro m
    have h := toDigitsCore_noBrace (m + 1) m [] (fun c hc => absurd hc (List.not_mem_nil c))
    exact ⟨fun hmem => (h _ hmem).1 rfl, fun hmem => (h _ hmem).2 rfl⟩
  unfold qNumber
  split_ifs
  · rw [String.data_append]
    have h := hrepr n.natAbs
    constructor
    · intro hmem
      rcases List.mem_append.mp hmem with h1 | h1
      · exact absurd h1 (by decide)
      · exact h.1 h1
    · intro hmem
      rcases List.mem_append.mp hmem with h1 | h1
      · exact absurd h1 (by decide)
      · exact h.2 h1
  · exact hrepr n.natAbs

/-- C14 (amended): for every resource template in which braces occur only around
placeholder names (the template is a sequence of brace-free literal texts and placeholders
with brace-free names) and every style, matrix set and matrix identifier and dimension
names and values without braces, the WMTS REST tile URL is the template with every
placeholder replaced by the value of the first of the names style, tilematrixset,
tilematrix, the dimension names, tilerow, tilecol that equals the name of the placeholder
up to case, and nothing else changed (a placeholder of another name stays); the template
of the specification with style s, set g, matrix 5 and `( row, col ) = ( 3, 7 )` gives
`http://s/s/g/5/3/7.png`. -/
theorem rest_url_of_flat_template (st : Provider) (p : TilePlan) (row col : Int)
    (parts : List TemplatePart)
    (htemplate : restTemplate st = String.mk (renderTemplate parts))
    (hflat : ∀ part ∈ parts, part.Flat)
    (hstyle : NoBrace (st.mActiveSubStyles.getD 0 "").data)
    (hset : NoBrace ((st.mTileMatrixSet.map (fun s => s.identifier)).getD "").data)
    (hmatrix : NoBrace p.tm.identifier.data)
    (hdims : ∀ nv ∈ st.mTileDimensionValues, NoBrace nv.1.data ∧ NoBrace nv.2.data) :
    wmtsRestTileUrl st p row col
      = String.mk (renderTemplate (parts.map (fillPart
          ([ ("style", st.mActiveSubStyles.getD 0 ""),
             ("tilematrixset", (st.mTileMatrixSet.map (fun s => s.identifier)).getD ""),
             ("tilematrix", p.tm.identifier) ]
            ++ st.mTileDimensionValues ++
            [ ("tilerow", qNumber row), ("tilecol", qNumber col) ])))) ∧
    wmtsRestTileUrl tiledProvider restExamplePlan 3 7 = "http://s/s/g/5/3/7.png" := by
  refine ⟨?_, by decide⟩
  rw [wmtsRestTileUrl_eq, htemplate]
  apply replace_placeholders (restValues st p.tm row col) parts hflat
  intro nv hnv
  unfold restValues at hnv
  simp only [List.mem_append, List.mem_cons, List.mem_singleton, List.not_mem_nil,
    or_false] at hnv
  rcases hnv with ((h | h | h) | h) | (h | h)
  · rw [h]
    exact ⟨by simp, hstyle⟩
  · rw [h]
    exact ⟨by simp, hset⟩
  · rw [h]
    exact ⟨by simp, hmatrix⟩
  · exact ⟨(hdims nv h).1.2, (hdims nv h).2⟩
  · rw [h]
    exact ⟨by simp, qNumber_noBrace row⟩
  · rw [h]
    exact ⟨by simp, qNumber_noBrace col⟩

/-- Witness for C14 (amended): the template of the sample tile layer. -/
theorem rest_url_of_flat_template_witness :
    (restTemplate tiledProvider = String.mk (renderTemplate sampleTemplateParts) ∧
      ∀ part ∈ sampleTemplateParts, part.Flat) ∧
    wmtsRestTileUrl tiledProvider restExamplePlan 3 7
      = String.mk (renderTemplate
          [ TemplatePart.text "http://s/".data, TemplatePart.text "s".data,
            TemplatePart.text "/".data, TemplatePart.text "g".data,
            TemplatePart.text "/".data, TemplatePart.text "5".data,
            TemplatePart.text "/".data, TemplatePart.text "3".data,
            TemplatePart.text "/".data, TemplatePart.text "7".data,
            TemplatePart.text ".png".data ]) :=
  ⟨⟨by decide, by decide⟩,
    ((rest_url_of_flat_template tiledProvider restExamplePlan 3 7 sampleTemplateParts
      (by decide) (by decide) (by decide) (by decide) (by decide) (by decide)).1).trans
      (by decide)⟩

/-- Counterexample for C14 as stated: in the template `http://s/{tile{style}}.png` the only
placeholder is the one of the style; with the style "row" (no brace in it) replacing it
gives `http://s/{tilerow}.png`, but the later `replace` call for the tile row rewrites the
text that has arisen: the URL of the tile `( 3, 7 )` is `http://s/3.png`. -/
theorem rest_url_nested_braces :
    restTemplate nestedTemplateProvider = String.mk (renderTemplate nestedTemplateParts) ∧
    restTemplate nestedTemplateProvider = "http://s/\x7btile\x7bstyle\x7d\x7d.png" ∧
    nestedTemplateProvider.mActiveSubStyles = ["row"] ∧
    String.mk (renderTemplate (nestedTemplateParts.map
        (fillPart (restValues nestedTemplateProvider restExamplePlan.tm 3 7))))
      = "http://s/\x7btilerow\x7d.png" ∧
    wmtsRestTileUrl nestedTemplateProvider restExamplePlan 3 7 = "http://s/3.png" := by
  refine ⟨by decide, by decide, rfl, by decide, by decide⟩

/-! ## The document element and the end of the parse -/

theorem allowedEncodingsLoop_of_no_sibling (fuel : Nat) (first : Option QDomNode)
    (acc : List QString) :
    (allowedEncodingsLoop none (fuel + 1) first acc).isSome = true := by
  cases first with
  | none => simp [allowedEncodingsLoop]
  | some e2 => simp [allowedEncodingsLoop]

theorem allowedEncodingsLoop_of_sibling (next : QDomNode) (fuel : Nat) :
    ∀ (e2 : QDomNode) (acc : List QString),
      allowedEncodingsLoop (some next) fuel (some e2) acc = none := by
  induction fuel with
  | zero => intro e2 acc; rfl
  | succ fuel ih =>
    intro e2 acc
    rw [allowedEncodingsLoop]
    exact ih next _

theorem firstElementNamed_eq_none (tag : QString) (nodes : List QDomNode)
    (h : ∀ c ∈ nodes, c.tagName ≠ tag) : firstElementNamed tag nodes = none := by
  unfold firstElementNamed
  rw [List.find?_eq_none]
  intro c hc
  have := h c hc
  simp [this]

theorem parseOwsOperation_isSome (fuel : Nat) (n1 : QDomNode) (rest : List QDomNode)
    (rp : QgsWmsRequestProperty) (h : ∀ c ∈ rest, c.tagName ≠ "ows:Value") :
    (parseOwsOperation (fuel + 1) n1 rest rp).isSome = true := by
  unfold parseOwsOperation
  simp only []
  rw [firstElementNamed_eq_none _ _ h]
  split
  · rfl
  · split_ifs <;>
      first
      | rfl
      | (rw [Option.isSome_map']
         exact allowedEncodingsLoop_of_no_sibling _ _ _)

theorem parseCapabilityChildren_isSome (penv : ParserEnv) (fuel : Nat)
    (children : List QDomNode) (h : ∀ c ∈ children, c.tagName ≠ "ows:Value") :
    ∀ st : ParserState, (parseCapabilityChildren penv (fuel + 1) children st).isSome = true := by
  induction children with
  | nil => intro st; rfl
  | cons n1 rest ih =>
    intro st
    have hrest : ∀ c ∈ rest, c.tagName ≠ "ows:Value" :=
      fun c hc => h c (List.mem_cons_of_mem _ hc)
    rw [parseCapabilityChildren]
    simp only []
    split_ifs
    · exact ih hrest _
    · exact ih hrest _
    · exact ih hrest _
    · exact ih hrest _
    · have hop := parseOwsOperation_isSome fuel n1 rest
        st.mCapabilities.capability.request hrest
      cases hres : parseOwsOperation (fuel + 1) n1 rest st.mCapabilities.capability.request with
      | none => rw [hres] at hop; exact absurd hop (by decide)
      | some rp => exact ih hrest _
    · exact ih hrest _

theorem parseDocumentChildren_isSome (penv : ParserEnv) (fuel : Nat)
    (children : List QDomNode)
    (h : ∀ e ∈ children, ∀ c ∈ e.childNodes, c.tagName ≠ "ows:Value") :
    ∀ st : ParserState, (parseDocumentChildren penv (fuel + 1) children st).isSome = true := by
  induction children with
  | nil => intro st; rfl
  | cons e rest ih =>
    intro st
    have hrest : ∀ e ∈ rest, ∀ c ∈ e.childNodes, c.tagName ≠ "ows:Value" :=
      fun e he => h e (List.mem_cons_of_mem _ he)
    rw [parseDocumentChildren]
    split_ifs
    · exact ih hrest _
    · exact ih hrest _
    · have hcap := parseCapabilityChildren_isSome penv fuel e.childNodes
        (h e (List.mem_cons_self _ _)) st
      unfold parseCapability
      cases hres : parseCapabilityChildren penv (fuel + 1) e.childNodes st with
      | none => rw [hres] at hcap; exact absurd hcap (by decide)
      | some st1 => exact ih hrest _
    · exact ih hrest _
    · exact ih hrest _

/-- The error the parser notes for a document element of another name. -/
theorem parseCapabilitiesDom_other_root (penv : ParserEnv) (fuel : Nat) (xml : QString)
    (st : ParserState) (docElem : QDomNode) (hdoc : penv.setContent xml = .ok docElem)
    (hroot : isCapabilitiesRoot docElem.tagName = false) :
    parseCapabilitiesDom penv fuel xml st
      = some (false,
          { st with
            mErrorCaption := "Dom Exception",
            mErrorFormat := "text/plain",
            mError := "Could not get WMS capabilities in the expected format (DTD): no " ++
              "WMS_Capabilities or WMT_MS_Capabilities found.\nThis might be due to an " ++
              "incorrect WMS Server URL.\nTag:" ++ docElem.tagName ++ "\nResponse was:\n" ++
              xml }) := by
  unfold parseCapabilitiesDom
  rw [hdoc]
  simp only [hroot, Bool.not_false, if_true]

theorem parseOwsOperation_loop (fuel : Nat) (rp : QgsWmsRequestProperty) :
    parseOwsOperation fuel loopOperation [textElem "ows:Value" "x"] rp = none := by
  have h : parseOwsOperation fuel loopOperation [textElem "ows:Value" "x"] rp
      = (allowedEncodingsLoop (some (textElem "ows:Value" "x")) fuel
          (some (textElem "ows:Value" "KVP")) []).map (fun enc =>
            { rp with getTile :=
                { rp.getTile with
                  dcpType := rp.getTile.dcpType ++ [{ httpGet := "http://s/wmts", httpPost := "" }],
                  allowedEncodings := enc } }) := rfl
  rw [h, allowedEncodingsLoop_of_sibling]
  rfl

theorem setContent_loopXml : samplePenv.setContent loopXml = .ok loopDocument := by
  have h : sampleDocuments.lookup loopXml = some loopDocument := by
    unfold sampleDocuments
    rw [List.lookup_cons]
    simp only [beq_self_eq_true]
  simp only [samplePenv, h]

theorem parseCapabilitiesDom_loop_document (fuel : Nat) :
    parseCapabilitiesDom samplePenv fuel loopXml emptyState = none := by
  have hdoc := setContent_loopXml
  unfold parseCapabilitiesDom
  rw [hdoc]
  have hroot : isCapabilitiesRoot loopDocument.tagName = true := by decide
  simp only [hroot, Bool.not_true, Bool.false_eq_true, if_false, Option.map_eq_none']
  have hchildren : loopDocument.childNodes
      = [elem "ows:OperationsMetadata" [loopOperation, textElem "ows:Value" "x"]] := rfl
  rw [hchildren, parseDocumentChildren]
  have hel : (elem "ows:OperationsMetadata" [loopOperation, textElem "ows:Value" "x"]).isElement
      = true := rfl
  have htag : (elem "ows:OperationsMetadata" [loopOperation, textElem "ows:Value" "x"]).tagName
      = "ows:OperationsMetadata" := rfl
  have hcap : ∀ st, parseCapability samplePenv fuel
      (elem "ows:OperationsMetadata" [loopOperation, textElem "ows:Value" "x"]) st = none := by
    intro st
    unfold parseCapability
    have hc : (elem "ows:OperationsMetadata" [loopOperation, textElem "ows:Value" "x"]).childNodes
        = [loopOperation, textElem "ows:Value" "x"] := rfl
    rw [hc, parseCapabilityChildren]
    have hel2 : loopOperation.isElement = true := rfl
    have htag2 : stripWms loopOperation.tagName = "ows:Operation" := by decide
    simp [hel2, htag2, parseOwsOperation_loop]
  simp [hel, htag, hcap]

theorem setContent_htmlXml : samplePenv.setContent htmlXml = .ok htmlDocument := by
  have h : sampleDocuments.lookup htmlXml = some htmlDocument := by
    unfold sampleDocuments
    have h1 : (htmlXml == loopXml) = false := by decide!
    have h2 : (htmlXml == wmsXml) = false := by decide!
    have h3 : (htmlXml == wmsXml ++ "#1") = false := by decide!
    have h4 : (htmlXml == wmsXml ++ "#3") = false := by decide!
    have h5 : (htmlXml == wmsXml ++ "#4") = false := by decide!
    simp only [List.lookup_cons, h1, h2, h3, h4, h5, beq_self_eq_true]
  simp only [samplePenv, h]

/-- C15: for a well-formed document (one the XML reader accepts) parseCapabilitiesDom
returns false when the document element is not named WMS_Capabilities,
WMT_MS_Capabilities or Capabilities: it sets the error caption, format and message and
changes nothing else, so no child of the root is visited. With one of the three names it
never returns false, and it returns true whenever no element two levels below the root
is named ows:Value. But it does not return for every such document: in the sample
document (root Capabilities) an ows:Value element follows the ows:Operation GetTile as a
sibling, and the loop over the allowed encodings in parseCapability does not end,
whatever the bound on its rounds. -/
theorem parseCapabilitiesDom_root_element (penv : ParserEnv) (xml : QString) (st : ParserState)
    (docElem : QDomNode) (hdoc : penv.setContent xml = .ok docElem) :
    (isCapabilitiesRoot docElem.tagName = false →
      ∀ fuel, parseCapabilitiesDom penv fuel xml st
        = some (false,
            { st with
              mErrorCaption := "Dom Exception",
              mErrorFormat := "text/plain",
              mError := "Could not get WMS capabilities in the expected format (DTD): no " ++
                "WMS_Capabilities or WMT_MS_Capabilities found.\nThis might be due to an " ++
                "incorrect WMS Server URL.\nTag:" ++ docElem.tagName ++ "\nResponse was:\n" ++
                xml })) ∧
    (isCapabilitiesRoot docElem.tagName = true →
      ∀ fuel r, parseCapabilitiesDom penv fuel xml st = some r → r.1 = true) ∧
    (isCapabilitiesRoot docElem.tagName = true →
      (∀ e ∈ docElem.childNodes, ∀ c ∈ e.childNodes, c.tagName ≠ "ows:Value") →
      ∀ fuel, ∃ st1, parseCapabilitiesDom penv (fuel + 1) xml st = some (true, st1)) ∧
    (samplePenv.setContent loopXml = .ok loopDocument ∧
      loopDocument.tagName = "Capabilities" ∧
      ∀ fuel, parseCapabilitiesDom samplePenv fuel loopXml emptyState = none) := by
  refine ⟨fun hroot fuel => parseCapabilitiesDom_other_root penv fuel xml st docElem hdoc hroot,
    ?_, ?_, setContent_loopXml, rfl, parseCapabilitiesDom_loop_document⟩
  · intro hroot fuel r hr
    unfold parseCapabilitiesDom at hr
    rw [hdoc] at hr
    simp only [hroot, Bool.not_true, Bool.false_eq_true, if_false, Option.map_eq_some'] at hr
    obtain ⟨st1, _, hst1⟩ := hr
    rw [← hst1]
  · intro hroot hvalues fuel
    unfold parseCapabilitiesDom
    rw [hdoc]
    simp only [hroot, Bool.not_true, Bool.false_eq_true, if_false]
    have hsome := parseDocumentChildren_isSome penv fuel docElem.childNodes hvalues
      { st with mCapabilities :=
          { st.mCapabilities with version := docElem.attribute "version" } }
    obtain ⟨st1, hst1⟩ := Option.isSome_iff_exists.mp hsome
    exact ⟨st1, by rw [hst1]; rfl⟩

theorem setContent_wmsXml : samplePenv.setContent wmsXml = .ok wmsDocument := by
  have h : sampleDocuments.lookup wmsXml = some wmsDocument := by
    unfold sampleDocuments
    have h1 : (wmsXml == loopXml) = false := by decide!
    simp only [List.lookup_cons, h1, beq_self_eq_true]
  simp only [samplePenv, h]

/-- Witness for C15: the HTML page is well-formed, its document element is none of the
three, and the parser returns false with the error noted; the sample WMS document has the
document element WMS_Capabilities and no ows:Value element, and the parser returns
true. -/
theorem parseCapabilitiesDom_root_element_witness :
    (samplePenv.setContent htmlXml = .ok htmlDocument ∧
      isCapabilitiesRoot htmlDocument.tagName = false ∧
      samplePenv.setContent wmsXml = .ok wmsDocument ∧
      isCapabilitiesRoot wmsDocument.tagName = true) ∧
    parseCapabilitiesDom samplePenv 0 htmlXml emptyState
      = some (false,
          { emptyState with
            mErrorCaption := "Dom Exception",
            mErrorFormat := "text/plain",
            mError := "Could not get WMS capabilities in the expected format (DTD): no " ++
              "WMS_Capabilities or WMT_MS_Capabilities found.\nThis might be due to an " ++
              "incorrect WMS Server URL.\nTag:" ++ htmlDocument.tagName ++
              "\nResponse was:\n" ++ htmlXml }) ∧
    (∃ st1, parseCapabilitiesDom samplePenv 1 wmsXml emptyState = some (true, st1)) :=
  ⟨⟨setContent_htmlXml, rfl, setContent_wmsXml, rfl⟩,
    (parseCapabilitiesDom_root_element samplePenv htmlXml emptyState htmlDocument
      setContent_htmlXml).1 rfl 0,
    (parseCapabilitiesDom_root_element samplePenv wmsXml emptyState wmsDocument
      setContent_wmsXml).2.2.1 rfl (by decide) 0⟩

/-! ## The prefix wms: -/

theorem setContent_qualified_wmsXml :
    samplePenv.setContent (wmsXml ++ "#1") = .ok (qualifyFrom 1 wmsDocument) ∧
    samplePenv.setContent (wmsXml ++ "#3") = .ok (qualifyFrom 3 wmsDocument) ∧
    samplePenv.setContent (wmsXml ++ "#4") = .ok (qualifyFrom 4 wmsDocument) := by
  have h1 : sampleDocuments.lookup (wmsXml ++ "#1") = some (qualifyFrom 1 wmsDocument) := by
    unfold sampleDocuments
    have h1 : (wmsXml ++ "#1" == loopXml) = false := by decide!
    have h2 : (wmsXml ++ "#1" == wmsXml) = false := by decide!
    simp only [List.lookup_cons, h1, h2, beq_self_eq_true]
  have h3 : sampleDocuments.lookup (wmsXml ++ "#3") = some (qualifyFrom 3 wmsDocument) := by
    unfold sampleDocuments
    have h1 : (wmsXml ++ "#3" == loopXml) = false := by decide!
    have h2 : (wmsXml ++ "#3" == wmsXml) = false := by decide!
    have h3 : (wmsXml ++ "#3" == wmsXml ++ "#1") = false := by decide!
    simp only [List.lookup_cons, h1, h2, h3, beq_self_eq_true]
  have h4 : sampleDocuments.lookup (wmsXml ++ "#4") = some (qualifyFrom 4 wmsDocument) := by
    unfold sampleDocuments
    have h1 : (wmsXml ++ "#4" == loopXml) = false := by decide!
    have h2 : (wmsXml ++ "#4" == wmsXml) = false := by decide!
    have h3 : (wmsXml ++ "#4" == wmsXml ++ "#1") = false := by decide!
    have h5 : (wmsXml ++ "#4" == wmsXml ++ "#3") = false := by decide!
    simp only [List.lookup_cons, h1, h2, h3, h5, beq_self_eq_true]
  exact ⟨by simp only [samplePenv, h1], by simp only [samplePenv, h3],
    by simp only [samplePenv, h4]⟩

/-- C16: the tag names are not stripped of the prefix `wms:` everywhere. The sample WMS
document parses to version 1.3.0, the service title T, the GetMap format image/png with
the endpoint `http://s/wms?` and the layer L. The same document with every element below
the root qualified with `wms:` parses to the version alone: parseCapabilitiesDom compares
the names of the children of the root as they stand and passes over wms:Service and
wms:Capability. Qualified from the third level on (wms:GetMap and below), the service and
the layer are read but GetMap is not: parseRequest compares the operation name as it
stands. Qualified from the fourth level on (wms:Format, wms:DCPType, wms:HTTP, ...), the
format is read but the endpoint is empty: parseDcpType compares with `HTTP` as it
stands. -/
theorem wms_prefix_not_stripped_everywhere :
    (qualifyFrom 1 wmsDocument).childNodes.map QDomNode.tagName = ["wms:Service", "wms:Capability"] ∧
    (parseCapabilitiesDom samplePenv 1 wmsXml emptyState).map (fun r => (r.1, r.2.summary))
      = some (true, { version := "1.3.0", title := "T", formats := ["image/png"],
                      endpoints := ["http://s/wms?"], layers := ["L"] }) ∧
    (parseCapabilitiesDom samplePenv 1 (wmsXml ++ "#1") emptyState).map
        (fun r => (r.1, r.2.summary))
      = some (true, { version := "1.3.0", title := "", formats := [], endpoints := [],
                      layers := [] }) ∧
    (parseCapabilitiesDom samplePenv 1 (wmsXml ++ "#3") emptyState).map
        (fun r => (r.1, r.2.summary))
      = some (true, { version := "1.3.0", title := "T", formats := [], endpoints := [],
                      layers := ["L"] }) ∧
    (parseCapabilitiesDom samplePenv 1 (wmsXml ++ "#4") emptyState).map
        (fun r => (r.1, r.2.summary))
      = some (true, { version := "1.3.0", title := "T", formats := ["image/png"],
                      endpoints := [""], layers := ["L"] }) := by
  refine ⟨by decide!, by decide!, by decide!, by decide!, by decide!⟩

/-! ## Inheritance in the layer tree -/

theorem parseLayerMember_crs (penv : ParserEnv) (n1 : QDomNode) (lp : QgsWmsLayerData)
    (hel : n1.isElement = true) :
    (parseLayerMember penv n1 lp).crs = lp.crs ++ crsDeclaration n1 := by
  unfold parseLayerMember crsDeclaration
  simp only [hel, Bool.true_and]
  generalize stripWms n1.tagName = tag
  by_cases h1 : tag = "SRS"
  · subst h1
    simp
  · by_cases h2 : tag = "CRS"
    · subst h2
      simp
    · have hb1 : (tag == "SRS") = false := by simpa using h1
      have hb2 : (tag == "CRS") = false := by simpa using h2
      simp only [hb1, hb2, Bool.or_self, Bool.false_eq_true, if_false, List.append_nil]
      split_ifs <;> first | rfl | (split <;> rfl)

theorem parseLayerMember_style (penv : ParserEnv) (n1 : QDomNode) (lp : QgsWmsLayerData)
    (hel : n1.isElement = true) :
    (parseLayerMember penv n1 lp).style = lp.style ++ styleDeclaration n1 := by
  unfold parseLayerMember styleDeclaration
  simp only [hel, Bool.true_and]
  generalize stripWms n1.tagName = tag
  by_cases h1 : tag = "Style"
  · subst h1
    simp
  · have hb1 : (tag == "Style") = false := by simpa using h1
    simp only [hb1, Bool.false_eq_true, if_false, List.append_nil]
    split_ifs <;> first | rfl | (split <;> rfl)

theorem parseLayerMember_geographic (penv : ParserEnv) (n1 : QDomNode) (lp : QgsWmsLayerData)
    (hel : n1.isElement = true) :
    (parseLayerMember penv n1 lp).ex_GeographicBoundingBox
      = (geographicDeclaration penv n1).getD lp.ex_GeographicBoundingBox := by
  unfold parseLayerMember geographicDeclaration
  simp only [hel, Bool.true_and]
  generalize stripWms n1.tagName = tag
  by_cases h1 : tag = "LatLonBoundingBox"
  · subst h1
    simp
  · by_cases h2 : tag = "EX_GeographicBoundingBox"
    · subst h2
      simp only [beq_iff_eq, String.reduceEq, if_false, if_true]
      cases exGeographicBoundingBox penv n1 <;> rfl
    · have hb1 : (tag == "LatLonBoundingBox") = false := by simpa using h1
      have hb2 : (tag == "EX_GeographicBoundingBox") = false := by simpa using h2
      simp only [hb1, hb2, Bool.false_eq_true, if_false, Option.getD_none]
      split_ifs <;> first | rfl | (split <;> rfl)

theorem crsDeclaration_of_not_member (n1 : QDomNode)
    (h : n1.isElement = false ∨ stripWms n1.tagName = "Layer") : crsDeclaration n1 = [] := by
  unfold crsDeclaration
  rcases h with h | h <;> simp [h]

theorem styleDeclaration_of_not_member (n1 : QDomNode)
    (h : n1.isElement = false ∨ stripWms n1.tagName = "Layer") : styleDeclaration n1 = [] := by
  unfold styleDeclaration
  rcases h with h | h <;> simp [h]

theorem geographicDeclaration_of_not_member (penv : ParserEnv) (n1 : QDomNode)
    (h : n1.isElement = false ∨ stripWms n1.tagName = "Layer") :
    geographicDeclaration penv n1 = none := by
  unfold geographicDeclaration
  rcases h with h | h <;> simp [h]

/-- The child loop of parseLayer adds the CRS and the styles the children declare to the
lists the layer starts with, and replaces the geographic bounding box by the last one the
children declare. -/
theorem parseLayerChildren_members (penv : ParserEnv) (children : List QDomNode) :
    ∀ (lp : QgsWmsLayerData) (sub : List QgsWmsLayerProperty) (st : ParserState),
      (parseLayerChildren penv children lp sub st).1.crs = lp.crs ++ declaredCrs children ∧
      (parseLayerChildren penv children lp sub st).1.style
        = lp.style ++ declaredStyles children ∧
      (parseLayerChildren penv children lp sub st).1.ex_GeographicBoundingBox
        = (declaredGeographic penv children).getD lp.ex_GeographicBoundingBox := by
  induction children with
  | nil =>
    intro lp sub st
    simp [parseLayerChildren, declaredCrs, declaredStyles, declaredGeographic]
  | cons n1 rest ih =>
    intro lp sub st
    rw [parseLayerChildren]
    have hcrs : declaredCrs (n1 :: rest) = crsDeclaration n1 ++ declaredCrs rest := rfl
    have hstyle : declaredStyles (n1 :: rest) = styleDeclaration n1 ++ declaredStyles rest := rfl
    have hgeo : declaredGeographic penv (n1 :: rest)
        = match declaredGeographic penv rest with
          | some box => some box
          | none => geographicDeclaration penv n1 := rfl
    rw [hcrs, hstyle, hgeo]
    by_cases hel : n1.isElement = true
    · by_cases hlayer : stripWms n1.tagName = "Layer"
      · have hl : (stripWms n1.tagName == "Layer") = true := by simp [hlayer]
        simp only [hel, Bool.not_true, Bool.false_eq_true, if_false, hl, if_true]
        obtain ⟨h1, h2, h3⟩ := ih lp
          (sub ++ [(parseLayer penv n1 (inheritLayer lp) (some lp.orderId) st).1])
          (parseLayer penv n1 (inheritLayer lp) (some lp.orderId) st).2
        rw [crsDeclaration_of_not_member n1 (Or.inr hlayer),
          styleDeclaration_of_not_member n1 (Or.inr hlayer),
          geographicDeclaration_of_not_member penv n1 (Or.inr hlayer)]
        refine ⟨by simpa using h1, by simpa using h2, ?_⟩
        rw [h3]
        cases declaredGeographic penv rest <;> rfl
      · have hl : (stripWms n1.tagName == "Layer") = false := by simp [hlayer]
        simp only [hel, Bool.not_true, Bool.false_eq_true, if_false, hl]
        obtain ⟨h1, h2, h3⟩ := ih (parseLayerMember penv n1 lp) sub st
        rw [h1, h2, h3, parseLayerMember_crs penv n1 lp hel, parseLayerMember_style penv n1 lp hel,
          parseLayerMember_geographic penv n1 lp hel]
        refine ⟨by simp, by simp, ?_⟩
        cases declaredGeographic penv rest <;> rfl
    · have hel2 : n1.isElement = false := by simpa using hel
      simp only [hel2, Bool.not_false, if_true]
      obtain ⟨h1, h2, h3⟩ := ih lp sub st
      rw [crsDeclaration_of_not_member n1 (Or.inl hel2),
        styleDeclaration_of_not_member n1 (Or.inl hel2),
        geographicDeclaration_of_not_member penv n1 (Or.inl hel2)]
      refine ⟨by simpa using h1, by simpa using h2, ?_⟩
      rw [h3]
      cases declaredGeographic penv rest <;> rfl

theorem finishLayer_of_parent (lp : QgsWmsLayerData) (sub : List QgsWmsLayerProperty)
    (p : Int) (st : ParserState) :
    (finishLayer lp sub (some p) st).1
      = .mk (if lp.name != "" && sub.isEmpty then { lp with style := [] } else lp) sub := rfl

theorem finishLayer_registered (lp : QgsWmsLayerData) (sub : List QgsWmsLayerProperty)
    (p : Int) (st : ParserState) :
    (finishLayer lp sub (some p) st).2.mLayersSupported
      = if lp.name != "" then st.mLayersSupported ++ [.mk lp sub] else st.mLayersSupported := by
  unfold finishLayer
  by_cases hname : (lp.name != "") = true <;> by_cases hsub : sub.isEmpty = true <;>
    simp [hname, hsub]

theorem parseLayer_element (penv : ParserEnv) (tag : QString)
    (attributes : List (QString × QString)) (children : List QDomNode)
    (lp0 : QgsWmsLayerData) (sub0 : List QgsWmsLayerProperty) (parentOrderId : Option Int)
    (st : ParserState) :
    parseLayer penv (.element tag attributes children) (.mk lp0 sub0) parentOrderId st
      = finishLayer
          (parseLayerChildren penv children
            (layerAttributes penv attributes lp0 (st.mLayerCount + 1)) sub0
            { st with mLayerCount := st.mLayerCount + 1 }).1
          (parseLayerChildren penv children
            (layerAttributes penv attributes lp0 (st.mLayerCount + 1)) sub0
            { st with mLayerCount := st.mLayerCount + 1 }).2.1
          parentOrderId
          (parseLayerChildren penv children
            (layerAttributes penv attributes lp0 (st.mLayerCount + 1)) sub0
            { st with mLayerCount := st.mLayerCount + 1 }).2.2 := by
  rw [parseLayer]

/-- C17 (amended): for every Layer element parsed by parseLayer as a sublayer, with the
members of the layer above as they stand at the nested element: the crs list of the
sublayer is the inherited list followed by the CRS the element declares itself (inherit
and add); its geographicBoundingBox is the last one the element declares itself, and the
one of the layer above, verbatim, when it declares none; the sublayer with a name is
registered in the list of supported layers with these crs and geographicBoundingBox and
with the inherited style list followed by the styles the element declares itself; in the
tree the style list is the same for a sublayer without a name or with sublayers of its
own. -/
theorem nested_layer_inheritance (penv : ParserEnv) (tag : QString)
    (attributes : List (QString × QString)) (children : List QDomNode)
    (parent : QgsWmsLayerData) (st : ParserState) :
    (parseLayer penv (.element tag attributes children) (inheritLayer parent)
        (some parent.orderId) st).1.data.crs
      = parent.crs ++ declaredCrs children ∧
    (parseLayer penv (.element tag attributes children) (inheritLayer parent)
        (some parent.orderId) st).1.data.ex_GeographicBoundingBox
      = (declaredGeographic penv children).getD parent.ex_GeographicBoundingBox ∧
    ((parseLayer penv (.element tag attributes children) (inheritLayer parent)
        (some parent.orderId) st).1.data.name ≠ "" →
      ∃ entry : QgsWmsLayerProperty,
        (parseLayer penv (.element tag attributes children) (inheritLayer parent)
          (some parent.orderId) st).2.mLayersSupported.getLast? = some entry ∧
        entry.data.crs = parent.crs ++ declaredCrs children ∧
        entry.data.style = parent.style ++ declaredStyles children ∧
        entry.data.ex_GeographicBoundingBox
          = (declaredGeographic penv children).getD parent.ex_GeographicBoundingBox) ∧
    (((parseLayer penv (.element tag attributes children) (inheritLayer parent)
          (some parent.orderId) st).1.data.name = "" ∨
        (parseLayer penv (.element tag attributes children) (inheritLayer parent)
          (some parent.orderId) st).1.layer ≠ []) →
      (parseLayer penv (.element tag attributes children) (inheritLayer parent)
          (some parent.orderId) st).1.data.style
        = parent.style ++ declaredStyles children) := by
  have hstart : inheritLayer parent
      = .mk { QgsWmsLayerData.empty with
          style := parent.style, crs := parent.crs, boundingBox := parent.boundingBox,
          ex_GeographicBoundingBox := parent.ex_GeographicBoundingBox } [] := rfl
  rw [hstart, parseLayer_element]
  generalize hlp : layerAttributes penv attributes
    { QgsWmsLayerData.empty with
      style := parent.style, crs := parent.crs, boundingBox := parent.boundingBox,
      ex_GeographicBoundingBox := parent.ex_GeographicBoundingBox } (st.mLayerCount + 1) = lp
  have hcrs : lp.crs = parent.crs := by rw [← hlp]; rfl
  have hstyle : lp.style = parent.style := by rw [← hlp]; rfl
  have hgeo : lp.ex_GeographicBoundingBox = parent.ex_GeographicBoundingBox := by
    rw [← hlp]; rfl
  obtain ⟨h1, h2, h3⟩ := parseLayerChildren_members penv children lp []
    { st with mLayerCount := st.mLayerCount + 1 }
  rw [hcrs] at h1
  rw [hstyle] at h2
  rw [hgeo] at h3
  rw [finishLayer_of_parent, finishLayer_registered]
  simp only [QgsWmsLayerProperty.data, QgsWmsLayerProperty.layer]
  refine ⟨?_, ?_, ?_, ?_⟩
  · split_ifs
    · exact h1
    · exact h1
  · split_ifs
    · exact h3
    · exact h3
  · intro hname
    have hne : ((parseLayerChildren penv children lp []
        { st with mLayerCount := st.mLayerCount + 1 }).1.name != "") = true := by
      split_ifs at hname with hc
      · simpa using hname
      · simpa using hname
    rw [if_pos hne]
    exact ⟨.mk (parseLayerChildren penv children lp []
        { st with mLayerCount := st.mLayerCount + 1 }).1
      (parseLayerChildren penv children lp []
        { st with mLayerCount := st.mLayerCount + 1 }).2.1,
      List.getLast?_concat _, h1, h2, h3⟩
  · intro hkeep
    split_ifs with hc
    · exfalso
      simp only [Bool.and_eq_true, bne_iff_ne, ne_eq, List.isEmpty_iff] at hc
      rw [if_pos (by simpa using hc)] at hkeep
      rcases hkeep with h | h
      · exact hc.1 h
      · exact h hc.2
    · exact h2

/-- Witness for C17 (amended): the child layer below a layer with the CRS EPSG:4326. -/
theorem nested_layer_inheritance_witness :
    (parseLayer samplePenv (elem "Layer" childLayerNodes) (inheritLayer parentLayerData)
        (some 0) { emptyState with mLayerCount := 0 }).1.data.name = "child" ∧
    (parseLayer samplePenv (elem "Layer" childLayerNodes) (inheritLayer parentLayerData)
        (some 0) { emptyState with mLayerCount := 0 }).1.data.crs
      = ["EPSG:4326", "EPSG:3857"] ∧
    (parseLayer samplePenv (elem "Layer" childLayerNodes) (inheritLayer parentLayerData)
        (some 0) { emptyState with mLayerCount := 0 }).1.data.ex_GeographicBoundingBox
      = parentLayerData.ex_GeographicBoundingBox :=
  ⟨by decide,
    (nested_layer_inheritance samplePenv "Layer" [] childLayerNodes parentLayerData
      { emptyState with mLayerCount := 0 }).1.trans (by decide),
    (nested_layer_inheritance samplePenv "Layer" [] childLayerNodes parentLayerData
      { emptyState with mLayerCount := 0 }).2.1.trans (by decide)⟩

/-- Counterexample for C17 as stated: the layer above has the CRS EPSG:4326, the style p
and one bounding box when the parser reaches the nested Layer element; the element of the
child declares the CRS EPSG:3857, the style c and one bounding box itself. The child is
registered with both CRS, both styles and both bounding boxes: its lists are neither the
inherited ones nor exactly the ones it declares; in the tree its style list is empty. -/
theorem nested_layer_crs_added :
    (parseLayerChildren samplePenv
        [textElem "Title" "root", textElem "CRS" "EPSG:4326", bboxElem "-10" "-10" "10" "10",
          elem "Style" [textElem "Name" "p"]]
        (layerAttributes samplePenv [] QgsWmsLayerData.empty 0) [] emptyState).1
      = parentLayerData ∧
    declaredCrs childLayerNodes = ["EPSG:3857"] ∧
    (declaredStyles childLayerNodes).map (fun s => s.name) = ["c"] ∧
    (declaredBoundingBoxes samplePenv childLayerNodes).map (fun b => b.box)
      = [{ xmin := -1, ymin := -1, xmax := 1, ymax := 1 }] ∧
    (parseLayer samplePenv nestedLayerDocument (.mk QgsWmsLayerData.empty []) none
        emptyState).2.mLayersSupported.map
        (fun l => (l.data.name, l.data.crs, l.data.style.map (fun s => s.name),
          l.data.boundingBox.map (fun b => b.box)))
      = [("child", ["EPSG:4326", "EPSG:3857"], ["p", "c"],
          [{ xmin := -10, ymin := -10, xmax := 10, ymax := 10 },
           { xmin := -1, ymin := -1, xmax := 1, ymax := 1 }])] ∧
    (parseLayer samplePenv nestedLayerDocument (.mk QgsWmsLayerData.empty []) none
        emptyState).1.layer.map
        (fun l => (l.data.name, l.data.crs, l.data.style.map (fun s => s.name),
          l.data.boundingBox.map (fun b => b.box)))
      = [("child", ["EPSG:4326", "EPSG:3857"], [],
          [{ xmin := -10, ymin := -10, xmax := 10, ymax := 10 },
           { xmin := -1, ymin := -1, xmax := 1, ymax := 1 }])] := by
  refine ⟨by decide!, by decide!, by decide!, by decide!, by decide!, by decide!⟩

/-! ## The limits of the matrix set links -/

theorem tileMatrixLimits_eq_some_iff (penv : ParserEnv) (tms : QgsWmtsTileMatrixSet)
    (e3 : QDomNode) (idLimit : QString × QgsWmtsTileMatrixLimits) :
    tileMatrixLimits penv tms e3 = some idLimit ↔
      idLimit = (textOf (e3.firstChildElement "TileMatrix"), limitsOfElement penv e3) ∧
      LimitsWithin tms idLimit.1 idLimit.2 := by
  unfold tileMatrixLimits LimitsWithin
  simp only []
  cases hfind : tms.tileMatrices.find?
      (fun m => m.2.identifier == textOf (e3.firstChildElement "TileMatrix")) with
  | none =>
    simp only [false_iff, not_and, not_exists, reduceCtorEq]
    intro hid m hm
    rw [hid] at hm
    rw [hfind] at hm
    exact absurd hm (by simp)
  | some m =>
    simp only []
    constructor
    · intro h
      split_ifs at h with hvalid
      have hid : idLimit = (textOf (e3.firstChildElement "TileMatrix"), limitsOfElement penv e3) :=
        (Option.some.inj h).symm
      refine ⟨hid, m, ?_, ?_⟩
      · rw [hid]
        exact hfind
      · rw [hid]
        simp only [Bool.and_eq_true, decide_eq_true_eq] at hvalid
        simp only [limitsOfElement]
        omega
    · rintro ⟨hid, m2, hm2, hcol, hrow⟩
      rw [hid] at hm2 hcol hrow
      simp only [] at hm2 hcol hrow
      rw [hfind] at hm2
      have hmm : m = m2 := Option.some.inj hm2
      subst hmm
      simp only [limitsOfElement] at hcol hrow
      have hvalid : (decide (penv.toInt (textOf (e3.firstChildElement "MinTileCol")) ≥ 0) &&
          decide (penv.toInt (textOf (e3.firstChildElement "MinTileCol")) < m.2.matrixWidth) &&
          decide (penv.toInt (textOf (e3.firstChildElement "MaxTileCol")) ≥ 0) &&
          decide (penv.toInt (textOf (e3.firstChildElement "MaxTileCol")) < m.2.matrixWidth) &&
          decide (penv.toInt (textOf (e3.firstChildElement "MinTileCol"))
            ≤ penv.toInt (textOf (e3.firstChildElement "MaxTileCol"))) &&
          decide (penv.toInt (textOf (e3.firstChildElement "MinTileRow")) ≥ 0) &&
          decide (penv.toInt (textOf (e3.firstChildElement "MinTileRow")) < m.2.matrixHeight) &&
          decide (penv.toInt (textOf (e3.firstChildElement "MaxTileRow")) ≥ 0) &&
          decide (penv.toInt (textOf (e3.firstChildElement "MaxTileRow")) < m.2.matrixHeight) &&
          decide (penv.toInt (textOf (e3.firstChildElement "MinTileRow"))
            ≤ penv.toInt (textOf (e3.firstChildElement "MaxTileRow")))) = true := by
        simp only [Bool.and_eq_true, decide_eq_true_eq]
        omega
      rw [if_pos hvalid, hid]
      rfl

theorem mem_mapInsert {κ ν : Type} [BEq κ] (key : κ) (value : ν) (l : List (κ × ν))
    (x : κ × ν) (hx : x ∈ mapInsert key value l) : x = (key, value) ∨ x ∈ l := by
  induction l with
  | nil =>
    simp only [mapInsert, List.mem_singleton] at hx
    exact Or.inl hx
  | cons e rest ih =>
    rw [mapInsert] at hx
    split_ifs at hx
    · rcases List.mem_cons.mp hx with h | h
      · exact Or.inl h
      · exact Or.inr (List.mem_cons_of_mem _ h)
    · rcases List.mem_cons.mp hx with h | h
      · exact Or.inr (h ▸ List.mem_cons_self _ _)
      · rcases ih h with h2 | h2
        · exact Or.inl h2
        · exact Or.inr (List.mem_cons_of_mem _ h2)

theorem foldl_insertTileMatrixLimits_within (penv : ParserEnv) (tms : QgsWmtsTileMatrixSet)
    (elements : List QDomNode) :
    ∀ limits : List (QString × QgsWmtsTileMatrixLimits),
      (∀ x ∈ limits, LimitsWithin tms x.1 x.2) →
      ∀ x ∈ elements.foldl (insertTileMatrixLimits penv tms) limits,
        LimitsWithin tms x.1 x.2 := by
  induction elements with
  | nil => intro limits h; exact h
  | cons e3 rest ih =>
    intro limits h
    rw [List.foldl_cons]
    apply ih
    intro x hx
    unfold insertTileMatrixLimits at hx
    cases hres : tileMatrixLimits penv tms e3 with
    | none =>
      rw [hres] at hx
      exact h x hx
    | some idLimit =>
      rw [hres] at hx
      rcases mem_mapInsert _ _ _ _ hx with h1 | h1
      · rw [h1]
        exact ((tileMatrixLimits_eq_some_iff penv tms e3 idLimit).mp hres).2
      · exact h x h1

/-- The links of a WMTS layer: each names a matrix set of the provider, and its limits lie
within the matrices of that set. -/
theorem wmtsSetLinks_within (penv : ParserEnv) (st : ParserState) (e0 : QDomNode) :
    ∀ link ∈ wmtsSetLinks penv st e0,
      ∃ tms, st.mTileMatrixSets.lookup link.2.tileMatrixSet = some tms ∧
        ∀ x ∈ link.2.limits, LimitsWithin tms x.1 x.2 := by
  unfold wmtsSetLinks
  generalize e0.childElements "TileMatrixSetLink" = elements
  have hgen : ∀ (links : List (QString × QgsWmtsTileMatrixSetLink)),
      (∀ link ∈ links, ∃ tms, st.mTileMatrixSets.lookup link.2.tileMatrixSet = some tms ∧
        ∀ x ∈ link.2.limits, LimitsWithin tms x.1 x.2) →
      ∀ link ∈ elements.foldl (fun links e1 =>
          match st.mTileMatrixSets.lookup (textOf (e1.firstChildElement "TileMatrixSet")) with
          | none => links
          | some tms =>
            mapInsert (textOf (e1.firstChildElement "TileMatrixSet"))
              (wmtsSetLink penv tms e1) links) links,
        ∃ tms, st.mTileMatrixSets.lookup link.2.tileMatrixSet = some tms ∧
          ∀ x ∈ link.2.limits, LimitsWithin tms x.1 x.2 := by
    induction elements with
    | nil => intro links h; exact h
    | cons e1 rest ih =>
      intro links h
      rw [List.foldl_cons]
      apply ih
      intro link hlink
      cases hlook : st.mTileMatrixSets.lookup (textOf (e1.firstChildElement "TileMatrixSet")) with
      | none =>
        rw [hlook] at hlink
        exact h link hlink
      | some tms =>
        rw [hlook] at hlink
        rcases mem_mapInsert _ _ _ _ hlink with h1 | h1
        · rw [h1]
          refine ⟨tms, hlook, ?_⟩
          exact foldl_insertTileMatrixLimits_within penv tms _ []
            (fun x hx => absurd hx (List.not_mem_nil _))
        · exact h link h1
  exact hgen [] (fun link hlink => absurd hlink (List.not_mem_nil _))

theorem ensureBoundingBox_setLinks (penv : ParserEnv) (st : ParserState) (l : QgsWmtsTileLayer) :
    (ensureBoundingBox penv st l).setLinks = l.setLinks := by
  unfold ensureBoundingBox
  split_ifs
  · split <;> rfl
  · rfl

theorem parseWMTSContents_layers (penv : ParserEnv) (e : QDomNode) (st : ParserState) :
    (parseWMTSContents penv e st).mTileLayersSupported
      = (e.childElements "Layer").map (fun e0 =>
          ensureBoundingBox penv (parseWMTSContents penv e st)
            (wmtsTileLayer penv (parseWMTSContents penv e st) e0)) := by
  unfold parseWMTSContents
  simp only [List.map_map]
  rfl

/-- C18: for every TileMatrixLimits element of a matrix-set link of a WMTS layer the limit
is accepted, that is stored in the limits of the link under the matrix identifier, if and
only if the identifier names a matrix of the linked set (the first one of that identifier
in the order of the resolutions) and `0 ≤ minTileCol ≤ maxTileCol < matrixWidth` and
`0 ≤ minTileRow ≤ maxTileRow < matrixHeight` of that matrix; hence after parseWMTSContents
every limit stored in a link of a supported tile layer satisfies these bounds for the
matrix set the link names. -/
theorem tile_matrix_limits_validated (penv : ParserEnv) (e : QDomNode) (st : ParserState)
    (tms : QgsWmtsTileMatrixSet) (e3 : QDomNode)
    (limits : List (QString × QgsWmtsTileMatrixLimits)) :
    ((tileMatrixLimits penv tms e3).isSome = true ↔
      LimitsWithin tms (textOf (e3.firstChildElement "TileMatrix")) (limitsOfElement penv e3)) ∧
    insertTileMatrixLimits penv tms limits e3
      = (if (tileMatrixLimits penv tms e3).isSome then
          mapInsert (textOf (e3.firstChildElement "TileMatrix")) (limitsOfElement penv e3) limits
        else limits) ∧
    (∀ l ∈ (parseWMTSContents penv e st).mTileLayersSupported, ∀ link ∈ l.setLinks,
      ∃ linked, (parseWMTSContents penv e st).mTileMatrixSets.lookup link.2.tileMatrixSet
          = some linked ∧
        ∀ x ∈ link.2.limits, LimitsWithin linked x.1 x.2) := by
  refine ⟨?_, ?_, ?_⟩
  · constructor
    · intro h
      obtain ⟨idLimit, hid⟩ := Option.isSome_iff_exists.mp h
      obtain ⟨h1, h2⟩ := (tileMatrixLimits_eq_some_iff penv tms e3 idLimit).mp hid
      rw [h1] at h2
      exact h2
    · intro h
      rw [Option.isSome_iff_exists]
      exact ⟨_, (tileMatrixLimits_eq_some_iff penv tms e3 _).mpr ⟨rfl, h⟩⟩
  · unfold insertTileMatrixLimits
    cases hres : tileMatrixLimits penv tms e3 with
    | none => rfl
    | some idLimit =>
      obtain ⟨h1, _⟩ := (tileMatrixLimits_eq_some_iff penv tms e3 idLimit).mp hres
      rw [h1]
      rfl
  · intro l hl link hlink
    rw [parseWMTSContents_layers] at hl
    obtain ⟨e0, _, rfl⟩ := List.mem_map.mp hl
    rw [ensureBoundingBox_setLinks] at hlink
    exact wmtsSetLinks_within penv _ e0 link hlink

/-- Witness for C18: of the two limits the layer A names for the matrix 1 (2 x 2 tiles) of
the set g, the first one is stored and the second one, whose maxTileRow is 2, is not. -/
theorem tile_matrix_limits_validated_witness :
    ((tileMatrixLimits samplePenv parsedMatrixSet (limitsElem "1" "0" "1" "0" "0")).isSome = true ∧
      (tileMatrixLimits samplePenv parsedMatrixSet (limitsElem "1" "0" "2" "0" "1")).isSome
        = false ∧
      (parseWMTSContents samplePenv contentsElement emptyState).mTileLayersSupported.map
          (fun l => (l.identifier, l.setLinks))
        = [ ("A", [("g", { tileMatrixSet := "g",
                           limits := [("1", { minTileRow := 0, maxTileRow := 1,
                                              minTileCol := 0, maxTileCol := 0 })] })]),
            ("B", [("g", { tileMatrixSet := "g", limits := [] })]),
            ("C", []) ]) ∧
    LimitsWithin parsedMatrixSet "1"
      { minTileRow := 0, maxTileRow := 1, minTileCol := 0, maxTileCol := 0 } ∧
    ¬ LimitsWithin parsedMatrixSet "1"
      { minTileRow := 0, maxTileRow := 2, minTileCol := 0, maxTileCol := 1 } :=
  ⟨⟨by decide!, by decide!, by decide!⟩,
    (tile_matrix_limits_validated samplePenv contentsElement emptyState parsedMatrixSet
      (limitsElem "1" "0" "1" "0" "0") []).1.mp (by decide!),
    fun h => absurd ((tile_matrix_limits_validated samplePenv contentsElement emptyState
      parsedMatrixSet (limitsElem "1" "0" "2" "0" "1") []).1.mpr h) (by decide!)⟩

/-! ## The bounding box of a tile layer -/

theorem detectTileLayerBoundingBox_eq_some (penv : ParserEnv) (st : ParserState)
    (l : QgsWmtsTileLayer) (bbox : QgsWmsBoundingBoxProperty)
    (h : detectTileLayerBoundingBox penv st l = some bbox) :
    ∃ setLink tms tm,
      l.setLinks.head? = some setLink ∧
      st.mTileMatrixSets.lookup setLink.2.tileMatrixSet = some tms ∧
      penv.createFromOgcWmsCrs tms.crs = true ∧
      tms.tileMatrices.getLast? = some tm ∧
      bbox.crs = tms.crs ∧
      bbox.box = QgsRectangle.normalize
        { xmin := tm.2.topLeftX,
          ymin := tm.2.topLeftY,
          xmax := tm.2.topLeftX
            + tm.2.scaleDenom * (28 / 100000) / penv.metersPerUnit tms.crs
              * tm.2.tileWidth * tm.2.matrixWidth,
          ymax := tm.2.topLeftY
            - tm.2.scaleDenom * (28 / 100000) / penv.metersPerUnit tms.crs
              * tm.2.tileHeight * tm.2.matrixHeight } := by
  unfold detectTileLayerBoundingBox at h
  cases hlinks : l.setLinks with
  | nil =>
    rw [hlinks] at h
    exact absurd h (by simp)
  | cons setLink rest =>
    rw [hlinks] at h
    simp only [] at h
    cases hlook : st.mTileMatrixSets.lookup setLink.2.tileMatrixSet with
    | none =>
      rw [hlook] at h
      exact absurd h (by simp)
    | some tms =>
      rw [hlook] at h
      simp only [] at h
      by_cases hcrs : penv.createFromOgcWmsCrs tms.crs = true
      · simp only [hcrs, Bool.not_true, Bool.false_eq_true, if_false] at h
        cases hlast : tms.tileMatrices.getLast? with
        | none =>
          rw [hlast] at h
          exact absurd h (by simp)
        | some tm =>
          rw [hlast] at h
          simp only [Option.some.injEq] at h
          refine ⟨setLink, tms, tm, rfl, hlook, hcrs, hlast, ?_, ?_⟩
          · rw [← h]
          · rw [← h]
            rfl
      · have hf : penv.createFromOgcWmsCrs tms.crs = false := by simpa using hcrs
        simp only [hf, Bool.not_false, if_true] at h
        exact absurd h (by simp)

theorem ensureBoundingBox_crs (penv : ParserEnv) (st : ParserState) (l : QgsWmtsTileLayer)
    (hcrs : penv.createFromOgcWmsCrs "" = false) :
    (ensureBoundingBox penv st l).boundingBox.crs ≠ "" := by
  unfold ensureBoundingBox
  split_ifs with hempty
  · cases hdet : detectTileLayerBoundingBox penv st l with
    | none =>
      simp only []
      decide
    | some bbox =>
      simp only []
      obtain ⟨_, tms, _, _, _, hvalid, _, hb, _⟩ :=
        detectTileLayerBoundingBox_eq_some penv st l bbox hdet
      intro h
      rw [hb] at h
      rw [h, hcrs] at hvalid
      exact absurd hvalid (by decide)
  · intro h
    apply hempty
    rw [h]
    rfl

theorem ensureBoundingBox_boundingBox (penv : ParserEnv) (st : ParserState)
    (l : QgsWmtsTileLayer) :
    (ensureBoundingBox penv st l).boundingBox
      = if l.boundingBox.crs = "" then
          (detectTileLayerBoundingBox penv st l).getD worldBoundingBox
        else l.boundingBox := by
  unfold ensureBoundingBox
  by_cases hempty : l.boundingBox.crs = ""
  · have h1 : l.boundingBox.crs.isEmpty = true := by rw [hempty]; rfl
    rw [if_pos h1, if_pos hempty]
    cases detectTileLayerBoundingBox penv st l <;> rfl
  · have h1 : ¬ l.boundingBox.crs.isEmpty = true := by
      intro h
      exact hempty ((String.isEmpty_iff _).mp h)
    rw [if_neg h1, if_neg hempty]

theorem ensureBoundingBox_tileMode (penv : ParserEnv) (st : ParserState)
    (l : QgsWmtsTileLayer) : (ensureBoundingBox penv st l).tileMode = l.tileMode := by
  unfold ensureBoundingBox
  split_ifs
  · split <;> rfl
  · rfl

/-- C19 (amended): where no CRS can be created from the empty text, after
parseWMTSContents every tile layer in the list of supported tile layers is a WMTS layer
and has a bounding box with a non-empty CRS. It is the bounding box of the document (the
ows:WGS84BoundingBox in CRS:84, otherwise the ows:BoundingBox with the CRS of its
attribute) where that has a CRS; when the document gives none it is what
detectTileLayerBoundingBox finds, the normalised extent of the coarsest matrix of the first
linked matrix set in the CRS of that set, or as a final fallback the whole-world
rectangle `( -180, -90, 180, 90 )` in CRS:84. -/
theorem wmts_layers_have_bounding_box (penv : ParserEnv) (e : QDomNode) (st : ParserState)
    (hcrs : penv.createFromOgcWmsCrs "" = false) :
    (∀ l ∈ (parseWMTSContents penv e st).mTileLayersSupported,
      l.tileMode = QgsTileMode.WMTS ∧ l.boundingBox.crs ≠ "") ∧
    (parseWMTSContents penv e st).mTileLayersSupported.map (fun l => l.boundingBox)
      = (e.childElements "Layer").map (fun e0 =>
          if (wmtsLayerBoundingBox penv e0).crs = "" then
            (detectTileLayerBoundingBox penv (parseWMTSContents penv e st)
              (wmtsTileLayer penv (parseWMTSContents penv e st) e0)).getD worldBoundingBox
          else wmtsLayerBoundingBox penv e0) ∧
    (∀ l bbox, detectTileLayerBoundingBox penv (parseWMTSContents penv e st) l = some bbox →
      ∃ setLink tms tm,
        l.setLinks.head? = some setLink ∧
        (parseWMTSContents penv e st).mTileMatrixSets.lookup setLink.2.tileMatrixSet
          = some tms ∧
        penv.createFromOgcWmsCrs tms.crs = true ∧
        tms.tileMatrices.getLast? = some tm ∧
        bbox.crs = tms.crs ∧
        bbox.box = QgsRectangle.normalize
          { xmin := tm.2.topLeftX,
            ymin := tm.2.topLeftY,
            xmax := tm.2.topLeftX
              + tm.2.scaleDenom * (28 / 100000) / penv.metersPerUnit tms.crs
                * tm.2.tileWidth * tm.2.matrixWidth,
            ymax := tm.2.topLeftY
              - tm.2.scaleDenom * (28 / 100000) / penv.metersPerUnit tms.crs
                * tm.2.tileHeight * tm.2.matrixHeight }) ∧
    worldBoundingBox
      = { crs := "CRS:84", box := { xmin := -180, ymin := -90, xmax := 180, ymax := 90 } } := by
  refine ⟨?_, ?_, fun l bbox h => detectTileLayerBoundingBox_eq_some penv _ l bbox h, ?_⟩
  · intro l hl
    rw [parseWMTSContents_layers] at hl
    obtain ⟨e0, _, rfl⟩ := List.mem_map.mp hl
    exact ⟨by rw [ensureBoundingBox_tileMode]; rfl, ensureBoundingBox_crs penv _ _ hcrs⟩
  · rw [parseWMTSContents_layers, List.map_map]
    apply List.map_congr_left
    intro e0 _
    simp only [Function.comp]
    rw [ensureBoundingBox_boundingBox]
    rfl
  · decide!

/-- Witness for C19 (amended): the layer A keeps the bounding box of the document, the
layer B gets the extent of the matrix 0 of the set g, the layer C the whole world. -/
theorem wmts_layers_have_bounding_box_witness :
    samplePenv.createFromOgcWmsCrs "" = false ∧
    (parseWMTSContents samplePenv contentsElement emptyState).mTileLayersSupported.map
        (fun l => (l.identifier, l.boundingBox))
      = [ ("A", { crs := "CRS:84", box := { xmin := -10, ymin := -20, xmax := 10, ymax := 20 } }),
          ("B", { crs := "EPSG:3857",
                  box := { xmin := 0, ymin := -125234427136 / 3125,
                           xmax := 125234427136 / 3125, ymax := 0 } }),
          ("C", { crs := "CRS:84",
                  box := { xmin := -180, ymin := -90, xmax := 180, ymax := 90 } }) ] ∧
    ∀ l ∈ (parseWMTSContents samplePenv contentsElement emptyState).mTileLayersSupported,
      l.tileMode = QgsTileMode.WMTS ∧ l.boundingBox.crs ≠ "" :=
  ⟨rfl, by decide!,
    (wmts_layers_have_bounding_box samplePenv contentsElement emptyState rfl).1⟩

/-- Counterexample for C19 as stated: the WMS-C tile layer of a TileSet element without
BoundingBox is in the list of supported tile layers with an empty CRS and an empty
rectangle after the capabilities are parsed; and the WMTS layer D, whose document names a
bounding box of one point, keeps that empty rectangle. -/
theorem wmsc_layer_without_bounding_box :
    tileSetPenv.setContent tileSetXml = .ok tileSetDocument ∧
    (parseCapabilitiesDom tileSetPenv 1 tileSetXml emptyState).map
        (fun r => (r.1, r.2.mTileLayersSupported))
      = some (true,
          [ { tileMode := QgsTileMode.WMSC,
              identifier := "L",
              boundingBox := { crs := "", box := { xmin := 0, ymin := 0, xmax := 0, ymax := 0 } },
              setLinks := [("L-wmsc-0", { tileMatrixSet := "L-wmsc-0", limits := [] })],
              getTileURLs := [] } ]) ∧
    QgsRectangle.isEmpty { xmin := 0, ymin := 0, xmax := 0, ymax := 0 } = true ∧
    (parseWMTSContents samplePenv pointContentsElement emptyState).mTileLayersSupported.map
        (fun l => (l.identifier, l.boundingBox, l.boundingBox.box.isEmpty))
      = [("D", { crs := "CRS:84", box := { xmin := 7, ymin := 7, xmax := 7, ymax := 7 } },
          true)] := by
  refine ⟨?_, by decide!, by decide!, by decide!⟩
  simp only [tileSetPenv, beq_self_eq_true, if_true]

/-! ## The extent of a layer that is not tiled -/

/-- The second loop of extentForNonTiledLayer: the extent stays, and every bounding box in
CRS:84 contains it, or the first bounding box in CRS:84 that does not contain it is
taken. -/
theorem refineExtent_spec (extent : QgsRectangle) (boxes : List QgsWmsBoundingBoxProperty) :
    (refineExtent extent boxes = extent ∧
      ∀ b ∈ boxes, b.crs = DEFAULT_LATLON_CRS → b.box.contains extent = true) ∨
    (∃ before b after, boxes = before ++ b :: after ∧
      (∀ a ∈ before, a.crs = DEFAULT_LATLON_CRS → a.box.contains extent = true) ∧
      b.crs = DEFAULT_LATLON_CRS ∧ b.box.contains extent = false ∧
      refineExtent extent boxes = b.box) := by
  induction boxes with
  | nil => exact Or.inl ⟨rfl, fun b hb => absurd hb (List.not_mem_nil _)⟩
  | cons b rest ih =>
    rw [refineExtent]
    by_cases hcrs : b.crs = DEFAULT_LATLON_CRS
    · have hb : (b.crs == DEFAULT_LATLON_CRS) = true := by simp [hcrs]
      simp only [hb, if_true]
      by_cases hcont : b.box.contains extent = true
      · simp only [hcont, if_true]
        rcases ih with ⟨h1, h2⟩ | ⟨before, c, after, h1, h2, h3, h4, h5⟩
        · left
          refine ⟨h1, ?_⟩
          intro a ha hacrs
          rcases List.mem_cons.mp ha with h | h
          · rw [h]
            exact hcont
          · exact h2 a h hacrs
        · right
          refine ⟨b :: before, c, after, by rw [h1]; rfl, ?_, h3, h4, h5⟩
          intro a ha hacrs
          rcases List.mem_cons.mp ha with h | h
          · rw [h]
            exact hcont
          · exact h2 a h hacrs
      · have hf : b.box.contains extent = false := by simpa using hcont
        simp only [hf, Bool.false_eq_true, if_false]
        right
        exact ⟨[], b, rest, rfl, fun a ha => absurd ha (List.not_mem_nil _), hcrs, hf, rfl⟩
    · have hb : (b.crs == DEFAULT_LATLON_CRS) = false := by simp [hcrs]
      simp only [hb, Bool.false_eq_true, if_false]
      rcases ih with ⟨h1, h2⟩ | ⟨before, c, after, h1, h2, h3, h4, h5⟩
      · left
        refine ⟨h1, ?_⟩
        intro a ha hacrs
        rcases List.mem_cons.mp ha with h | h
        · rw [h] at hacrs
          exact absurd hacrs hcrs
        · exact h2 a h hacrs
      · right
        refine ⟨b :: before, c, after, by rw [h1]; rfl, ?_, h3, h4, h5⟩
        intro a ha hacrs
        rcases List.mem_cons.mp ha with h | h
        · rw [h] at hacrs
          exact absurd hacrs hcrs
        · exact h2 a h hacrs

/-- C20 (amended): for every layer found in the capabilities tree with no bounding box
declared in the target CRS, extentForNonTiledLayer hands to the CRS transform (and returns
what the transform makes of it) the layer's geographicBoundingBox, when every CRS:84
bounding box of the layer contains it, and otherwise the first CRS:84 bounding box of the
layer that does not contain the geographicBoundingBox. -/
theorem non_tiled_extent_source (penv : ParserEnv) (root layerProperty : QgsWmsLayerProperty)
    (layerName crs : QString) (extent : QgsRectangle)
    (hfound : findNestedLayerProperty layerName root = some layerProperty)
    (hnone : ∀ b ∈ layerProperty.data.boundingBox, b.crs ≠ crs) :
    extentForNonTiledLayer penv root layerName crs extent
      = (if !penv.createFromOgcWmsCrs DEFAULT_LATLON_CRS || !penv.createFromOgcWmsCrs crs then
          (false, extentToTransform layerProperty.data)
        else
          match penv.transformBoundingBox DEFAULT_LATLON_CRS crs
              (extentToTransform layerProperty.data) with
          | none => (false, extentToTransform layerProperty.data)
          | some transformed =>
            if !penv.isFinite transformed then (false, transformed) else (true, transformed)) ∧
    ((extentToTransform layerProperty.data = layerProperty.data.ex_GeographicBoundingBox ∧
        ∀ b ∈ layerProperty.data.boundingBox, b.crs = "CRS:84" →
          b.box.contains layerProperty.data.ex_GeographicBoundingBox = true) ∨
      (∃ before b after, layerProperty.data.boundingBox = before ++ b :: after ∧
        (∀ a ∈ before, a.crs = "CRS:84" →
          a.box.contains layerProperty.data.ex_GeographicBoundingBox = true) ∧
        b.crs = "CRS:84" ∧
        b.box.contains layerProperty.data.ex_GeographicBoundingBox = false ∧
        extentToTransform layerProperty.data = b.box)) := by
  refine ⟨?_, refineExtent_spec _ _⟩
  unfold extentForNonTiledLayer
  rw [hfound]
  have hfind : layerProperty.data.boundingBox.find? (fun b => b.crs == crs) = none := by
    rw [List.find?_eq_none]
    intro b hb
    simpa using hnone b hb
  simp only [hfind]

/-- Witness for C20 (amended): the layer L with a CRS:84 bounding box that does not
contain its geographic bounding box. -/
theorem non_tiled_extent_source_witness :
    (findNestedLayerProperty "L" overlapLayer = some overlapLayer ∧
      ∀ b ∈ overlapLayer.data.boundingBox, b.crs ≠ "EPSG:4326") ∧
    extentForNonTiledLayer samplePenv overlapLayer "L" "EPSG:4326" QgsRectangle.null
      = (false, { xmin := 5, ymin := 5, xmax := 20, ymax := 20 }) :=
  ⟨⟨rfl, by decide⟩,
    (non_tiled_extent_source samplePenv overlapLayer overlapLayer "L" "EPSG:4326"
      QgsRectangle.null rfl (by decide)).1.trans (by decide!)⟩

/-- Counterexample for C20 as stated: the layer L has the geographic bounding box
`( 0, 0, 10, 10 )` and the CRS:84 bounding box `( 5, 5, 20, 20 )`. The bounding box does
not contain the geographic one, so it is the extent handed to the transform, but it is not
contained in the geographic bounding box: it is not strictly narrower. -/
theorem non_tiled_extent_not_narrower :
    findNestedLayerProperty "L" overlapLayer = some overlapLayer ∧
    overlapLayer.data.boundingBox.find? (fun b => b.crs == "EPSG:4326") = none ∧
    extentToTransform overlapLayer.data = { xmin := 5, ymin := 5, xmax := 20, ymax := 20 } ∧
    extentToTransform overlapLayer.data ≠ overlapLayer.data.ex_GeographicBoundingBox ∧
    strictlyNarrower (extentToTransform overlapLayer.data)
      overlapLayer.data.ex_GeographicBoundingBox = false ∧
    (extentForNonTiledLayer { samplePenv with transformBoundingBox := fun _ _ r => some r }
        overlapLayer "L" "EPSG:4326" QgsRectangle.null)
      = (true, { xmin := 5, ymin := 5, xmax := 20, ymax := 20 }) := by
  refine ⟨rfl, by decide, by decide!, by decide!, by decide!, by decide!⟩

/-! ## Redirected tile requests -/

theorem tileReplyFinished_redirect (env : Env) (st : Provider) (reply : QNetworkReply)
    (target : QString) (herr : reply.error = false) (hred : reply.redirect = some target) :
    tileReplyFinished env st reply
      = tileRedirected env (countCacheSource env st reply) reply target := by
  unfold tileReplyFinished
  simp only [herr, hred, Bool.not_false, if_true]

theorem deliver_selfRedirect (st : Provider) (hu : st.mUserName = none)
    (hp : st.mPassword = none) (hr : st.mReferer = none)
    (ht : st.mTileReplies = [sampleTileRequest]) :
    (deliver sampleEnv st selfRedirectReply).mUserName = none ∧
    (deliver sampleEnv st selfRedirectReply).mPassword = none ∧
    (deliver sampleEnv st selfRedirectReply).mReferer = none ∧
    (deliver sampleEnv st selfRedirectReply).mTileReplies = [sampleTileRequest] ∧
    (deliver sampleEnv st selfRedirectReply).sent = st.sent ++ [sampleTileRequest] := by
  have hmem : selfRedirectReply.request ∈ st.mTileReplies := by
    rw [ht]
    exact List.mem_singleton.mpr rfl
  have hc : countCacheSource sampleEnv st selfRedirectReply = st := rfl
  have hreq : setAuthorization sampleEnv st (QNetworkRequest.ofUrl sampleTileRequest.url)
      = QNetworkRequest.ofUrl sampleTileRequest.url := by
    unfold setAuthorization
    simp only [hu, hp, hr, Option.isSome_none, Bool.or_self, Bool.false_eq_true, if_false]
  have hd : deliver sampleEnv st selfRedirectReply
      = tileRedirected sampleEnv st selfRedirectReply sampleTileRequest.url := by
    unfold deliver
    rw [if_pos hmem, tileReplyFinished_redirect sampleEnv st selfRedirectReply
      sampleTileRequest.url rfl rfl, hc]
  rw [hd]
  unfold tileRedirected
  simp only [hreq]
  refine ⟨hu, hp, hr, ?_, rfl⟩
  show (st.mTileReplies.erase selfRedirectReply.request) ++ [_] = _
  rw [ht]
  decide

theorem deliverAll_selfRedirect (n : Nat) :
    ∀ st : Provider, st.mUserName = none → st.mPassword = none → st.mReferer = none →
      st.mTileReplies = [sampleTileRequest] →
      (deliverAll sampleEnv st (List.replicate n selfRedirectReply)).sent
          = st.sent ++ List.replicate n sampleTileRequest ∧
        (deliverAll sampleEnv st (List.replicate n selfRedirectReply)).mTileReplies
          = [sampleTileRequest] := by
  induction n with
  | zero =>
    intro st _ _ _ ht
    exact ⟨by simp [deliverAll], ht⟩
  | succ n ih =>
    intro st hu hp hr ht
    obtain ⟨hu1, hp1, hr1, ht1, hs1⟩ := deliver_selfRedirect st hu hp hr ht
    have h := ih (deliver sampleEnv st selfRedirectReply) hu1 hp1 hr1 ht1
    have hstep : deliverAll sampleEnv st (List.replicate (n + 1) selfRedirectReply)
        = deliverAll sampleEnv (deliver sampleEnv st selfRedirectReply)
            (List.replicate n selfRedirectReply) := rfl
    rw [hstep, h.1, h.2, hs1]
    exact ⟨by rw [List.append_assoc]; rfl, rfl⟩

/-- C21: for every tile reply without network error that carries a redirect target,
tileReplyFinished dispatches one new request, which takes the place of the reply among the
replies in flight: it goes to the redirect URL with the generation, the tile index and the
tile rectangle of the reply and with the retry count 0. This is so for every target, the
URL of the request that was redirected included: the sample tile request, answered `n`
times by a redirect to its own URL, is dispatched `n` more times and is in flight again
after each of them. -/
theorem tile_redirect_reissued (env : Env) (st : Provider) (reply : QNetworkReply)
    (target : QString) (herr : reply.error = false) (hred : reply.redirect = some target) :
    (∃ request : QNetworkRequest,
      (tileReplyFinished env st reply).sent = st.sent ++ [request] ∧
      (tileReplyFinished env st reply).mTileReplies
        = st.mTileReplies.erase reply.request ++ [request] ∧
      request.url = target ∧
      request.tileReqNo = reply.request.tileReqNo ∧
      request.tileIndex = reply.request.tileIndex ∧
      request.tileRect = reply.request.tileRect ∧
      request.tileRetry = 0) ∧
    (∀ n : Nat,
      (deliverAll sampleEnv freshProvider (List.replicate n selfRedirectReply)).sent
          = List.replicate (n + 1) sampleTileRequest ∧
        (deliverAll sampleEnv freshProvider (List.replicate n selfRedirectReply)).mTileReplies
          = [sampleTileRequest]) := by
  constructor
  · rw [tileReplyFinished_redirect env st reply target herr hred]
    unfold tileRedirected
    refine ⟨{ setAuthorization env (countCacheSource env st reply)
                (QNetworkRequest.ofUrl target) with
              preferCache := true, cacheSave := true, tileReqNo := reply.request.tileReqNo,
              tileIndex := reply.request.tileIndex, tileRect := reply.request.tileRect,
              tileRetry := 0 }, ?_, ?_, ?_, rfl, rfl, rfl, rfl⟩
    · simp only [getTile_sent, removeTileReply_sent, countCacheSource_sent]
    · show ((countCacheSource env st reply).mTileReplies.erase reply.request) ++ [_] = _
      rw [countCacheSource_mTileReplies]
    · exact setAuthorization_url _ _ _
  · intro n
    have h := deliverAll_selfRedirect n freshProvider rfl rfl rfl rfl
    refine ⟨?_, h.2⟩
    rw [h.1]
    show [sampleTileRequest] ++ List.replicate n sampleTileRequest = _
    rfl

/-- Witness for C21: the reply to the sample tile request redirects to the URL of that
request; after one such reply the request has been dispatched twice and is in flight. -/
theorem tile_redirect_reissued_witness :
    (selfRedirectReply.error = false ∧
      selfRedirectReply.redirect = some selfRedirectReply.request.url) ∧
    (deliverAll sampleEnv freshProvider (List.replicate 1 selfRedirectReply)).sent
      = [sampleTileRequest, sampleTileRequest] ∧
    (deliverAll sampleEnv freshProvider (List.replicate 1 selfRedirectReply)).mTileReplies
      = [sampleTileRequest] :=
  ⟨⟨rfl, rfl⟩,
    (tile_redirect_reissued sampleEnv freshProvider selfRedirectReply
      selfRedirectReply.request.url rfl rfl).2 1⟩

/-! ## The headers Authorization and Referer -/

theorem lookup_setRawHeader_self (n v : QString) :
    ∀ l : List (QString × QString),
      (l.filter (fun h => h.1 != n) ++ [(n, v)]).lookup n = some v
  | [] => by simp [List.lookup]
  | h :: l => by
    by_cases hn : h.1 = n
    · have hb : (h.1 != n) = false := by simp [hn]
      rw [List.filter_cons, hb]
      exact lookup_setRawHeader_self n v l
    · have hb : (h.1 != n) = true := by simp [hn]
      have hb2 : (n == h.1) = false := by
        simp only [beq_eq_false_iff_ne, ne_eq]
        exact fun e => hn e.symm
      rw [List.filter_cons, hb]
      simp only [if_true, List.cons_append]
      obtain ⟨h1, h2⟩ := h
      rw [List.lookup_cons, hb2]
      exact lookup_setRawHeader_self n v l

theorem lookup_setRawHeader_other (n v k : QString) (hk : k ≠ n) :
    ∀ l : List (QString × QString),
      (l.filter (fun h => h.1 != n) ++ [(n, v)]).lookup k = l.lookup k
  | [] => by
    have hb : (k == n) = false := by simpa using hk
    simp [List.lookup, hb]
  | (h1, h2) :: l => by
    by_cases hn : h1 = n
    · have hb : ((h1, h2).1 != n) = false := by simp [hn]
      have hb2 : (k == h1) = false := by
        rw [hn]
        simpa using hk
      rw [List.filter_cons, hb, List.lookup_cons, hb2]
      exact lookup_setRawHeader_other n v k hk l
    · have hb : ((h1, h2).1 != n) = true := by simp [hn]
      rw [List.filter_cons, hb]
      simp only [if_true, List.cons_append, List.lookup_cons]
      rw [lookup_setRawHeader_other n v k hk l]

theorem lookup_setRawHeader (r : QNetworkRequest) (n v k : QString) :
    (r.setRawHeader n v).rawHeaders.lookup k
      = if k = n then some v else r.rawHeaders.lookup k := by
  show (r.rawHeaders.filter (fun h => h.1 != n) ++ [(n, v)]).lookup k = _
  by_cases hk : k = n
  · rw [if_pos hk, hk]
    exact lookup_setRawHeader_self n v _
  · rw [if_neg hk]
    exact lookup_setRawHeader_other n v k hk _

theorem setAuthorization_authorization (env : Env) (st : Provider) (r : QNetworkRequest) :
    (setAuthorization env st r).rawHeaders.lookup "Authorization"
      = if st.mUserName.isSome || st.mPassword.isSome then
          some ("Basic " ++ env.toBase64 (st.mUserName.getD "" ++ ":" ++ st.mPassword.getD ""))
        else r.rawHeaders.lookup "Authorization" := by
  unfold setAuthorization
  simp only []
  cases st.mReferer with
  | none =>
    simp only []
    split_ifs
    · rw [lookup_setRawHeader, if_pos rfl]
    · rfl
  | some referer =>
    simp only []
    rw [lookup_setRawHeader, if_neg (by decide)]
    split_ifs
    · rw [lookup_setRawHeader, if_pos rfl]
    · rfl

theorem setAuthorization_referer (env : Env) (st : Provider) (r : QNetworkRequest) :
    (setAuthorization env st r).rawHeaders.lookup "Referer"
      = match st.mReferer with
        | some referer => some referer
        | none => r.rawHeaders.lookup "Referer" := by
  unfold setAuthorization
  simp only []
  cases st.mReferer with
  | none =>
    simp only []
    split_ifs
    · rw [lookup_setRawHeader, if_neg (by decide)]
    · rfl
  | some referer =>
    simp only []
    rw [lookup_setRawHeader, if_pos rfl]

theorem setAuthorization_carries (env : Env) (st : Provider) (r : QNetworkRequest)
    (hauth : (st.mUserName.isSome || st.mPassword.isSome) = false →
      r.rawHeaders.lookup "Authorization" = none)
    (href : st.mReferer = none → r.rawHeaders.lookup "Referer" = none) :
    carriesCredentials env st (setAuthorization env st r) := by
  refine ⟨?_, ?_⟩
  · rw [setAuthorization_authorization]
    split_ifs with hc
    · rfl
    · exact hauth (by simpa using hc)
  · rw [setAuthorization_referer]
    cases hr : st.mReferer with
    | none => exact href hr
    | some referer => rfl

theorem setAuthorization_ofUrl_carries (env : Env) (st : Provider) (url : QString) :
    carriesCredentials env st (setAuthorization env st (QNetworkRequest.ofUrl url)) :=
  setAuthorization_carries env st _ (fun _ => rfl) (fun _ => rfl)

theorem setAuthorization_again_carries (env : Env) (st : Provider) (r : QNetworkRequest)
    (h : carriesCredentials env st r) :
    carriesCredentials env st (setAuthorization env st r) := by
  refine setAuthorization_carries env st r (fun hc => ?_) (fun hr => ?_)
  · have h1 := h.1
    have hc' : (st.mUserName.isSome || st.mPassword.isSome) = false := hc
    rw [hc'] at h1
    exact h1
  · rw [h.2, hr]

theorem not_carries_ofUrl (env : Env) (st : Provider) (target : QString)
    (h : (st.mUserName.isSome || st.mPassword.isSome) = true ∨ st.mReferer.isSome = true) :
    ¬ carriesCredentials env st (QNetworkRequest.ofUrl target) := by
  rintro ⟨hauth, href⟩
  rcases h with h | h
  · rw [if_pos h] at hauth
    exact absurd hauth (by simp [QNetworkRequest.ofUrl])
  · have href' : (none : Option QString) = st.mReferer := href
    rw [← href'] at h
    exact absurd h (by decide)

/-- C22: the requests the provider makes with setAuthorization carry the header
Authorization with "Basic " and the base64 text of user:pass if and only if a user name or
a password is set, and the header Referer if and only if a referer is set: the
GetCapabilities request and its re-issue after a redirect, the GetMap request of draw, the
tile requests of draw, the tile request re-issued after a redirect, the repeat of a tile
request, the GetFeatureInfo request and the GetLegendGraphic request and its re-issue after
a redirect. The request that cacheReplyFinished and identifyReplyFinished dispatch for a
redirect is made from the redirect URL alone: it carries neither header, so it does not
carry the credentials of a provider that has some. -/
theorem requests_carry_credentials (env : Env) (st : Provider) :
    carriesCredentials env st (capabilitiesRequest env st) ∧
    (∀ toUrl, carriesCredentials env st (capabilitiesRedirectRequest env st toUrl)) ∧
    (∀ viewExtent pixelWidth pixelHeight, ∃ request,
      (drawMap env st viewExtent pixelWidth pixelHeight).sent = st.sent ++ [request] ∧
      carriesCredentials env st request) ∧
    (∀ p turl, ∀ request ∈ tileRequests env st p turl, carriesCredentials env st request) ∧
    (∀ reply target, ∃ request,
      (tileRedirected env st reply target).sent = st.sent ++ [request] ∧
      carriesCredentials env st request) ∧
    (∀ oldRequest, carriesCredentials env st oldRequest →
      carriesCredentials env st (repeatedRequest env st oldRequest)) ∧
    (∀ myExtent theWidth theHeight pointX pointY layer style format mFeatureCount,
      carriesCredentials env st (identifyRequest env st myExtent theWidth theHeight pointX
        pointY layer style format mFeatureCount)) ∧
    (∀ lurl resolution scale,
      carriesCredentials env st (legendGraphicRequest env st lurl resolution scale)) ∧
    (∀ toUrl, carriesCredentials env st (legendGraphicRedirectRequest env st toUrl)) ∧
    (∀ reply target, reply.error = false → reply.redirect = some target →
      (cacheReplyFinished env st reply).sent = st.sent ++ [QNetworkRequest.ofUrl target]) ∧
    (∀ reply target parserError, reply.error = false → reply.redirect = some target →
      (identifyReplyFinished st reply parserError).sent
        = st.sent ++ [QNetworkRequest.ofUrl target]) ∧
    (∀ target,
      (st.mUserName.isSome || st.mPassword.isSome) = true ∨ st.mReferer.isSome = true →
      ¬ carriesCredentials env st (QNetworkRequest.ofUrl target)) := by
  refine ⟨setAuthorization_ofUrl_carries env st _,
    fun toUrl => setAuthorization_ofUrl_carries env st toUrl, ?_, ?_, ?_, ?_, ?_, ?_,
    fun toUrl => setAuthorization_ofUrl_carries env st toUrl, ?_, ?_,
    fun target h => not_carries_ofUrl env st target h⟩
  · intro viewExtent pixelWidth pixelHeight
    exact ⟨_, rfl, setAuthorization_ofUrl_carries env st _⟩
  · intro p turl request hmem
    unfold tileRequests at hmem
    obtain ⟨krc, _, hreq⟩ := List.mem_map.mp hmem
    rw [← hreq]
    exact setAuthorization_ofUrl_carries env st _
  · intro reply target
    exact ⟨_, rfl, setAuthorization_ofUrl_carries env st target⟩
  · intro oldRequest h
    exact setAuthorization_again_carries env st oldRequest h
  · intro myExtent theWidth theHeight pointX pointY layer style format mFeatureCount
    exact setAuthorization_ofUrl_carries env st _
  · intro lurl resolution scale
    exact setAuthorization_ofUrl_carries env st _
  · intro reply target herr hred
    unfold cacheReplyFinished
    simp only [herr, hred, Bool.not_false, if_true]
  · intro reply target parserError herr hred
    unfold identifyReplyFinished
    simp only [herr, hred, Bool.not_false, if_true]

/-- Witness for C22: the provider with the user name u, the password p and a referer sends
its GetMap request with both headers; the request re-issued for the redirect of that
request has no header. -/
theorem requests_carry_credentials_witness :
    (mapRedirectReply.error = false ∧ mapRedirectReply.redirect = some "http://t/wms?" ∧
      (credentialsDrawn.mUserName.isSome || credentialsDrawn.mPassword.isSome) = true) ∧
    credentialsDrawn.sent.map (fun request => request.rawHeaders)
      = [[("Authorization", "Basic u:p"), ("Referer", "http://r/")]] ∧
    (cacheReplyFinished sampleEnv credentialsDrawn mapRedirectReply).sent.map
        (fun request => (request.url, request.rawHeaders))
      = credentialsDrawn.sent.map (fun request => (request.url, request.rawHeaders))
        ++ [("http://t/wms?", [])] ∧
    ¬ carriesCredentials sampleEnv credentialsDrawn (QNetworkRequest.ofUrl "http://t/wms?") :=
  ⟨⟨rfl, rfl, rfl⟩, by decide!,
    by
      rw [(requests_carry_credentials sampleEnv credentialsDrawn).2.2.2.2.2.2.2.2.2.1
        mapRedirectReply "http://t/wms?" rfl rfl, List.map_append]
      rfl,
    (requests_carry_credentials sampleEnv credentialsDrawn).2.2.2.2.2.2.2.2.2.2.2
      "http://t/wms?" (Or.inl rfl)⟩

/-! ## The capabilities held and the shared error text -/

@[simp] theorem logMessage_response (st : Provider) (msg : QString) :
    (st.logMessage msg).mHttpCapabilitiesResponse = st.mHttpCapabilitiesResponse := rfl

@[simp] theorem getTile_response (st : Provider) (r : QNetworkRequest) :
    (st.getTile r).mHttpCapabilitiesResponse = st.mHttpCapabilitiesResponse := rfl

@[simp] theorem removeTileReply_response (st : Provider) (r : QNetworkReply) :
    (st.removeTileReply r).mHttpCapabilitiesResponse = st.mHttpCapabilitiesResponse := rfl

@[simp] theorem emitTileStatus_response (env : Env) (st : Provider) :
    (st.emitTileStatus env).mHttpCapabilitiesResponse = st.mHttpCapabilitiesResponse := by
  unfold Provider.emitTileStatus
  split <;> rfl

@[simp] theorem repeatTileRequest_response (env : Env) (st : Provider) (r : QNetworkRequest) :
    (repeatTileRequest env st r).mHttpCapabilitiesResponse = st.mHttpCapabilitiesResponse := by
  unfold repeatTileRequest
  simp only []
  split_ifs <;> simp

@[simp] theorem countCacheSource_response (env : Env) (st : Provider) (reply : QNetworkReply) :
    (countCacheSource env st reply).mHttpCapabilitiesResponse
      = st.mHttpCapabilitiesResponse := by
  unfold countCacheSource
  split_ifs <;> rfl

@[simp] theorem emitDataChanged_response (st : Provider) :
    (emitDataChanged st).mHttpCapabilitiesResponse = st.mHttpCapabilitiesResponse := by
  unfold emitDataChanged
  split_ifs <;> rfl

@[simp] theorem setServiceError_response (st : Provider) (ce : Option (QString × QString)) :
    (st.setServiceError ce).mHttpCapabilitiesResponse = st.mHttpCapabilitiesResponse := by
  cases ce <;> rfl

theorem tileContentError_response (env : Env) (st : Provider) (reply : QNetworkReply) :
    (tileContentError env st reply).mHttpCapabilitiesResponse
      = st.mHttpCapabilitiesResponse := by
  unfold tileContentError
  simp only []
  split_ifs <;> simp

theorem compositeTile_response (env : Env) (st : Provider) (reply : QNetworkReply) :
    (compositeTile env st reply).mHttpCapabilitiesResponse = st.mHttpCapabilitiesResponse := by
  unfold compositeTile
  split_ifs
  · split
    · rfl
    · simp
  · rfl

theorem tileReplyFinished_response (env : Env) (st : Provider) (reply : QNetworkReply) :
    (tileReplyFinished env st reply).mHttpCapabilitiesResponse
      = st.mHttpCapabilitiesResponse := by
  unfold tileReplyFinished
  simp only []
  split_ifs
  · split
    · simp [tileRedirected]
    · simp [tileStatusError]
  · split
    · simp [tileRedirected]
    · simp [tileContentError_response]
  · split
    · simp [tileRedirected]
    · simp [tileImage, compositeTile_response]
  · simp [tileNetworkError]

theorem retrieveServerCapabilities_cached (env : Env) (st : Provider)
    (hresp : st.mHttpCapabilitiesResponse.isSome = true) :
    retrieveServerCapabilities env st false = (st.mError.isEmpty, st) := by
  unfold retrieveServerCapabilities
  have h : (st.mHttpCapabilitiesResponse.isNone || false) = false := by
    cases hr : st.mHttpCapabilitiesResponse with
    | none => rw [hr] at hresp; exact absurd hresp (by decide)
    | some r => rfl
  rw [h]
  rfl

/-- C24: while the provider holds a capabilities response and no refresh is forced,
retrieveServerCapabilities leaves the provider as it is and returns whether `mError` is
empty; and no tile reply changes the capabilities response held. But `mError` is the
member the reply handlers write their errors to: the sample provider retrieves its
capabilities with success, a tile reply then delivers a service exception report, and
the next call of retrieveServerCapabilities without forceRefresh returns false although the
response is still held, so that draw returns no image. -/
theorem capabilities_kept_error_shared (env : Env) (st : Provider)
    (hresp : st.mHttpCapabilitiesResponse.isSome = true) :
    retrieveServerCapabilities env st false = (st.mError.isEmpty, st) ∧
    (∀ reply : QNetworkReply,
      (tileReplyFinished env st reply).mHttpCapabilitiesResponse
        = st.mHttpCapabilitiesResponse) ∧
    (retrieveServerCapabilities exceptionEnv unfetchedProvider false = (true, freshProvider) ∧
      exceptionPenv.setContent exceptionXml = .ok exceptionDocument ∧
      (tileReplyFinished exceptionEnv freshProvider exceptionReply).mHttpCapabilitiesResponse
        = some sampleCapabilitiesResponse ∧
      (tileReplyFinished exceptionEnv freshProvider exceptionReply).mError
        = "Request contains a format not offered by the server.\n" ++
          "The WMS vendor also reported: no such format" ∧
      (retrieveServerCapabilities exceptionEnv
        (tileReplyFinished exceptionEnv freshProvider exceptionReply) false).1 = false ∧
      (draw exceptionEnv (tileReplyFinished exceptionEnv freshProvider exceptionReply)
        sampleView 256 256).1 = none) :=
  ⟨retrieveServerCapabilities_cached env st hresp,
    fun reply => tileReplyFinished_response env st reply,
    rfl, by simp [exceptionPenv], by decide!, by decide!, by decide!, by decide!⟩

/-- Witness for C24: the sample provider holds a capabilities response and no error; the
call without forceRefresh returns true and changes nothing. -/
theorem capabilities_kept_error_shared_witness :
    freshProvider.mHttpCapabilitiesResponse.isSome = true ∧
    retrieveServerCapabilities exceptionEnv freshProvider false = (true, freshProvider) :=
  ⟨rfl, (capabilities_kept_error_shared exceptionEnv freshProvider rfl).1⟩

/-! ## The endpoints and encodings of the ows:Operation elements -/

theorem firstElementNamed_eq_head_filter (tag : QString) (nodes : List QDomNode) :
    firstElementNamed tag nodes
      = (nodes.filter (fun c => c.isElement && c.tagName == tag)).head? := by
  unfold firstElementNamed
  induction nodes with
  | nil => rfl
  | cons n ns ih =>
    by_cases h : (n.isElement && n.tagName == tag) = true
    · simp [List.find?, List.filter, h]
    · have h' : (n.isElement && n.tagName == tag) = false := by simpa using h
      rw [List.find?_cons, List.filter_cons, h']
      simp

theorem allowedEncodingsLoop_none (fuel : Nat) (first : Option QDomNode) :
    allowedEncodingsLoop none (fuel + 1) first [] = some (first.toList.map QDomNode.text) := by
  cases first with
  | none => rfl
  | some e2 =>
    rw [allowedEncodingsLoop]
    cases fuel <;> rfl

theorem first_value_eq_take (get : Option QDomNode) :
    (firstChildElementOf (owsAllowedValues get) "ows:Value").toList.map QDomNode.text
      = (statedAllowedEncodings get).take 1 := by
  unfold statedAllowedEncodings
  cases h : owsAllowedValues get with
  | none => rfl
  | some allowed =>
    simp only [firstChildElementOf, Option.bind, QDomNode.firstChildElement,
      QDomNode.childElements, firstElementNamed_eq_head_filter]
    cases (allowed.childNodes.filter (fun c => c.isElement && c.tagName == "ows:Value")) with
    | nil => rfl
    | cons v vs => rfl

theorem parseOwsOperation_of_no_sibling (fuel : Nat) (n1 : QDomNode) (rest : List QDomNode)
    (rp : QgsWmsRequestProperty) (href : QString)
    (hhref : (owsGetElement n1).bind (fun g => g.attributeOrNull "xlink:href") = some href)
    (hrest : firstElementNamed "ows:Value" rest = none) :
    parseOwsOperation (fuel + 1) n1 rest rp
      = some (
        let dcp : QgsWmsDcpTypeProperty := { httpGet := href, httpPost := "" }
        let enc := (statedAllowedEncodings (owsGetElement n1)).take 1
        if n1.attribute "name" == "GetTile" then
          { rp with getTile :=
              { rp.getTile with dcpType := rp.getTile.dcpType ++ [dcp], allowedEncodings := enc } }
        else if n1.attribute "name" == "GetFeatureInfo" then
          { rp with getFeatureInfo :=
              { rp.getFeatureInfo with
                dcpType := rp.getFeatureInfo.dcpType ++ [dcp], allowedEncodings := enc } }
        else if n1.attribute "name" == "GetLegendGraphic" ||
            n1.attribute "name" == "sld:GetLegendGraphic" then
          { rp with getLegendGraphic :=
              { rp.getLegendGraphic with
                dcpType := rp.getLegendGraphic.dcpType ++ [dcp], allowedEncodings := enc } }
        else rp) := by
  have henc := first_value_eq_take (owsGetElement n1)
  unfold owsAllowedValues owsGetElement at henc
  unfold owsGetElement at hhref
  unfold parseOwsOperation
  simp only [hhref, hrest, allowedEncodingsLoop_none, henc, Option.map_some']
  unfold owsGetElement
  split_ifs <;> rfl

theorem parseCapability_loopMetadata (fuel : Nat) (st : ParserState) :
    parseCapability samplePenv fuel loopMetadata st = none := by
  unfold parseCapability
  have hc : loopMetadata.childNodes = [loopOperation, textElem "ows:Value" "x"] := rfl
  rw [hc, parseCapabilityChildren]
  have hel2 : loopOperation.isElement = true := rfl
  have htag2 : stripWms loopOperation.tagName = "ows:Operation" := by decide
  simp [hel2, htag2, parseOwsOperation_loop]

/-- C26: for an ows:Operation with an HTTP Get href that no ows:Value element follows as a
sibling, the branch ows:Operation of parseCapability appends one DCP endpoint with that
href to the operation its name selects (GetTile, GetFeatureInfo, GetLegendGraphic or
sld:GetLegendGraphic; another name changes nothing) and sets the allowedEncodings of that
operation to the text of the first ows:Value element under the ows:Constraint and
ows:AllowedValues of the Get element, and to nothing more. For the operation GetTile
with the two values KVP and RESTful the stated encodings are KVP and RESTful, and the
parsed ones are KVP alone. -/
theorem ows_operation_endpoint_and_encodings (fuel : Nat) (n1 : QDomNode)
    (rest : List QDomNode) (rp : QgsWmsRequestProperty) (href : QString)
    (hhref : (owsGetElement n1).bind (fun g => g.attributeOrNull "xlink:href") = some href)
    (hrest : firstElementNamed "ows:Value" rest = none) :
    parseOwsOperation (fuel + 1) n1 rest rp
      = some (
        let dcp : QgsWmsDcpTypeProperty := { httpGet := href, httpPost := "" }
        let enc := (statedAllowedEncodings (owsGetElement n1)).take 1
        if n1.attribute "name" == "GetTile" then
          { rp with getTile :=
              { rp.getTile with dcpType := rp.getTile.dcpType ++ [dcp], allowedEncodings := enc } }
        else if n1.attribute "name" == "GetFeatureInfo" then
          { rp with getFeatureInfo :=
              { rp.getFeatureInfo with
                dcpType := rp.getFeatureInfo.dcpType ++ [dcp], allowedEncodings := enc } }
        else if n1.attribute "name" == "GetLegendGraphic" ||
            n1.attribute "name" == "sld:GetLegendGraphic" then
          { rp with getLegendGraphic :=
              { rp.getLegendGraphic with
                dcpType := rp.getLegendGraphic.dcpType ++ [dcp], allowedEncodings := enc } }
        else rp) ∧
    statedAllowedEncodings (owsGetElement (owsOperation "GetTile" "http://s/wmts" ["KVP", "RESTful"]))
      = ["KVP", "RESTful"] ∧
    (parseCapability samplePenv 1 twoEncodingsMetadata emptyState).map
        (fun st => st.mCapabilities.capability.request.getTile)
      = some { format := [], dcpType := [{ httpGet := "http://s/wmts", httpPost := "" }],
               allowedEncodings := ["KVP"] } :=
  ⟨parseOwsOperation_of_no_sibling fuel n1 rest rp href hhref hrest, by decide!, by decide!⟩

/-- Witness for C26: the operation GetTile with the endpoint http://s/wmts and the two values
KVP and RESTful, followed by no sibling. -/
theorem ows_operation_endpoint_and_encodings_witness :
    ((owsGetElement (owsOperation "GetTile" "http://s/wmts" ["KVP", "RESTful"])).bind
        (fun g => g.attributeOrNull "xlink:href") = some "http://s/wmts" ∧
      firstElementNamed "ows:Value" [] = none) ∧
    (parseOwsOperation 1 (owsOperation "GetTile" "http://s/wmts" ["KVP", "RESTful"]) []
        emptyState.mCapabilities.capability.request).map (fun rp => rp.getTile)
      = some { format := [], dcpType := [{ httpGet := "http://s/wmts", httpPost := "" }],
               allowedEncodings := ["KVP"] } :=
  ⟨⟨by decide!, rfl⟩,
    by
      rw [(ows_operation_endpoint_and_encodings 0
        (owsOperation "GetTile" "http://s/wmts" ["KVP", "RESTful"]) []
        emptyState.mCapabilities.capability.request "http://s/wmts" (by decide!) rfl).1]
      decide!⟩

/-- C28: the loop of parseCapability that collects the ows:Value encodings of an
ows:Operation ends after finitely many rounds if and only if the Get element has no
ows:Value element or no ows:Value element follows the ows:Operation as a sibling. In the
sample ows:OperationsMetadata element an ows:Value element follows the operation GetTile:
parseCapability has no result there, whatever the bound on the rounds. -/
theorem ows_value_loop_ends_iff (next first : Option QDomNode) (acc : List QString) :
    ((∃ fuel, (allowedEncodingsLoop next fuel first acc).isSome = true) ↔
      (first = none ∨ next = none)) ∧
    (∀ (fuel : Nat) (st : ParserState), parseCapability samplePenv fuel loopMetadata st = none) := by
  refine ⟨⟨?_, ?_⟩, parseCapability_loopMetadata⟩
  · rintro ⟨fuel, h⟩
    cases first with
    | none => exact Or.inl rfl
    | some e2 =>
      cases next with
      | none => exact Or.inr rfl
      | some n =>
        rw [allowedEncodingsLoop_of_sibling] at h
        exact absurd h (by decide)
  · rintro (h | h)
    · subst h
      exact ⟨0, by cases next <;> rfl⟩
    · subst h
      exact ⟨1, allowedEncodingsLoop_of_no_sibling 0 first acc⟩

/-! ## The destination rectangle of a tile -/

theorem tileDestination_tileRect (st : Provider) (tm : QgsWmtsTileMatrix) (twMap thMap : ℚ)
    (row col : Int) :
    tileDestination st (tileRect tm twMap thMap row col)
      = { x := (tm.topLeftX + col * twMap - st.mCachedViewExtent.xmin)
            / (st.mCachedViewExtent.width / st.mCachedViewWidth),
          y := (st.mCachedViewExtent.ymax - (tm.topLeftY - row * thMap))
            / (st.mCachedViewExtent.width / st.mCachedViewWidth),
          w := twMap / (st.mCachedViewExtent.width / st.mCachedViewWidth),
          h := thMap / (st.mCachedViewExtent.width / st.mCachedViewWidth) } := by
  have hy : tm.topLeftY - (row + 1) * thMap + thMap = tm.topLeftY - row * thMap := by ring
  simp only [tileDestination, tileRect, QRectF.left, QRectF.bottom, QRectF.width,
    QRectF.height, hy]

theorem compositeTile_of_image (env : Env) (st : Provider) (reply : QNetworkReply)
    (myLocalImage : QImage) (hgen : st.mTileReqNo = reply.request.tileReqNo)
    (himg : env.imageFromData reply.body = some myLocalImage) :
    compositeTile env st reply
      = paintTile env st (tileDestination st reply.request.tileRect) myLocalImage := by
  unfold compositeTile
  rw [if_pos hgen, himg]

/-- C27: for a tile `( row, col )` whose reply carries a decodable image in the generation
of the provider, tileReplyFinished paints the image at the destination rectangle
`( ( topLeft.x + col * twMap - xmin ) / cr, ( ymax - ( topLeft.y - row * thMap ) ) / cr,
twMap / cr, thMap / cr )` with `cr = cachedExtent.width / cachedW`: its top left pixel is
the image position of the top left corner of the tile in map space. The destination
rectangles of horizontally adjacent tiles abut (the right edge of one is the left edge of
the next, with the same top and height), and so do those of vertically adjacent tiles. -/
theorem tile_destination_rectangle (env : Env) (st : Provider) (reply : QNetworkReply)
    (myLocalImage : QImage) (tm : QgsWmtsTileMatrix) (twMap thMap : ℚ) (row col : Int)
    (hgen : st.mTileReqNo = reply.request.tileReqNo)
    (himg : env.imageFromData reply.body = some myLocalImage)
    (hrect : reply.request.tileRect = tileRect tm twMap thMap row col) :
    compositeTile env st reply
      = paintTile env st
          { x := (tm.topLeftX + col * twMap - st.mCachedViewExtent.xmin)
              / (st.mCachedViewExtent.width / st.mCachedViewWidth),
            y := (st.mCachedViewExtent.ymax - (tm.topLeftY - row * thMap))
              / (st.mCachedViewExtent.width / st.mCachedViewWidth),
            w := twMap / (st.mCachedViewExtent.width / st.mCachedViewWidth),
            h := thMap / (st.mCachedViewExtent.width / st.mCachedViewWidth) } myLocalImage ∧
    (tileDestination st (tileRect tm twMap thMap row col)).right
      = (tileDestination st (tileRect tm twMap thMap row (col + 1))).left ∧
    (tileDestination st (tileRect tm twMap thMap row col)).top
      = (tileDestination st (tileRect tm twMap thMap row (col + 1))).top ∧
    (tileDestination st (tileRect tm twMap thMap row col)).height
      = (tileDestination st (tileRect tm twMap thMap row (col + 1))).height ∧
    (tileDestination st (tileRect tm twMap thMap row col)).bottom
      = (tileDestination st (tileRect tm twMap thMap (row + 1) col)).top ∧
    (tileDestination st (tileRect tm twMap thMap row col)).left
      = (tileDestination st (tileRect tm twMap thMap (row + 1) col)).left ∧
    (tileDestination st (tileRect tm twMap thMap row col)).width
      = (tileDestination st (tileRect tm twMap thMap (row + 1) col)).width := by
  refine ⟨?_, ?_, ?_, ?_, ?_, ?_, ?_⟩
  · rw [compositeTile_of_image env st reply myLocalImage hgen himg, hrect,
      tileDestination_tileRect]
  · rw [tileDestination_tileRect, tileDestination_tileRect]
    simp only [QRectF.left, QRectF.right]
    rw [← add_div]
    congr 1
    push_cast
    ring
  · rw [tileDestination_tileRect, tileDestination_tileRect]
    simp only [QRectF.top, QRectF.left, QRectF.width, QRectF.height]
  · rw [tileDestination_tileRect, tileDestination_tileRect]
    simp only [QRectF.top, QRectF.left, QRectF.width, QRectF.height]
  · rw [tileDestination_tileRect, tileDestination_tileRect]
    simp only [QRectF.top, QRectF.bottom]
    rw [← add_div]
    congr 1
    push_cast
    ring
  · rw [tileDestination_tileRect, tileDestination_tileRect]
    simp only [QRectF.top, QRectF.left, QRectF.width, QRectF.height]
  · rw [tileDestination_tileRect, tileDestination_tileRect]
    simp only [QRectF.top, QRectF.left, QRectF.width, QRectF.height]

/-- Witness for C27: the sample tile of 256 x 256 map units at the top left of a cached
view of the same extent and 256 pixels is painted at `( 0, 0, 256, 256 )`, and its right
neighbour at `( 256, 0, 256, 256 )`. -/
theorem tile_destination_rectangle_witness :
    (freshProvider.mTileReqNo = (imageReply sampleTileRequest).request.tileReqNo ∧
      sampleEnv.imageFromData (imageReply sampleTileRequest).body
        = some { width := 1, height := 1, pixels := [3] } ∧
      (imageReply sampleTileRequest).request.tileRect = tileRect fineMatrix 256 256 (-1) 0) ∧
    (tileDestination freshProvider (tileRect fineMatrix 256 256 (-1) 0)).right
      = (tileDestination freshProvider (tileRect fineMatrix 256 256 (-1) (0 + 1))).left ∧
    tileDestination freshProvider (tileRect fineMatrix 256 256 (-1) 0)
      = { x := 0, y := 0, w := 256, h := 256 } ∧
    tileDestination freshProvider (tileRect fineMatrix 256 256 (-1) (0 + 1))
      = { x := 256, y := 0, w := 256, h := 256 } :=
  ⟨⟨rfl, by decide!, by decide!⟩,
    (tile_destination_rectangle sampleEnv freshProvider (imageReply sampleTileRequest)
      { width := 1, height := 1, pixels := [3] } fineMatrix 256 256 (-1) 0 rfl (by decide!)
      (by decide!)).2.1,
    by decide!, by decide!⟩

/-! ## The prepared URI -/

theorem isPrefixOf_concat_of_not_mem (c : Char) :
    ∀ (p : List Char), c ∉ p → ∀ m : List Char, p.isPrefixOf (m ++ [c]) = p.isPrefixOf m
  | [], _, m => by simp
  | x :: xs, hc, [] => by
    have hx : x ≠ c := fun h => hc (by simp [h])
    simp [List.isPrefixOf, hx]
  | x :: xs, hc, y :: ys => by
    have hxs : c ∉ xs := fun h => hc (List.mem_cons_of_mem _ h)
    simp only [List.cons_append, List.isPrefixOf, List.append_eq,
      isPrefixOf_concat_of_not_mem c xs hxs ys]

theorem any_tails_concat_of_not_mem (c : Char) (p : List Char) (hc : c ∉ p) (hp : p ≠ []) :
    ∀ l : List Char, (l ++ [c]).tails.any (fun t => p.isPrefixOf t)
      = l.tails.any (fun t => p.isPrefixOf t)
  | [] => by
    cases p with
    | nil => exact absurd rfl hp
    | cons x xs =>
      have hx : x ≠ c := fun h => hc (by simp [h])
      simp [List.isPrefixOf, hx]
  | a :: l => by
    have h1 := isPrefixOf_concat_of_not_mem c p hc (a :: l)
    have h2 := any_tails_concat_of_not_mem c p hc hp l
    simp only [List.cons_append, List.tails, List.any_cons, List.append_eq] at h1 h2 ⊢
    rw [h1, h2]

theorem qContains_append_singleton (u : QString) (c : Char) (sub : QString) (hc : c ∉ sub.data)
    (hs : sub.data ≠ []) : qContains (u ++ String.singleton c) sub = qContains u sub := by
  unfold qContains
  have : (u ++ String.singleton c).data = u.data ++ [c] := by simp [String.data_append]
  rw [this]
  exact any_tails_concat_of_not_mem c sub.data hc hs u.data

theorem any_tails_concat_self (c : Char) :
    ∀ l : List Char, (l ++ [c]).tails.any (fun t => [c].isPrefixOf t) = true
  | [] => by simp [List.isPrefixOf]
  | a :: l => by
    have h := any_tails_concat_self c l
    simp only [List.cons_append, List.tails, List.any_cons, List.append_eq, h, Bool.or_true]

theorem qContains_append_self (u : QString) (c : Char) :
    qContains (u ++ String.singleton c) (String.singleton c) = true := by
  unfold qContains
  have : (u ++ String.singleton c).data = u.data ++ [c] := by simp [String.data_append]
  rw [this]
  exact any_tails_concat_self c u.data

theorem qRight1_append_singleton (u : QString) (c : Char) :
    qRight1 (u ++ String.singleton c) = String.singleton c := by
  unfold qRight1
  have : (u ++ String.singleton c).data = u.data ++ [c] := by simp [String.data_append]
  rw [this, List.getLast?_concat]

theorem prepareUri_of_wmts (u : QString)
    (h : (qContains u "SERVICE=WMTS" || qContains u "/WMTSCapabilities.xml") = true) :
    prepareUri u = u := by
  unfold prepareUri
  rw [if_pos h]

theorem prepareUri_cases (u : QString)
    (h : (qContains u "SERVICE=WMTS" || qContains u "/WMTSCapabilities.xml") = false) :
    (qContains u "?" = false ∧ prepareUri u = u ++ String.singleton '?') ∨
    (qContains u "?" = true ∧ qRight1 u ≠ "?" ∧ qRight1 u ≠ "&" ∧
      prepareUri u = u ++ String.singleton '&') ∨
    (qContains u "?" = true ∧ (qRight1 u = "?" ∨ qRight1 u = "&") ∧ prepareUri u = u) := by
  unfold prepareUri
  rw [if_neg (by simp [h])]
  by_cases hq : qContains u "?" = true
  · right
    by_cases h1 : qRight1 u = "?"
    · right
      refine ⟨hq, Or.inl h1, ?_⟩
      simp [hq, h1]
    · by_cases h2 : qRight1 u = "&"
      · right
        refine ⟨hq, Or.inr h2, ?_⟩
        simp [hq, h2]
      · left
        refine ⟨hq, h1, h2, ?_⟩
        simp [hq, h1, h2]
        rfl
  · left
    have hq' : qContains u "?" = false := by simpa using hq
    refine ⟨hq', ?_⟩
    simp [hq']
    rfl

theorem wmts_test_append (u : QString) (c : Char) (hc : c = '?' ∨ c = '&') :
    (qContains (u ++ String.singleton c) "SERVICE=WMTS" ||
        qContains (u ++ String.singleton c) "/WMTSCapabilities.xml")
      = (qContains u "SERVICE=WMTS" || qContains u "/WMTSCapabilities.xml") := by
  rw [qContains_append_singleton u c "SERVICE=WMTS" (by rcases hc with h | h <;> subst h <;> decide)
      (by decide),
    qContains_append_singleton u c "/WMTSCapabilities.xml"
      (by rcases hc with h | h <;> subst h <;> decide) (by decide)]

/-- C30: prepareUri is idempotent, `prepareUri (prepareUri u) = prepareUri u` for every
text `u`; and for every `u` that contains neither "SERVICE=WMTS" nor
"/WMTSCapabilities.xml" the result is `u` with at most one character appended, contains
`?` and ends with `?` or `&`, and the URL of the GetCapabilities request of a provider with
this base URL is the result followed by "SERVICE=WMS&REQUEST=GetCapabilities". -/
theorem prepareUri_idempotent (u : QString) :
    prepareUri (prepareUri u) = prepareUri u ∧
    (qContains u "SERVICE=WMTS" = false → qContains u "/WMTSCapabilities.xml" = false →
      (prepareUri u = u ∨ ∃ c : Char, prepareUri u = u ++ String.singleton c) ∧
      qContains (prepareUri u) "?" = true ∧
      (qRight1 (prepareUri u) = "?" ∨ qRight1 (prepareUri u) = "&") ∧
      ∀ st : Provider, st.mBaseUrl = prepareUri u →
        capabilitiesUrl st = prepareUri u ++ "SERVICE=WMS&REQUEST=GetCapabilities") := by
  have key : ∀ v : QString,
      (qContains v "SERVICE=WMTS" || qContains v "/WMTSCapabilities.xml") = false →
      qContains v "?" = true → (qRight1 v = "?" ∨ qRight1 v = "&") → prepareUri v = v := by
    intro v hv hq hr
    rcases prepareUri_cases v hv with h | h | h
    · rw [h.1] at hq
      exact absurd hq (by simp)
    · rcases hr with hr | hr
      · exact absurd hr h.2.1
      · exact absurd hr h.2.2.1
    · exact h.2.2
  by_cases hw : (qContains u "SERVICE=WMTS" || qContains u "/WMTSCapabilities.xml") = true
  · refine ⟨by rw [prepareUri_of_wmts u hw, prepareUri_of_wmts u hw], ?_⟩
    intro h1 h2
    rw [h1, h2] at hw
    exact absurd hw (by simp)
  · have hw' : (qContains u "SERVICE=WMTS" || qContains u "/WMTSCapabilities.xml") = false := by
      simpa using hw
    have shape : (prepareUri u = u ∨ ∃ c : Char, prepareUri u = u ++ String.singleton c) ∧
        qContains (prepareUri u) "?" = true ∧
        (qRight1 (prepareUri u) = "?" ∨ qRight1 (prepareUri u) = "&") ∧
        (qContains (prepareUri u) "SERVICE=WMTS" ||
          qContains (prepareUri u) "/WMTSCapabilities.xml") = false := by
      rcases prepareUri_cases u hw' with h | h | h
      · rw [h.2]
        exact ⟨Or.inr ⟨_, rfl⟩, qContains_append_self u _,
          Or.inl (qRight1_append_singleton u _),
          by rw [wmts_test_append u _ (Or.inl rfl)]; exact hw'⟩
      · rw [h.2.2.2]
        refine ⟨Or.inr ⟨_, rfl⟩, ?_, Or.inr (qRight1_append_singleton u _),
          by rw [wmts_test_append u _ (Or.inr rfl)]; exact hw'⟩
        rw [qContains_append_singleton u _ "?" (by decide) (by decide)]
        exact h.1
      · rw [h.2.2]
        exact ⟨Or.inl rfl, h.1, h.2.1, hw'⟩
    refine ⟨key _ shape.2.2.2 shape.2.1 shape.2.2.1,
      fun _ _ => ⟨shape.1, shape.2.1, shape.2.2.1, ?_⟩⟩
    intro st hst
    have hno := shape.2.2.2
    rw [← hst] at hno ⊢
    simp only [Bool.or_eq_false_iff] at hno
    unfold capabilitiesUrl
    simp [hno.1, hno.2]

/-- Witness for C30: the URL http://s/wms gets a question mark, and the GetCapabilities
request goes to http://s/wms?SERVICE=WMS&REQUEST=GetCapabilities. -/
theorem prepareUri_idempotent_witness :
    (qContains "http://s/wms" "SERVICE=WMTS" = false ∧
      qContains "http://s/wms" "/WMTSCapabilities.xml" = false ∧
      sampleProvider.mBaseUrl = prepareUri "http://s/wms") ∧
    prepareUri "http://s/wms" = "http://s/wms?" ∧
    capabilitiesUrl sampleProvider
      = prepareUri "http://s/wms" ++ "SERVICE=WMS&REQUEST=GetCapabilities" :=
  ⟨⟨by decide!, by decide!, rfl⟩, by decide!,
    ((prepareUri_idempotent "http://s/wms").2 (by decide!) (by decide!)).2.2.2
      sampleProvider rfl⟩

/-! ## The active layers and their styles -/

theorem lookup_mapInsert (k : QString) (v : QString) (k2 : QString) :
    ∀ m : List (QString × QString),
      (mapInsert k v m).lookup k2 = if k2 = k then some v else m.lookup k2
  | [] => by
    by_cases h : k2 = k
    · simp [mapInsert, List.lookup, h]
    · have hb : (k2 == k) = false := by simpa using h
      simp [mapInsert, List.lookup, h, hb]
  | (a, b) :: rest => by
    rw [mapInsert]
    by_cases hak : a = k
    · have hb : ((a, b).1 == k) = true := by simp [hak]
      rw [if_pos hb]
      by_cases h : k2 = k
      · simp [List.lookup, h]
      · have hb2 : (k2 == k) = false := by simpa using h
        have hb3 : (k2 == a) = false := by rw [hak]; exact hb2
        simp [List.lookup, h, hb2, hb3]
    · have hb : ((a, b).1 == k) = false := by simpa using hak
      rw [hb]
      simp only [Bool.false_eq_true, if_false, List.lookup_cons]
      rw [lookup_mapInsert k v k2 rest]
      by_cases h : k2 = k
      · have hb3 : (k2 == a) = false := by
          rw [h]
          simpa using fun e : k = a => hak e.symm
        simp [h, hb3]
        rw [← h, hb3]
      · simp [h]

theorem lookup_foldl_mapInsert_isSome (k : QString) :
    ∀ (pairs m : List (QString × QString)),
      ((pairs.foldl (fun styleMap ls => mapInsert ls.1 ls.2 styleMap) m).lookup k).isSome
        = ((m.lookup k).isSome || pairs.any (fun ls => ls.1 == k))
  | [], m => by simp
  | p :: ps, m => by
    rw [List.foldl_cons, lookup_foldl_mapInsert_isSome k ps, lookup_mapInsert]
    by_cases h : k = p.1
    · have hb : (p.1 == k) = true := by simp [h]
      simp [h]
    · have hb : (p.1 == k) = false := by simpa using fun e : p.1 = k => h e.symm
      simp [h, hb]

theorem lookup_foldl_mapInsert_mem (k s : QString) :
    ∀ (pairs m : List (QString × QString)),
      (pairs.foldl (fun styleMap ls => mapInsert ls.1 ls.2 styleMap) m).lookup k = some s →
      (k, s) ∈ pairs ∨ m.lookup k = some s
  | [], m, h => Or.inr h
  | p :: ps, m, h => by
    rw [List.foldl_cons] at h
    rcases lookup_foldl_mapInsert_mem k s ps _ h with h1 | h1
    · exact Or.inl (List.mem_cons_of_mem _ h1)
    · rw [lookup_mapInsert] at h1
      by_cases hk : k = p.1
      · rw [if_pos hk] at h1
        left
        have hs : p.2 = s := by simpa using h1
        rw [hk, ← hs]
        exact List.mem_cons_self _ _
      · rw [if_neg hk] at h1
        exact Or.inr h1

theorem styleMapOf_isSome (layers styles : List QString) (k : QString)
    (hlen : styles.length = layers.length) :
    ((styleMapOf layers styles).lookup k).isSome = decide (k ∈ layers) := by
  unfold styleMapOf
  rw [lookup_foldl_mapInsert_isSome]
  have hfst : (layers.zip styles).map Prod.fst = layers :=
    List.map_fst_zip layers styles (by omega)
  have hany : (layers.zip styles).any (fun ls => ls.1 == k) = decide (k ∈ layers) := by
    conv_rhs => rw [← hfst]
    rw [Bool.eq_iff_iff]
    simp only [List.any_eq_true, beq_iff_eq, decide_eq_true_eq, List.mem_map]
  simp [hany]

theorem styleMapOf_mem (layers styles : List QString) (k s : QString)
    (h : (styleMapOf layers styles).lookup k = some s) : (k, s) ∈ layers.zip styles := by
  unfold styleMapOf at h
  rcases lookup_foldl_mapInsert_mem k s _ _ h with h1 | h1
  · exact h1
  · exact absurd h1 (by simp)

theorem mem_zip_self {α : Type} :
    ∀ (l : List α) (p : α × α), p ∈ l.zip l → p.1 = p.2
  | [], p, h => by simp at h
  | a :: l, p, h => by
    rw [List.zip_cons_cons] at h
    rcases List.mem_cons.mp h with h1 | h1
    · rw [h1]
    · exact mem_zip_self l p h1

/-- C23: the active style list has the same length as the active sublayer list when the
body of the constructor starts, and in a provider in which the two lengths agree every call
of addLayers and of setLayerOrder leaves them in agreement. addLayers leaves the active
layers, styles and visibilities as they are when its two lists differ in length.
setLayerOrder leaves the provider as it is when the given list has another length than the
active layers or names a layer that is not active; otherwise the active layers are the
given list, and each style stands with a layer it was paired with before the call. -/
theorem active_lists_same_length (src : WmsSource)
    (hinv : src.provider.mActiveSubStyles.length = src.provider.mActiveSubLayers.length) :
    (∀ (senv : SourceEnv) (uri : QString),
      (WmsSource.initial senv uri).provider.mActiveSubStyles.length
        = (WmsSource.initial senv uri).provider.mActiveSubLayers.length) ∧
    (∀ layers styles : List QString,
      (addLayers src layers styles).provider.mActiveSubStyles.length
          = (addLayers src layers styles).provider.mActiveSubLayers.length ∧
        (layers.length ≠ styles.length →
          (addLayers src layers styles).provider.mActiveSubLayers
              = src.provider.mActiveSubLayers ∧
            (addLayers src layers styles).provider.mActiveSubStyles
              = src.provider.mActiveSubStyles ∧
            (addLayers src layers styles).provider.mActiveSubLayerVisibility
              = src.provider.mActiveSubLayerVisibility)) ∧
    (∀ layers : List QString,
      (setLayerOrder src layers).provider.mActiveSubStyles.length
          = (setLayerOrder src layers).provider.mActiveSubLayers.length ∧
        ((layers.length ≠ src.provider.mActiveSubLayers.length ∨
            ∃ layer ∈ layers, layer ∉ src.provider.mActiveSubLayers) →
          setLayerOrder src layers = src) ∧
        (layers.length = src.provider.mActiveSubLayers.length →
          (∀ layer ∈ layers, layer ∈ src.provider.mActiveSubLayers) →
          (setLayerOrder src layers).provider.mActiveSubLayers = layers ∧
          ∀ ls ∈ layers.zip (setLayerOrder src layers).provider.mActiveSubStyles,
            ls ∈ src.provider.mActiveSubLayers.zip src.provider.mActiveSubStyles)) := by
  refine ⟨fun _ _ => rfl, fun layers styles => ?_, fun layers => ?_⟩
  · by_cases hlen : layers.length = styles.length
    · have hb : (layers.length != styles.length) = false := by simpa using hlen
      refine ⟨?_, fun h => absurd hlen h⟩
      unfold addLayers
      rw [hb]
      simp only [Bool.false_eq_true, if_false, List.length_append, hinv, hlen]
    · have hb : (layers.length != styles.length) = true := by simpa using hlen
      unfold addLayers
      rw [hb]
      simp only [if_true]
      exact ⟨hinv, fun _ => ⟨rfl, rfl, rfl⟩⟩
  · have hknown : ∀ layer, ((styleMapOf src.provider.mActiveSubLayers
        src.provider.mActiveSubStyles).lookup layer).isNone
          = !decide (layer ∈ src.provider.mActiveSubLayers) := by
      intro layer
      rw [← styleMapOf_isSome _ _ layer hinv]
      cases (styleMapOf src.provider.mActiveSubLayers
        src.provider.mActiveSubStyles).lookup layer <;> rfl
    by_cases hlen : layers.length = src.provider.mActiveSubLayers.length
    · have hb : (layers.length != src.provider.mActiveSubLayers.length) = false := by
        simpa using hlen
      by_cases hall : ∀ layer ∈ layers, layer ∈ src.provider.mActiveSubLayers
      · have hany : layers.any (fun layer => ((styleMapOf src.provider.mActiveSubLayers
            src.provider.mActiveSubStyles).lookup layer).isNone) = false := by
          rw [List.any_eq_false]
          intro layer hl
          rw [hknown layer]
          simpa using hall layer hl
        have hset : setLayerOrder src layers
            = { src with
                provider := { src.provider with
                  mActiveSubLayers := layers,
                  mActiveSubStyles := layers.map (fun layer =>
                    ((styleMapOf src.provider.mActiveSubLayers
                      src.provider.mActiveSubStyles).lookup layer).getD "") } } := by
          unfold setLayerOrder
          rw [hb]
          simp only [Bool.false_eq_true, if_false, hany]
        rw [hset]
        refine ⟨by simp, fun h => ?_, fun _ _ => ⟨rfl, ?_⟩⟩
        · rcases h with h | ⟨layer, hl, hn⟩
          · exact absurd hlen h
          · exact absurd (hall layer hl) hn
        · intro ls hls
          show ls ∈ src.provider.mActiveSubLayers.zip src.provider.mActiveSubStyles
          have hls' : ls ∈ layers.zip (layers.map (fun layer =>
              ((styleMapOf src.provider.mActiveSubLayers
                src.provider.mActiveSubStyles).lookup layer).getD "")) := hls
          rw [List.zip_map_right] at hls'
          obtain ⟨p, hp, hpe⟩ := List.mem_map.mp hls'
          obtain ⟨p1, p2⟩ := p
          have hp1 : p1 ∈ layers := (List.of_mem_zip hp).1
          have hp12 : p2 = p1 := (mem_zip_self layers (p1, p2) hp).symm
          have hin := hall p1 hp1
          have hsome := styleMapOf_isSome src.provider.mActiveSubLayers
            src.provider.mActiveSubStyles p1 hinv
          rw [decide_eq_true hin] at hsome
          obtain ⟨s, hs⟩ := Option.isSome_iff_exists.mp hsome
          rw [← hpe]
          simp only [Prod.map, id, hp12, hs, Option.getD_some]
          exact styleMapOf_mem _ _ _ _ hs
      · have hex : ∃ layer ∈ layers, layer ∉ src.provider.mActiveSubLayers := by
          simpa using hall
        have hany : layers.any (fun layer => ((styleMapOf src.provider.mActiveSubLayers
            src.provider.mActiveSubStyles).lookup layer).isNone) = true := by
          rw [List.any_eq_true]
          obtain ⟨layer, hl, hn⟩ := hex
          exact ⟨layer, hl, by rw [hknown layer]; simpa using hn⟩
        have hset : setLayerOrder src layers = src := by
          unfold setLayerOrder
          rw [hb]
          simp only [Bool.false_eq_true, if_false, hany, if_true]
        rw [hset]
        exact ⟨hinv, fun _ => rfl, fun _ h => absurd h hall⟩
    · have hb : (layers.length != src.provider.mActiveSubLayers.length) = true := by
        simpa using hlen
      have hset : setLayerOrder src layers = src := by
        unfold setLayerOrder
        rw [hb]
        simp only [if_true]
      rw [hset]
      exact ⟨hinv, fun _ => rfl, fun h => absurd h hlen⟩

/-- Witness for C23: the provider with the layers a and b in the styles s and t; the order
b, a gives the styles t, s, the order b, c names an unknown layer and changes nothing, and
addLayers with one layer and no style changes nothing. -/
theorem active_lists_same_length_witness :
    (twoLayerSource.provider.mActiveSubStyles.length
        = twoLayerSource.provider.mActiveSubLayers.length ∧
      ["b", "a"].length = twoLayerSource.provider.mActiveSubLayers.length ∧
      ∀ layer ∈ ["b", "a"], layer ∈ twoLayerSource.provider.mActiveSubLayers) ∧
    (setLayerOrder twoLayerSource ["b", "a"]).provider.mActiveSubLayers = ["b", "a"] ∧
    (setLayerOrder twoLayerSource ["b", "a"]).provider.mActiveSubStyles = ["t", "s"] ∧
    (setLayerOrder twoLayerSource ["b", "c"]).provider.mActiveSubLayers = ["a", "b"] ∧
    (addLayers twoLayerSource ["c"] []).provider.mActiveSubLayers = ["a", "b"] :=
  ⟨⟨rfl, rfl, by decide⟩,
    (((active_lists_same_length twoLayerSource rfl).2.2 ["b", "a"]).2.2 rfl (by decide)).1,
    by decide!, by decide!, by decide!⟩

/-! ## The validity of a constructed provider -/

theorem KeepsLayers.refl (a : WmsSource) : KeepsLayers a a := ⟨rfl, rfl, rfl, rfl, rfl⟩

theorem KeepsLayers.trans {a b c : WmsSource} (h1 : KeepsLayers a b) (h2 : KeepsLayers b c) :
    KeepsLayers a c :=
  ⟨h2.1.trans h1.1, h2.2.1.trans h1.2.1, h2.2.2.1.trans h1.2.2.1,
    h2.2.2.2.1.trans h1.2.2.2.1, h2.2.2.2.2.trans h1.2.2.2.2⟩

theorem retrieveServerCapabilities_keepsLayers (senv : SourceEnv) (src : WmsSource)
    (forceRefresh : Bool) :
    KeepsLayers src (src.retrieveServerCapabilities senv forceRefresh).2 := by
  unfold WmsSource.retrieveServerCapabilities
  simp only []
  split_ifs <;> exact ⟨rfl, rfl, rfl, rfl, rfl⟩

theorem setImageCrs_keepsLayers (senv : SourceEnv) (src : WmsSource) (crs : QString) :
    KeepsLayers src (setImageCrs senv src crs).2 := by
  have h0 : KeepsLayers src
      (if crs != src.provider.mImageCrs && !crs.isEmpty then
        { src with
          provider := { src.provider with mImageCrs := crs },
          mCoordinateTransform := none,
          mExtentDirty := true }
      else src) := by
    split_ifs <;> exact ⟨rfl, rfl, rfl, rfl, rfl⟩
  unfold setImageCrs
  simp only []
  generalize (if crs != src.provider.mImageCrs && !crs.isEmpty then
        ({ src with
          provider := { src.provider with mImageCrs := crs },
          mCoordinateTransform := none,
          mExtentDirty := true } : WmsSource)
      else src) = src1 at h0 ⊢
  split_ifs
  · exact h0
  · have h1 := retrieveServerCapabilities_keepsLayers senv src1 false
    revert h1
    cases src1.retrieveServerCapabilities senv false with
    | mk ok src2 =>
      intro h1
      cases ok with
      | false => exact h0.trans h1
      | true =>
        simp only []
        split_ifs
        · exact h0.trans h1
        · exact h0.trans (h1.trans ⟨rfl, rfl, rfl, rfl, rfl⟩)
        · exact h0.trans (h1.trans ⟨rfl, rfl, rfl, rfl, rfl⟩)
  · exact h0

theorem setImageCrs_tiled_without_layers (senv : SourceEnv) (src : WmsSource) (crs : QString)
    (htiled : src.provider.mTiled = true) (hlayers : src.provider.mActiveSubLayers = []) :
    (setImageCrs senv src crs).1 = false := by
  have h0 : KeepsLayers src
      (if crs != src.provider.mImageCrs && !crs.isEmpty then
        { src with
          provider := { src.provider with mImageCrs := crs },
          mCoordinateTransform := none,
          mExtentDirty := true }
      else src) := by
    split_ifs <;> exact ⟨rfl, rfl, rfl, rfl, rfl⟩
  unfold setImageCrs
  simp only []
  generalize (if crs != src.provider.mImageCrs && !crs.isEmpty then
        ({ src with
          provider := { src.provider with mImageCrs := crs },
          mCoordinateTransform := none,
          mExtentDirty := true } : WmsSource)
      else src) = src1 at h0 ⊢
  have ht : src1.provider.mTiled = true := h0.2.2.2.2.trans htiled
  have hl : (src1.provider.mActiveSubLayers.length != 1) = true := by
    rw [h0.2.1, hlayers]
    rfl
  rw [if_pos ht, if_pos hl]

theorem combineLayerExtents_nil (penv : ParserEnv) (root : QgsWmsLayerProperty)
    (mImageCrs : QString) (firstLayer : Bool) (mLayerExtent : QgsRectangle) :
    combineLayerExtents penv root mImageCrs [] firstLayer mLayerExtent = mLayerExtent := rfl

theorem calculateExtent_without_layers (senv : SourceEnv) (src : WmsSource)
    (htiled : src.provider.mTiled = false) (hlayers : src.provider.mActiveSubLayers = []) :
    (calculateExtent senv src).2.mValid = src.mValid ∧
    (calculateExtent senv src).2.provider.mLayerExtent = src.provider.mLayerExtent := by
  have h1 := retrieveServerCapabilities_keepsLayers senv src false
  unfold calculateExtent
  revert h1
  cases src.retrieveServerCapabilities senv false with
  | mk ok src1 =>
    intro h1
    cases ok with
    | false => exact ⟨h1.1, h1.2.2.2.1⟩
    | true =>
      have ht : src1.provider.mTiled = false := h1.2.2.2.2.trans htiled
      have hl : src1.provider.mActiveSubLayers = [] := h1.2.1.trans hlayers
      simp only [ht, hl, combineLayerExtents_nil, Bool.false_eq_true, if_false]
      exact ⟨h1.1, h1.2.2.2.1⟩

theorem parseUriMaxSize_keepsLayers (senv : SourceEnv) (src : WmsSource)
    (uri : QgsDataSourceURI) : KeepsLayers src (parseUriMaxSize senv src uri) := by
  unfold parseUriMaxSize
  split_ifs <;> exact ⟨rfl, rfl, rfl, rfl, rfl⟩

theorem parseUriTileMatrixSet_keeps (src : WmsSource) (uri : QgsDataSourceURI) :
    (parseUriTileMatrixSet src uri).mValid = src.mValid ∧
    (parseUriTileMatrixSet src uri).provider.mActiveSubLayers
      = src.provider.mActiveSubLayers ∧
    (parseUriTileMatrixSet src uri).provider.mLayerExtent = src.provider.mLayerExtent := by
  unfold parseUriTileMatrixSet
  split_ifs <;> exact ⟨rfl, rfl, rfl⟩

theorem parseUriTileDimensions_keeps (src : WmsSource) (uri : QgsDataSourceURI) :
    (parseUriTileDimensions src uri).mValid = src.mValid ∧
    (parseUriTileDimensions src uri).provider.mActiveSubLayers
      = src.provider.mActiveSubLayers ∧
    (parseUriTileDimensions src uri).provider.mLayerExtent = src.provider.mLayerExtent := by
  unfold parseUriTileDimensions
  split_ifs <;> exact ⟨rfl, rfl, rfl⟩

theorem addLayers_mismatch (src : WmsSource) (layers styles : List QString)
    (h : layers.length ≠ styles.length) :
    (addLayers src layers styles).mValid = false ∧
    (addLayers src layers styles).provider.mActiveSubLayers = src.provider.mActiveSubLayers ∧
    (addLayers src layers styles).provider.mLayerExtent = src.provider.mLayerExtent := by
  have hb : (layers.length != styles.length) = true := by simpa using h
  unfold addLayers
  rw [if_pos hb]
  exact ⟨rfl, rfl, rfl⟩

theorem parseUriParameters_mismatch (senv : SourceEnv) (src0 : WmsSource)
    (uri : QgsDataSourceURI)
    (h : (uri.params "layers").length ≠ (uri.params "styles").length) :
    (parseUriParameters senv src0 uri).mValid = false ∧
    (parseUriParameters senv src0 uri).provider.mActiveSubLayers
      = src0.provider.mActiveSubLayers ∧
    (parseUriParameters senv src0 uri).provider.mLayerExtent = src0.provider.mLayerExtent := by
  unfold parseUriParameters
  simp only []
  have h1 := addLayers_mismatch (parseUriMembers senv src0 uri) (uri.params "layers")
    (uri.params "styles") h
  generalize addLayers (parseUriMembers senv src0 uri) (uri.params "layers")
    (uri.params "styles") = src1 at h1 ⊢
  have h2 := parseUriMaxSize_keepsLayers senv
    (setImageEncoding src1 ((uri.param "format").getD "")) uri
  generalize parseUriMaxSize senv (setImageEncoding src1 ((uri.param "format").getD "")) uri
    = src2 at h2 ⊢
  have h3 := parseUriTileMatrixSet_keeps src2 uri
  generalize parseUriTileMatrixSet src2 uri = src3 at h3 ⊢
  have h4 := parseUriTileDimensions_keeps src3 uri
  generalize parseUriTileDimensions src3 uri = src4 at h4 ⊢
  exact ⟨h4.1.trans (h3.1.trans (h2.1.trans h1.1)),
    h4.2.1.trans (h3.2.1.trans (h2.2.1.trans h1.2.1)),
    h4.2.2.trans (h3.2.2.trans (h2.2.2.2.1.trans h1.2.2))⟩

/-- C25: for every source URI whose layers and styles lists differ in length the
constructed provider is not valid, whatever the other parameters of the URI say (tiled mode
or not) and whatever the capabilities request brings: addLayers adds no layer, so in tiled
mode setImageCrs fails for want of the one tile layer, and otherwise the layer extent stays
the empty rectangle of its construction. -/
theorem mismatched_lists_invalid (senv : SourceEnv) (uriString : QString)
    (uri : QgsDataSourceURI)
    (h : (uri.params "layers").length ≠ (uri.params "styles").length) :
    (construct senv uriString uri).isValid = false := by
  obtain ⟨hv, hl, he⟩ := parseUriParameters_mismatch senv (WmsSource.initial senv uriString)
    uri h
  have hl0 : (parseUriParameters senv (WmsSource.initial senv
      uriString) uri).provider.mActiveSubLayers = [] := hl
  have he0 : (parseUriParameters senv (WmsSource.initial senv
      uriString) uri).provider.mLayerExtent = QgsRectangle.null := he
  have hk := setImageCrs_keepsLayers senv
    (parseUriParameters senv (WmsSource.initial senv uriString) uri) ((uri.param "crs").getD "")
  have ht := setImageCrs_tiled_without_layers senv
    (parseUriParameters senv (WmsSource.initial senv uriString) uri) ((uri.param "crs").getD "")
  unfold WmsSource.isValid construct parseUri
  revert hk ht
  generalize parseUriParameters senv (WmsSource.initial senv uriString) uri = src at hv hl0 he0 ⊢
  cases setImageCrs senv src ((uri.param "crs").getD "") with
  | mk ok src1 =>
    intro hk ht
    cases ok with
    | false => exact hk.1.trans hv
    | true =>
      have hnt : src.provider.mTiled = false := by
        cases hq : src.provider.mTiled with
        | false => rfl
        | true => exact Bool.noConfusion (ht hq hl0 : true = false)
      simp only []
      have hc := calculateExtent_without_layers senv
        { src1 with
          mCrs := (uri.param "crs").getD "",
          mFeatureCount := senv.penv.toInt ((uri.param "featureCount").getD "") }
        (hk.2.2.2.2.trans hnt) (hk.2.1.trans hl0)
      revert hc
      cases calculateExtent senv
        { src1 with
          mCrs := (uri.param "crs").getD "",
          mFeatureCount := senv.penv.toInt ((uri.param "featureCount").getD "") } with
      | mk ok2 src2 =>
        intro hc
        have hext : src2.provider.mLayerExtent = QgsRectangle.null :=
          hc.2.trans (hk.2.2.2.1.trans he0)
        have hempty : src2.provider.mLayerExtent.isEmpty = true := by
          rw [hext]
          decide
        simp only [hempty, Bool.or_true, if_true]
        exact hc.1.trans (hk.1.trans hv)

/-- Witness for C25: the source URI with the layers L and M and one style is not valid,
with and without the parameter tileMatrixSet; the URI with the layer L and one style
is. -/
theorem mismatched_lists_invalid_witness :
    ((mismatchedUri.params "layers").length ≠ (mismatchedUri.params "styles").length ∧
      (mismatchedTiledUri.params "layers").length
        ≠ (mismatchedTiledUri.params "styles").length) ∧
    (construct sampleSourceEnv
      "url=http://s/wms&layers=L&layers=M&styles=&format=image/png&crs=CRS:84"
      mismatchedUri).isValid = false ∧
    (construct sampleSourceEnv
      "url=http://s/wms&layers=L&layers=M&styles=&format=image/png&crs=CRS:84&tileMatrixSet=g"
      mismatchedTiledUri).isValid = false ∧
    (construct sampleSourceEnv "url=http://s/wms&layers=L&styles=&format=image/png&crs=CRS:84"
      (QgsDataSourceURI.ofItems (sampleUriItems []))).isValid = true :=
  ⟨⟨by decide, by decide⟩,
    mismatched_lists_invalid sampleSourceEnv _ mismatchedUri (by decide),
    mismatched_lists_invalid sampleSourceEnv _ mismatchedTiledUri (by decide),
    by decide!⟩

/-! ## The tile sizes of the fallback -/

theorem drawPlan_fallback (st : Provider) (viewExtent : QgsRectangle) (pixelWidth : Int)
    (hnt : st.mTiled = false) :
    drawPlan st viewExtent pixelWidth
      = some
          { tres := viewExtent.width / pixelWidth,
            tm := fallbackTileMatrix st (viewExtent.width / pixelWidth),
            tileMode := QgsTileMode.WMSC,
            twMap := st.mMaxWidth * (viewExtent.width / pixelWidth),
            thMap := st.mMaxHeight * (viewExtent.width / pixelWidth),
            limits := tileLimits st.mTileLayer st.mTileMatrixSet
              (fallbackTileMatrix st (viewExtent.width / pixelWidth)),
            range := coveringRange viewExtent
              (fallbackTileMatrix st (viewExtent.width / pixelWidth))
              (st.mMaxWidth * (viewExtent.width / pixelWidth))
              (st.mMaxHeight * (viewExtent.width / pixelWidth))
              (tileLimits st.mTileLayer st.mTileMatrixSet
                (fallbackTileMatrix st (viewExtent.width / pixelWidth))) } := by
  unfold drawPlan
  simp only [hnt, Bool.false_eq_true, if_false, Option.map_some']
  rfl

/-- C29: for a provider that is not tiled, a draw with `pixelWidth > 0` and a view extent
of non-zero width plans the maxWidth/maxHeight fallback with the resolution
`vres = width / pixelWidth`, which is not zero, with tiles of maxWidth x maxHeight pixels
and the tile map sizes `twMap = maxWidth * vres` and `thMap = maxHeight * vres`: twMap is
non-zero exactly when maxWidth is, and thMap exactly when maxHeight is. parseUri stores as
maxWidth and maxHeight the integers the two parameters of the URI give, whatever their
value. -/
theorem fallback_tile_sizes (st : Provider) (viewExtent : QgsRectangle) (pixelWidth : Int)
    (hnt : st.mTiled = false) (hpw : 0 < pixelWidth) (hw : viewExtent.width ≠ 0) :
    (∃ p, drawPlan st viewExtent pixelWidth = some p ∧
      p.tres = viewExtent.width / pixelWidth ∧ p.tres ≠ 0 ∧
      p.tm.tileWidth = st.mMaxWidth ∧ p.tm.tileHeight = st.mMaxHeight ∧
      p.twMap = st.mMaxWidth * p.tres ∧ p.thMap = st.mMaxHeight * p.tres ∧
      (p.twMap ≠ 0 ↔ st.mMaxWidth ≠ 0) ∧ (p.thMap ≠ 0 ↔ st.mMaxHeight ≠ 0)) ∧
    (∀ (senv : SourceEnv) (src : WmsSource) (uri : QgsDataSourceURI),
      uri.hasParam "maxWidth" = true → uri.hasParam "maxHeight" = true →
      (parseUriMaxSize senv src uri).provider.mMaxWidth
          = senv.penv.toInt ((uri.param "maxWidth").getD "") ∧
        (parseUriMaxSize senv src uri).provider.mMaxHeight
          = senv.penv.toInt ((uri.param "maxHeight").getD "")) := by
  have hp : (pixelWidth : ℚ) ≠ 0 := by
    have : (0 : ℚ) < pixelWidth := by exact_mod_cast hpw
    exact ne_of_gt this
  have hv : viewExtent.width / (pixelWidth : ℚ) ≠ 0 := div_ne_zero hw hp
  refine ⟨⟨_, drawPlan_fallback st viewExtent pixelWidth hnt, rfl, hv, rfl, rfl, rfl, rfl,
    ?_, ?_⟩, ?_⟩
  · show (st.mMaxWidth : ℚ) * (viewExtent.width / pixelWidth) ≠ 0 ↔ st.mMaxWidth ≠ 0
    rw [mul_ne_zero_iff]
    constructor
    · intro h
      exact_mod_cast h.1
    · intro h
      exact ⟨by exact_mod_cast h, hv⟩
  · show (st.mMaxHeight : ℚ) * (viewExtent.width / pixelWidth) ≠ 0 ↔ st.mMaxHeight ≠ 0
    rw [mul_ne_zero_iff]
    constructor
    · intro h
      exact_mod_cast h.1
    · intro h
      exact ⟨by exact_mod_cast h, hv⟩
  · intro senv src uri h1 h2
    unfold parseUriMaxSize
    rw [if_pos (by rw [h1, h2]; rfl)]
    exact ⟨rfl, rfl⟩

/-- Witness for C29: the provider of the source URI with maxWidth=256 and maxHeight=0 is
valid and not tiled, its draw takes the fallback (the test of line 679 fails), and the plan
for the square view at 256 pixels has `thMap = 0`. The URI with maxWidth=-256 and
maxHeight=-256 gives a provider with these negative sizes. -/
theorem fallback_tile_sizes_witness :
    (zeroHeightProvider.mTiled = false ∧ (0 : Int) < 256 ∧ squareView.width ≠ 0) ∧
    ((construct sampleSourceEnv
        "url=http://s/wms&layers=L&styles=&format=image/png&crs=CRS:84&maxWidth=256&maxHeight=0"
        zeroHeightUri).isValid = true ∧
      zeroHeightProvider.mMaxWidth = 256 ∧ zeroHeightProvider.mMaxHeight = 0 ∧
      drawsUntiled zeroHeightProvider = false ∧
      (construct sampleSourceEnv
        "url=http://s/wms&layers=L&styles=&format=image/png&crs=CRS:84&maxWidth=-256&maxHeight=-256"
        negativeSizeUri).provider.mMaxWidth = -256) ∧
    ∃ p, drawPlan zeroHeightProvider squareView 256 = some p ∧ p.twMap ≠ 0 ∧ p.thMap = 0 := by
  have h := (fallback_tile_sizes zeroHeightProvider squareView 256 (by decide!) (by decide)
    (by decide!)).1
  obtain ⟨p, hp, _, _, _, _, _, hth, htw, hthz⟩ := h
  refine ⟨⟨by decide!, by decide, by decide!⟩,
    ⟨by decide!, by decide!, by decide!, by decide!, by decide!⟩,
    p, hp, htw.mpr (by decide!), ?_⟩
  by_contra hne
  exact absurd (hthz.mp hne) (by decide!)

/-! ## The cap of 100 tiles: the tile number in `int` arithmetic -/

/-- A value of `int` is not changed by the wrap-around. -/
theorem wrapInt_of_fits (n : Int) (hlo : -2 ^ 31 ≤ n) (hhi : n < 2 ^ 31) : wrapInt n = n := by
  unfold wrapInt
  omega

/-- The number `n` of draw is the number of tiles of a covering range that has at least one
and fewer than `2 ^ 31` tiles. -/
theorem tileCount_of_fits (r : TileRange) (hpos : 0 < (tileList r).length)
    (hfit : (tileList r).length < 2 ^ 31) :
    tileCount r = ((tileList r).length : Int) := by
  have hlen := length_tileList r
  have hrow : r.row0 ≤ r.row1 := by
    by_contra h
    have : (r.row1 + 1 - r.row0).toNat = 0 := Int.toNat_eq_zero.mpr (by omega)
    rw [hlen, this, Nat.zero_mul] at hpos
    exact absurd hpos (lt_irrefl 0)
  have hcol : r.col0 ≤ r.col1 := by
    by_contra h
    have : (r.col1 + 1 - r.col0).toNat = 0 := Int.toNat_eq_zero.mpr (by omega)
    rw [hlen, this, Nat.mul_zero] at hpos
    exact absurd hpos (lt_irrefl 0)
  have hprod := length_tileList_of_le r hrow hcol
  have hfit2 : ((tileList r).length : Int) < 2 ^ 31 := by exact_mod_cast hfit
  rw [hprod] at hfit2 ⊢
  have ha : 1 ≤ r.col1 - r.col0 + 1 := by omega
  have hb : 1 ≤ r.row1 - r.row0 + 1 := by omega
  have hab : r.col1 - r.col0 + 1 ≤ (r.row1 - r.row0 + 1) * (r.col1 - r.col0 + 1) :=
    le_mul_of_one_le_left (by omega) hb
  have hba : r.row1 - r.row0 + 1 ≤ (r.row1 - r.row0 + 1) * (r.col1 - r.col0 + 1) :=
    le_mul_of_one_le_right (by omega) ha
  unfold tileCount
  rw [wrapInt_of_fits (r.col1 - r.col0) (by omega) (by omega),
    wrapInt_of_fits (r.row1 - r.row0) (by omega) (by omega),
    wrapInt_of_fits (r.col1 - r.col0 + 1) (by omega) (by omega),
    wrapInt_of_fits (r.row1 - r.row0 + 1) (by omega) (by omega),
    mul_comm (r.col1 - r.col0 + 1) (r.row1 - r.row0 + 1)]
  exact wrapInt_of_fits _ (by omega) hfit2

/-- A tiled draw that is not given up dispatches one request per tile of the covering
range. -/
theorem draw_tiles_sent_length (env : Env) (st : Provider) (viewExtent : QgsRectangle)
    (pixelWidth pixelHeight : Int) (p : TilePlan) (turl : Int → Int → QString)
    (hcaps : retrieveServerCapabilities env st false = (true, st))
    (hnew : ¬ (st.mCachedImage.isSome = true ∧ st.mCachedViewExtent = viewExtent ∧
      st.mCachedViewWidth = pixelWidth ∧ st.mCachedViewHeight = pixelHeight))
    (htiled : st.mTiled = true ∨ st.mMaxWidth ≠ 0 ∨ st.mMaxHeight ≠ 0)
    (hplan : drawPlan st viewExtent pixelWidth = some p)
    (hcap : env.qgisDebug = false ∨ tileCount p.range ≤ 100)
    (hurl : tileUrl env
      { st with
        mCacheReply := none,
        mCachedImage := some (QImage.blank pixelWidth pixelHeight),
        mCachedViewExtent := viewExtent,
        mCachedViewWidth := pixelWidth,
        mCachedViewHeight := pixelHeight,
        mTileReqNo := st.mTileReqNo + 1 } p = some turl) :
    (draw env st viewExtent pixelWidth pixelHeight).2.sent.length
      = st.sent.length + (tileList p.range).length := by
  have h := congrArg List.length
    (draw_tiles_urls env st viewExtent pixelWidth pixelHeight p turl hcaps hnew htiled hplan
      hcap hurl)
  simpa only [List.length_map, List.length_append] using h

/-- C9 (amended): in a build with QGISDEBUG defined, a draw in a tiled mode whose covering
range contains more than 100 and fewer than `2 ^ 31` tiles is given up: no tile request is
dispatched and none is put in flight. (Without QGISDEBUG lines 872-880 are not compiled and
draw has no cap; the tile number of line 873 is an `int` product.) -/
theorem tile_cap_in_debug_build (env : Env) (st : Provider) (viewExtent : QgsRectangle)
    (pixelWidth pixelHeight : Int) (p : TilePlan)
    (hdebug : env.qgisDebug = true)
    (hcaps : retrieveServerCapabilities env st false = (true, st))
    (htiled : st.mTiled = true ∨ st.mMaxWidth ≠ 0 ∨ st.mMaxHeight ≠ 0)
    (hplan : drawPlan st viewExtent pixelWidth = some p)
    (hcount : 100 < (tileList p.range).length)
    (hfit : (tileList p.range).length < 2 ^ 31) :
    (draw env st viewExtent pixelWidth pixelHeight).2.sent = st.sent ∧
    (draw env st viewExtent pixelWidth pixelHeight).2.mTileReplies = st.mTileReplies := by
  have hn : 100 < tileCount p.range := by
    rw [tileCount_of_fits p.range (by omega) hfit]
    exact_mod_cast hcount
  unfold draw
  rw [hcaps]
  simp only []
  split_ifs with hcached hmode
  · exact ⟨rfl, rfl⟩
  · exfalso
    simp only [Bool.and_eq_true, Bool.not_eq_true', decide_eq_true_eq] at hmode
    rcases htiled with h | h | h
    · rw [h] at hmode
      exact absurd hmode.1.1 (by decide)
    · exact h hmode.1.2
    · exact h hmode.2
  · have h := drawTiles_capped env
      { st with
        mCacheReply := none,
        mCachedImage := some (QImage.blank pixelWidth pixelHeight),
        mCachedViewExtent := viewExtent,
        mCachedViewWidth := pixelWidth,
        mCachedViewHeight := pixelHeight } viewExtent pixelWidth p hdebug
      ((drawPlan_after_reset st viewExtent pixelWidth pixelHeight (st.mTileReqNo + 1)).trans
        hplan) hn
    exact ⟨h.1, h.2.1⟩

/-- Witness for C9 (amended): the QGISDEBUG build gives up the many tile view, which needs
121 tiles. -/
theorem tile_cap_in_debug_build_witness :
    (sampleDebugEnv.qgisDebug = true ∧
      retrieveServerCapabilities sampleDebugEnv tiledProvider false = (true, tiledProvider) ∧
      drawPlan tiledProvider manyTileView 2815 = some manyTilePlan ∧
      (tileList manyTilePlan.range).length = 121 ∧ tileCount manyTilePlan.range = 121) ∧
    (draw sampleDebugEnv tiledProvider manyTileView 2815 2815).2.sent = tiledProvider.sent ∧
    (draw sampleDebugEnv tiledProvider manyTileView 2815 2815).2.mTileReplies
      = tiledProvider.mTileReplies :=
  ⟨⟨rfl, rfl, by decide!, by decide!, by decide!⟩,
    tile_cap_in_debug_build sampleDebugEnv tiledProvider manyTileView 2815 2815 manyTilePlan
      rfl rfl (Or.inl rfl) (by decide!) (by decide!) (by decide!)⟩

/-- Counterexample for C9 as stated. In a build without QGISDEBUG the many tile view, whose
covering range contains 121 tiles, is not given up: draw dispatches 121 tile requests. In a
build with QGISDEBUG the view over the matrix of 65536 x 65536 tiles has a covering range
of `2 ^ 32` tiles; the `int` product of line 873 wraps to 0, the test `n > 100` fails and
draw dispatches a request for every tile. -/
theorem tile_cap_not_applied :
    (sampleEnv.qgisDebug = false ∧
      drawPlan tiledProvider manyTileView 2815 = some manyTilePlan ∧
      (tileList manyTilePlan.range).length = 121 ∧
      tiledProvider.sent = [] ∧
      (draw sampleEnv tiledProvider manyTileView 2815 2815).2.sent.length = 121 ∧
      (draw sampleEnv tiledProvider manyTileView 2815 2815).2.mTileReplies.length = 121) ∧
    (sampleDebugEnv.qgisDebug = true ∧
      drawPlan hugeProvider hugeView 600 = some hugePlan ∧
      (tileList hugePlan.range).length = 2 ^ 32 ∧
      tileCount hugePlan.range = 0 ∧
      hugeProvider.sent = [] ∧
      (draw sampleDebugEnv hugeProvider hugeView 600 600).2.sent.length = 2 ^ 32) := by
  have hlen : (tileList hugePlan.range).length = 2 ^ 32 := by
    rw [length_tileList]
    decide!
  refine ⟨⟨rfl, by decide!, by decide!, rfl, by decide!, by decide!⟩,
    ⟨rfl, by decide!, hlen, by decide!, rfl, ?_⟩⟩
  have h := draw_tiles_sent_length sampleDebugEnv hugeProvider hugeView 600 600 hugePlan
    (wmtsRestTileUrl
      { hugeProvider with
        mCacheReply := none,
        mCachedImage := some (QImage.blank 600 600),
        mCachedViewExtent := hugeView,
        mCachedViewWidth := 600,
        mCachedViewHeight := 600,
        mTileReqNo := hugeProvider.mTileReqNo + 1 } hugePlan)
    rfl (by decide) (Or.inl rfl) (by decide!) (Or.inr (by decide!)) rfl
  rw [h, hlen]
  rfl

end QgsWms
